import Mathlib

/-!
# Media plane of the SFU: packet view, stream base, RTX, senders and NACK

A shallow embedding of the Go packages `rtc/peer` and `rtc/nack`.
Go machine integers are natural numbers (or integers for signed types) with the
wrap-around written out; a method with a pointer receiver becomes a function
that returns the new receiver state next to its results.
-/

namespace Sfu

/-- Addition on `uint16`. -/
def add16 (a b : Nat) : Nat := (a + b) % 65536

/-- Subtraction on `uint16`. -/
def sub16 (a b : Nat) : Nat := (a + (65536 - b % 65536)) % 65536

/-- Addition on `uint32`. -/
def add32 (a b : Nat) : Nat := (a + b) % 4294967296

/-- Subtraction on `uint32`. -/
def sub32 (a b : Nat) : Nat := (a + (4294967296 - b % 4294967296)) % 4294967296

/-- Conversion of an integer to `int32` (two-complement wrap). -/
def toInt32 (x : Int) : Int := (x + 2147483648) % 4294967296 - 2147483648

/-- Conversion of an integer to `int64` (two-complement wrap). -/
def toInt64 (x : Int) : Int :=
  (x + 9223372036854775808) % 18446744073709551616 - 9223372036854775808

/-- Conversion of an integer to `uint64`. -/
def toUint64 (x : Int) : Int := x % 18446744073709551616

/-- Conversion of an integer to `uint32`. -/
def toUint32 (x : Int) : Nat := (x % 4294967296).toNat

namespace rtc

/-- Constant `rtc.SeqNumberMaxValue` (math.MaxUint16). -/
def SeqNumberMaxValue : Nat := 65535

/-- Constant `rtc.MediaTypeAudio`. -/
def MediaTypeAudio : String := "audio"

/-- Constant `rtc.MediaTypeVideo`. -/
def MediaTypeVideo : String := "video"

/-- Constant `rtc.MaxRTCPAudioInterval`. -/
def MaxRTCPAudioInterval : Int := 5000

/-- Constant `rtc.MaxRTCPVideoInterval`. -/
def MaxRTCPVideoInterval : Int := 1000

/-- Lower bound of generated SSRCs. -/
def ssrcLowerBound : Nat := 800000000

/-- Upper bound of generated SSRCs. -/
def ssrcUpperBound : Nat := 900000000

/-- Function `rtc.GenerateSSRC`; `r` is the draw of `rand.Int31n(ssrcUpperBound - ssrcLowerBound)`,
which lies in `[0, ssrcUpperBound - ssrcLowerBound)`. -/
def GenerateSSRC (r : Nat) : Nat := add32 ssrcLowerBound (r % (ssrcUpperBound - ssrcLowerBound))

end rtc

namespace peer

/-- Error values of the peer package that the modelled functions return. -/
inductive PeerError where
  | ErrInvalidPacket
  | ErrInvalidRtxPacket
  | ErrNoNack
  | ErrBadSeq
  | ErrInvalidRtx
  | ErrPayloadNotMatch
  | ErrHeaderIDNotMatch
  | ErrRTXPayloadNotMatch
  deriving DecidableEq, Repr

/-- One RTP header extension (`rtp.Extension`): an 8-bit ID and its payload bytes. -/
structure Extension where
  ID : Nat
  Payload : List Nat
  deriving DecidableEq, Repr

/-- Struct `rtpPacket`: the fields of the wrapped `rtp.Packet` that the peer package reads or
writes, the receive time `ms`, the `rtx` flag and the payload descriptor (`none` for a nil
descriptor, otherwise what its `IsKeyFrame()` answers). -/
structure rtpPacket where
  PayloadType : Nat
  SequenceNumber : Nat
  Timestamp : Nat
  SSRC : Nat
  Marker : Bool
  Extensions : List Extension
  Payload : List Nat
  ms : Int
  rtx : Bool
  payloadDescriptor : Option Bool
  deriving DecidableEq, Repr

namespace rtpPacket

/-- Method `IsKeyFrame`. -/
def IsKeyFrame (p : rtpPacket) : Bool :=
  match p.payloadDescriptor with
  | none => false
  | some k => k

/-- Method `SetPayloadType`: the value is stored as a `uint8`. -/
def SetPayloadType (p : rtpPacket) (payloadType : Nat) : rtpPacket :=
  { p with PayloadType := payloadType % 256 }

/-- Method `SetSsrc`. -/
def SetSsrc (p : rtpPacket) (i : Nat) : rtpPacket := { p with SSRC := i }

/-- Method `SetSequenceNumber`. -/
def SetSequenceNumber (p : rtpPacket) (seq : Nat) : rtpPacket := { p with SequenceNumber := seq }

/-- Method `SetTimestamp`. -/
def SetTimestamp (p : rtpPacket) (timestamp : Nat) : rtpPacket := { p with Timestamp := timestamp }

/-- Method `UpdateHeader`. -/
def UpdateHeader (p : rtpPacket) (extensions : List Extension) : rtpPacket :=
  { p with Extensions := extensions }

/-- Method `SetRTX`: the argument is ignored and the flag is always raised. -/
def SetRTX (p : rtpPacket) (_b : Bool) : rtpPacket := { p with rtx := true }

/-- Big-endian `uint16` read from the first two bytes (`binary.BigEndian.Uint16`); the caller
guarantees that two bytes are present. -/
def bigEndianUint16 (b : List Nat) : Nat := (b.getD 0 0 % 256) * 256 + b.getD 1 0 % 256

/-- Big-endian `uint16` write into a fresh two-byte slice (`binary.BigEndian.PutUint16`). -/
def putUint16 (v : Nat) : List Nat := [(v / 256) % 256, v % 256]

/-- Method `RtxDecode`: the packet after the call and the returned error. -/
def RtxDecode (p : rtpPacket) (payloadType ssrc : Nat) : rtpPacket × Option PeerError :=
  if p.Payload.length < 2 then (p, some PeerError.ErrInvalidRtx)
  else
    ({ p with
        PayloadType := payloadType % 256
        SequenceNumber := bigEndianUint16 p.Payload
        SSRC := ssrc
        Payload := p.Payload.drop 2
        rtx := true }, none)

end rtpPacket

/-- Constant `RTPSeqMod`. -/
def RTPSeqMod : Nat := 65536

/-- Constant `MaxDropout`. -/
def MaxDropout : Nat := 3000

/-- Constant `MaxMisorder`. -/
def MaxMisorder : Nat := 1500

/-- Struct `RtcpFeedback`; the field `Type` is spelled `Type_` (reserved word). -/
structure RtcpFeedback where
  Type_ : String
  Parameter : String
  deriving DecidableEq, Repr

/-- Struct `Codec` of the peer package; the `Parameters` map is an association list. -/
structure Codec where
  PayloadType : Nat
  EncoderName : String
  ClockRate : Int
  Channels : Int
  Parameters : List (String × String)
  FeedbackParams : List RtcpFeedback
  RTX : Nat
  deriving DecidableEq, Repr

/-- Struct `StreamOption` (the floating-point `MaxFramerate` is left out: nothing modelled reads
it). -/
structure StreamOption where
  SSRC : Nat
  Cname : String
  RID : String
  RTX : Nat
  Dtx : Bool
  PayloadType : Nat
  ScalabilityMode : String
  MaxBitrate : Int
  deriving DecidableEq, Repr

/-- Struct `RtxStreamParams` (the codec pointer, never read, is left out). -/
structure RtxStreamParams where
  EncodingIdx : Int
  Ssrc : Nat
  PayloadType : Nat
  ClockRate : Int
  Rrid : String
  Cname : String
  deriving DecidableEq, Repr

/-- Struct `RtxStream`. -/
structure RtxStream where
  params : RtxStreamParams
  started : Bool
  maxSeq : Nat
  maxPacketTS : Nat
  maxPacketMs : Int
  packetCount : Int
  baseSeq : Nat
  badSeq : Nat
  cycles : Nat
  packetDiscarded : Int
  packetLost : Int
  expectedPrior : Int
  receiverPrior : Int
  fractionLost : Int
  reportedPacketLost : Int
  lastSrReceived : Int
  lastSrTimestamp : Nat
  deriving DecidableEq, Repr

/-- Function `NewRtxStream`: every field but `params` has its zero value. -/
def NewRtxStream (params : RtxStreamParams) : RtxStream :=
  { params := params, started := false, maxSeq := 0, maxPacketTS := 0, maxPacketMs := 0,
    packetCount := 0, baseSeq := 0, badSeq := 0, cycles := 0, packetDiscarded := 0,
    packetLost := 0, expectedPrior := 0, receiverPrior := 0, fractionLost := 0,
    reportedPacketLost := 0, lastSrReceived := 0, lastSrTimestamp := 0 }

namespace RtxStream

/-- Method `InitSeq`. -/
def InitSeq (r : RtxStream) (seq : Nat) : RtxStream :=
  { r with baseSeq := seq, maxSeq := seq, badSeq := add32 RTPSeqMod 1 }

/-- Method `UpdateSeq`; `nowMs` is the reading of `time.Now().UnixMilli()`. -/
def UpdateSeq (r : RtxStream) (packet : rtpPacket) (nowMs : Int) : RtxStream × Bool :=
  let udelta := sub16 packet.SequenceNumber r.maxSeq
  if udelta < MaxDropout then
    let r1 := if packet.SequenceNumber < r.maxSeq then
      { r with cycles := add32 r.cycles RTPSeqMod } else r
    ({ r1 with maxSeq := packet.SequenceNumber }, true)
  else if udelta ≤ sub32 RTPSeqMod MaxMisorder % 65536 then
    if packet.SequenceNumber % 4294967296 = r.badSeq then
      ({ (r.InitSeq packet.SequenceNumber) with
          maxPacketTS := packet.Timestamp, maxPacketMs := nowMs }, true)
    else
      ({ r with
          badSeq := (add16 packet.SequenceNumber 1) % RTPSeqMod
          packetDiscarded := r.packetDiscarded + 1 }, false)
  else (r, true)

/-- Method `ReceivePacket`. -/
def ReceivePacket (r : RtxStream) (packet : rtpPacket) (nowMs : Int) :
    RtxStream × Option PeerError :=
  let r1 := if !r.started then
      { (r.InitSeq packet.SequenceNumber) with
          started := true
          maxSeq := packet.SequenceNumber
          maxPacketTS := packet.Timestamp
          maxPacketMs := packet.ms }
    else r
  match r1.UpdateSeq packet nowMs with
  | (r2, false) => (r2, some PeerError.ErrInvalidPacket)
  | (r2, true) =>
    let r3 := if packet.Timestamp > r2.maxPacketTS then
        { r2 with maxPacketTS := packet.Timestamp, maxPacketMs := packet.ms }
      else r2
    ({ r3 with packetCount := r3.packetCount + 1 }, none)

/-- Method `GetExpectedPackets`: `int(cycles + uint32(maxSeq - baseSeq) + 1)`, the inner
difference taken on `uint16`. -/
def GetExpectedPackets (r : RtxStream) : Int :=
  (add32 (add32 r.cycles (sub16 r.maxSeq r.baseSeq)) 1 : Nat)

end RtxStream

/-- Struct `StreamStats`, packet counters only: the byte counters and the two rate estimators
are fed from `packet.Size()` of the RTP library and are read by no modelled operation. -/
structure StreamStats where
  packetsSent : Int
  packetsReceived : Int
  ssrc : Nat
  deriving DecidableEq, Repr

namespace StreamStats

/-- Method `incomingRTP`. -/
def incomingRTP (s : StreamStats) (_packet : rtpPacket) : StreamStats :=
  { s with packetsReceived := s.packetsReceived + 1 }

/-- Method `outcomingRTP`. -/
def outcomingRTP (s : StreamStats) (_packet : rtpPacket) : StreamStats :=
  { s with packetsSent := s.packetsSent + 1 }

/-- Method `PacketsReceived`. -/
def PacketsReceived (s : StreamStats) : Int := s.packetsReceived

/-- Method `PacketsSent`. -/
def PacketsSent (s : StreamStats) : Int := s.packetsSent

end StreamStats

/-- Function `newStreamStats`. -/
def newStreamStats (ssrc : Nat) : StreamStats :=
  { packetsSent := 0, packetsReceived := 0, ssrc := ssrc }

/-- Struct `internalStream`. -/
structure internalStream where
  mediaType : String
  ssrc : Nat
  rtxSSRC : Nat
  rid : String
  cname : String
  codec : Codec
  payloadType : Nat
  rtxPayloadType : Nat
  rtxStream : Option RtxStream
  stats : StreamStats
  usePli : Bool
  useFir : Bool
  useInBandFec : Bool
  useNack : Bool
  useDtx : Bool
  baseSeq : Nat
  maxSeq : Nat
  cycles : Nat
  started : Bool
  maxPacketRTPTimestamp : Nat
  maxPacketMs : Int
  packetDiscarded : Int
  fractionLost : Nat
  badSeq : Nat
  deriving DecidableEq, Repr

/-- Lookup in a Go `map[string]string` held as an association list. -/
def mapGet (m : List (String × String)) (k : String) : Option String :=
  (m.find? (fun kv => kv.1 == k)).map (fun kv => kv.2)

/-- Function `newStream`. -/
def newStream (mediaType : String) (s : StreamOption) (codec : Codec) : internalStream :=
  { mediaType := mediaType
    ssrc := s.SSRC
    rtxSSRC := s.RTX
    rid := s.RID
    cname := s.Cname
    codec := codec
    payloadType := codec.PayloadType
    rtxPayloadType := codec.RTX
    rtxStream := none
    stats := { packetsSent := 0, packetsReceived := 0, ssrc := 0 }
    usePli := codec.FeedbackParams.any (fun fb => fb.Type_ == "nack" && fb.Parameter == "pli")
    useFir := codec.FeedbackParams.any (fun fb => fb.Type_ == "ccm" && fb.Parameter == "fir")
    useInBandFec := mapGet codec.Parameters "useinbandfec" == some "1"
    useNack := codec.FeedbackParams.any (fun fb => fb.Type_ == "nack" && fb.Parameter.length == 0)
    useDtx := mapGet codec.Parameters "usedtx" == some "1" && s.Dtx
    baseSeq := 0
    maxSeq := 0
    cycles := 0
    started := false
    maxPacketRTPTimestamp := 0
    maxPacketMs := 0
    packetDiscarded := 0
    fractionLost := 0
    badSeq := 0 }

namespace internalStream

/-- Method `SetRtx`. -/
def SetRtx (s : internalStream) (payloadType ssrc : Nat) : internalStream :=
  { s with
    rtxSSRC := ssrc
    rtxPayloadType := payloadType
    rtxStream := some (NewRtxStream
      { EncodingIdx := 0, Ssrc := ssrc, PayloadType := payloadType,
        ClockRate := s.codec.ClockRate, Rrid := s.rid, Cname := s.cname }) }

/-- Method `initSeq`. -/
def initSeq (s : internalStream) (seq : Nat) : internalStream :=
  { s with baseSeq := seq, maxSeq := seq }

/-- Method `updateSeq`. -/
def updateSeq (s : internalStream) (packet : rtpPacket) : internalStream × Option PeerError :=
  let seq := packet.SequenceNumber
  let udelta := sub16 seq s.maxSeq
  if udelta < MaxDropout then
    let s1 := if seq < s.maxSeq then { s with cycles := add32 s.cycles RTPSeqMod } else s
    ({ s1 with maxSeq := seq }, none)
  else if udelta < sub32 RTPSeqMod MaxMisorder % 65536 then
    ({ s with packetDiscarded := s.packetDiscarded + 1, badSeq := add16 seq 1 },
      some PeerError.ErrBadSeq)
  else (s, none)

/-- Method `receivePacket`. -/
def receivePacket (s : internalStream) (packet : rtpPacket) : internalStream × Option PeerError :=
  let s1 := if !s.started then
      { (s.initSeq packet.SequenceNumber) with
          started := true
          maxPacketRTPTimestamp := packet.Timestamp
          maxPacketMs := packet.ms }
    else s
  match s1.updateSeq packet with
  | (s2, some err) => (s2, some err)
  | (s2, none) =>
    if packet.Timestamp > s2.maxPacketRTPTimestamp then
      ({ s2 with maxPacketRTPTimestamp := packet.Timestamp, maxPacketMs := packet.ms }, none)
    else (s2, none)

/-- Method `getExpectedPackets`: `int64(cycles + uint32(maxSeq) - uint32(baseSeq) + 1)`, computed
on `uint32`. -/
def getExpectedPackets (s : internalStream) : Int :=
  (add32 (sub32 (add32 s.cycles s.maxSeq) s.baseSeq) 1 : Nat)

/-- Feeding a list of packets through `receivePacket`, one call per packet: the final stream and
the error of each call in order. -/
def receivePackets (s : internalStream) : List rtpPacket → internalStream × List (Option PeerError)
  | [] => (s, [])
  | p :: ps =>
    let r := s.receivePacket p
    let rest := receivePackets r.1 ps
    (rest.1, r.2 :: rest.2)

end internalStream


/-- Sequence numbers of a run of `k` consecutive packets that starts at `a` (taken modulo
`2^16`). -/
def seqRun : Nat → Nat → List Nat
  | _, 0 => []
  | a, k + 1 => (a % 65536) :: seqRun (a + 1) k

/-- Number of `65535 -> 0` steps between neighbours of a list of sequence numbers. -/
def wrapCount : List Nat → Nat
  | a :: b :: t => (if a = 65535 ∧ b = 0 then 1 else 0) + wrapCount (b :: t)
  | _ => 0

/-- A bare media packet that carries sequence number `seq`. -/
def seqPacket (seq : Nat) : rtpPacket :=
  { PayloadType := 0, SequenceNumber := seq, Timestamp := 0, SSRC := 0, Marker := false,
    Extensions := [], Payload := [], ms := 0, rtx := false, payloadDescriptor := none }

/-- A codec with every field at its zero value (`Codec{}`). -/
def emptyCodec : Codec :=
  { PayloadType := 0, EncoderName := "", ClockRate := 0, Channels := 0, Parameters := [],
    FeedbackParams := [], RTX := 0 }

/-- A stream option with every field at its zero value (`StreamOption{}`). -/
def emptyStreamOption : StreamOption :=
  { SSRC := 0, Cname := "", RID := "", RTX := 0, Dtx := false, PayloadType := 0,
    ScalabilityMode := "", MaxBitrate := 0 }

/-- The stream of the repository test "Test drop seq" after its first two packets `3000` and
`3001`. -/
def dropSeqStream : internalStream :=
  ((newStream "video" emptyStreamOption emptyCodec).receivePackets
    ([3000, 3001].map seqPacket)).1

/-- An RTX stream that has received the single packet `3000`. -/
def dropSeqRtxStream : RtxStream :=
  ((NewRtxStream
      { EncodingIdx := 0, Ssrc := 1234, PayloadType := 100, ClockRate := 90000, Rrid := "",
        Cname := "" }).ReceivePacket (seqPacket 3000) 0).1

/-- An RTX packet (payload type `97`, SSRC `1001`, RTX sequence number `7`) whose payload starts
with `0x04 0xD2`, the big-endian form of `1234`. -/
def rtxSamplePacket : rtpPacket :=
  { PayloadType := 97, SequenceNumber := 7, Timestamp := 0, SSRC := 1001, Marker := false,
    Extensions := [], Payload := [4, 210, 9], ms := 0, rtx := false, payloadDescriptor := none }

end peer

namespace nack

open peer (rtpPacket)

/-- Constant `maxPacketAge`. -/
def maxPacketAge : Nat := 10000

/-- Constant `maxNackPackets`. -/
def maxNackPackets : Nat := 1000

/-- Constant `maxNackRetries`. -/
def maxNackRetries : Int := 10

/-- Constant `defaultRtt`. -/
def defaultRtt : Int := 100

/-- Struct `Buffer`: the map `buf` is an association list keyed by sequence number, the ring
holds the sequence numbers in arrival order (`-1` for a free slot). `Put` indexes the ring at
`pos` without a check, which is in range for every buffer made by `NewBuffer` with a positive
size. -/
structure Buffer where
  buf : List (Int × rtpPacket)
  ring : List Int
  pos : Nat
  deriving DecidableEq, Repr

/-- Function `NewBuffer`. -/
def NewBuffer (size : Nat) : Buffer :=
  { buf := [], ring := List.replicate size (-1), pos := 0 }

namespace Buffer

/-- Method `Put`. -/
def Put (b : Buffer) (pkt : rtpPacket) : Buffer :=
  let seq : Int := (pkt.SequenceNumber : Int)
  let old := b.ring.getD b.pos (-1)
  let buf1 := if old ≥ 0 then b.buf.filter (fun kv => kv.1 != old) else b.buf
  let buf2 := (seq, pkt) :: buf1.filter (fun kv => kv.1 != seq)
  let pos1 := b.pos + 1
  { buf := buf2, ring := b.ring.set b.pos seq, pos := if pos1 = b.ring.length then 0 else pos1 }

/-- Method `Get`. -/
def Get (b : Buffer) (seq : Nat) : Option rtpPacket :=
  (b.buf.find? (fun kv => kv.1 == (seq : Int))).map (fun kv => kv.2)

end Buffer

/-- Struct `sender` of the nack package; the callback `sendRTP` is supplied by the caller of the
methods that use it. -/
structure sender where
  buffer : Buffer
  deriving DecidableEq, Repr

/-- Method `sender.ReceivePacket`. -/
def sender.ReceivePacket (r : sender) (packet : rtpPacket) : sender :=
  { r with buffer := r.buffer.Put packet }

/-- Struct `packetInfo`. -/
structure packetInfo where
  seq : Nat
  sentAtMs : Int
  sentAtSeq : Nat
  retries : Int
  keyframe : Bool
  rtx : Bool
  deriving DecidableEq, Repr

/-- RTCP packets that the NACK receiver hands to its `sendRtcp` callback. A
`TransportLayerNack` is built from the batch of sequence numbers (its `Nacks` field is
`rtcp.NackPairsFromSequenceNumbers(batch)`); the batch itself is recorded. -/
inductive RtcpOut where
  | TransportLayerNack (mediaSSRC : Nat) (batch : List Nat)
  | PictureLossIndication (mediaSSRC : Nat)
  deriving DecidableEq, Repr

/-- Struct `receiver` of the nack package (the channels, the wait group and the callback are the
plumbing of the goroutine and are left to the caller). -/
structure receiver where
  lastSeq : Nat
  nackList : List packetInfo
  keyframes : List Nat
  recoverList : List Nat
  mediaSSRC : Nat
  rtt : Int
  deriving DecidableEq, Repr

/-- Function `IsSeqLowerThan`. -/
def IsSeqLowerThan (seq seq2 : Nat) : Bool :=
  (decide (seq2 > seq) && decide (sub16 seq2 seq ≤ rtc.SeqNumberMaxValue / 2)) ||
  (decide (seq > seq2) && decide (sub16 seq seq2 > rtc.SeqNumberMaxValue / 2))

namespace receiver

/-- The loop of `receive` that deletes the entry of a late packet from the NACK list while
ranging over it. The range walks the `n` slots of the slice as it was at loop entry (`k` of them
are left, `i` is the next), reading the shared backing array `arr`, whose length stays `n`;
`cur` is the current length of `r.nackList`. A deletion at index `i` shifts the array left in
place and needs `i + 1 <= cur`, otherwise the slice expression fails (`none`). -/
def removeLoop (seq : Nat) : Nat → Nat → List packetInfo → Nat → Option (List packetInfo)
  | 0, _, arr, cur => some (arr.take cur)
  | k + 1, i, arr, cur =>
    match arr.get? i with
    | none => none
    | some v =>
      if v.seq = seq then
        if i + 1 ≤ cur then
          removeLoop seq k (i + 1)
            (arr.take i ++ (arr.drop (i + 1)).take (cur - 1 - i) ++ arr.drop (cur - 1)) (cur - 1)
        else none
      else removeLoop seq k (i + 1) arr cur

/-- The loop of `receive` that drops old key frames: the list from the first entry `v` with
`v >= seq - maxPacketAge` (on `uint16`) on, or the whole list when there is none. -/
def pruneKeyframes (seq : Nat) (l : List Nat) : List Nat :=
  match l.findIdx? (fun v => decide (v ≥ sub16 seq maxPacketAge)) with
  | some i => l.drop i
  | none => l

/-- The loop of `receive` over the recover list, which reslices `r.recoverList` at every entry
that is young enough and does not stop: `vs` are the entries still to visit, `i` the index of
the first of them and `cur` the current `r.recoverList`. Reslicing at an index beyond the
current length fails (`none`). -/
def pruneRecover (seq : Nat) : List Nat → Nat → List Nat → Option (List Nat)
  | [], _, cur => some cur
  | v :: vs, i, cur =>
    if v ≥ sub16 seq maxPacketAge then
      if i ≤ cur.length then pruneRecover seq vs (i + 1) (cur.drop i) else none
    else pruneRecover seq vs (i + 1) cur

/-- The inner loop of `removeNackItemsUntilKeyFrame`: the value of `index` after
`for index = range r.nackList` with a break at the first entry whose `seq >= v`. -/
def keyFrameIndex (v : Nat) (l : List packetInfo) : Nat :=
  match l.findIdx? (fun e => decide (e.seq ≥ v)) with
  | some i => i
  | none => l.length - 1

/-- The outer loop of `removeNackItemsUntilKeyFrame` over the key frames from index `i` on. -/
def removeUntilFrom (r : receiver) : Nat → List Nat → receiver × Bool
  | _, [] => (r, false)
  | i, v :: vs =>
    let index := keyFrameIndex v r.nackList
    if index > 0 then
      ({ r with
          keyframes := if i ≠ 0 then r.keyframes.drop i else r.keyframes
          nackList := r.nackList.drop index }, true)
    else removeUntilFrom r (i + 1) vs

/-- Method `removeNackItemsUntilKeyFrame`. -/
def removeNackItemsUntilKeyFrame (r : receiver) : receiver × Bool :=
  removeUntilFrom r 0 r.keyframes

/-- The `for` loop of `addPacketsToNackList` that removes entries until the new gap fits. Every
round that goes on has shortened the list, so `fuel = len(nackList) + 1` rounds suffice. -/
def shrinkLoop (newSeq : Nat) : Nat → receiver → receiver
  | 0, r => r
  | fuel + 1, r =>
    let res := r.removeNackItemsUntilKeyFrame
    if !res.2 || decide (res.1.nackList.length + newSeq ≤ maxNackPackets) then res.1
    else shrinkLoop newSeq fuel res.1

/-- The first loop of `addPacketsToNackList`: the index of the first entry that is not older
than `maxPacketAge`, or `0` when every entry is older. -/
def firstYoungIndex (seq : Nat) (l : List packetInfo) : Nat :=
  match l.findIdx? (fun v => !decide (sub16 seq v.seq > maxPacketAge)) with
  | some i => i
  | none => 0

/-- Method `addPacketsToNackList`. -/
def addPacketsToNackList (r : receiver) (expected : Nat) (pkt : packetInfo) :
    receiver × List RtcpOut :=
  let r1 : receiver :=
    { r with nackList := r.nackList.drop (firstYoungIndex pkt.seq r.nackList) }
  let newSeq := sub16 pkt.seq expected
  let r2 := if r1.nackList.length + newSeq > maxNackPackets then
      shrinkLoop newSeq (r1.nackList.length + 1) r1 else r1
  if r1.nackList.length + newSeq > maxNackPackets ∧
      r2.nackList.length + newSeq > maxNackPackets then
    ({ r2 with nackList := [] }, [RtcpOut.PictureLossIndication r2.mediaSSRC])
  else
    let missing := (List.range newSeq).map (fun k => add16 expected k)
    let added := (missing.filter (fun i => !r2.recoverList.contains i)).map
      (fun i => ({ seq := i, sentAtMs := 0, sentAtSeq := i, retries := 0, keyframe := false,
                   rtx := false } : packetInfo))
    ({ r2 with nackList := r2.nackList ++ added }, [])

/-- The test of `getNackBatch` that selects an entry. -/
def selected (r : receiver) (onTimer : Bool) (nowMs : Int) (e : packetInfo) : Bool :=
  (onTimer && decide (nowMs - e.sentAtMs ≥ r.rtt)) ||
  (decide (e.sentAtMs = 0) &&
    (decide (e.sentAtSeq = r.lastSeq) || IsSeqLowerThan e.sentAtSeq r.lastSeq))

/-- Method `getNackBatch`; `nowMs` is the reading of `time.Now().UnixMilli()`. Only selected
entries are copied to the new list. -/
def getNackBatch (r : receiver) (onTimer : Bool) (nowMs : Int) : receiver × List Nat :=
  let chosen := r.nackList.filter (r.selected onTimer nowMs)
  let bumped := chosen.map (fun e =>
    { e with retries := e.retries + 1, sentAtMs := nowMs, sentAtSeq := r.lastSeq })
  ({ r with nackList := bumped.filter (fun e => decide (e.retries < maxNackRetries)) },
    chosen.map (fun e => e.seq))

/-- Method `receive`: the receiver after the packet event and the RTCP packets handed to
`sendRtcp`, or `none` when a slice expression fails. -/
def receive (r : receiver) (p : packetInfo) (nowMs : Int) : Option (receiver × List RtcpOut) :=
  if p.seq = r.lastSeq then some (r, [])
  else if IsSeqLowerThan p.seq r.lastSeq then
    (removeLoop p.seq r.nackList.length 0 r.nackList r.nackList.length).map
      (fun l => ({ r with nackList := l }, []))
  else
    let kf := if p.keyframe then r.keyframes ++ [p.seq] else r.keyframes
    let r1 : receiver := { r with keyframes := pruneKeyframes p.seq kf }
    if p.rtx then
      (pruneRecover p.seq (r1.recoverList ++ [p.seq]) 0 (r1.recoverList ++ [p.seq])).map
        (fun l => ({ r1 with recoverList := l }, []))
    else
      let a := r1.addPacketsToNackList (add16 r1.lastSeq 1) p
      let r2 : receiver := { a.1 with lastSeq := p.seq }
      let b := r2.getNackBatch false nowMs
      some (b.1, a.2 ++
        (if b.2.length ≠ 0 then [RtcpOut.TransportLayerNack b.1.mediaSSRC b.2] else []))

/-- The first packet taken by `loop`: it only sets `lastSeq` and records a key frame. -/
def first (r : receiver) (p : packetInfo) : receiver :=
  { r with
    lastSeq := p.seq
    keyframes := if p.keyframe then r.keyframes ++ [p.seq] else r.keyframes }

/-- The ticker branch of `loop`. -/
def tick (r : receiver) (nowMs : Int) : receiver × List RtcpOut :=
  let b := r.getNackBatch true nowMs
  (b.1, if b.2.length ≠ 0 then [RtcpOut.TransportLayerNack b.1.mediaSSRC b.2] else [])

end receiver

/-- Function `NewReceiver`: the state of the receiver before its first packet. -/
def NewReceiver : receiver :=
  { lastSeq := 0, nackList := [], keyframes := [], recoverList := [], mediaSSRC := 0,
    rtt := defaultRtt }

end nack

namespace codec

open peer (rtpPacket)

/-- Struct `codec.Codec`; `Process` maps the payload bytes to a payload descriptor (`none` for a
nil descriptor, otherwise what its `IsKeyFrame()` answers) and is itself optional. -/
structure Codec where
  MediaType : String
  EncoderName : String
  SupportKeyFrame : Bool
  SupportSimulcast : Bool
  SupportSVC : Bool
  Process : Option (List Nat → Option Bool)

/-- The registry `allCodecs`, a map keyed by encoder name, as an association list. It is filled
by the `init` functions of the codec packages and is passed to the functions that read it. -/
abbrev Registry := List Codec

/-- Lookup `allCodecs[encoderName]`. -/
def find (reg : Registry) (encoderName : String) : Option Codec :=
  List.find? (fun c => c.EncoderName == encoderName) reg

/-- Function `Register`. -/
def Register (reg : Registry) (c : Codec) : Registry :=
  c :: reg.filter (fun d => d.EncoderName != c.EncoderName)

/-- Function `ProcessRTPPacket`: the packet after the call. -/
def ProcessRTPPacket (reg : Registry) (packet : rtpPacket) (encoderName : String) : rtpPacket :=
  match find reg encoderName with
  | none => packet
  | some c =>
    match c.Process with
    | none => packet
    | some f =>
      match f packet.Payload with
      | none => packet
      | some k => { packet with payloadDescriptor := some k }

/-- Function `CanBeKeyFrame`. -/
def CanBeKeyFrame (reg : Registry) (encoderName : String) : Bool :=
  match find reg encoderName with
  | some c => c.SupportKeyFrame
  | none => false

end codec

namespace peer

/-- Struct `receiverStream`, embedding `internalStream` (the listener, the NACK receiver, which
exists exactly when `useNack` holds, and the inactivity ticker live outside the record). -/
structure receiverStream extends internalStream where
  pliCount : Int
  firCount : Int
  firSeqNumber : Int
  nackCount : Int
  nackPacketCount : Int
  mediaTransmissionCounter : StreamStats
  lastSenderReportTS : Int
  lastSenderReportNtpMs : Nat
  lastSrReceived : Int
  inactive : Bool
  packetsLost : Int
  expectedPrior : Int
  receivedPrior : Int
  reportPacketLost : Int
  jitter : Int
  lastReceiveTimeMs : Int
  lastReceiveTimestamp : Nat
  videoFrameCount : Int
  deriving DecidableEq, Repr

/-- Function `NewReceiverStream`. -/
def NewReceiverStream (mediaType : String) (stream : StreamOption) (codec : Codec) :
    receiverStream :=
  { newStream mediaType stream codec with
    pliCount := 0, firCount := 0, firSeqNumber := 0, nackCount := 0, nackPacketCount := 0
    mediaTransmissionCounter := newStreamStats stream.SSRC
    lastSenderReportTS := 0, lastSenderReportNtpMs := 0, lastSrReceived := 0
    inactive := false, packetsLost := 0, expectedPrior := 0, receivedPrior := 0
    reportPacketLost := 0, jitter := 0, lastReceiveTimeMs := 0, lastReceiveTimestamp := 0
    videoFrameCount := 0 }

namespace receiverStream

/-- Method `calculateJitter`; `currentTime` is the reading of `time.Now().UnixMilli()`. -/
def calculateJitter (r : receiverStream) (timestamp : Nat) (currentTime : Int) : receiverStream :=
  if r.codec.ClockRate = 0 then r
  else if r.lastReceiveTimeMs = 0 then
    { r with lastReceiveTimestamp := timestamp, lastReceiveTimeMs := currentTime }
  else
    let diffMs := currentTime - r.lastReceiveTimeMs
    let receiveDiffRTP : Int :=
      ((diffMs % 4294967296) * (r.codec.ClockRate % 4294967296) % 4294967296) / 1000
    let senderDiffRTP := toInt32 (toInt32 timestamp - toInt32 r.lastReceiveTimestamp)
    let diffSamples := toInt32 (toInt32 receiveDiffRTP - senderDiffRTP)
    let diffAbs := if diffSamples < 0 then toInt32 (-diffSamples) else diffSamples
    let jitter1 := if diffAbs < 450000 then
        toInt32 (r.jitter + Int.tdiv (toInt32 (diffAbs - r.jitter)) 16) else r.jitter
    { r with
      jitter := jitter1
      lastReceiveTimeMs := currentTime
      lastReceiveTimestamp := timestamp }

/-- Method `receivePacket`: the stream and the packet after the call, the returned error, and
the packet events sent to the NACK receiver over its channel (`seq`, key frame, RTX). -/
def receivePacket (reg : codec.Registry) (r : receiverStream) (packet : rtpPacket)
    (currentTime : Int) :
    receiverStream × rtpPacket × Option PeerError × List nack.packetInfo :=
  match r.tointernalStream.receivePacket packet with
  | (s1, some err) => ({ r with tointernalStream := s1 }, packet, some err, [])
  | (s1, none) =>
    let r1 : receiverStream := { r with tointernalStream := s1 }
    let packet1 := if packet.PayloadType = r1.payloadType then
        codec.ProcessRTPPacket reg packet r1.codec.EncoderName else packet
    let r2 : receiverStream :=
      if r1.mediaType = rtc.MediaTypeVideo ∧ packet1.Marker = true then
        { r1 with videoFrameCount := r1.videoFrameCount + 1 } else r1
    let msgs : List nack.packetInfo := if r2.useNack then
        [{ seq := packet1.SequenceNumber, sentAtMs := 0, sentAtSeq := 0, retries := 0,
           keyframe := packet1.IsKeyFrame, rtx := packet1.rtx }] else []
    let r3 := r2.calculateJitter packet1.Timestamp currentTime
    let r4 : receiverStream :=
      { r3 with
        stats := r3.stats.incomingRTP packet1
        mediaTransmissionCounter := r3.mediaTransmissionCounter.incomingRTP packet1 }
    ({ r4 with inactive := false }, packet1, none, msgs)

/-- Feeding a list of media packets, each with its arrival time, through `receivePacket`. -/
def receivePackets (reg : codec.Registry) (r : receiverStream) :
    List (rtpPacket × Int) → receiverStream
  | [] => r
  | (p, t) :: ps => receivePackets reg (r.receivePacket reg p t).1 ps

end receiverStream

/-- Struct `senderStream`, embedding `internalStream` (the listener is the owning sender). -/
structure senderStream extends internalStream where
  nackSender : nack.sender
  rtxSeq : Nat
  deriving DecidableEq, Repr

/-- Function `NewSenderStream`. -/
def NewSenderStream (mediaType : String) (stream : StreamOption) (codec : Codec) :
    senderStream :=
  let base := newStream mediaType stream codec
  { (if stream.RTX ≠ 0 ∧ codec.RTX ≠ 0 then base.SetRtx codec.RTX stream.RTX else base) with
    nackSender := { buffer := nack.NewBuffer 100 }
    rtxSeq := 0 }

namespace senderStream

/-- Method `ReceivePacket`. -/
def ReceivePacket (r : senderStream) (packet : rtpPacket) : senderStream × Option PeerError :=
  let r0 : senderStream := { r with stats := r.stats.outcomingRTP packet }
  match r0.tointernalStream.receivePacket packet with
  | (s1, some err) => ({ r0 with tointernalStream := s1 }, some err)
  | (s1, none) =>
    let r1 : senderStream := { r0 with tointernalStream := s1 }
    (if r1.useNack then { r1 with nackSender := r1.nackSender.ReceivePacket packet } else r1,
      none)

/-- Method `onRTP`: the stream after the call and the packet that is handed to the listener
(`OnRTPStreamRetransmitRTPPacket`). -/
def onRTP (r : senderStream) (packet : rtpPacket) : senderStream × rtpPacket :=
  match r.rtxStream with
  | none => (r, packet)
  | some _ =>
    let r1 : senderStream := { r with rtxSeq := add16 r.rtxSeq 1 }
    let p1 := ((packet.SetPayloadType r1.rtxPayloadType).SetSsrc r1.rtxSSRC).SetRTX true
    let seqByte := rtpPacket.putUint16 p1.SequenceNumber
    let p2 : rtpPacket := { p1 with Payload := seqByte ++ p1.Payload }
    (r1, p2.SetSequenceNumber r1.rtxSeq)

end senderStream

end peer

namespace peer

/-- The sender stream of the repository test `TestSenderStream_ReceiveNack`: SSRC and RTX SSRC
`1234`, RTX payload type `100`, plain NACK feedback. -/
def nackTestSenderStream : senderStream :=
  NewSenderStream "video"
    { emptyStreamOption with SSRC := 1234, RTX := 1234 }
    { emptyCodec with RTX := 100, FeedbackParams := [{ Type_ := "nack", Parameter := "" }] }

/-- A media packet with payload type `96`, SSRC `1000`, sequence number `1234` and three payload
bytes. -/
def mediaSamplePacket : rtpPacket :=
  { PayloadType := 96, SequenceNumber := 1234, Timestamp := 90000, SSRC := 1000,
    Marker := false, Extensions := [], Payload := [9, 8, 7], ms := 5, rtx := false,
    payloadDescriptor := none }

end peer

namespace peer

/-- The sequence numbers, counted without wrap-around, of the packets of a run that a started
receiver stream counts as received; `M` is the highest sequence number so far, counted without
wrap-around (`max_seq` is `M mod 2^16`). With `D = (seq - max_seq) mod 2^16`, a packet with
`D < 3000` has the number `M + D` and becomes the highest, a packet with `D >= 64036` is a late
packet with the number `M + D - 2^16`, and a packet in between is discarded and has no number
in the list. -/
def receiverStream.extendedSeqs (reg : codec.Registry) (r : receiverStream) (M : Nat) :
    List (rtpPacket × Int) → List Int
  | [] => []
  | q :: ps =>
    if sub16 q.1.SequenceNumber r.maxSeq < 3000 then
      ((M + sub16 q.1.SequenceNumber r.maxSeq : Nat) : Int) ::
        receiverStream.extendedSeqs reg (r.receivePacket reg q.1 q.2).1
          (M + sub16 q.1.SequenceNumber r.maxSeq) ps
    else if sub16 q.1.SequenceNumber r.maxSeq < 64036 then
      receiverStream.extendedSeqs reg (r.receivePacket reg q.1 q.2).1 M ps
    else
      ((M : Int) + (sub16 q.1.SequenceNumber r.maxSeq : Int) - 65536) ::
        receiverStream.extendedSeqs reg (r.receivePacket reg q.1 q.2).1 M ps

/-- The sequence numbers, counted without wrap-around, of the packets of a run that a new
receiver stream counts as received: the first packet with its own sequence number, which
becomes `base_seq`, then the numbers of `extendedSeqs`. -/
def receiverStream.countedSeqs (reg : codec.Registry) (r : receiverStream) :
    List (rtpPacket × Int) → List Int
  | [] => []
  | q :: ps =>
    (q.1.SequenceNumber : Int) ::
      receiverStream.extendedSeqs reg (r.receivePacket reg q.1 q.2).1 q.1.SequenceNumber ps

/-- Sequence state of a started receiver stream whose highest sequence number, counted without
wrap-around, is `M`, after `n` packets: the stored `max_seq` and `cycles` are the two halves of
`M`, `M` has grown by less than `3000` per packet, and the packets counted as received are as
many as the numbers of the list `L`, none of which is above `M`. -/
def SeqTrack (r : receiverStream) (M n : Nat) (L : List Int) : Prop :=
  r.started = true ∧ r.maxSeq = M % 65536 ∧
  r.cycles = (65536 * (M / 65536)) % 4294967296 ∧
  r.baseSeq < 65536 ∧ r.baseSeq ≤ M ∧
  r.mediaTransmissionCounter.packetsReceived = (L.length : Int) ∧
  (∀ e ∈ L, e ≤ (M : Int)) ∧
  M + 1 ≤ r.baseSeq + 3000 * n

/-- The run of the repository test `Test misorder seq`, with arrival times `1`, `2`, ... -/
def misorderRun : List (rtpPacket × Int) :=
  [(seqPacket 1000, 1), (seqPacket 1001, 2), (seqPacket 1004, 3), (seqPacket 1003, 4),
    (seqPacket 1002, 5), (seqPacket 1005, 6), (seqPacket 1006, 7), (seqPacket 1009, 8),
    (seqPacket 1007, 9), (seqPacket 1008, 10)]

end peer

namespace rtc

/-- Struct `rtc.HeaderExtension`. -/
structure HeaderExtension where
  URI : String
  ID : Nat
  Encrypt : Bool
  deriving DecidableEq, Repr

/-- Type `rtc.HeaderExtensionIDs`, a map from URI to header extension, as an association
list. -/
abbrev HeaderExtensionIDs := List (String × HeaderExtension)

/-- Lookup `h[uri].ID`, `0` (the zero value) when the URI is absent. -/
def HeaderExtensionIDs.idOf (h : HeaderExtensionIDs) (uri : String) : Nat :=
  match h.find? (fun kv => kv.1 == uri) with
  | some kv => kv.2.ID
  | none => 0

/-- Method `HeaderExtensionIDs.HeaderExtensions`: the values of the map (Go leaves their order
open; the order of the list is used). -/
def HeaderExtensionIDs.HeaderExtensions (h : HeaderExtensionIDs) : List HeaderExtension :=
  h.map (fun kv => kv.2)

end rtc

namespace peer

/-- Struct `SenderOption`. -/
structure SenderOption where
  ID : String
  MID : String
  ConnectionID : String
  ReceiverID : String
  Codec : Option Codec
  HeaderExtensions : List rtc.HeaderExtension
  SwitchMode : Int
  deriving DecidableEq, Repr

/-- Interface `ConsumerListener` (implemented by the connection) as far as a sender calls it:
`sendRTPPacket` is the connection egress, given as the change it makes to the packet view it is
handed; the other four are the answers of the connection tables, an error being `some`. -/
structure ConsumerListener where
  sendRTPPacket : rtpPacket → rtpPacket
  getHeaderExtensions : List rtc.HeaderExtension → rtc.HeaderExtensionIDs
  getCodec : Codec → Codec
  updateCodecs : Codec → Option PeerError
  updateHeaderExtensions : List rtc.HeaderExtension → Option PeerError

/-- Struct `Receiver` as far as `newSender` reads it. -/
structure Receiver where
  mediaType : String
  rtpHeaderExtensionIds : rtc.HeaderExtensionIDs
  codec : Codec
  rtpStreamByEncodingIdx : List receiverStream
  deriving DecidableEq, Repr

/-- Lookup in the map `headerMap`, `0` (the zero value) for an absent key. -/
def headerMapGet (m : List (Nat × Nat)) (k : Nat) : Nat :=
  match m.find? (fun kv => kv.1 == k) with
  | some kv => kv.2
  | none => 0

/-- Assignment `m[k] = v` in the map `headerMap`. -/
def headerMapSet (m : List (Nat × Nat)) (k v : Nat) : List (Nat × Nat) :=
  (k, v) :: m.filter (fun kv => kv.1 != k)

/-- Struct `sender` (the listener is passed to the methods that call it; the receiver pointer
and the connection statistics are left out). -/
structure sender where
  id : String
  receiverID : String
  mediaType : String
  mid : String
  stream : StreamOption
  rtpHeaderExtensionIds : rtc.HeaderExtensionIDs
  codec : Codec
  rtpStream : senderStream
  maxRtcpInterval : Int
  transportConnected : Bool
  producerClosed : Bool
  externallyManagedBitrate : Bool
  lastRtcpSentTime : Int
  syncRequired : Bool
  producerRTPStreams : List receiverStream
  headerMap : List (Nat × Nat)
  deriving DecidableEq, Repr

/-- The loop of `newSender` over the producer streams: every stream that has an RTX SSRC or an
RTX payload type draws a fresh RTX SSRC (`rand k` is the `k`-th draw of the random source) and
hands over its cname. -/
def newSenderRtx (rand : Nat → Nat) : List receiverStream → Nat → StreamOption → StreamOption
  | [], _, so => so
  | st :: rest, k, so =>
    if st.rtxSSRC ≠ 0 ∨ st.rtxPayloadType ≠ 0 then
      newSenderRtx rand rest (k + 1) { so with RTX := rtc.GenerateSSRC (rand k), Cname := st.cname }
    else newSenderRtx rand rest k so

/-- Function `newSender`; `rand k` is the `k`-th draw of `rand.Int31n` used by
`rtc.GenerateSSRC`. -/
def newSender (lis : ConsumerListener) (receiver : Receiver) (options : SenderOption)
    (rand : Nat → Nat) : Except PeerError sender :=
  let hdrErr := if options.HeaderExtensions.length ≠ 0 then
      lis.updateHeaderExtensions options.HeaderExtensions else none
  match hdrErr with
  | some err => Except.error err
  | none =>
    let headers := if options.HeaderExtensions.length ≠ 0 then options.HeaderExtensions
      else receiver.rtpHeaderExtensionIds.HeaderExtensions
    let ids := lis.getHeaderExtensions headers
    let headerMap := headers.foldl (fun m h => headerMapSet m h.ID (ids.idOf h.URI)) []
    let cdErr := match options.Codec with
      | some c => lis.updateCodecs c
      | none => none
    match cdErr with
    | some err => Except.error err
    | none =>
      let codecs := match options.Codec with
        | some c => c
        | none => receiver.codec
      let codec := lis.getCodec codecs
      let stream0 : StreamOption :=
        { emptyStreamOption with
          SSRC := rtc.GenerateSSRC (rand 0)
          PayloadType := codec.PayloadType }
      let stream := newSenderRtx rand receiver.rtpStreamByEncodingIdx 1 stream0
      Except.ok
        { id := options.ID
          receiverID := options.ReceiverID
          mediaType := receiver.mediaType
          mid := options.MID
          stream := stream
          rtpHeaderExtensionIds := ids
          codec := codec
          rtpStream := NewSenderStream receiver.mediaType stream codec
          maxRtcpInterval := if receiver.mediaType = "audio" then rtc.MaxRTCPAudioInterval
            else rtc.MaxRTCPVideoInterval
          transportConnected := false
          producerClosed := false
          externallyManagedBitrate := false
          lastRtcpSentTime := 0
          syncRequired := false
          producerRTPStreams := receiver.rtpStreamByEncodingIdx.reverse
          headerMap := headerMap }

namespace sender

/-- Method `IsActive`. -/
def IsActive (s : sender) : Bool := s.transportConnected && !s.producerClosed

/-- Method `RequestKeyframe`: the SSRCs for which a key frame is requested from the receiver, or
`none` when `producerRTPStreams[0]` does not exist. -/
def RequestKeyframe (s : sender) : Option (List Nat) :=
  if s.IsActive then
    if s.mediaType ≠ rtc.MediaTypeVideo then some []
    else
      match s.producerRTPStreams.head? with
      | none => none
      | some st => if st.ssrc ≠ 0 then some [st.ssrc] else some []
  else some []

/-- Method `UserOnTransportConnected`. -/
def UserOnTransportConnected (s : sender) : Option (sender × List Nat) :=
  let s1 : sender := { s with syncRequired := true }
  if s1.IsActive then (s1.RequestKeyframe).map (fun reqs => (s1, reqs)) else some (s1, [])

/-- Method `TransportConnected`. -/
def TransportConnected (s : sender) : Option (sender × List Nat) :=
  UserOnTransportConnected { s with transportConnected := true }

/-- Method `SendRTPPacket`: the sender and the packet view after the call, and the packets
handed to the connection egress (`listener.sendRTPPacket`) as they were when handed over. -/
def SendRTPPacket (reg : codec.Registry) (lis : ConsumerListener) (s : sender)
    (packet : rtpPacket) : sender × rtpPacket × List rtpPacket :=
  if !s.IsActive then (s, packet, [])
  else if s.syncRequired && codec.CanBeKeyFrame reg s.codec.EncoderName && !packet.IsKeyFrame then
    (s, packet, [])
  else
    let s1 : sender := if s.syncRequired then { s with syncRequired := false } else s
    match s1.rtpStream.ReceivePacket packet with
    | (rs, some _) => ({ s1 with rtpStream := rs }, packet, [])
    | (rs, none) =>
      let s2 : sender := { s1 with rtpStream := rs }
      let originSsrc := packet.SSRC
      let originPayloadType := packet.PayloadType
      let originHeader := packet.Extensions
      let newHeaders := originHeader.map (fun e =>
        ({ ID := headerMapGet s2.headerMap e.ID, Payload := e.Payload } : Extension))
      let out := ((packet.SetSsrc s2.stream.SSRC).SetPayloadType
        s2.codec.PayloadType).UpdateHeader newHeaders
      let back := lis.sendRTPPacket out
      (s2, ((back.SetSsrc originSsrc).SetPayloadType originPayloadType).UpdateHeader originHeader,
        [out])

/-- Feeding a list of packets through `SendRTPPacket`: the final sender and everything handed to
the connection egress, in order. -/
def SendRTPPackets (reg : codec.Registry) (lis : ConsumerListener) (s : sender) :
    List rtpPacket → sender × List rtpPacket
  | [] => (s, [])
  | p :: ps =>
    let r := s.SendRTPPacket reg lis p
    let rest := SendRTPPackets reg lis r.1 ps
    (rest.1, r.2.2 ++ rest.2)

end sender

end peer

namespace peer

/-- Constant `MaxExtraOffsetMs`. -/
def MaxExtraOffsetMs : Int := 75

/-- Constant `MsOffset`. -/
def MsOffset : Int := 33

/-- Struct `defaultRTPManager`. -/
structure defaultRTPManager where
  base : Nat
  maxOutput : Nat
  maxInput : Nat
  deriving DecidableEq, Repr

/-- Function `NewSeqManager`. -/
def NewSeqManager : defaultRTPManager := { base := 0, maxOutput := 0, maxInput := 0 }

namespace defaultRTPManager

/-- Method `Sync`. -/
def Sync (d : defaultRTPManager) (seq : Nat) : defaultRTPManager :=
  { d with base := sub16 d.maxOutput seq, maxInput := seq }

/-- Method `Input`: the manager after the call and the output sequence number. -/
def Input (d : defaultRTPManager) (seq : Nat) : defaultRTPManager × Nat :=
  let output := add16 seq d.base
  let d1 : defaultRTPManager :=
    if sub16 seq d.maxInput < rtc.SeqNumberMaxValue / 2 then { d with maxInput := seq } else d
  let d2 : defaultRTPManager :=
    if sub16 output d1.maxOutput < rtc.SeqNumberMaxValue / 2 then { d1 with maxOutput := output }
    else d1
  (d2, output)

end defaultRTPManager

/-- Struct `SimulcastConsumer`; the embedded `*sender` is the field `sender`, whose own
`syncRequired` is shadowed by the field of the same name declared here. -/
structure SimulcastConsumer where
  sender : sender
  mode : Int
  mappedSsrcSpatialLayer : List (Nat × Int)
  preferredSpatialLayer : Int
  rtpSeqManager : defaultRTPManager
  syncRequired : Bool
  keyFrameForTSOffsetRequested : Bool
  targetSpatialLayer : Int
  currentSpatialLayer : Int
  tsReferenceSpatialLayer : Int
  tsOffset : Nat
  lastBweDowngradeAtMs : Int
  deriving DecidableEq, Repr

/-- Indexing `producerRTPStreams[i]` with a Go `int`: `none` when the index is out of range. -/
def streamAt (l : List receiverStream) (i : Int) : Option receiverStream :=
  if 0 ≤ i then l.get? i.toNat else none

namespace SimulcastConsumer

/-- Method `getLayer`: the consumer (its memo map may have grown) and the layer, `0` for an SSRC
that no producer stream carries. -/
def getLayer (s : SimulcastConsumer) (ssrc : Nat) : SimulcastConsumer × Int :=
  match s.mappedSsrcSpatialLayer.find? (fun kv => kv.1 == ssrc) with
  | some kv => (s, kv.2)
  | none =>
    match s.sender.producerRTPStreams.findIdx? (fun v => ssrc == v.ssrc) with
    | some i => ({ s with mappedSsrcSpatialLayer := (ssrc, (i : Int)) :: s.mappedSsrcSpatialLayer },
        (i : Int))
    | none => (s, 0)

/-- Method `RequestKeyframe` of the simulcast consumer: the SSRCs for which a key frame is
requested, or `none` when the index of the current layer is out of range. -/
def RequestKeyframe (s : SimulcastConsumer) : Option (List Nat) :=
  if s.sender.IsActive then
    if s.sender.mediaType ≠ rtc.MediaTypeVideo then some []
    else if s.currentSpatialLayer = -1 then some []
    else (streamAt s.sender.producerRTPStreams s.currentSpatialLayer).map (fun st => [st.ssrc])
  else some []

/-- Method `calTimestampOffset`: the consumer after the call, the key-frame requests it sent,
the offset and the success flag; `none` when the call fails on a nil producer stream or on an
index out of range (in `first`, the outer `none`; the inner `none` is the return `0, false`). -/
def calTimestampOffset (s : SimulcastConsumer) (packet : rtpPacket) (layer : Int)
    (shouldSwitchLayer : Bool) : Option (SimulcastConsumer × List Nat × Nat × Bool) :=
  let clock := s.sender.rtpStream.codec.ClockRate
  let first : Option (Option Nat) :=
    if layer ≠ s.tsReferenceSpatialLayer then
      let tsFetch : Option (Option receiverStream) :=
        if s.tsReferenceSpatialLayer = -1 then some none
        else (streamAt s.sender.producerRTPStreams s.tsReferenceSpatialLayer).map some
      let targetFetch : Option (Option receiverStream) :=
        if s.targetSpatialLayer = -1 then some none
        else (streamAt s.sender.producerRTPStreams s.targetSpatialLayer).map some
      match tsFetch, targetFetch with
      | some _, some none => none
      | some tsStream, some (some target) =>
        if target.lastSenderReportNtpMs = 0 then some none
        else
          match tsStream with
          | none => none
          | some ts =>
            if ts.lastSenderReportNtpMs = 0 then some none
            else
              let diffMs :=
                toUint64 ((target.lastSenderReportNtpMs : Int) - ts.lastSenderReportNtpMs)
              let diffTS := toUint64 (diffMs * toUint64 (Int.tdiv clock 1000))
              let newTS2 := toInt64 (target.lastSenderReportTS - toInt64 diffTS)
              some (some (toUint32 (toInt64 (newTS2 - ts.lastSenderReportTS))))
      | _, _ => none
    else some (some 0)
  match first with
  | none => none
  | some none => some (s, [], 0, false)
  | some (some tsOffset) =>
    let maxTS := s.sender.rtpStream.maxPacketRTPTimestamp
    if shouldSwitchLayer ∧ sub32 packet.Timestamp tsOffset ≤ maxTS then
      let maxTSExtraOffset := Int.tdiv (toInt64 (MaxExtraOffsetMs * clock)) 1000
      let tsExtraOffset := add32 (sub32 maxTS packet.Timestamp) tsOffset
      if s.keyFrameForTSOffsetRequested then
        let extra := if (tsExtraOffset : Int) > maxTSExtraOffset then 1 else tsExtraOffset
        some (s, [], if extra > 0 then sub32 tsOffset extra else tsOffset, true)
      else if (tsExtraOffset : Int) > maxTSExtraOffset then
        (s.RequestKeyframe).map (fun reqs =>
          ({ s with keyFrameForTSOffsetRequested := true }, reqs, 0, false))
      else
        let extra := if tsExtraOffset = 0 then
            toUint32 (Int.tdiv (toInt64 (MsOffset * clock)) 1000) else tsExtraOffset
        some (s, [], if extra > 0 then sub32 tsOffset extra else tsOffset, true)
    else some (s, [], tsOffset, true)

/-- Method `SendRTPPacket` of the simulcast consumer: the consumer and the packet view after
the call, the packets handed to the connection egress and the key-frame requests sent; `none`
when the call does not return (nil or out-of-range producer stream). -/
def SendRTPPacket (reg : codec.Registry) (lis : ConsumerListener) (s : SimulcastConsumer)
    (packet : rtpPacket) : Option (SimulcastConsumer × rtpPacket × List rtpPacket × List Nat) :=
  if !s.sender.IsActive then some (s, packet, [], [])
  else if s.targetSpatialLayer = -1 then some (s, packet, [], [])
  else
    let gl := s.getLayer packet.SSRC
    let s0 := gl.1
    let layer := gl.2
    let shouldSwitchLayer : Bool :=
      decide (s0.currentSpatialLayer ≠ s0.targetSpatialLayer ∧ layer = s0.targetSpatialLayer)
    if !shouldSwitchLayer && decide (layer ≠ s0.currentSpatialLayer) then some (s0, packet, [], [])
    else
      let s1 : SimulcastConsumer :=
        if shouldSwitchLayer then { s0 with syncRequired := true } else s0
      if s1.syncRequired && codec.CanBeKeyFrame reg s1.sender.codec.EncoderName
          && !packet.IsKeyFrame then some (s1, packet, [], [])
      else
        let synced : Option (SimulcastConsumer × List Nat × Bool) :=
          if s1.syncRequired then
            (s1.calTimestampOffset packet layer shouldSwitchLayer).map (fun res =>
              if res.2.2.2 then
                ({ res.1 with
                    tsOffset := res.2.2.1
                    rtpSeqManager := res.1.rtpSeqManager.Sync (sub16 packet.SequenceNumber 1)
                    syncRequired := false
                    keyFrameForTSOffsetRequested := false }, res.2.1, true)
              else (res.1, res.2.1, false))
          else some (s1, [], true)
        match synced with
        | none => none
        | some (s2, reqs, false) => some (s2, packet, [], reqs)
        | some (s2, reqs, true) =>
          let s3 : SimulcastConsumer :=
            if shouldSwitchLayer then { s2 with currentSpatialLayer := s2.targetSpatialLayer }
            else s2
          let timestamp := sub32 packet.Timestamp s3.tsOffset
          let inp := s3.rtpSeqManager.Input packet.SequenceNumber
          let s4 : SimulcastConsumer := { s3 with rtpSeqManager := inp.1 }
          let originSsrc := packet.SSRC
          let originSeq := packet.SequenceNumber
          let originTimestamp := packet.Timestamp
          let originPayloadType := packet.PayloadType
          let out := (((packet.SetSsrc s4.sender.stream.SSRC).SetSequenceNumber
            inp.2).SetTimestamp timestamp).SetPayloadType s4.sender.codec.PayloadType
          let back := lis.sendRTPPacket out
          some (s4,
            (((back.SetSsrc originSsrc).SetSequenceNumber originSeq).SetTimestamp
              originTimestamp).SetPayloadType originPayloadType,
            [out], reqs)

end SimulcastConsumer

end peer

namespace peer

/-- A codec registry that holds VP8 as a codec with key frames (no payload parser attached). -/
def sampleRegistry : codec.Registry :=
  [{ MediaType := "video", EncoderName := "VP8", SupportKeyFrame := true,
     SupportSimulcast := true, SupportSVC := false, Process := none }]

/-- A connection that maps every codec to payload type `100`, every header extension to its ID
plus one, and whose egress stamps an extension `5` on the packet view and clears its SSRC. -/
def sampleListener : ConsumerListener :=
  { sendRTPPacket := fun p =>
      { p with SSRC := 0, Extensions := p.Extensions ++ [{ ID := 5, Payload := [1, 2, 3] }] }
    getHeaderExtensions := fun hs => hs.map (fun h => (h.URI, { h with ID := h.ID + 1 }))
    getCodec := fun c => { c with PayloadType := 100 }
    updateCodecs := fun _ => none
    updateHeaderExtensions := fun _ => none }

/-- A VP8 codec with payload type `96`. -/
def sampleCodec : Codec :=
  { emptyCodec with PayloadType := 96, EncoderName := "VP8", ClockRate := 90000 }

/-- A video receiver with one stream (SSRC `1000`) and the MID extension at ID `3`. -/
def sampleReceiver : Receiver :=
  { mediaType := "video"
    rtpHeaderExtensionIds :=
      [("urn:ietf:params:rtp-hdrext:sdes:mid",
        { URI := "urn:ietf:params:rtp-hdrext:sdes:mid", ID := 3, Encrypt := false })]
    codec := sampleCodec
    rtpStreamByEncodingIdx :=
      [NewReceiverStream "video" { emptyStreamOption with SSRC := 1000 } sampleCodec] }

/-- Options of a sender that takes codec and header extensions from its receiver. -/
def sampleSenderOption : SenderOption :=
  { ID := "s1", MID := "0", ConnectionID := "c1", ReceiverID := "r1", Codec := none,
    HeaderExtensions := [], SwitchMode := 0 }

/-- The sender that `newSender` builds for the sample receiver when the random draw is `5`. -/
def sampleSender : sender :=
  match newSender sampleListener sampleReceiver sampleSenderOption (fun _ => 5) with
  | Except.ok s => s
  | Except.error _ =>
    { id := "", receiverID := "", mediaType := "", mid := "", stream := emptyStreamOption,
      rtpHeaderExtensionIds := [], codec := emptyCodec,
      rtpStream := NewSenderStream "" emptyStreamOption emptyCodec, maxRtcpInterval := 0,
      transportConnected := false, producerClosed := false, externallyManagedBitrate := false,
      lastRtcpSentTime := 0, syncRequired := false, producerRTPStreams := [], headerMap := [] }

/-- The sample sender once its transport is connected and it has synchronised. -/
def connectedSender : sender := { sampleSender with transportConnected := true }

/-- A media packet of the sample receiver: SSRC `1000`, payload type `96`, one extension with
ID `3`; `key` tells whether its payload descriptor marks a key frame. -/
def samplePacket (seq : Nat) (key : Bool) : rtpPacket :=
  { PayloadType := 96, SequenceNumber := seq, Timestamp := 3000, SSRC := 1000, Marker := false,
    Extensions := [{ ID := 3, Payload := [48] }], Payload := [1, 2], ms := 7, rtx := false,
    payloadDescriptor := some key }

/-- A simulcast consumer on top of the connected sample sender, current and target layer `0`,
synchronised. -/
def sampleSimulcast : SimulcastConsumer :=
  { sender := { sampleSender with transportConnected := true }
    mode := 0
    mappedSsrcSpatialLayer := []
    preferredSpatialLayer := 0
    rtpSeqManager := NewSeqManager
    syncRequired := false
    keyFrameForTSOffsetRequested := false
    targetSpatialLayer := 0
    currentSpatialLayer := 0
    tsReferenceSpatialLayer := 0
    tsOffset := 0
    lastBweDowngradeAtMs := 0 }

end peer

/-- Lookup `m[k]` in a Go map held as an association list: `none` when the key is absent. -/
def gmGet {κ ν : Type} [DecidableEq κ] (m : List (κ × ν)) (k : κ) : Option ν :=
  (m.find? (fun kv => decide (kv.1 = k))).map (fun kv => kv.2)

/-- Deletion `delete(m, k)` in a Go map held as an association list. -/
def gmDel {κ ν : Type} [DecidableEq κ] (m : List (κ × ν)) (k : κ) : List (κ × ν) :=
  m.filter (fun kv => !decide (kv.1 = k))

/-- Assignment `m[k] = v` in a Go map held as an association list. -/
def gmSet {κ ν : Type} [DecidableEq κ] (m : List (κ × ν)) (k : κ) (v : ν) : List (κ × ν) :=
  (k, v) :: gmDel m k

namespace rtc

/-- Constant `rtc.HeaderExtensionAbsSendTime`. -/
def HeaderExtensionAbsSendTime : String :=
  "http://www.webrtc.org/experiments/rtp-hdrext/abs-send-time"

/-- Constant `rtc.HeaderExtensionTransportSequenceNumber`. -/
def HeaderExtensionTransportSequenceNumber : String :=
  "http://www.ietf.org/id/draft-holmer-rmcat-transport-wide-cc-extensions-01"

/-- Constant `rtc.HeaderExtensionRid`. -/
def HeaderExtensionRid : String := "urn:ietf:params:rtp-hdrext:sdes:rtp-stream-id"

/-- Constant `rtc.HeaderExtensionMid`. -/
def HeaderExtensionMid : String := "urn:ietf:params:rtp-hdrext:sdes:mid"

/-- Function `rtc.NewHerderExtensionIDs`. -/
def NewHerderExtensionIDs (headers : List HeaderExtension) : HeaderExtensionIDs :=
  headers.foldl (fun m v => gmSet m v.URI v) []

end rtc

namespace bwe

/-- Constant `bwe.TransportCC`. -/
def TransportCC : String := "tcc"

/-- Constant `bwe.Remb`. -/
def Remb : String := "remb"

end bwe

namespace peer

/-- Method `Codec.Equal`; `c2.Parameters[k]` reads as the empty string for an absent key. -/
def Codec.Equal (c c2 : Codec) : Bool :=
  if c.EncoderName ≠ c2.EncoderName then false
  else if c.Parameters.length ≠ c2.Parameters.length then false
  else c.Parameters.all (fun kv => decide ((gmGet c2.Parameters kv.1).getD "" = kv.2))

/-- Constant `payloadBottom`. -/
def payloadBottom : Nat := 100

/-- Constant `payloadTop`. -/
def payloadTop : Nat := 150

/-- Constant `headerBottom`. -/
def headerBottom : Nat := 1

/-- Constant `headerTop`. -/
def headerTop : Nat := 20

/-- Struct `Connection`, its two tables and the congestion-control kind: `rtpHeaders` maps a
URI to its extension ID, `codec` maps a payload type to its codec. A `range` over a map visits
the entries in the order of the list. -/
structure Connection where
  rtpHeaders : List (String × Nat)
  codec : List (Nat × Codec)
  bweType : String
  deriving DecidableEq, Repr

/-- Function `newConnection`, as far as the tables go. -/
def newConnection (bweType : String) : Connection :=
  { rtpHeaders := [], codec := [], bweType := bweType }

namespace Connection

/-- The search of `getCodec` for a free payload type: the first `pt` from `payloadBottom` up to
`payloadTop` with no codec, or `payloadTop + 1` when the loop runs to its end. -/
def freePayloadType (c : Connection) : Nat :=
  (((List.range (payloadTop + 1 - payloadBottom)).map (fun i => payloadBottom + i)).find?
    (fun pt => (gmGet c.codec pt).isNone)).getD (payloadTop + 1)

/-- Method `getCodec`: the connection after the call and the returned codec. -/
def getCodec (c : Connection) (codec : Codec) : Connection × Codec :=
  match c.codec.find? (fun kv => kv.2.Equal codec) with
  | some kv => (c, kv.2)
  | none =>
    let pt := c.freePayloadType
    let cd : Codec := { codec with PayloadType := pt }
    ({ c with codec := gmSet c.codec pt cd }, cd)

/-- Method `updateCodecs`. -/
def updateCodecs (c : Connection) (codec : Codec) : Connection × Option PeerError :=
  let clash := match gmGet c.codec codec.PayloadType with
    | some tc => !tc.Equal codec
    | none => false
  if clash then (c, some PeerError.ErrPayloadNotMatch)
  else if (gmGet c.codec codec.RTX).isSome then (c, some PeerError.ErrRTXPayloadNotMatch)
  else if c.codec.any (fun kv => kv.2.Equal codec) then (c, some PeerError.ErrPayloadNotMatch)
  else ({ c with codec := gmSet c.codec codec.PayloadType codec }, none)

/-- Method `generateHeaderID`: the lowest ID from `headerBottom` to `headerTop` that no URI
holds, `0` when there is none. -/
def generateHeaderID (c : Connection) : Nat :=
  (((List.range (headerTop + 1 - headerBottom)).map (fun i => headerBottom + i)).find?
    (fun i => !c.rtpHeaders.any (fun kv => decide (kv.2 = i)))).getD 0

/-- Method `updateHeaderExtensions`: the entries are written one by one and the first clash
returns, the earlier writes staying in place. -/
def updateHeaderExtensions (c : Connection) :
    List rtc.HeaderExtension → Connection × Option PeerError
  | [] => (c, none)
  | h :: rest =>
    match gmGet c.rtpHeaders h.URI with
    | some id =>
      if id ≠ h.ID then (c, some PeerError.ErrHeaderIDNotMatch)
      else updateHeaderExtensions { c with rtpHeaders := gmSet c.rtpHeaders h.URI h.ID } rest
    | none => updateHeaderExtensions { c with rtpHeaders := gmSet c.rtpHeaders h.URI h.ID } rest

/-- The first loop of `getHeaderExtensions`: the headers that are kept and whether one of them
is a congestion-control header. -/
def preHeaders (c : Connection) (headers : List rtc.HeaderExtension) :
    List rtc.HeaderExtension × Bool :=
  let kept := headers.filter (fun h =>
    !((h.URI == rtc.HeaderExtensionAbsSendTime && c.bweType != bwe.Remb) ||
      (h.URI == rtc.HeaderExtensionTransportSequenceNumber && c.bweType != bwe.TransportCC)))
  (kept, kept.any (fun h =>
    h.URI == rtc.HeaderExtensionAbsSendTime ||
      h.URI == rtc.HeaderExtensionTransportSequenceNumber))

/-- The second loop of `getHeaderExtensions`: a known URI keeps its ID, an unknown one gets a
generated ID, which is written to the table. -/
def assignHeaders (c : Connection) :
    List rtc.HeaderExtension → Connection × List rtc.HeaderExtension
  | [] => (c, [])
  | h :: rest =>
    match gmGet c.rtpHeaders h.URI with
    | some id =>
      let r := assignHeaders c rest
      (r.1, { URI := h.URI, ID := id, Encrypt := false } :: r.2)
    | none =>
      let defaultID := c.generateHeaderID
      let r := assignHeaders { c with rtpHeaders := gmSet c.rtpHeaders h.URI defaultID } rest
      (r.1, { URI := h.URI, ID := defaultID, Encrypt := false } :: r.2)

/-- The list `preHeader` of `getHeaderExtensions` when its second loop starts: the kept headers
and, when none of them is a congestion-control header, the one that the connection uses. -/
def wantedHeaders (c : Connection) (headers : List rtc.HeaderExtension) :
    List rtc.HeaderExtension :=
  let pre := c.preHeaders headers
  let extra : List rtc.HeaderExtension :=
    if pre.2 then []
    else if c.bweType = bwe.Remb then
      [{ URI := rtc.HeaderExtensionAbsSendTime, ID := 0, Encrypt := false }]
    else if c.bweType = bwe.TransportCC then
      [{ URI := rtc.HeaderExtensionTransportSequenceNumber, ID := 0, Encrypt := false }]
    else []
  pre.1 ++ extra

/-- Method `getHeaderExtensions`. -/
def getHeaderExtensions (c : Connection) (headers : List rtc.HeaderExtension) :
    Connection × rtc.HeaderExtensionIDs :=
  let r := c.assignHeaders (c.wantedHeaders headers)
  (r.1, rtc.NewHerderExtensionIDs r.2)

/-- True when `updateHeaderExtensions` on these headers writes no ID that another URI holds at
the moment of the write: an unknown URI comes with an ID that no entry has. A known URI is
either written with the ID it has or ends the call. -/
def updateFresh (c : Connection) : List rtc.HeaderExtension → Bool
  | [] => true
  | h :: rest =>
    match gmGet c.rtpHeaders h.URI with
    | some id =>
      if id ≠ h.ID then true
      else updateFresh { c with rtpHeaders := gmSet c.rtpHeaders h.URI h.ID } rest
    | none =>
      c.rtpHeaders.all (fun kv => !decide (kv.2 = h.ID)) &&
        updateFresh { c with rtpHeaders := gmSet c.rtpHeaders h.URI h.ID } rest

/-- True when every ID that the second loop of `getHeaderExtensions` generates on these headers
is found by `generateHeaderID`, which returns `0` when it finds none. -/
def assignFound (c : Connection) : List rtc.HeaderExtension → Bool
  | [] => true
  | h :: rest =>
    match gmGet c.rtpHeaders h.URI with
    | some _ => assignFound c rest
    | none =>
      !decide (c.generateHeaderID = 0) &&
        assignFound { c with rtpHeaders := gmSet c.rtpHeaders h.URI c.generateHeaderID } rest

end Connection

/-- A call that reads or writes the header table of a connection. -/
inductive HeaderCall where
  | update (headers : List rtc.HeaderExtension)
  | get (headers : List rtc.HeaderExtension)
  deriving DecidableEq, Repr

/-- True when no two entries with different URIs have the same ID. -/
def headersDistinct (m : List (String × Nat)) : Bool :=
  m.all (fun a => m.all (fun b => !decide (a.2 = b.2) || decide (a.1 = b.1)))

namespace Connection

/-- The connection after one call on its header table. -/
def headerCall (c : Connection) : HeaderCall → Connection
  | HeaderCall.update headers => (c.updateHeaderExtensions headers).1
  | HeaderCall.get headers => (c.getHeaderExtensions headers).1

/-- The connection after a run of calls on its header table. -/
def headerCalls (c : Connection) : List HeaderCall → Connection
  | [] => c
  | call :: rest => headerCalls (c.headerCall call) rest

/-- True when, along the run, every `updateHeaderExtensions` writes only IDs that no other URI
holds and every `getHeaderExtensions` finds the IDs it generates. -/
def admissible (c : Connection) : List HeaderCall → Bool
  | [] => true
  | call :: rest =>
    (match call with
      | HeaderCall.update headers => c.updateFresh headers
      | HeaderCall.get headers => c.assignFound (c.wantedHeaders headers)) &&
    admissible (c.headerCall call) rest

end Connection

/-- The MID extension with the given ID. -/
def midHeader (id : Nat) : rtc.HeaderExtension :=
  { URI := rtc.HeaderExtensionMid, ID := id, Encrypt := false }

/-- The RID extension with the given ID. -/
def ridHeader (id : Nat) : rtc.HeaderExtension :=
  { URI := rtc.HeaderExtensionRid, ID := id, Encrypt := false }

namespace defaultRTPManager

/-- A run of `Input` calls, the outputs dropped. -/
def Inputs (d : defaultRTPManager) : List Nat → defaultRTPManager
  | [] => d
  | seq :: rest => Inputs (d.Input seq).1 rest

end defaultRTPManager

end peer

namespace peer

/-- A codec literal of the connection tests: payload type, encoder name and RTX payload type,
every other field at its zero value. -/
def codecOf (pt : Nat) (name : String) (rtx : Nat) : Codec :=
  { emptyCodec with PayloadType := pt, EncoderName := name, RTX := rtx }

/-- A codec whose only parameter `a` has the empty string as its value. -/
def flagCodec : Codec := { emptyCodec with EncoderName := "H264", Parameters := [("a", "")] }

/-- A codec whose only parameter is `b = x`. -/
def valueCodec : Codec := { emptyCodec with EncoderName := "H264", Parameters := [("b", "x")] }

/-- A fresh connection after `updateCodecs` of `{PayloadType: 100, EncoderName: "H264"}`. -/
def h264Connection : Connection :=
  ((newConnection bwe.Remb).updateCodecs (codecOf 100 "H264" 0)).1

/-- The encoder name made of `n + 1` letters `c`. -/
def letterName (n : Nat) : String := String.mk (List.replicate (n + 1) 'c')

/-- A fresh connection after `n` calls of `getCodec` with codecs of pairwise different encoder
names. -/
def filledConnection : Nat → Connection
  | 0 => newConnection bwe.Remb
  | n + 1 => ((filledConnection n).getCodec (codecOf 0 (letterName n) 0)).1

/-- Struct `rtpTable`. A receiver is held by its pointer, here a number; the keys of the MID
and RID tables are Go strings, here their bytes. -/
structure rtpTable where
  SsrcTable : List (Nat × Nat)
  MidTable : List (List Nat × Nat)
  RidTable : List (List Nat × Nat)
  deriving DecidableEq, Repr

/-- Method `GetExtension` of the wrapped `rtp.Packet`: the payload of the first extension with
the given ID, empty when there is none. -/
def rtpPacket.GetExtension (p : rtpPacket) (id : Nat) : List Nat :=
  ((p.Extensions.find? (fun e => decide (e.ID = id))).map (fun e => e.Payload)).getD []

/-- Method `Mid`. -/
def rtpPacket.Mid (p : rtpPacket) (mid : Nat) : List Nat := p.GetExtension (mid % 256)

/-- Method `Rid`. -/
def rtpPacket.Rid (p : rtpPacket) (rid : Nat) : List Nat := p.GetExtension (rid % 256)

namespace rtpTable

/-- The MID branch of `GetProducer`: the receiver stored for the MID of the packet when the
header map holds a non-zero ID for the MID extension. -/
def midLookup (r : rtpTable) (packet : rtpPacket) (rtpHeader : List (String × Nat)) :
    Option Nat :=
  match gmGet rtpHeader rtc.HeaderExtensionMid with
  | some mid => if mid ≠ 0 then gmGet r.MidTable (packet.Mid mid) else none
  | none => none

/-- The RID branch of `GetProducer`. -/
def ridLookup (r : rtpTable) (packet : rtpPacket) (rtpHeader : List (String × Nat)) :
    Option Nat :=
  match gmGet rtpHeader rtc.HeaderExtensionRid with
  | some rid => if rid ≠ 0 then gmGet r.RidTable (packet.Rid rid) else none
  | none => none

/-- Method `GetProducer`: the table after the call and the receiver found (`none` for nil). -/
def GetProducer (r : rtpTable) (packet : rtpPacket) (rtpHeader : List (String × Nat)) :
    rtpTable × Option Nat :=
  match gmGet r.SsrcTable packet.SSRC with
  | some p => (r, some p)
  | none =>
    match r.midLookup packet rtpHeader with
    | some p => ({ r with SsrcTable := gmSet r.SsrcTable packet.SSRC p }, some p)
    | none =>
      match r.ridLookup packet rtpHeader with
      | some p => ({ r with SsrcTable := gmSet r.SsrcTable packet.SSRC p }, some p)
      | none => (r, none)

end rtpTable

/-- A table that knows the receiver `7` by the SSRC `1000`, the receiver `8` by the MID `"0"`
and the receiver `9` by the RID `"h"`. -/
def sampleTable : rtpTable :=
  { SsrcTable := [(1000, 7)], MidTable := [([48], 8)], RidTable := [([104], 9)] }

/-- A header map with the MID extension at ID `3` and the RID extension at ID `4`. -/
def sampleHeaderMap : List (String × Nat) :=
  [(rtc.HeaderExtensionMid, 3), (rtc.HeaderExtensionRid, 4)]

/-- A packet of the given SSRC that carries the given extensions. -/
def tablePacket (ssrc : Nat) (exts : List Extension) : rtpPacket :=
  { PayloadType := 96, SequenceNumber := 1, Timestamp := 0, SSRC := ssrc, Marker := false,
    Extensions := exts, Payload := [], ms := 0, rtx := false, payloadDescriptor := none }

end peer

namespace nack

/-- A packet with the given sequence number whose one payload byte tells it from the other
packets of that sequence number. -/
def bufferPacket (seq tag : Nat) : peer.rtpPacket :=
  { PayloadType := 96, SequenceNumber := seq, Timestamp := 0, SSRC := 1000, Marker := false,
    Extensions := [], Payload := [tag], ms := 0, rtx := false, payloadDescriptor := none }

/-- Method `incomingPacket`, up to the channel send: the packet event of a packet. -/
def incomingPacket (seq : Nat) (keyFrame rtx : Bool) : packetInfo :=
  { seq := seq, sentAtMs := 0, sentAtSeq := 0, retries := 0, keyframe := keyFrame, rtx := rtx }

/-- What the goroutine of a receiver reacts to after its first packet: a packet event taken from
the channel at the clock reading `nowMs`, a tick of the timer at `nowMs`, or a call of
`UpdateRTT`. -/
inductive Event where
  | packet (seq : Nat) (keyFrame rtx : Bool) (nowMs : Int)
  | tick (nowMs : Int)
  | updateRTT (rtt : Int)
  deriving DecidableEq, Repr

/-- True when the sequence number of a packet event is a `uint16`. -/
def Event.valid : Event → Bool
  | Event.packet seq _ _ _ => decide (seq < 65536)
  | _ => true

namespace receiver

/-- Method `UpdateRTT`. -/
def UpdateRTT (r : receiver) (rtt : Int) : receiver := { r with rtt := rtt }

/-- One round of `loop`: the receiver after the event and the RTCP packets handed to
`sendRtcp`, or `none` when a slice expression fails. -/
def step (r : receiver) : Event → Option (receiver × List RtcpOut)
  | Event.packet seq keyFrame rtx nowMs => r.receive (incomingPacket seq keyFrame rtx) nowMs
  | Event.tick nowMs => some (r.tick nowMs)
  | Event.updateRTT rtt => some (r.UpdateRTT rtt, [])

/-- The rounds of `loop` over a list of events, the RTCP packets dropped. -/
def run (r : receiver) : List Event → Option receiver
  | [] => some r
  | ev :: rest =>
    match r.step ev with
    | some res => run res.1 rest
    | none => none

/-- The state of the goroutine after `loop` has taken its first packet. -/
def start (seq : Nat) (keyFrame rtx : Bool) : receiver :=
  NewReceiver.first (incomingPacket seq keyFrame rtx)

/-- Invariant of the NACK list, with a slack `b` for the moment between adding entries and
building the batch: `lastSeq` is a `uint16`, every entry names a `uint16` that lies behind
`lastSeq` by at least `1` and at most `1001` for each time it was requested, it was requested
at most `9` times, and no two entries name the same sequence number. -/
def InvAt (b : Int) (r : receiver) : Prop :=
  r.lastSeq < 65536 ∧
  (∀ e ∈ r.nackList, e.seq < 65536 ∧ 1 ≤ e.retries + b ∧ e.retries ≤ 9 ∧
    1 ≤ sub16 r.lastSeq e.seq ∧ (sub16 r.lastSeq e.seq : Int) ≤ 1001 * (e.retries + b)) ∧
  (r.nackList.map (fun e => e.seq)).Nodup

end receiver

end nack

namespace nack

/-- The receiver after the first packet `10` and the packet `13` taken at the clock reading
`40`: the packets `11` and `12` are missing and were requested once. -/
def lateSample : receiver :=
  { lastSeq := 13
    nackList := [
      { seq := 11, sentAtMs := 40, sentAtSeq := 13, retries := 1, keyframe := false,
        rtx := false },
      { seq := 12, sentAtMs := 40, sentAtSeq := 13, retries := 1, keyframe := false,
        rtx := false }]
    keyframes := []
    recoverList := []
    mediaSSRC := 0
    rtt := defaultRtt }

end nack

namespace peer

namespace SimulcastConsumer

/-- Method `getProducerTSReferenceRTPStream`: the inner `none` is the nil stream of a consumer
without reference layer, the outer `none` an index out of range. -/
def getProducerTSReferenceRTPStream (s : SimulcastConsumer) : Option (Option receiverStream) :=
  if s.tsReferenceSpatialLayer = -1 then some none
  else (streamAt s.sender.producerRTPStreams s.tsReferenceSpatialLayer).map some

/-- Method `canSwitchToSpatialLayer`; `none` when the call fails on an index out of range (or
on the nil reference stream, which the first test of the disjunction excludes). -/
def canSwitchToSpatialLayer (s : SimulcastConsumer) (i : Int) : Option Bool :=
  if s.tsReferenceSpatialLayer = -1 then some true
  else if i = s.tsReferenceSpatialLayer then some true
  else
    match s.getProducerTSReferenceRTPStream with
    | none => none
    | some none => none
    | some (some ref) =>
      if ref.lastSenderReportNtpMs > 0 then
        (streamAt s.sender.producerRTPStreams i).map
          (fun st => decide (st.lastSenderReportNtpMs > 0))
      else some false

/-- The loop of `recalculateTargetLayers` over the layer indices still to visit; `acc` is
`newTargetSpatialLayer`. -/
def recalculateLoop (s : SimulcastConsumer) : List Nat → Int → Option Int
  | [], acc => some acc
  | i :: rest, acc =>
    match s.canSwitchToSpatialLayer i with
    | none => none
    | some false => recalculateLoop s rest acc
    | some true =>
      if (i : Int) ≥ s.preferredSpatialLayer then some i else recalculateLoop s rest i

/-- Method `recalculateTargetLayers`. -/
def recalculateTargetLayers (s : SimulcastConsumer) : Option (Int × Bool) :=
  (s.recalculateLoop (List.range s.sender.producerRTPStreams.length) (-1)).map
    (fun l => (l, decide (l ≠ s.targetSpatialLayer)))

end SimulcastConsumer

/-- A producer stream of the given SSRC whose last sender report carried the NTP time `ntp`
(`0` when no sender report has come). -/
def layerStream (ssrc ntp : Nat) : receiverStream :=
  { NewReceiverStream "video" { emptyStreamOption with SSRC := ssrc } sampleCodec with
    lastSenderReportNtpMs := ntp }

/-- A connected simulcast consumer over three layers (SSRC `1000`, `1001`, `1002`) of which the
middle one has no sender report yet; the reference layer is `0` and the user prefers layer
`1`. -/
def threeLayerConsumer : SimulcastConsumer :=
  { sampleSimulcast with
    sender := { sampleSimulcast.sender with
      producerRTPStreams := [layerStream 1000 5, layerStream 1001 0, layerStream 1002 7] }
    preferredSpatialLayer := 1 }

/-- The three-layer consumer while it forwards layer `0` and waits to switch to layer `2`. -/
def switchingConsumer : SimulcastConsumer :=
  { threeLayerConsumer with currentSpatialLayer := 0, targetSpatialLayer := 2 }

end peer

namespace peer

/-- Struct `rtcp.ReceptionReport` of the RTCP library, as the receiver report code fills it. -/
structure ReceptionReport where
  SSRC : Nat
  FractionLost : Nat
  TotalLost : Nat
  LastSequenceNumber : Nat
  Jitter : Nat
  LastSenderReport : Nat
  Delay : Nat
  deriving DecidableEq, Repr

/-- Method `receiverStream.GetRtcpReceiverReport`: the stream after the call and the report.
`worst` is what the listener answers to `OnRTPStreamNeedWorstRemoteFractionLost` (asked only
when in-band FEC is in use) and `nowMs` the reading of `time.Now().UnixMilli()`. The shift
`>> 8` of an `int64` is the division by `256` rounded down. -/
def receiverStream.GetRtcpReceiverReport (r : receiverStream) (worst : Nat) (nowMs : Int) :
    receiverStream × ReceptionReport :=
  let worstRemoteFractionLost : Nat := if r.useInBandFec then worst % 256 else 0
  let prevPacketLost := r.packetsLost
  let expected := r.getExpectedPackets
  let received := r.mediaTransmissionCounter.PacketsReceived
  let packetsLost : Int := if expected > received then toInt64 (expected - received) else 0
  let expectedInterval := toInt64 (expected - r.expectedPrior)
  let receivedInterval := toInt64 (received - r.receivedPrior)
  let lostInterval := toInt64 (expectedInterval - receivedInterval)
  let fractionLost : Nat :=
    if expectedInterval = 0 ∨ lostInterval = 0 then 0
    else if toInt64 (Int.tdiv (toInt64 (lostInterval * 256)) expectedInterval) > 255 then 255
    else (toInt64 (Int.tdiv (toInt64 (lostInterval * 256)) expectedInterval) % 256).toNat
  let reportPacketLost : Int :=
    if worstRemoteFractionLost ≤ fractionLost then
      toInt64 (r.reportPacketLost + toInt64 (packetsLost - prevPacketLost))
    else
      toInt64 (r.reportPacketLost
        + toInt64 ((worstRemoteFractionLost : Int) * expectedInterval) / 256)
  let delayMs := toInt64 (nowMs - r.lastSrReceived)
  let r1 : receiverStream :=
    { r with
      fractionLost := fractionLost
      packetsLost := packetsLost
      expectedPrior := expected
      receivedPrior := received
      reportPacketLost := reportPacketLost }
  (r1,
    { SSRC := r.ssrc
      FractionLost :=
        if worstRemoteFractionLost ≤ fractionLost then fractionLost
        else worstRemoteFractionLost
      TotalLost := toUint32 reportPacketLost
      LastSequenceNumber := add32 r.maxSeq r.cycles
      Jitter := toUint32 r.jitter
      LastSenderReport :=
        if r.lastSrReceived ≠ 0 then
          add32 ((r.lastSenderReportNtpMs / 4294967296 % 4294967296) * 65536 % 4294967296)
            (r.lastSenderReportNtpMs % 4294967296 / 65536)
        else 0
      Delay := if r.lastSrReceived ≠ 0 then toUint32 (toInt64 (delayMs * (65535 / 1000))) else 0 })

/-- Method `receiverStream.ReceiveRtcpSenderReport`; `nowMs` is the reading of the clock, `ntp`
and `rtpTime` the `NTPTime` and `RTPTime` of the sender report. -/
def receiverStream.ReceiveRtcpSenderReport (r : receiverStream) (ntp rtpTime : Nat)
    (nowMs : Int) : receiverStream :=
  { r with
    lastSrReceived := nowMs
    lastSenderReportNtpMs := ntp
    lastSenderReportTS := (rtpTime : Int) }

/-- Method `RtxStream.GetRtcpReceiverReport`. -/
def RtxStream.GetRtcpReceiverReport (r : RtxStream) (nowMs : Int) :
    RtxStream × ReceptionReport :=
  let prevPacketLost := r.packetLost
  let expected := r.GetExpectedPackets
  let packetLost : Int :=
    if expected > r.packetCount then toInt64 (expected - r.packetCount) else 0
  let expectedInterval := toInt64 (expected - r.expectedPrior)
  let receivedInterval := toInt64 (r.packetCount - r.receiverPrior)
  let lostInterval := toInt64 (expectedInterval - receivedInterval)
  let fractionLost : Int :=
    if expectedInterval = 0 ∨ lostInterval = 0 then 0
    else toInt64 (Int.tdiv (toInt64 (lostInterval * 256)) expectedInterval)
  let reportedPacketLost := toInt64 (r.reportedPacketLost + toInt64 (packetLost - prevPacketLost))
  let delayMs := toInt64 (nowMs - r.lastSrReceived)
  let dlsr := Int.lor (toInt64 (Int.tdiv delayMs 1000 * 65536))
    (toInt64 (Int.tdiv (toInt64 (Int.tmod delayMs 1000 * 65536)) 1000))
  let r1 : RtxStream :=
    { r with
      packetLost := packetLost
      expectedPrior := expected
      receiverPrior := r.packetCount
      fractionLost := fractionLost
      reportedPacketLost := reportedPacketLost }
  (r1,
    { SSRC := r.params.Ssrc
      FractionLost := (fractionLost % 256).toNat
      TotalLost := toUint32 reportedPacketLost
      LastSequenceNumber := add32 r.maxSeq r.cycles
      Jitter := 0
      LastSenderReport := if r.lastSrReceived ≠ 0 then r.lastSrTimestamp else 0
      Delay := if r.lastSrReceived ≠ 0 then toUint32 dlsr else 0 })

/-- The stream of the receiver report test: packets `1000` to `1009` without `1004`, each at
the clock reading `0`. -/
def reportTestStream : receiverStream :=
  receiverStream.receivePackets sampleRegistry
    (NewReceiverStream "video" emptyStreamOption { emptyCodec with ClockRate := 90000 })
    (([1000, 1001, 1002, 1003, 1005, 1006, 1007, 1008, 1009].map seqPacket).map
      (fun p => (p, (0 : Int))))

/-- The stream of the receiver report test when its codec uses in-band FEC. -/
def fecTestStream : receiverStream := { reportTestStream with useInBandFec := true }

/-- A stream that was sent `1000` and `1001` and got `1001` twice. -/
def duplicateTestStream : receiverStream :=
  receiverStream.receivePackets sampleRegistry
    (NewReceiverStream "video" emptyStreamOption { emptyCodec with ClockRate := 90000 })
    (([1000, 1001, 1001].map seqPacket).map (fun p => (p, (0 : Int))))

end peer

namespace remb

/-! ## Binary floating point

The remote-bitrate estimator computes with `float64`. A finite `float64` number is kept as an
integer significand and a binary exponent, and every operation rounds its exact result to the
nearest number with a 53-bit significand, ties to even. The exponent range is not modelled (no
infinities, no subnormal numbers); the numbers of the estimator stay far inside of it. -/

/-- A finite `float64` number: its value is `m * 2 ^ e`. -/
structure F64 where
  m : Int
  e : Int
  deriving DecidableEq, Repr

namespace F64

/-- Number of binary digits of `n`, counted with the given fuel. -/
def bitsAux : Nat → Nat → Nat
  | 0, _ => 0
  | fuel + 1, n => if n = 0 then 0 else bitsAux fuel (n / 2) + 1

/-- Number of binary digits of `n` (for `n` below `2 ^ 4096`). -/
def bits (n : Nat) : Nat := bitsAux 4096 n

/-- The power `2 ^ k` for `k >= 0`, and `1` for negative `k`. -/
def pow2 (k : Int) : Nat := 2 ^ k.toNat

/-- The exact value `(n / d) * 2 ^ s` rounded to the nearest number with a 53-bit significand,
ties to even. A zero denominator gives zero. -/
def round (n : Int) (d : Nat) (s : Int) : F64 :=
  if n = 0 ∨ d = 0 then ⟨0, 0⟩
  else
    let a := n.natAbs
    let t0 : Int := (bits a : Int) - (bits d : Int) - 53
    let q0 := (a * pow2 (-t0)) / (d * pow2 t0)
    let t : Int := if 9007199254740992 ≤ q0 then t0 + 1 else t0
    let num := a * pow2 (-t)
    let den := d * pow2 t
    let q := num / den
    let r := num % den
    let q1 := if den < 2 * r ∨ (2 * r = den ∧ q % 2 = 1) then q + 1 else q
    if q1 = 9007199254740992 then ⟨n.sign * 4503599627370496, t + s + 1⟩
    else ⟨n.sign * (q1 : Int), t + s⟩

/-- Conversion of an integer to `float64`. -/
def ofInt (n : Int) : F64 := round n 1 0

/-- The constant `0.5`. -/
def half : F64 := round 1 2 0

/-- Product of two `float64` numbers. -/
def mul (a b : F64) : F64 := round (a.m * b.m) 1 (a.e + b.e)

/-- Quotient of two `float64` numbers (the divisor is not zero). -/
def div (a b : F64) : F64 := round (a.m * b.m.sign) b.m.natAbs (a.e - b.e)

/-- Sum of two `float64` numbers. -/
def add (a b : F64) : F64 :=
  let e0 := min a.e b.e
  round (a.m * (pow2 (a.e - e0) : Int) + b.m * (pow2 (b.e - e0) : Int)) 1 e0

/-- The comparison `a < b`. -/
def lt (a b : F64) : Bool :=
  let e0 := min a.e b.e
  decide (a.m * (pow2 (a.e - e0) : Int) < b.m * (pow2 (b.e - e0) : Int))

/-- The integer part of a `float64` number (rounding towards zero). -/
def trunc (a : F64) : Int :=
  if 0 ≤ a.e then a.m * (pow2 a.e : Int) else Int.tdiv a.m (pow2 (-a.e) : Int)

end F64

/-! ## Rate statistics -/

/-- A bucket of the rate window: the samples of one millisecond. -/
structure bucket where
  timestamp : Int
  sum : Int
  numSamples : Int
  deriving DecidableEq, Repr

/-- A new bucket holds no sample. -/
def newBucket (timestamp : Int) : bucket := { timestamp := timestamp, sum := 0, numSamples := 0 }

/-- The rate window of the estimator. -/
structure RateStatistics where
  accumulatedCount : Int
  overflow : Bool
  numSamples : Int
  firstTimestamp : Int
  currentWindowSizeMs : Int
  buckets : List bucket
  scale : F64
  maxWindowSizeMs : Int
  deriving DecidableEq, Repr

namespace RateStatistics

/-- Reset empties the window. -/
def Reset (r : RateStatistics) : RateStatistics :=
  { r with
    accumulatedCount := 0
    overflow := false
    numSamples := 0
    firstTimestamp := -1
    currentWindowSizeMs := r.maxWindowSizeMs
    buckets := [] }

/-- The loop of `eraseOld`: the leading buckets older than `newOldestTime` are taken off the
count and dropped. The result is the remaining buckets, the count and the number of samples. -/
def eraseLoop (newOldestTime : Int) : List bucket → Int → Int → List bucket × Int × Int
  | [], acc, n => ([], acc, n)
  | b :: rest, acc, n =>
    if b.timestamp < newOldestTime then
      eraseLoop newOldestTime rest (toInt64 (acc - b.sum)) (toInt64 (n - b.numSamples))
    else (b :: rest, acc, n)

/-- Drops the buckets that left the window ending at `nowMs`. -/
def eraseOld (r : RateStatistics) (nowMs : Int) : RateStatistics :=
  let newOldestTime := toInt64 (toInt64 (nowMs - r.currentWindowSizeMs) + 1)
  let res := eraseLoop newOldestTime r.buckets r.accumulatedCount r.numSamples
  { r with buckets := res.1, accumulatedCount := res.2.1, numSamples := res.2.2 }

/-- The length of the part of the window that has been observed at `nowMs`. -/
def activeWindowSize (r : RateStatistics) (nowMs : Int) : Int :=
  if r.firstTimestamp ≠ -1 then
    if r.firstTimestamp ≤ toInt64 (nowMs - r.currentWindowSizeMs) then r.currentWindowSizeMs
    else toInt64 (toInt64 (nowMs - r.firstTimestamp) + 1)
  else 0

/-- The `float64` value that `Rate` computes from the count and the active window. -/
def rateValue (scale : F64) (accumulatedCount activeWindowSize : Int) : F64 :=
  F64.add (F64.mul (F64.ofInt accumulatedCount) (F64.div scale (F64.ofInt activeWindowSize)))
    F64.half

/-- The bitrate at `nowMs`, if the window can tell one. The conversion of the result to
`Bitrate` takes the integer part. -/
def Rate (r : RateStatistics) (nowMs : Int) : RateStatistics × Option Int :=
  let r1 := r.eraseOld nowMs
  let activeWindowSize := r1.activeWindowSize nowMs
  if (r1.numSamples = 0 ∨ activeWindowSize ≤ 1 ∨
      (r1.numSamples ≤ 1 ∧ activeWindowSize < r1.currentWindowSizeMs)) ∨ r1.overflow = true then
    (r1, none)
  else
    let result := rateValue r1.scale r1.accumulatedCount activeWindowSize
    if F64.lt (F64.ofInt 9223372036854775807) result then (r1, none)
    else (r1, some (toUint64 (F64.trunc result)))

/-- Adds `payloadSize` and one sample to the last bucket. -/
def bumpLast (payloadSize : Int) : List bucket → List bucket
  | [] => []
  | [b] => [{ b with sum := toInt64 (b.sum + payloadSize)
                     numSamples := toInt64 (b.numSamples + 1) }]
  | b :: c :: rest => b :: bumpLast payloadSize (c :: rest)

/-- Records a sample of `payloadSize` at `nowMs`. -/
def Update (r : RateStatistics) (payloadSize nowMs : Int) : RateStatistics :=
  let r1 := r.eraseOld nowMs
  let r2 : RateStatistics :=
    if r1.firstTimestamp = -1 ∨ r1.numSamples = 0 then { r1 with firstTimestamp := nowMs }
    else r1
  let buckets1 : List bucket :=
    match r2.buckets.getLast? with
    | none => r2.buckets ++ [newBucket nowMs]
    | some lb =>
      if nowMs ≠ lb.timestamp then
        r2.buckets ++ [newBucket (if nowMs < lb.timestamp then lb.timestamp else nowMs)]
      else r2.buckets
  let r3 : RateStatistics := { r2 with buckets := bumpLast payloadSize buckets1 }
  let r4 : RateStatistics :=
    if toInt64 (9223372036854775807 - r3.accumulatedCount) > payloadSize then
      { r3 with accumulatedCount := toInt64 (r3.accumulatedCount + payloadSize) }
    else { r3 with overflow := true }
  { r4 with numSamples := toInt64 (r4.numSamples + 1) }

end RateStatistics

/-- A new rate window of `windowSizeMs` milliseconds. -/
def NewRateStatistics (windowSizeMs : Int) (scale : F64) : RateStatistics :=
  RateStatistics.Reset
    { accumulatedCount := 0
      overflow := false
      numSamples := 0
      firstTimestamp := 0
      currentWindowSizeMs := 0
      buckets := []
      scale := scale
      maxWindowSizeMs := windowSizeMs }

/-- The window after the samples `(payloadSize, nowMs)` of the list, in order. -/
def RateStatistics.updates (r : RateStatistics) : List (Int × Int) → RateStatistics
  | [] => r
  | p :: rest => RateStatistics.updates (r.Update p.1 p.2) rest

/-- The sum of the sizes of the samples `(payloadSize, nowMs)` with `nowMs` after `t`. -/
def sizeAfter (t : Int) (samples : List (Int × Int)) : Int :=
  ((samples.filter (fun p => decide (t < p.2))).map (fun p => p.1)).sum

/-- The sum of the counts of the buckets. -/
def bucketSum (bs : List bucket) : Int := (bs.map (fun b => b.sum)).sum

/-- The sum of the counts of the buckets with a timestamp after `t`. -/
def bucketSumAfter (t : Int) (bs : List bucket) : Int :=
  bucketSum (bs.filter (fun b => decide (t < b.timestamp)))

/-- The sum of the sizes of the samples `(payloadSize, nowMs)`. -/
def sizeTotal (samples : List (Int × Int)) : Int := (samples.map (fun p => p.1)).sum

/-- The times of the samples start at `lo` or later, do not decrease and end at `now` or
before. -/
def timesBetween : Int → List (Int × Int) → Int → Prop
  | lo, [], now => lo ≤ now
  | lo, p :: rest, now => lo ≤ p.2 ∧ timesBetween p.2 rest now

/-- The state of a window of `W` ms after the samples `done`, the last one at `T` or before:
the buckets are in the order of their timestamps, the count is the sum of the buckets, and the
buckets after any `t` not before `T - W` hold the samples after `t`. -/
def RateStatistics.InvAt (W : Int) (scale : F64) (r : RateStatistics) (done : List (Int × Int))
    (T : Int) : Prop :=
  r.currentWindowSizeMs = W ∧ r.overflow = false ∧ r.scale = scale ∧
  -1 ≤ r.firstTimestamp ∧ r.firstTimestamp ≤ T ∧
  (∀ b ∈ r.buckets, b.timestamp ≤ T ∧ 0 ≤ b.sum) ∧
  r.buckets.Pairwise (fun a b => a.timestamp ≤ b.timestamp) ∧
  r.accumulatedCount = bucketSum r.buckets ∧
  r.accumulatedCount ≤ sizeTotal done ∧
  (∀ t, T - W ≤ t → bucketSumAfter t r.buckets = sizeAfter t done)

/-! ## Inter-arrival grouping -/

/-- The deltas between two groups of packets. -/
structure groupDelta where
  tsDelta : Nat
  tDelta : Int
  sizeDelta : Int
  deriving DecidableEq, Repr

/-- A group of packets sent close together. -/
structure timeGroup where
  timestamp : Nat
  firstTimestamp : Nat
  firstArrivalMs : Int
  completeTimeMs : Int
  lastSystemTimeMs : Int
  size : Int
  deriving DecidableEq, Repr

/-- A group is at its first packet until it has a completion time. -/
def timeGroup.firstPacket (g : timeGroup) : Bool := decide (g.completeTimeMs = -1)

/-- A new group is empty. -/
def newTimeGroup : timeGroup :=
  { timestamp := 0, firstTimestamp := 0, firstArrivalMs := -1, completeTimeMs := -1,
    lastSystemTimeMs := 0, size := 0 }

def arrivalTimeOffsetThresholdMs : Int := 3000
def reorderedResetThreshold : Int := 3
def burstDeltaThresholdMs : Int := 5
def maxBurstDurationMs : Int := 100

/-- The grouping state of the inter-arrival filter. -/
structure interArrival where
  currentTimeGroup : timeGroup
  prevTimeGroup : timeGroup
  numConsecutiveReorderedPacket : Int
  burstGrouping : Bool
  timestampToMsCoeff : F64
  timestampGroupLengthTicks : Nat
  deriving DecidableEq, Repr

/-- A new filter has two empty groups. -/
def newInterArrival (timestampGroupLengthTicks : Nat) (timestampToMsCoeff : F64)
    (burstGrouping : Bool) : interArrival :=
  { timestampGroupLengthTicks := timestampGroupLengthTicks
    currentTimeGroup := newTimeGroup
    prevTimeGroup := newTimeGroup
    numConsecutiveReorderedPacket := 0
    timestampToMsCoeff := timestampToMsCoeff
    burstGrouping := burstGrouping }

namespace interArrival

/-- The timestamp is not before the first one of the current group. -/
def packetInOrder (i : interArrival) (timestamp : Nat) : Bool :=
  if i.currentTimeGroup.firstPacket then true
  else decide (sub32 timestamp i.currentTimeGroup.firstTimestamp < 2147483648)

/-- The packet came in the same burst as the current group. -/
def belongsToBurst (i : interArrival) (arrivalTimeMs : Int) (timestamp : Nat) : Bool :=
  if !i.burstGrouping || decide (i.currentTimeGroup.completeTimeMs < 0) then false
  else
    let arrivalTimeDeltaMs := toInt64 (arrivalTimeMs - i.currentTimeGroup.completeTimeMs)
    let timestampDiff := sub32 timestamp i.currentTimeGroup.firstTimestamp
    let tsDeltaMs := toInt64 (F64.trunc
      (F64.add (F64.mul i.timestampToMsCoeff (F64.ofInt timestampDiff)) F64.half))
    if tsDeltaMs = 0 then true
    else
      let propagationDeltaMs := toInt64 (arrivalTimeDeltaMs - tsDeltaMs)
      if propagationDeltaMs < 0 ∧ arrivalTimeDeltaMs ≤ burstDeltaThresholdMs ∧
          toInt64 (arrivalTimeMs - i.currentTimeGroup.firstArrivalMs) < maxBurstDurationMs then
        true
      else false

/-- The packet opens a new group. -/
def newTimestampGroup (i : interArrival) (arriveTimeMs : Int) (timestamp : Nat) : Bool :=
  if i.currentTimeGroup.firstPacket then false
  else if i.belongsToBurst arriveTimeMs timestamp then false
  else decide (sub32 timestamp i.currentTimeGroup.firstTimestamp > i.timestampGroupLengthTicks)

/-- Back to two empty groups. -/
def reset (i : interArrival) : interArrival :=
  { i with
    numConsecutiveReorderedPacket := 0
    currentTimeGroup := newTimeGroup
    prevTimeGroup := newTimeGroup }

/-- The later of two timestamps on the `uint32` circle. -/
def latestTimestamp (timestamp timestamp2 : Nat) : Nat :=
  let breakPoint : Nat := 2147483648
  if sub32 timestamp timestamp2 = breakPoint then
    if timestamp > timestamp2 then timestamp else timestamp2
  else if timestamp = timestamp2 then timestamp
  else if sub32 timestamp timestamp2 < breakPoint then timestamp
  else timestamp2

/-- The end of `computeDeltas`: the packet is counted in the current group. -/
def addToGroup (i : interArrival) (arrivalTimeMs nowMs payloadSize : Int) : interArrival :=
  { i with currentTimeGroup :=
      { i.currentTimeGroup with
        size := toInt64 (i.currentTimeGroup.size + payloadSize)
        completeTimeMs := arrivalTimeMs
        lastSystemTimeMs := nowMs } }

/-- The step that opens a new group: the current group becomes the previous one. -/
def openGroup (i : interArrival) (timestamp : Nat) (arrivalTimeMs : Int) : interArrival :=
  { i with
    prevTimeGroup := i.currentTimeGroup
    currentTimeGroup :=
      { newTimeGroup with
        firstTimestamp := timestamp
        timestamp := timestamp
        firstArrivalMs := arrivalTimeMs }
    numConsecutiveReorderedPacket := 0 }

/-- One packet of the stream: the new grouping state and the delta, if a group closed. -/
def computeDeltas (i : interArrival) (timestamp : Nat) (arrivalTimeMs nowMs payloadSize : Int) :
    interArrival × Option groupDelta :=
  if i.currentTimeGroup.firstPacket then
    let i1 : interArrival :=
      { i with currentTimeGroup :=
          { i.currentTimeGroup with
            timestamp := timestamp
            firstTimestamp := timestamp
            firstArrivalMs := arrivalTimeMs } }
    (i1.addToGroup arrivalTimeMs nowMs payloadSize, none)
  else if !i.packetInOrder timestamp then (i, none)
  else if i.newTimestampGroup arrivalTimeMs timestamp then
    if i.prevTimeGroup.completeTimeMs ≥ 0 then
      let tsDelta := sub32 i.currentTimeGroup.timestamp i.prevTimeGroup.timestamp
      let tDelta := toInt64 (i.currentTimeGroup.completeTimeMs - i.prevTimeGroup.completeTimeMs)
      let systemTimeDeltaMs :=
        toInt64 (i.currentTimeGroup.lastSystemTimeMs - i.prevTimeGroup.lastSystemTimeMs)
      if toInt64 (tDelta - systemTimeDeltaMs) ≥ arrivalTimeOffsetThresholdMs then
        (i.reset, none)
      else if tDelta < 0 then
        let i1 : interArrival :=
          { i with numConsecutiveReorderedPacket := toInt64 (i.numConsecutiveReorderedPacket + 1) }
        if i1.numConsecutiveReorderedPacket ≥ reorderedResetThreshold then (i1.reset, none)
        else (i1, none)
      else
        let delta : groupDelta :=
          { tsDelta := tsDelta
            tDelta := tDelta
            sizeDelta := toInt64 (i.currentTimeGroup.size - i.prevTimeGroup.size) }
        let i1 : interArrival := { i with numConsecutiveReorderedPacket := 0 }
        ((i1.openGroup timestamp arrivalTimeMs).addToGroup arrivalTimeMs nowMs payloadSize,
          some delta)
    else ((i.openGroup timestamp arrivalTimeMs).addToGroup arrivalTimeMs nowMs payloadSize, none)
  else
    let i1 : interArrival :=
      { i with currentTimeGroup :=
          { i.currentTimeGroup with
            timestamp := latestTimestamp i.currentTimeGroup.timestamp timestamp } }
    (i1.addToGroup arrivalTimeMs nowMs payloadSize, none)

end interArrival

/-! ## Probe clusters -/

/-- The duration constants, in microseconds. -/
def Millisecond : Int := 1000

def Second : Int := 1000 * Millisecond

/-- The bitrate of `byteSize` bytes in `duration` microseconds. The conversion of the quotient
to `Bitrate` takes the integer part. -/
def NewBitrate (byteSize duration : Int) : Int :=
  toUint64 (F64.trunc (F64.div (F64.mul (F64.ofInt (toInt64 (byteSize * 8))) (F64.ofInt Second))
    (F64.ofInt duration)))

/-- A cluster of probe packets. -/
structure Cluster where
  numAboveMinDelta : Int
  recvMean : Int
  sendMean : Int
  meanSize : Int
  count : Int
  deriving DecidableEq, Repr

namespace Cluster

def SendBitrate (c : Cluster) : Int := NewBitrate c.meanSize (toInt64 (c.sendMean * Millisecond))

def RecvBitrate (c : Cluster) : Int := NewBitrate c.meanSize (toInt64 (c.recvMean * Millisecond))

/-- The validity test of `findBestProbe` on a cluster. -/
def valid (c : Cluster) : Bool :=
  decide (c.numAboveMinDelta > Int.tdiv c.count 2) &&
    decide (toInt64 (c.recvMean - c.sendMean) ≤ 2) &&
    decide (toInt64 (c.sendMean - c.recvMean) ≤ 5)

/-- The probe bitrate of a cluster: the lower one of its send and receive bitrates. -/
def probeBitrate (c : Cluster) : Int :=
  if c.SendBitrate > c.RecvBitrate then c.RecvBitrate else c.SendBitrate

end Cluster

/-- The loop of `findBestProbe` from the highest bitrate and the best cluster so far. -/
def findBestLoop : List Cluster → Int → Option Cluster → Option Cluster
  | [], _, best => best
  | cluster :: rest, highestProbeBitrate, best =>
    if cluster.sendMean = 0 ∨ cluster.recvMean = 0 then
      findBestLoop rest highestProbeBitrate best
    else if cluster.valid then
      if cluster.probeBitrate > highestProbeBitrate then
        findBestLoop rest cluster.probeBitrate (some cluster)
      else findBestLoop rest highestProbeBitrate best
    else best

/-- The best probe cluster of the list, if there is one. -/
def findBestProbe (clusters : List Cluster) : Option Cluster := findBestLoop clusters 0 none

/-- The clusters that the loop of `findBestProbe` looks at: those before the first cluster with
non-zero means that fails the validity test. -/
def probePrefix (clusters : List Cluster) : List Cluster :=
  clusters.takeWhile (fun c => decide (c.sendMean = 0 ∨ c.recvMean = 0) || c.valid)

/-- The clusters of the prefix that have non-zero means. -/
def probeCandidates (clusters : List Cluster) : List Cluster :=
  (probePrefix clusters).filter (fun c => !decide (c.sendMean = 0 ∨ c.recvMean = 0))

/-- The clusters of the whole list that have non-zero means and pass the validity test. -/
def validClusters (clusters : List Cluster) : List Cluster :=
  clusters.filter (fun c => !decide (c.sendMean = 0 ∨ c.recvMean = 0) && c.valid)

/-- A cluster that fails the validity test: none of its deltas is above the minimum. -/
def slowCluster : Cluster :=
  { numAboveMinDelta := 0, recvMean := 10, sendMean := 10, meanSize := 1000, count := 4 }

/-- A valid cluster of `1000`-byte probes every `10` ms. -/
def goodCluster : Cluster :=
  { numAboveMinDelta := 4, recvMean := 10, sendMean := 10, meanSize := 1000, count := 4 }

end remb

namespace remb

/-- The grouping state after the packets `(timestamp, arrivalTimeMs, nowMs, payloadSize)` of
the list, in order. -/
def interArrival.run (i : interArrival) : List (Nat × Int × Int × Int) → interArrival
  | [] => i
  | p :: rest => interArrival.run (i.computeDeltas p.1 p.2.1 p.2.2.1 p.2.2.2).1 rest

/-- The filter of the receiver: groups of `5` ms in ticks of `2 ^ -26` s, with burst
grouping. -/
def sampleArrival : interArrival :=
  newInterArrival 335544 (F64.div (F64.ofInt 1000) (F64.ofInt 67108864)) true

/-- Two groups, the second one `6` ms after the first. -/
def twoGroups : interArrival := sampleArrival.run [(0, 17, 17, 1), (400000, 23, 23, 2)]

/-- Two groups whose arrival times are `5000` ms apart while the system clock moved `6` ms. -/
def jumpGroups : interArrival := sampleArrival.run [(0, 17, 17, 1), (400000, 5017, 23, 2)]

/-- Two groups, the second one completed by a packet that arrived before the first group. -/
def reorderedGroups : interArrival :=
  sampleArrival.run [(0, 17, 17, 1), (400000, 30, 30, 2), (400001, 10, 31, 1)]

end remb

namespace sdp

/-! ## Session descriptions

A Go string is kept as the list of its characters (the model is used on ASCII text, where the
bytes of the string and its characters agree). A call has one of four outcomes: a value, a
returned error, a run-time panic, or a line that is handled by a parser outside of this model
(`extmap`, `candidate`, `fingerprint`, `setup`, `rtcp-fb`, `msid`). The fields of the transport
and of the header extensions, which only these parsers and the ICE attributes write, are left
out of the description. -/

/-- A Go string. -/
abbrev Str := List Char

/-- The errors that `Unmarshal` returns. -/
inductive SdpError where
  | ErrSDPParseFail
  | ErrUnknownSection
  | ErrEmptySDP
  | ErrInvalidFID
  | ErrAtoi
  deriving DecidableEq, Repr

/-- The outcome of a call. -/
inductive Outcome (α : Type) where
  | ok : α → Outcome α
  | error : SdpError → Outcome α
  | panic : Outcome α
  | unmodelled : Outcome α
  deriving DecidableEq, Repr

/-- Sequencing of two calls: the first outcome that is not a value ends the run. -/
def Outcome.bind {α β : Type} (x : Outcome α) (f : α → Outcome β) : Outcome β :=
  match x with
  | Outcome.ok a => f a
  | Outcome.error e => Outcome.error e
  | Outcome.panic => Outcome.panic
  | Outcome.unmodelled => Outcome.unmodelled

/-- The string `strings.TrimSuffix(s, suffix)`. -/
def trimSuffix (s suffix : Str) : Str :=
  if suffix.isSuffixOf s then s.take (s.length - suffix.length) else s

/-- The string `strings.ReplaceAll(s, "\r\n", "\n")`. -/
def replaceCRLF : Str → Str
  | [] => []
  | [c] => [c]
  | c :: d :: rest =>
    if c = '\r' ∧ d = '\n' then '\n' :: replaceCRLF rest else c :: replaceCRLF (d :: rest)

/-- The list `strings.Split(s, sep)` for a separator of one character; `cur` holds the part
that is being read, in reverse. -/
def splitLoop (sep : Char) : Str → Str → List Str
  | [], cur => [cur.reverse]
  | c :: rest, cur =>
    if c = sep then cur.reverse :: splitLoop sep rest [] else splitLoop sep rest (c :: cur)

def split (s : Str) (sep : Char) : List Str := splitLoop sep s []

/-- The list `strings.SplitN(s, sep, 2)`: `cur` holds the first part, in reverse. -/
def splitTwoLoop (sep : Char) : Str → Str → List Str
  | [], cur => [cur.reverse]
  | c :: rest, cur => if c = sep then [cur.reverse, rest] else splitTwoLoop sep rest (c :: cur)

def splitN2 (s : Str) (sep : Char) : List Str := splitTwoLoop sep s []

/-- The test `strings.Contains(s, sub)`. -/
def containsStr (sub : Str) : Str → Bool
  | [] => sub.isEmpty
  | c :: rest => sub.isPrefixOf (c :: rest) || containsStr sub rest

/-- The index of the first `c` in `s` from position `i` on. -/
def indexFrom (c : Char) : Str → Nat → Option Nat
  | [], _ => none
  | d :: rest, i => if d = c then some i else indexFrom c rest (i + 1)

/-- White space of `strings.TrimSpace` (in Latin-1). -/
def isSpace (c : Char) : Bool :=
  c = ' ' || c = '\t' || c = '\n' || c = '\r' || c.toNat = 11 || c.toNat = 12 ||
    c.toNat = 133 || c.toNat = 160

def trimSpace (s : Str) : Str :=
  ((s.dropWhile isSpace).reverse.dropWhile isSpace).reverse

/-- The value of a string of decimal digits, if it is one and not empty. -/
def digitsValue : Str → Nat → Option Nat
  | [], acc => some acc
  | c :: rest, acc =>
    if c.isDigit then digitsValue rest (acc * 10 + (c.toNat - 48)) else none

/-- The result of `strconv.Atoi`: an optional sign and decimal digits, in the range of `int`. -/
def atoi (s : Str) : Option Int :=
  let body : Str := match s with
    | '+' :: rest => rest
    | '-' :: rest => rest
    | _ => s
  let neg : Bool := match s with
    | '-' :: _ => true
    | _ => false
  if body.isEmpty then none
  else match digitsValue body 0 with
    | none => none
    | some n =>
      let v : Int := if neg then -(n : Int) else (n : Int)
      if -9223372036854775808 ≤ v ∧ v ≤ 9223372036854775807 then some v else none

/-- Conversion of an `int` to `uint8`. -/
def toUint8 (x : Int) : Nat := (x % 256).toNat

/-- Stream identification of one SSRC. -/
structure ssrcInfo where
  SSRC : Nat
  RTX : Nat
  Cname : Str
  StreamID : Str
  TrackID : Str
  Label : Str
  MsLabel : Str
  deriving DecidableEq, Repr

/-- A codec of a media section; `Parameters` is `none` for the nil map. -/
structure Codec where
  PayloadType : Nat
  EncoderName : Str
  ClockRate : Int
  Channel : Int
  Parameters : Option (List (Str × Str))
  RTX : Nat
  deriving DecidableEq, Repr

structure ssrcGroup where
  Semantics : Str
  SSRCs : List Nat
  deriving DecidableEq, Repr

structure ridDescription where
  rid : Str
  ridDirection : Str
  deriving DecidableEq, Repr

structure StreamParams where
  SSRC : Nat
  RTX : Nat
  Cname : Str
  RID : Str
  deriving DecidableEq, Repr

/-- A media section. The maps `Codecs` and `ssrcInfo` hold pointers: a missing key reads as the
nil pointer. The maps are iterated in the order of the list (Go leaves the order open). -/
structure MediaDescription where
  MediaType : Str
  MID : Str
  RtcpMux : Bool
  RtcpReducedSize : Bool
  Direction : Str
  Codecs : List (Nat × Codec)
  TrackID : Str
  Streams : List StreamParams
  ssrcInfo : List (Nat × ssrcInfo)
  ssrcGroup : List ssrcGroup
  rids : List ridDescription
  deriving DecidableEq, Repr

structure SessionDescription where
  ExtmapAllowMixed : Bool
  MediaDescription : List MediaDescription
  deriving DecidableEq, Repr

namespace MediaDescription

/-- The loop of `updateCodec` over the parameters of one `rtx` codec with payload type `pt`. -/
def aptLoop (pt : Nat) : List (Str × Str) → MediaDescription → Outcome MediaDescription
  | [], d => Outcome.ok d
  | (k, p) :: rest, d =>
    if k = "apt".toList then
      match atoi p with
      | none => Outcome.error SdpError.ErrAtoi
      | some apt =>
        match gmGet d.Codecs (toUint8 apt) with
        | none => Outcome.panic
        | some c =>
          aptLoop pt rest { d with Codecs := gmSet d.Codecs (toUint8 apt) { c with RTX := pt } }
    else aptLoop pt rest d

/-- The loop of `updateCodec` over the payload types of the map. -/
def codecLoop : List Nat → MediaDescription → Outcome MediaDescription
  | [], d => Outcome.ok d
  | pt :: rest, d =>
    match gmGet d.Codecs pt with
    | none => codecLoop rest d
    | some v =>
      if v.EncoderName = "rtx".toList then
        (aptLoop pt (v.Parameters.getD []) d).bind (codecLoop rest)
      else codecLoop rest d

/-- Links every `rtx` codec to the codec that its `apt` parameter names. -/
def updateCodec (d : MediaDescription) : Outcome MediaDescription :=
  codecLoop (d.Codecs.map (fun p => p.1)) d

/-- The loop of `updateSendStreams` over the SSRC groups. -/
def fidLoop : List sdp.ssrcGroup → MediaDescription → Outcome MediaDescription
  | [], d => Outcome.ok d
  | sg :: rest, d =>
    if sg.Semantics = "FID".toList then
      match sg.SSRCs with
      | [s0, s1] =>
        match gmGet d.ssrcInfo s0 with
        | none => Outcome.panic
        | some info =>
          fidLoop rest
            { d with ssrcInfo := gmDel (gmSet d.ssrcInfo s0 { info with RTX := s1 }) s1 }
      | _ => Outcome.error SdpError.ErrInvalidFID
    else fidLoop rest d

/-- The streams of the SSRCs, and the track id of the last one. -/
def streamLoop : List (Nat × sdp.ssrcInfo) → MediaDescription → MediaDescription
  | [], d => d
  | (_, ssrc) :: rest, d =>
    streamLoop rest
      { d with
        Streams := d.Streams ++ [{ SSRC := ssrc.SSRC, RTX := ssrc.RTX, Cname := ssrc.Cname,
                                   RID := [] }]
        TrackID := ssrc.TrackID }

/-- Builds the streams of the section from its SSRCs and its RIDs. -/
def updateSendStreams (d : MediaDescription) : Outcome MediaDescription :=
  let r1 : Outcome MediaDescription :=
    if d.ssrcInfo.length ≠ 0 then
      (fidLoop d.ssrcGroup d).bind (fun d1 => Outcome.ok (streamLoop d1.ssrcInfo d1))
    else Outcome.ok d
  r1.bind (fun d2 =>
    if d2.rids.length ≠ 0 then
      Outcome.ok { d2 with Streams := (d2.Streams ++ d2.rids.map (fun rid =>
        ({ SSRC := 0, RTX := 0, Cname := [], RID := rid.rid } : StreamParams))) }
    else Outcome.ok d2)

end MediaDescription

def isValidLine (line : Str) : Bool :=
  decide (line.length ≥ 3) && decide (line.get? 1 = some '=')

def getAttr (line : Str) : Str :=
  if line.length < 3 then []
  else match indexFrom ':' line 0 with
    | none => line.drop 2
    | some index => (line.take index).drop 2

/-- The value behind the colon of `kv`, when the name before it ends in `attr`. -/
def getValue (kv attr : Str) : Outcome Str :=
  match splitN2 kv ':' with
  | [name, value] =>
    if attr.isSuffixOf name then Outcome.ok value else Outcome.error SdpError.ErrSDPParseFail
  | _ => Outcome.error SdpError.ErrSDPParseFail

def isRTPProtocol (protocol : Str) : Bool :=
  if protocol.length = 0 then true else containsStr "RTP/".toList protocol

/-- Applies `f` to the last media section; there is none only before the first `m=` line, where
the index `len - 1` is out of range. -/
def onLastMedia (sdp : SessionDescription)
    (f : MediaDescription → Outcome MediaDescription) : Outcome SessionDescription :=
  match sdp.MediaDescription.getLast? with
  | none => Outcome.panic
  | some m =>
    (f m).bind (fun m1 =>
      Outcome.ok { sdp with MediaDescription := sdp.MediaDescription.dropLast ++ [m1] })

/-- The loop of `parseMline` over the payload types of the line. -/
def mlineLoop : List Str → List (Nat × Codec) → Outcome (List (Nat × Codec))
  | [], codecs => Outcome.ok codecs
  | f :: rest, codecs =>
    match atoi f with
    | none => Outcome.error SdpError.ErrAtoi
    | some pt =>
      mlineLoop rest (gmSet codecs (toUint8 pt)
        { PayloadType := toUint8 pt, EncoderName := [], ClockRate := 0, Channel := 0,
          Parameters := none, RTX := 0 })

def parseMline (line : Str) (sdp : SessionDescription) : Outcome SessionDescription :=
  let fields := split (line.drop 2) ' '
  if fields.length < 4 then Outcome.error SdpError.ErrSDPParseFail
  else
    let codecs : Outcome (List (Nat × Codec)) :=
      if isRTPProtocol (fields.getD 2 []) then mlineLoop (fields.drop 3) [] else Outcome.ok []
    codecs.bind (fun cs =>
      Outcome.ok { sdp with MediaDescription := (sdp.MediaDescription ++
        [{ MediaType := fields.getD 0 [], MID := [], RtcpMux := false, RtcpReducedSize := false,
           Direction := [], Codecs := cs, TrackID := [], Streams := [], ssrcInfo := [],
           ssrcGroup := [], rids := [] }]) })

def rtpmapParser (line : Str) (sdp : SessionDescription) : Outcome SessionDescription :=
  let fields := split (line.drop 2) ' '
  if fields.length < 2 then Outcome.error SdpError.ErrSDPParseFail
  else
    (getValue (fields.getD 0 []) "rtpmap".toList).bind (fun pt =>
      match atoi pt with
      | none => Outcome.error SdpError.ErrAtoi
      | some payloadType =>
        onLastMedia sdp (fun m =>
          match gmGet m.Codecs (toUint8 payloadType) with
          | none => Outcome.error SdpError.ErrSDPParseFail
          | some codec =>
            let codecParams := split (fields.getD 1 []) '/'
            if codecParams.length < 2 ∨ codecParams.length > 3 then
              Outcome.error SdpError.ErrSDPParseFail
            else
              match atoi (codecParams.getD 1 []) with
              | none => Outcome.error SdpError.ErrAtoi
              | some clockRate =>
                let channel : Outcome Int :=
                  if m.MediaType = "audio".toList ∧ codecParams.length = 3 then
                    match atoi (codecParams.getD 2 []) with
                    | none => Outcome.error SdpError.ErrAtoi
                    | some ch => Outcome.ok ch
                  else Outcome.ok 1
                channel.bind (fun ch =>
                  Outcome.ok { m with Codecs := (gmSet m.Codecs (toUint8 payloadType)
                    { codec with EncoderName := codecParams.getD 0 [], ClockRate := clockRate,
                                 Channel := ch }) })))

/-- The loop of `fmtpParser` over the parameters of the line. -/
def fmtpLoop : List Str → List (Str × Str) → Outcome (List (Str × Str))
  | [], ps => Outcome.ok ps
  | v :: rest, ps =>
    let c := trimSpace v
    if c ≠ [] then
      match split c '=' with
      | [k] => fmtpLoop rest (gmSet ps k [])
      | [k, x] => fmtpLoop rest (gmSet ps k x)
      | _ => Outcome.error SdpError.ErrSDPParseFail
    else fmtpLoop rest ps

def fmtpParser (line : Str) (sdp : SessionDescription) : Outcome SessionDescription :=
  match splitN2 (line.drop 2) ' ' with
  | [f0, f1] =>
    (getValue f0 "fmtp".toList).bind (fun payloadStr =>
      match atoi payloadStr with
      | none => Outcome.error SdpError.ErrAtoi
      | some payloadType =>
        onLastMedia sdp (fun m =>
          match gmGet m.Codecs (toUint8 payloadType) with
          | none => Outcome.error SdpError.ErrSDPParseFail
          | some codec =>
            (fmtpLoop (split f1 ';') (codec.Parameters.getD [])).bind (fun ps =>
              Outcome.ok { m with Codecs := (gmSet m.Codecs (toUint8 payloadType)
                { codec with Parameters := some ps }) })))
  | _ => Outcome.error SdpError.ErrSDPParseFail

def ssrcParser (line : Str) (sdp : SessionDescription) : Outcome SessionDescription :=
  match splitN2 (line.drop 2) ' ' with
  | [f0, f1] =>
    (getValue f0 "ssrc".toList).bind (fun v =>
      match atoi v with
      | none => Outcome.error SdpError.ErrAtoi
      | some ssrcInt =>
        let ssrc := toUint32 ssrcInt
        match splitN2 f1 ':' with
        | [a0, a1] =>
          onLastMedia sdp (fun m =>
            let info : ssrcInfo := (gmGet m.ssrcInfo ssrc).getD
              { SSRC := ssrc, RTX := 0, Cname := [], StreamID := [], TrackID := [], Label := [],
                MsLabel := [] }
            let info1 : ssrcInfo :=
              if a0 = "cname".toList then { info with Cname := a1 }
              else if a0 = "msid".toList then
                let msidFields := split a1 ' '
                if msidFields.length = 2 then
                  { info with StreamID := msidFields.getD 0 [], TrackID := f1 }
                else { info with StreamID := msidFields.getD 0 [] }
              else if a0 = "mslabel".toList then { info with MsLabel := a1 }
              else if a0 = "label".toList then { info with Label := a1 }
              else info
            Outcome.ok { m with ssrcInfo := gmSet m.ssrcInfo ssrc info1 })
        | _ => Outcome.error SdpError.ErrSDPParseFail)
  | _ => Outcome.error SdpError.ErrSDPParseFail

/-- The loop of `ssrcGroupParser` over the SSRCs of the line. -/
def ssrcGroupLoop : List Str → List Nat → Outcome (List Nat)
  | [], acc => Outcome.ok acc
  | f :: rest, acc =>
    match atoi f with
    | none => Outcome.error SdpError.ErrAtoi
    | some v => ssrcGroupLoop rest (acc ++ [toUint32 v])

def ssrcGroupParser (line : Str) (sdp : SessionDescription) : Outcome SessionDescription :=
  let fields := split (line.drop 2) ' '
  if fields.length < 2 then Outcome.error SdpError.ErrSDPParseFail
  else
    onLastMedia sdp (fun m =>
      (getValue (fields.getD 0 []) "ssrc-group".toList).bind (fun semantics =>
        (ssrcGroupLoop (fields.drop 1) []).bind (fun ssrcs =>
          Outcome.ok { m with ssrcGroup := (m.ssrcGroup ++
            [{ Semantics := semantics, SSRCs := ssrcs }]) })))

def ridParser (line : Str) (sdp : SessionDescription) : Outcome SessionDescription :=
  onLastMedia sdp (fun m =>
    if line.length = 2 + 3 then Outcome.error SdpError.ErrSDPParseFail
    else
      let tokens := split (line.drop (2 + 3 + 1)) ' '
      if tokens.length < 2 ∨ tokens.length > 3 then Outcome.error SdpError.ErrSDPParseFail
      else if (tokens.getD 0 []).length > 16 ∨ tokens.getD 0 [] = [] then
        Outcome.error SdpError.ErrSDPParseFail
      else if tokens.getD 1 [] ≠ "send".toList ∧ tokens.getD 1 [] ≠ "recv".toList then
        Outcome.error SdpError.ErrSDPParseFail
      else
        Outcome.ok { m with rids := (m.rids ++
          [{ rid := tokens.getD 0 [], ridDirection := tokens.getD 1 [] }]) })

def midParser (line : Str) (sdp : SessionDescription) : Outcome SessionDescription :=
  (getValue line "mid".toList).bind (fun v =>
    onLastMedia sdp (fun m => Outcome.ok { m with MID := v }))

/-- The parsers that store the value of the line in the transport only. -/
def valueParser (attr : Str) (line : Str) (sdp : SessionDescription) :
    Outcome SessionDescription :=
  (getValue line attr).bind (fun _ => Outcome.ok sdp)

/-- The parser of an attribute line of a media section, applied to the line. -/
def mediaAttributeParser (line : Str) (sdp : SessionDescription) : Outcome SessionDescription :=
  let attr := getAttr line
  if attr = [] then Outcome.error SdpError.ErrSDPParseFail
  else if attr = "extmap".toList then Outcome.unmodelled
  else if attr = "rtpmap".toList then rtpmapParser line sdp
  else if attr = "fmtp".toList then fmtpParser line sdp
  else if attr = "mid".toList then midParser line sdp
  else if attr = "rtcp-mux".toList then
    onLastMedia sdp (fun m => Outcome.ok { m with RtcpMux := true })
  else if attr = "rtcp-rsize".toList then
    onLastMedia sdp (fun m => Outcome.ok { m with RtcpReducedSize := true })
  else if attr = "ice-ufrag".toList then valueParser "ice-ufrag".toList line sdp
  else if attr = "ice-pwd".toList then valueParser "ice-pwd".toList line sdp
  else if attr = "ice-lite".toList then Outcome.ok sdp
  else if attr = "ice-options".toList then valueParser "ice-options".toList line sdp
  else if attr = "candidate".toList then Outcome.unmodelled
  else if attr = "end-of-candidates".toList then Outcome.ok sdp
  else if attr = "fingerprint".toList then Outcome.unmodelled
  else if attr = "setup".toList then Outcome.unmodelled
  else if attr = "recvonly".toList ∨ attr = "sendonly".toList ∨ attr = "sendrecv".toList ∨
      attr = "inactive".toList then
    onLastMedia sdp (fun m => Outcome.ok { m with Direction := line.drop 2 })
  else if attr = "rtcp-fb".toList then Outcome.unmodelled
  else if attr = "ssrc".toList then ssrcParser line sdp
  else if attr = "ssrc-group".toList then ssrcGroupParser line sdp
  else if attr = "simulcast".toList then Outcome.ok sdp
  else if attr = "rid".toList then ridParser line sdp
  else if attr = "msid".toList then Outcome.unmodelled
  else if attr = "rtcp".toList then Outcome.ok sdp
  else Outcome.error SdpError.ErrSDPParseFail

/-- The parser of an attribute line of the session section, applied to the line. -/
def sessionAttributeParser (line : Str) (sdp : SessionDescription) :
    Outcome SessionDescription :=
  let attr := getAttr line
  if attr = [] then Outcome.error SdpError.ErrSDPParseFail
  else if attr = "group".toList then Outcome.ok sdp
  else if attr = "msid-semantic".toList then Outcome.ok sdp
  else if attr = "extmap-allow-mixed".toList then Outcome.ok { sdp with ExtmapAllowMixed := true }
  else if attr = "ice-ufrag".toList then valueParser "ice-ufrag".toList line sdp
  else if attr = "ice-pwd".toList then valueParser "ice-pwd".toList line sdp
  else if attr = "ice-lite".toList then Outcome.ok sdp
  else if attr = "ice-options".toList then valueParser "ice-options".toList line sdp
  else if attr = "candidate".toList then Outcome.unmodelled
  else if attr = "end-of-candidates".toList then Outcome.ok sdp
  else if attr = "fingerprint".toList then Outcome.unmodelled
  else if attr = "setup".toList then Outcome.unmodelled
  else Outcome.error SdpError.ErrSDPParseFail

/-- The parser of a line of the session section, by the type of the line. -/
def sessionParser (line : Str) (sdp : SessionDescription) : Outcome SessionDescription :=
  let lineType := line.take 1
  if lineType ∈ ["v".toList, "o".toList, "s".toList, "i".toList, "u".toList, "p".toList,
      "e".toList, "c".toList, "b".toList, "t".toList, "r".toList, "z".toList, "k".toList] then
    Outcome.ok sdp
  else if lineType = "a".toList then sessionAttributeParser line sdp
  else Outcome.error SdpError.ErrSDPParseFail

/-- The lines of the session section, up to the first `m=` line or the end: the result holds
the lines that are left. -/
def parseSession : List Str → SessionDescription → Outcome (SessionDescription × List Str)
  | [], sdp => Outcome.ok (sdp, [])
  | line :: rest, sdp =>
    if !isValidLine line then Outcome.error SdpError.ErrSDPParseFail
    else if line.take 1 = "m".toList then Outcome.ok (sdp, line :: rest)
    else
      match sessionParser line sdp with
      | Outcome.ok sdp1 => parseSession rest sdp1
      | Outcome.error e => Outcome.error e
      | Outcome.panic => Outcome.panic
      | Outcome.unmodelled => Outcome.unmodelled

/-- The media sections: the loop of `Unmarshal` in the media state, with `parseMedia`. Every
`m=` line goes to `parseMline` and every other line to the parser of its type. -/
def parseMedia : List Str → SessionDescription → Outcome SessionDescription
  | [], sdp => Outcome.ok sdp
  | line :: rest, sdp =>
    if !isValidLine line then Outcome.error SdpError.ErrSDPParseFail
    else
      let step : Outcome SessionDescription :=
        if line.take 1 = "m".toList then parseMline line sdp
        else if line.take 1 = "c".toList ∨ line.take 1 = "b".toList then Outcome.ok sdp
        else if line.take 1 = "a".toList then mediaAttributeParser line sdp
        else Outcome.error SdpError.ErrSDPParseFail
      match step with
      | Outcome.ok sdp1 => parseMedia rest sdp1
      | Outcome.error e => Outcome.error e
      | Outcome.panic => Outcome.panic
      | Outcome.unmodelled => Outcome.unmodelled

/-- The last loop of `Unmarshal`: the streams and the codecs of every media section. -/
def updateLoop : List MediaDescription → Outcome (List MediaDescription)
  | [] => Outcome.ok []
  | media :: rest =>
    (media.updateSendStreams.bind MediaDescription.updateCodec).bind (fun m1 =>
      (updateLoop rest).bind (fun ms => Outcome.ok (m1 :: ms)))

/-- The session description of an SDP text. -/
def Unmarshal (sdp : Str) : Outcome SessionDescription :=
  let raw := replaceCRLF (trimSuffix (trimSuffix sdp "\r\n".toList) "\n".toList)
  if raw = [] then Outcome.error SdpError.ErrEmptySDP
  else
    (parseSession (split raw '\n') { ExtmapAllowMixed := false, MediaDescription := [] }).bind
      (fun r =>
        (parseMedia r.2 r.1).bind (fun sd =>
          (updateLoop sd.MediaDescription).bind (fun ms =>
            Outcome.ok { sd with MediaDescription := ms })))

/-- An SDP text whose `rtx` codec names the payload type `96`, which the `m=` line does not
declare. -/
def aptUndeclared : Str :=
  "v=0\nm=video 9 UDP/TLS/RTP/SAVPF 97\na=rtpmap:97 rtx/90000\na=fmtp:97 apt=96".toList

/-- An SDP text whose `FID` group names the SSRC `2`, which no `a=ssrc` line declares. -/
def fidUndeclared : Str :=
  "v=0\nm=video 9 UDP/TLS/RTP/SAVPF 96\na=ssrc:1 cname:x\na=ssrc-group:FID 2 3".toList

/-- The texts with declared references. -/
def aptDeclared : Str :=
  "v=0\nm=video 9 UDP/TLS/RTP/SAVPF 96 97\na=rtpmap:97 rtx/90000\na=fmtp:97 apt=96".toList

end sdp

namespace nack

/-- A receiver that waits for the packet `10`: it was requested once, at `1000` ms, and the
round-trip time is `100` ms. -/
def waitingReceiver : receiver :=
  { NewReceiver with
    lastSeq := 11
    nackList := [{ seq := 10, sentAtMs := 1000, sentAtSeq := 11, retries := 1, keyframe := false,
                   rtx := false }] }

/-- A receiver at the packet `19000` that holds the given recovered sequence numbers. -/
def recoveringReceiver (recovered : List Nat) : receiver :=
  { NewReceiver with lastSeq := 19000, recoverList := recovered }

end nack

namespace peer

/-- An RTX stream that has received the packets `65535` and `0`. -/
def wrappedRtxStream : RtxStream :=
  (((NewRtxStream
      { EncodingIdx := 0, Ssrc := 1234, PayloadType := 100, ClockRate := 90000, Rrid := "",
        Cname := "" }).ReceivePacket (seqPacket 65535) 0).1.ReceivePacket (seqPacket 0) 0).1

/-- A media stream that has received the packets `65535` and `0`. -/
def wrappedStream : internalStream :=
  ((newStream "video" emptyStreamOption emptyCodec).receivePackets
    [seqPacket 65535, seqPacket 0]).1

end peer

namespace remb

/-- Constant `InterArrivalShift`. -/
def InterArrivalShift : Nat := 18 + 8

/-- The send delta that `incomingPacketInfo` hands to the detector:
`1000 * delta.tsDelta / 1 << InterArrivalShift` on `uint32`, where `*`, `/` and `<<` have the
same precedence and are read from the left. -/
def tsDeltaMs (tsDelta : Nat) : Nat :=
  (((1000 * tsDelta) % 4294967296 / 1) * 2 ^ InterArrivalShift) % 4294967296

/-- The send delta that the detector gets for a packet, when the packet closes a group. -/
def interArrival.detectorDelta (i : interArrival) (timestamp : Nat)
    (arrivalTimeMs nowMs payloadSize : Int) : Option Nat :=
  (i.computeDeltas timestamp arrivalTimeMs nowMs payloadSize).2.map (fun d => tsDeltaMs d.tsDelta)

end remb

namespace peer

/-- A producer stream of the given SSRC whose last sender report carried the NTP time `ntp` and
the RTP timestamp `ts`. -/
def reportStream (ssrc ntp : Nat) (ts : Int) : receiverStream :=
  { layerStream ssrc ntp with lastSenderReportTS := ts }

/-- A connected simulcast consumer with the clock rate `clock` over two layers: the reference
layer `0` with the sender report `(ntp1, ts1)` and the target layer `1` with `(ntp2, ts2)`. It
forwards layer `0` and waits to switch to layer `1`. -/
def offsetConsumer (clock : Int) (ntp1 : Nat) (ts1 : Int) (ntp2 : Nat) (ts2 : Int) :
    SimulcastConsumer :=
  { sampleSimulcast with
    sender := { sampleSimulcast.sender with
      rtpStream := { sampleSimulcast.sender.rtpStream with
        codec := { sampleCodec with ClockRate := clock } }
      producerRTPStreams := [reportStream 1000 ntp1 ts1, reportStream 1001 ntp2 ts2] }
    currentSpatialLayer := 0
    targetSpatialLayer := 1
    tsReferenceSpatialLayer := 0 }

/-- A key frame of the layer `1` with the RTP timestamp `99010`. -/
def targetLayerPacket : rtpPacket :=
  { samplePacket 10 true with SSRC := 1001, Timestamp := 99010 }

end peer

namespace codec

/-! ## Payload descriptors

A payload is the list of its bytes. A parser gives `none` when it reads at an index that the
payload does not have (the run-time panic of the slice access), `some none` for the nil
descriptor and `some (some k)` for a descriptor whose `IsKeyFrame()` answers `k`. A mask test
such as `b & 0x80 > 0` is written on the bit: `b / 128 % 2 = 1`. -/

namespace vp8

/-- The index after the extension bytes of the VP8 descriptor, from the byte `x` at index `1`:
`none` when the byte of the picture ID is read beyond the payload. -/
def extensionEnd (data : List Nat) (x : Nat) : Option Nat :=
  let hasPictureID := decide (x / 128 % 2 = 1)
  let hasTl0PicIdx := decide (x / 64 % 2 = 1)
  let hasTID := decide (x / 32 % 2 = 1)
  let hasKeyIdx := decide (x / 16 % 2 = 1)
  let afterPicture : Option Nat :=
    if hasPictureID then
      match data.get? 2 with
      | none => none
      | some y => if y / 128 % 2 = 1 then some 4 else some 3
    else some 2
  afterPicture.map (fun i =>
    let i1 := if hasTl0PicIdx then i + 1 else i
    if hasTID || hasKeyIdx then i1 + 1 else i1)

/-- Function `parsePayload` of the VP8 codec. -/
def parsePayload (data : List Nat) : Option (Option Bool) :=
  if data.length < 2 then some none
  else
    match data.get? 0 with
    | none => none
    | some b =>
      let extension := decide (b / 128 % 2 = 1)
      let beginningOfPartition := decide (b / 16 % 2 = 1)
      let partitionID := b % 8
      let index : Option Nat :=
        if extension then
          match data.get? 1 with
          | none => none
          | some x => extensionEnd data x
        else some 1
      match index with
      | none => none
      | some i =>
        let isFirstPacketInFrame := beginningOfPartition && decide (partitionID = 0)
        if isFirstPacketInFrame then
          match data.get? i with
          | none => none
          | some z => some (some (decide (z % 2 = 0)))
        else some (some false)

end vp8

namespace vp9

/-- Function `parsePayload` of the VP9 codec. -/
def parsePayload (data : List Nat) : Option (Option Bool) :=
  match data.get? 0 with
  | none => none
  | some firstByte =>
    let p := decide (firstByte / 64 % 2 = 1)
    let l := decide (firstByte / 32 % 2 = 1)
    let b := decide (firstByte / 8 % 2 = 1)
    let index : Option Nat :=
      if firstByte / 128 % 2 = 1 then
        match data.get? 1 with
        | none => none
        | some x => if x / 128 % 2 = 1 then some 2 else some 1
      else some 0
    match index with
    | none => none
    | some i =>
      let slIndex : Option Nat :=
        if l then (data.get? (i + 1)).map (fun x => x / 2 % 8) else some 0
      slIndex.map (fun sl => some (!p && b && decide (sl = 0)))

end vp9

namespace h264

/-- The scan of a STAP-A packet from `offset` on: `some true` when an SPS unit is found,
`some false` when the scan ends without one, `none` when a byte is read beyond the payload or
the fuel runs out. -/
def stapLoop (data : List Nat) : Nat → Nat → Option Bool
  | 0, offset => if offset + 3 ≤ data.length then none else some false
  | fuel + 1, offset =>
    if offset + 3 ≤ data.length then
      match data.get? (offset + 2), data.get? offset, data.get? (offset + 1) with
      | some subnal, some hi, some lo =>
        if subnal % 32 = 7 then some true
        else stapLoop data fuel (offset + 2 + (hi * 256 + lo))
      | _, _, _ => none
    else some false

/-- Function `parsePayload` of the H264 codec; the STAP-A scan gets one unit of fuel for every
byte of the payload. -/
def parsePayload (data : List Nat) : Option (Option Bool) :=
  if data.length < 2 then some none
  else
    match data.get? 0 with
    | none => none
    | some b0 =>
      let nal := b0 % 32
      if nal = 7 then some (some true)
      else if nal = 24 then (stapLoop data data.length 1).map some
      else if nal = 28 ∨ nal = 29 then
        match data.get? 1 with
        | none => none
        | some b1 => some (some (decide (b1 % 32 = 7) && decide (b1 / 128 % 2 * 128 = 128)))
      else some (some false)

end h264

namespace av1

/-- Function `parsePayload` of the AV1 codec. -/
def parsePayload (data : List Nat) : Option (Option Bool) :=
  if data.length < 2 then some none
  else
    match data.get? 0 with
    | none => none
    | some b => some (some (decide (b / 8 % 2 * 8 = 8)))

end av1

end codec

namespace nack

/-- Struct `rtcp.NackPair` of the RTCP library: a packet ID and the bit mask of the sixteen
sequence numbers that follow it. -/
structure NackPair where
  PacketID : Nat
  LostPackets : Nat
  deriving DecidableEq, Repr

/-- The sequence numbers that `NackPair.Range` visits, in order: the packet ID, then
`PacketID + i + 1` for every bit `i` of the mask that is set. -/
def NackPair.seqs (n : NackPair) : List Nat :=
  n.PacketID :: ((List.range 16).filter (fun i => decide (n.LostPackets / 2 ^ i % 2 = 1))).map
    (fun i => add16 n.PacketID (i + 1))

/-- Method `sender.OnNack`: the buffered packets that are handed to `sendRTP`, in order. -/
def sender.OnNack (r : sender) (nacks : List NackPair) : List peer.rtpPacket :=
  (nacks.flatMap NackPair.seqs).filterMap (fun seqno => r.buffer.Get seqno)

end nack

namespace peer

/-- The calls of `onRTP` for the packets of a list: the stream after them and the packets
handed to the listener. -/
def senderStream.onRTPs (r : senderStream) : List rtpPacket → senderStream × List rtpPacket
  | [] => (r, [])
  | p :: rest =>
    let res := r.onRTP p
    let tail := senderStream.onRTPs res.1 rest
    (tail.1, res.2 :: tail.2)

/-- Method `senderStream.ReceiveNack`: the stream after the call and the packets handed to
`OnRTPStreamRetransmitRTPPacket`. The replay buffer holds the packets by reference;
`sender.SendRTPPacket` puts the SSRC, the payload type and the header extensions back before it
returns, so a buffered packet carries them as they were at the time of `Put`. -/
def senderStream.ReceiveNack (r : senderStream) (nacks : List nack.NackPair) :
    senderStream × List rtpPacket :=
  if !r.useNack then (r, []) else r.onRTPs (r.nackSender.OnNack nacks)

/-- Method `sender.ReceiveNack`: the sender after the call and the packets handed to the
connection egress (`OnRTPStreamRetransmitRTPPacket` passes each packet to
`listener.sendRTPPacket`). -/
def sender.ReceiveNack (s : sender) (nacks : List nack.NackPair) : sender × List rtpPacket :=
  if !s.IsActive then (s, [])
  else
    let res := s.rtpStream.ReceiveNack nacks
    ({ s with rtpStream := res.1 }, res.2)

/-- A VP8 codec with NACK feedback and no RTX payload type. -/
def nackCodec : Codec :=
  { sampleCodec with FeedbackParams := [{ Type_ := "nack", Parameter := "" }] }

/-- The connected sender that `newSender` builds for the sample receiver with the NACK codec:
no RTX stream, NACK in use. -/
def nackSampleSender : sender :=
  match newSender sampleListener { sampleReceiver with codec := nackCodec } sampleSenderOption
    (fun _ => 5) with
  | Except.ok s => { s with transportConnected := true }
  | Except.error _ => connectedSender

end peer

namespace peer

/-- Error values of `rtp_table.go`. -/
inductive TableError where
  | ErrMidExist
  | ErrRidExist
  | ErrSsrcExist
  deriving DecidableEq, Repr

/-- One stream of `producer.GetRTPStreams()` as `AddProducer` reads it: `SSRC()`, `RtxSSRC()`
and `RID()` (the bytes of the string). -/
structure tableStream where
  ssrc : Nat
  rtxSSRC : Nat
  rid : List Nat
  deriving DecidableEq, Repr

/-- A receiver as `AddProducer` and `RemoveProducer` read it: its pointer (the value that the
tables hold and that `v == producer` compares), its MID and its streams in the order of
`rtpStreamByEncodingIdx`. -/
structure tableProducer where
  ptr : Nat
  mid : List Nat
  rtpStreamByEncodingIdx : List tableStream
  deriving DecidableEq, Repr

namespace rtpTable

/-- Function `newRTPTable`. -/
def newRTPTable : rtpTable := { SsrcTable := [], MidTable := [], RidTable := [] }

/-- Method `RemoveProducer`: every entry whose value is the producer is deleted from the three
tables. -/
def RemoveProducer (r : rtpTable) (producer : Nat) : rtpTable :=
  { SsrcTable := r.SsrcTable.filter (fun kv => !decide (kv.2 = producer))
    MidTable := r.MidTable.filter (fun kv => !decide (kv.2 = producer))
    RidTable := r.RidTable.filter (fun kv => !decide (kv.2 = producer)) }

/-- One pass of the loop body of `AddProducer` over a stream: the table after it and the error
with which `AddProducer` returns from inside the body, if it does. -/
def addStream (r : rtpTable) (producer : tableProducer) (v : tableStream) :
    rtpTable × Option TableError :=
  if v.ssrc ≠ 0 ∧ (gmGet r.SsrcTable v.ssrc).isSome then
    (r.RemoveProducer producer.ptr, some TableError.ErrSsrcExist)
  else
    let r1 : rtpTable :=
      if v.ssrc ≠ 0 then { r with SsrcTable := gmSet r.SsrcTable v.ssrc producer.ptr } else r
    if v.rtxSSRC ≠ 0 ∧ (gmGet r1.SsrcTable v.rtxSSRC).isSome then
      (r1.RemoveProducer producer.ptr, some TableError.ErrSsrcExist)
    else
      let r2 : rtpTable :=
        if v.rtxSSRC ≠ 0 then { r1 with SsrcTable := gmSet r1.SsrcTable v.rtxSSRC producer.ptr }
        else r1
      if v.rid ≠ [] then
        if (gmGet r2.RidTable v.rid).isSome ∧ producer.mid = [] then
          (r2.RemoveProducer producer.ptr, some TableError.ErrRidExist)
        else ({ r2 with RidTable := gmSet r2.RidTable v.rid producer.ptr }, none)
      else (r2, none)

/-- The loop of `AddProducer` over the streams of the producer. -/
def addStreams (producer : tableProducer) : rtpTable → List tableStream →
    rtpTable × Option TableError
  | r, [] => (r, none)
  | r, v :: rest =>
    match r.addStream producer v with
    | (r1, some err) => (r1, some err)
    | (r1, none) => addStreams producer r1 rest

/-- Method `AddProducer`: the table after the call and the error returned (`none` for nil). -/
def AddProducer (r : rtpTable) (producer : tableProducer) : rtpTable × Option TableError :=
  match addStreams producer r producer.rtpStreamByEncodingIdx with
  | (r1, some err) => (r1, some err)
  | (r1, none) =>
    if producer.mid ≠ [] then
      if (gmGet r1.MidTable producer.mid).isSome then
        (r1.RemoveProducer producer.ptr, some TableError.ErrMidExist)
      else ({ r1 with MidTable := gmSet r1.MidTable producer.mid producer.ptr }, none)
    else (r1, none)

end rtpTable

/-- A receiver with the pointer `ptr`, the MID `"0"` and one stream without SSRC whose RID is
`"h"`. -/
def ridProducer (ptr : Nat) : tableProducer :=
  { ptr := ptr, mid := [48], rtpStreamByEncodingIdx := [{ ssrc := 0, rtxSSRC := 0, rid := [104] }] }

/-- The table after the receiver `8` with the MID `"0"` and the RID `"h"` has been added to an
empty table. -/
def ridTable : rtpTable := (rtpTable.newRTPTable.AddProducer (ridProducer 8)).1

/-- A receiver with the pointer `ptr`, no MID and two streams: the SSRC `2000`, then the SSRC
`1000`. -/
def ssrcProducer (ptr : Nat) : tableProducer :=
  { ptr := ptr, mid := [], rtpStreamByEncodingIdx :=
      [{ ssrc := 2000, rtxSSRC := 0, rid := [] }, { ssrc := 1000, rtxSSRC := 0, rid := [] }] }

end peer

namespace remb

/-- A call on a rate window: `Update(payloadSize, nowMs)`, `Rate(nowMs)` or `Reset()`. -/
inductive rateCall where
  | update (payloadSize nowMs : Int)
  | rate (nowMs : Int)
  | reset
  deriving DecidableEq, Repr

/-- The window after one call. -/
def RateStatistics.call (r : RateStatistics) : rateCall → RateStatistics
  | rateCall.update payloadSize nowMs => r.Update payloadSize nowMs
  | rateCall.rate nowMs => (r.Rate nowMs).1
  | rateCall.reset => r.Reset

/-- The window after the calls of the list, in order. -/
def RateStatistics.calls (r : RateStatistics) : List rateCall → RateStatistics
  | [] => r
  | c :: rest => RateStatistics.calls (r.call c) rest

/-- The sum of the sample counts of the buckets. -/
def bucketSamples (bs : List bucket) : Int := (bs.map (fun b => b.numSamples)).sum

/-- No size addition of the calls overflows: every size is a byte count (not negative), and no
`Update` finds the count too close to `math.MaxInt64` for the size, which `Update` records in
the flag `overflow`. -/
def RateStatistics.sizesFit (r : RateStatistics) : List rateCall → Bool
  | [] => true
  | c :: rest =>
    (match c with
     | rateCall.update payloadSize nowMs =>
       decide (0 ≤ payloadSize) && !(r.Update payloadSize nowMs).overflow
     | _ => true) && RateStatistics.sizesFit (r.call c) rest

/-- The state of a window in which no addition has overflowed, after at most `k` samples. -/
def RateStatistics.Sound (r : RateStatistics) (k : Int) : Prop :=
  r.overflow = false ∧
  (∀ b ∈ r.buckets, 0 ≤ b.sum ∧ 0 ≤ b.numSamples) ∧
  r.buckets.Pairwise (fun a b => a.timestamp ≤ b.timestamp) ∧
  r.accumulatedCount = bucketSum r.buckets ∧
  r.numSamples = bucketSamples r.buckets ∧
  r.accumulatedCount < 9223372036854775807 ∧
  r.numSamples ≤ k

/-- Calls on a window of one second: two samples in the same millisecond, a sample whose time
lies before the last bucket, rate readings that drop buckets, and a reset. -/
def sampleCalls : List rateCall :=
  [rateCall.update 100 0, rateCall.update 50 0, rateCall.rate 5, rateCall.update 20 700,
    rateCall.update 7 600, rateCall.rate 1500, rateCall.update 30 2000, rateCall.rate 2001,
    rateCall.reset, rateCall.update 1 5, rateCall.update 2 3]

end remb

namespace remb

/-! ## AIMD rate control -/

namespace F64

/-- Difference of two `float64` numbers. -/
def sub (a b : F64) : F64 := add a ⟨-b.m, b.e⟩

/-- Function `math.Ceil` on a finite number: the least integer not below it. -/
def ceil (a : F64) : F64 :=
  if 0 ≤ a.e then a else ofInt (-((-a.m) / (pow2 (-a.e) : Int)))

/-- Function `math.Max` on finite numbers. -/
def max (a b : F64) : F64 := if lt a b then b else a

/-- Function `math.Min` on finite numbers. -/
def min (a b : F64) : F64 := if lt b a then b else a

end F64

/-- The functions of the Go package `math` that the rate control calls and that the number
model does not compute: `math.Pow` and `math.Sqrt`. -/
structure MathLib where
  Pow : F64 → F64 → F64
  Sqrt : F64 → F64

/-- Constants of `overuse_detector.go`: the hypothesis of the detector. -/
def Normal : Int := 0

def Overusing : Int := 1

def Underusing : Int := 2

/-- Constants of `aimd_rate_control.go`. -/
def RcHold : Int := 0

def RcIncrease : Int := 1

def RcDecrease : Int := 2

def InitializationTime : Int := 5000

def PacketSize : Int := 1200

def MinIncreaseRateBpsPerSecond : Int := 4000

def DefaultRTT : Int := 200

/-- Method `Bitrate.For`: the data size of the bitrate in the duration (microseconds). -/
def Bitrate.For (b duration : Int) : Int :=
  let microBits := toInt64 (toInt64 b * duration)
  Int.tdiv (toInt64 (microBits + 4000000)) 8000000

/-- The conversion `Bitrate(x)` of a `float64` number: its integer part as `uint64`. -/
def toBitrate (x : F64) : Int := toUint64 (F64.trunc x)

/-- Struct `LinkCapacityEstimator`; `Bitrate` and `uint64` values are kept as integers. -/
structure LinkCapacityEstimator where
  estimateKbps : Int
  deviationKbps : Int
  capacitySample : Int
  deriving DecidableEq, Repr

/-- Function `NewLinkCapacityEstimator`. -/
def NewLinkCapacityEstimator : LinkCapacityEstimator :=
  { estimateKbps := 0, deviationKbps := 0, capacitySample := 0 }

namespace LinkCapacityEstimator

/-- Method `deviationEstimateKbps`. -/
def deviationEstimateKbps (l : LinkCapacityEstimator) (ml : MathLib) : Int :=
  toBitrate (ml.Sqrt (F64.ofInt (toUint64 (l.deviationKbps * l.estimateKbps))))

/-- Method `UpperBound`. -/
def UpperBound (l : LinkCapacityEstimator) (ml : MathLib) : Int :=
  if l.estimateKbps > 0 then
    toUint64 (l.estimateKbps + toUint64 (3 * l.deviationEstimateKbps ml))
  else 0

/-- Method `Reset`. -/
def Reset (l : LinkCapacityEstimator) : LinkCapacityEstimator := { l with estimateKbps := 0 }

/-- Method `HasEstimate`. -/
def HasEstimate (l : LinkCapacityEstimator) : Bool := decide (l.estimateKbps > 0)

/-- Method `Estimate`. -/
def Estimate (l : LinkCapacityEstimator) : Int := l.estimateKbps

/-- Method `LowerBound`. -/
def LowerBound (l : LinkCapacityEstimator) (ml : MathLib) : Int :=
  if l.estimateKbps > 0 ∧
      toUint64 (l.estimateKbps - toUint64 (3 * l.deviationEstimateKbps ml)) > 0 then
    toUint64 (l.estimateKbps - toUint64 (3 * l.deviationEstimateKbps ml))
  else 0

/-- Method `update`; the throughput argument is not read. -/
def update (l : LinkCapacityEstimator) (_throughput : Int) (alpha : F64) :
    LinkCapacityEstimator :=
  let sampleKbps := l.capacitySample
  if l.estimateKbps ≤ 0 then { l with estimateKbps := sampleKbps }
  else
    { l with estimateKbps :=
        toBitrate (F64.add (F64.mul (F64.sub (F64.ofInt 1) alpha) (F64.ofInt l.estimateKbps))
          (F64.mul alpha (F64.ofInt sampleKbps))) }

/-- Method `OnOveruseDetected`. -/
def OnOveruseDetected (l : LinkCapacityEstimator) (throughput : Int) : LinkCapacityEstimator :=
  l.update throughput F64.half

end LinkCapacityEstimator

/-- Struct `RateControllerInput`: the hypothesis of the detector and the estimated throughput
(`none` for a nil pointer). -/
structure RateControllerInput where
  State : Int
  EstimatedThroughput : Option Int
  deriving DecidableEq, Repr

/-- Struct `AimdRateControl`. The type of the field `networkEstimate` is declared nowhere in
the source; the field is read in `decrease` only, as
`float64(c.networkEstimate.LinkCapacityLower())`, and it is held here as that number (`none`
for a nil pointer). -/
structure AimdRateControl where
  bitrateIsInitialized : Bool
  timeFirstThroughputEstimate : Int
  currentBitrate : Int
  latestEstimatedThroughput : Int
  rateControlState : Int
  timeLastBitrateChange : Int
  linkCapacity : LinkCapacityEstimator
  sendSide : Bool
  inAlr : Bool
  noBitrateIncreaseInAlr : Bool
  beta : F64
  linkCapacityFix : Bool
  estimateBoundedBackoff : Bool
  networkEstimate : Option F64
  lastDecrease : Int
  timeLastBitrateDecrease : Int
  inExperiment : Bool
  rtt : Int
  minConfiguredBitrate : Int
  maxConfiguredBitrate : Int
  deriving DecidableEq, Repr

/-- Function `NewAimdRateControl`. -/
def NewAimdRateControl : AimdRateControl :=
  { bitrateIsInitialized := false
    timeFirstThroughputEstimate := -1
    currentBitrate := 30000 * 1000
    latestEstimatedThroughput := 0
    rateControlState := 0
    timeLastBitrateChange := 0
    linkCapacity := NewLinkCapacityEstimator
    sendSide := false
    inAlr := false
    noBitrateIncreaseInAlr := false
    beta := F64.round 85 100 0
    linkCapacityFix := false
    estimateBoundedBackoff := false
    networkEstimate := none
    lastDecrease := 0
    timeLastBitrateDecrease := 0
    inExperiment := true
    rtt := DefaultRTT * Millisecond
    minConfiguredBitrate := 0
    maxConfiguredBitrate := 30000 * 1000 }

namespace AimdRateControl

/-- Method `getNearMaxIncreaseRateBpsPerSecond`. -/
def getNearMaxIncreaseRateBpsPerSecond (c : AimdRateControl) : Int :=
  if c.currentBitrate = 0 then 0
  else
    let duration := Int.tdiv Second 30
    let frameSize := Bitrate.For c.currentBitrate duration
    let packetPerFrame := F64.ceil (F64.div (F64.ofInt frameSize) (F64.ofInt PacketSize))
    let avgPacketSize := F64.div (F64.ofInt frameSize) packetPerFrame
    let responseTime0 := toInt64 (c.rtt + Millisecond * 100)
    let responseTime := if c.inExperiment then toInt64 (responseTime0 * 2) else responseTime0
    let increaseRateBpsPerSecond := NewBitrate (toInt64 (F64.trunc avgPacketSize)) responseTime
    if increaseRateBpsPerSecond > MinIncreaseRateBpsPerSecond then
      toInt64 increaseRateBpsPerSecond
    else MinIncreaseRateBpsPerSecond

/-- Method `additiveRateIncrease`. -/
def additiveRateIncrease (c : AimdRateControl) (now lastTimestamp : Int) : Int :=
  let timePeriodSecond := Int.tdiv (toInt64 (now - lastTimestamp)) 1000
  toUint64 (toInt64 (c.getNearMaxIncreaseRateBpsPerSecond * timePeriodSecond))

/-- Method `multiplicativeRateIncrease`. -/
def multiplicativeRateIncrease (_c : AimdRateControl) (ml : MathLib)
    (now lastTime currentBitrate : Int) : Int :=
  let alpha0 := F64.round 108 100 0
  let alpha :=
    if lastTime > -1 then
      let timeSinceLastUpdate := toInt64 (now - lastTime)
      ml.Pow alpha0
        (F64.min (F64.div (F64.ofInt timeSinceLastUpdate) (F64.ofInt 1000)) (F64.ofInt 1))
    else alpha0
  toBitrate (F64.max (F64.mul (F64.ofInt currentBitrate) (F64.sub alpha (F64.ofInt 1)))
    (F64.ofInt 1000))

/-- Method `increase`: the controller after the call and the new bitrate. -/
def increase (c : AimdRateControl) (ml : MathLib) (estimatedThroughput now : Int) :
    AimdRateControl × Int :=
  let throughputBasedLimit :=
    toBitrate (F64.add (F64.add (F64.mul (F64.round 3 2 0) (F64.ofInt estimatedThroughput))
      F64.half) (F64.ofInt (10 * 1000)))
  let c1 : AimdRateControl :=
    if estimatedThroughput > c.linkCapacity.UpperBound ml then
      { c with linkCapacity := c.linkCapacity.Reset }
    else c
  let newBitrate :=
    if c1.currentBitrate < throughputBasedLimit ∧
        ¬ (c1.sendSide = true ∧ c1.inAlr = true ∧ c1.noBitrateIncreaseInAlr = true) then
      let increasedBitrate :=
        if c1.linkCapacity.HasEstimate then
          toUint64 (c1.currentBitrate + c1.additiveRateIncrease now c1.timeLastBitrateChange)
        else
          toUint64 (c1.currentBitrate +
            c1.multiplicativeRateIncrease ml now c1.timeLastBitrateChange c1.currentBitrate)
      if increasedBitrate < throughputBasedLimit then increasedBitrate
      else throughputBasedLimit
    else 0
  ({ c1 with timeLastBitrateChange := now }, newBitrate)

/-- Method `decrease`: the controller after the call and the new bitrate. -/
def decrease (c : AimdRateControl) (ml : MathLib) (estimatedThroughput now : Int) :
    AimdRateControl × Int :=
  let decreased0 := toBitrate (F64.mul (F64.ofInt estimatedThroughput) c.beta)
  let decreased1 :=
    if decreased0 > c.currentBitrate ∧ c.linkCapacityFix = false then
      if c.linkCapacity.HasEstimate then
        toBitrate (F64.mul c.beta (F64.ofInt c.linkCapacity.Estimate))
      else decreased0
    else decreased0
  let decreasedBitrate :=
    match c.estimateBoundedBackoff, c.networkEstimate with
    | true, some lower =>
      if decreased1 < toBitrate (F64.mul lower c.beta) then toBitrate (F64.mul lower c.beta)
      else decreased1
    | _, _ => decreased1
  let newBitrate := if decreasedBitrate < c.currentBitrate then decreasedBitrate else 0
  let lastDecrease :=
    if c.bitrateIsInitialized = true ∧ estimatedThroughput < c.currentBitrate then
      if newBitrate = 0 then 0 else toUint64 (c.currentBitrate - newBitrate)
    else c.lastDecrease
  let linkCapacity1 :=
    if estimatedThroughput < c.linkCapacity.LowerBound ml then c.linkCapacity.Reset
    else c.linkCapacity
  ({ c with
      lastDecrease := lastDecrease
      bitrateIsInitialized := true
      linkCapacity := linkCapacity1.OnOveruseDetected estimatedThroughput
      rateControlState := RcHold
      timeLastBitrateChange := now
      timeLastBitrateDecrease := now }, newBitrate)

/-- Method `changeState`. -/
def changeState (c : AimdRateControl) (input : RateControllerInput) (now : Int) :
    AimdRateControl :=
  if input.State = Normal then
    if c.rateControlState = RcHold then
      { c with timeLastBitrateChange := now, rateControlState := RcIncrease }
    else c
  else if input.State = Overusing then
    if c.rateControlState ≠ RcDecrease then { c with rateControlState := RcDecrease } else c
  else if input.State = Underusing then { c with rateControlState := RcHold }
  else c

/-- The end of `changeBitrate`: a new bitrate other than zero becomes the current bitrate. -/
def setBitrate (c : AimdRateControl) (newBitrate : Int) : AimdRateControl :=
  if newBitrate ≠ 0 then { c with currentBitrate := newBitrate } else c

/-- Method `changeBitrate`. -/
def changeBitrate (c : AimdRateControl) (ml : MathLib) (input : RateControllerInput)
    (now : Int) : AimdRateControl :=
  let estimatedThroughput :=
    match input.EstimatedThroughput with
    | some t => t
    | none => c.latestEstimatedThroughput
  let c1 : AimdRateControl :=
    match input.EstimatedThroughput with
    | some t => { c with latestEstimatedThroughput := t }
    | none => c
  if c1.bitrateIsInitialized = false ∧ input.State ≠ Overusing then c1
  else
    let c2 := c1.changeState input now
    if c2.rateControlState = RcHold then c2
    else
      let res : AimdRateControl × Int :=
        if c2.rateControlState = RcIncrease then c2.increase ml estimatedThroughput now
        else if c2.rateControlState = RcDecrease then c2.decrease ml estimatedThroughput now
        else (c2, 0)
      res.1.setBitrate res.2

/-- Method `Update`: the controller after the call and the bitrate returned. -/
def Update (c : AimdRateControl) (ml : MathLib) (input : RateControllerInput) (now : Int) :
    AimdRateControl × Int :=
  let c1 : AimdRateControl :=
    if c.bitrateIsInitialized = false then
      if c.timeFirstThroughputEstimate = -1 then
        match input.EstimatedThroughput with
        | some _ => { c with timeFirstThroughputEstimate := now }
        | none => c
      else
        match input.EstimatedThroughput with
        | some t =>
          if toInt64 (now - c.timeFirstThroughputEstimate) > InitializationTime then
            { c with currentBitrate := t, bitrateIsInitialized := true }
          else c
        | none => c
    else c
  let c2 := c1.changeBitrate ml input now
  (c2, c2.currentBitrate)

/-- Method `clampBitrate`. -/
def clampBitrate (c : AimdRateControl) (bitrate : Int) : Int :=
  if bitrate > c.minConfiguredBitrate then bitrate else c.minConfiguredBitrate

/-- Method `SetEstimate`. -/
def SetEstimate (c : AimdRateControl) (bitrate now : Int) : AimdRateControl :=
  let prevBitrate := c.currentBitrate
  let c1 : AimdRateControl :=
    { c with
      bitrateIsInitialized := true
      currentBitrate := c.clampBitrate bitrate
      timeLastBitrateChange := now }
  if c1.currentBitrate < prevBitrate then { c1 with timeLastBitrateDecrease := now } else c1

/-- Method `SetStartBitrate`. -/
def SetStartBitrate (c : AimdRateControl) (startBitrate : Int) : AimdRateControl :=
  { c with
    currentBitrate := startBitrate
    latestEstimatedThroughput := startBitrate
    bitrateIsInitialized := true }

end AimdRateControl

/-- A call on a rate control: `Update(input, now)`, `SetEstimate(bitrate, now)` or
`SetStartBitrate(startBitrate)`. -/
inductive aimdCall where
  | update (input : RateControllerInput) (now : Int)
  | setEstimate (bitrate now : Int)
  | setStartBitrate (startBitrate : Int)
  deriving DecidableEq, Repr

/-- The rate control after one call. -/
def AimdRateControl.call (c : AimdRateControl) (ml : MathLib) : aimdCall → AimdRateControl
  | aimdCall.update input now => (c.Update ml input now).1
  | aimdCall.setEstimate bitrate now => c.SetEstimate bitrate now
  | aimdCall.setStartBitrate startBitrate => c.SetStartBitrate startBitrate

/-- The rate control after the calls of the list, in order. -/
def AimdRateControl.calls (c : AimdRateControl) (ml : MathLib) : List aimdCall → AimdRateControl
  | [] => c
  | a :: rest => AimdRateControl.calls (c.call ml a) ml rest

/-- The state of a rate control between two calls: it holds or increases, and it holds as long
as the bitrate is not initialised. -/
def AimdRateControl.Settled (c : AimdRateControl) : Prop :=
  (c.rateControlState = RcHold ∨ c.rateControlState = RcIncrease) ∧
  (c.bitrateIsInitialized = false → c.rateControlState = RcHold)

end remb

namespace peer

/-- The sample sender after `TransportConnected` (as `Connection.NewSender` calls it on a
connected transport), the key frame `100` and the packet `101`, and `TransportConnected` once
more (as `Connection.Connected` calls it for every sender). -/
def reconnectedSender : sender :=
  match sampleSender.TransportConnected with
  | some (s1, _) =>
    match (s1.SendRTPPackets sampleRegistry sampleListener
        [samplePacket 100 true, samplePacket 101 false]).1.TransportConnected with
    | some (s2, _) => s2
    | none => sampleSender
  | none => sampleSender

end peer

namespace nack

/-- The packet event of a media packet (not a key frame, not RTX) with sequence number `seq`. -/
def mediaInfo (seq : Nat) : packetInfo :=
  { seq := seq, sentAtMs := 0, sentAtSeq := 0, retries := 0, keyframe := false, rtx := false }

end nack

namespace peer

/-! ## Stream base: sequence tracking -/

theorem wrapCount_seqRun (k : Nat) :
    ∀ M, wrapCount ((M % 65536) :: seqRun (M + 1) k) = (M + k) / 65536 - M / 65536 := by
  induction k with
  | zero => intro M; simp [seqRun, wrapCount]
  | succ k ih =>
    intro M
    have h := ih (M + 1)
    simp only [seqRun, wrapCount] at h ⊢
    rw [h]
    split <;> omega

theorem updateSeq_next (st : internalStream) (p : rtpPacket) (M : Nat)
    (hm : st.maxSeq = M % 65536) (hp : p.SequenceNumber = (M + 1) % 65536) :
    st.updateSeq p =
      ({ st with
          cycles := if M % 65536 = 65535 then add32 st.cycles RTPSeqMod else st.cycles
          maxSeq := (M + 1) % 65536 }, none) := by
  have hd : sub16 ((M + 1) % 65536) st.maxSeq < MaxDropout := by
    simp only [sub16, MaxDropout, hm]; omega
  simp only [internalStream.updateSeq, hp, hd, if_true]
  by_cases hw : M % 65536 = 65535
  · have hlt : (M + 1) % 65536 < st.maxSeq := by rw [hm]; omega
    simp only [hlt, hw, if_true]
  · have hlt : ¬ (M + 1) % 65536 < st.maxSeq := by rw [hm]; omega
    simp only [hlt, hw, if_false]

theorem receivePacket_next (st : internalStream) (p : rtpPacket) (M : Nat)
    (hs : st.started = true) (hm : st.maxSeq = M % 65536)
    (hp : p.SequenceNumber = (M + 1) % 65536) :
    (st.receivePacket p).2 = none ∧
    (st.receivePacket p).1.started = true ∧
    (st.receivePacket p).1.maxSeq = (M + 1) % 65536 ∧
    (st.receivePacket p).1.cycles
      = (if M % 65536 = 65535 then add32 st.cycles RTPSeqMod else st.cycles) ∧
    (st.receivePacket p).1.baseSeq = st.baseSeq := by
  simp only [internalStream.receivePacket, hs, Bool.not_true, Bool.false_eq_true, if_false,
    updateSeq_next st p M hm hp]
  split <;> simp [hs]

theorem receivePackets_run (k : Nat) :
    ∀ (st : internalStream) (M : Nat) (ps : List rtpPacket),
      st.started = true → st.maxSeq = M % 65536 →
      st.cycles = (65536 * (M / 65536)) % 4294967296 →
      ps.map (fun p => p.SequenceNumber) = seqRun (M + 1) k →
      (st.receivePackets ps).2 = List.replicate k none ∧
      (st.receivePackets ps).1.maxSeq = (M + k) % 65536 ∧
      (st.receivePackets ps).1.cycles = (65536 * ((M + k) / 65536)) % 4294967296 ∧
      (st.receivePackets ps).1.baseSeq = st.baseSeq := by
  induction k with
  | zero =>
    intro st M ps hs hm hc hps
    have : ps = [] := by simpa [seqRun] using hps
    subst this
    simp [internalStream.receivePackets, hm, hc]
  | succ k ih =>
    intro st M ps hs hm hc hps
    cases ps with
    | nil => simp [seqRun] at hps
    | cons p ps =>
      simp only [seqRun, List.map_cons, List.cons.injEq] at hps
      obtain ⟨hp, hrest⟩ := hps
      obtain ⟨he, hst, hmax, hcyc, hbase⟩ := receivePacket_next st p M hs hm hp
      have hc1 : (st.receivePacket p).1.cycles
          = (65536 * ((M + 1) / 65536)) % 4294967296 := by
        rw [hcyc, hc]; simp only [add32, RTPSeqMod]; split <;> omega
      obtain ⟨h1, h2, h3, h4⟩ := ih (st.receivePacket p).1 (M + 1) ps hst hmax hc1 hrest
      simp only [internalStream.receivePackets]
      refine ⟨?_, ?_, ?_, ?_⟩
      · rw [h1, he]; rfl
      · rw [h2]; congr 1; omega
      · rw [h3]; congr 2; omega
      · rw [h4, hbase]

theorem receivePacket_first (st : internalStream) (p : rtpPacket) (hs : st.started = false) :
    (st.receivePacket p).2 = none ∧
    (st.receivePacket p).1.started = true ∧
    (st.receivePacket p).1.maxSeq = p.SequenceNumber ∧
    (st.receivePacket p).1.cycles = st.cycles ∧
    (st.receivePacket p).1.baseSeq = p.SequenceNumber := by
  have hd : sub16 p.SequenceNumber p.SequenceNumber < MaxDropout := by
    simp only [sub16, MaxDropout]; omega
  simp [internalStream.receivePacket, internalStream.updateSeq, internalStream.initSeq, hs, hd]

theorem receivePackets_fresh_run (st : internalStream) (a n : Nat) (ps : List rtpPacket)
    (hs : st.started = false) (hc : st.cycles = 0) (ha : a < 65536) (hn : 1 ≤ n)
    (hps : ps.map (fun p => p.SequenceNumber) = seqRun a n) :
    (st.receivePackets ps).2 = List.replicate n none ∧
    (st.receivePackets ps).1.maxSeq = (a + n - 1) % 65536 ∧
    (st.receivePackets ps).1.cycles = (65536 * ((a + n - 1) / 65536)) % 4294967296 ∧
    (st.receivePackets ps).1.baseSeq = a ∧
    wrapCount (seqRun a n) = (a + n - 1) / 65536 := by
  obtain ⟨k, rfl⟩ : ∃ k, n = k + 1 := ⟨n - 1, by omega⟩
  cases ps with
  | nil => simp [seqRun] at hps
  | cons p ps =>
    simp only [seqRun, List.map_cons, List.cons.injEq] at hps
    obtain ⟨hp, hrest⟩ := hps
    rw [Nat.mod_eq_of_lt ha] at hp
    obtain ⟨he, hst, hmax, hcyc, hbase⟩ := receivePacket_first st p hs
    have hm : (st.receivePacket p).1.maxSeq = a % 65536 := by
      rw [hmax, hp, Nat.mod_eq_of_lt ha]
    have hc1 : (st.receivePacket p).1.cycles = (65536 * (a / 65536)) % 4294967296 := by
      rw [hcyc, hc]; omega
    obtain ⟨h1, h2, h3, h4⟩ := receivePackets_run k (st.receivePacket p).1 a ps hst hm hc1 hrest
    have hw := wrapCount_seqRun k a
    simp only [internalStream.receivePackets, seqRun]
    refine ⟨?_, ?_, ?_, ?_, ?_⟩
    · rw [h1, he]; rfl
    · rw [h2]; congr 1
    · rw [h3]; congr 2
    · rw [h4, hbase, hp]
    · rw [hw]; omega

/-- C4 (as amended): a fresh stream fed the `n` packets `s, s+1, ..., s+n-1` (mod `2^16`), with
`1 <= n < 2^32`, accepts every packet and ends with `getExpectedPackets() = n`; `cycles` is
`65536` times the number of `65535 -> 0` wraps reduced modulo `2^32` (the counter is a `uint32`),
hence exactly `65536` times that number whenever `s + n <= 2^32`. -/
theorem receivePackets_consecutive (mediaType : String) (so : StreamOption) (codec : Codec)
    (s n : Nat) (ps : List rtpPacket) (hs : s < 65536) (hn1 : 1 ≤ n) (hn : n < 4294967296)
    (hps : ps.map (fun p => p.SequenceNumber) = seqRun s n) :
    ((newStream mediaType so codec).receivePackets ps).2 = List.replicate n none ∧
    ((newStream mediaType so codec).receivePackets ps).1.getExpectedPackets = (n : Int) ∧
    ((newStream mediaType so codec).receivePackets ps).1.cycles
      = (65536 * wrapCount (seqRun s n)) % 4294967296 ∧
    (s + n ≤ 4294967296 →
      ((newStream mediaType so codec).receivePackets ps).1.cycles
        = 65536 * wrapCount (seqRun s n)) := by
  obtain ⟨h1, h2, h3, h4, h5⟩ :=
    receivePackets_fresh_run (newStream mediaType so codec) s n ps rfl rfl hs hn1 hps
  refine ⟨h1, ?_, ?_, ?_⟩
  · simp only [internalStream.getExpectedPackets, h2, h3, h4, add32, sub32]
    congr 1
    omega
  · rw [h3, h5]
  · intro hle
    rw [h3, h5]
    omega

/-- Witness for C4: the run `65534, 65535, 0, 1` is accepted with `cycles = 65536` and an
expected-packet count of `4`. -/
theorem receivePackets_consecutive_witness :
    ((newStream "video" emptyStreamOption emptyCodec).receivePackets
        ([65534, 65535, 0, 1].map seqPacket)).2 = List.replicate 4 none ∧
    ((newStream "video" emptyStreamOption emptyCodec).receivePackets
        ([65534, 65535, 0, 1].map seqPacket)).1.getExpectedPackets = ((4 : Nat) : Int) ∧
    ((newStream "video" emptyStreamOption emptyCodec).receivePackets
        ([65534, 65535, 0, 1].map seqPacket)).1.cycles
      = (65536 * wrapCount (seqRun 65534 4)) % 4294967296 ∧
    (65534 + 4 ≤ 4294967296 →
      ((newStream "video" emptyStreamOption emptyCodec).receivePackets
          ([65534, 65535, 0, 1].map seqPacket)).1.cycles
        = 65536 * wrapCount (seqRun 65534 4)) :=
  receivePackets_consecutive "video" emptyStreamOption emptyCodec 65534 4
    ([65534, 65535, 0, 1].map seqPacket) (by decide) (by decide) (by decide) (by decide)

/-- Counterexample to C4 as stated: for `s = 65535` and `n = 2^32 - 1` the run wraps `65536`
times, `cycles` has overflowed to `0` and is not `65536 * 65536`, although the expected-packet
count is still `n`. -/
theorem cycles_overflow_counterexample :
    wrapCount (seqRun 65535 4294967295) = 65536 ∧
    ((newStream "video" emptyStreamOption emptyCodec).receivePackets
        ((seqRun 65535 4294967295).map seqPacket)).1.cycles = 0 ∧
    ((newStream "video" emptyStreamOption emptyCodec).receivePackets
        ((seqRun 65535 4294967295).map seqPacket)).1.cycles
      ≠ 65536 * wrapCount (seqRun 65535 4294967295) := by
  have hmap : ((seqRun 65535 4294967295).map seqPacket).map (fun p => p.SequenceNumber)
      = seqRun 65535 4294967295 := by
    rw [List.map_map]
    exact List.map_id _
  obtain ⟨_, _, h3, _, h5⟩ :=
    receivePackets_fresh_run (newStream "video" emptyStreamOption emptyCodec) 65535 4294967295
      ((seqRun 65535 4294967295).map seqPacket) rfl rfl (by omega) (by omega) hmap
  have hw : wrapCount (seqRun 65535 4294967295) = 65536 := by rw [h5]
  refine ⟨hw, ?_, ?_⟩
  · rw [h3]
  · rw [h3, hw]; omega

/-- What `receivePacket` does on a started stream, by the size of
`D = (seq - max_seq) mod 2^16`: below `3000` the packet is accepted and `max_seq` follows it;
from `3000` up to `64035` it is rejected; from `64036 = 2^16 - 1500` on it is accepted and the
sequence state is left alone. -/
theorem receivePacket_window (st : internalStream) (p : rtpPacket) (hs : st.started = true) :
    (sub16 p.SequenceNumber st.maxSeq < 3000 →
      (st.receivePacket p).2 = none ∧
      (st.receivePacket p).1.maxSeq = p.SequenceNumber ∧
      (st.receivePacket p).1.baseSeq = st.baseSeq ∧
      (st.receivePacket p).1.cycles
        = (if p.SequenceNumber < st.maxSeq then (st.cycles + 65536) % 4294967296
            else st.cycles)) ∧
    (3000 ≤ sub16 p.SequenceNumber st.maxSeq → sub16 p.SequenceNumber st.maxSeq < 64036 →
      st.receivePacket p =
        ({ st with
            packetDiscarded := st.packetDiscarded + 1
            badSeq := (p.SequenceNumber + 1) % 65536 }, some PeerError.ErrBadSeq)) ∧
    (64036 ≤ sub16 p.SequenceNumber st.maxSeq →
      (st.receivePacket p).2 = none ∧
      (st.receivePacket p).1.maxSeq = st.maxSeq ∧
      (st.receivePacket p).1.baseSeq = st.baseSeq ∧
      (st.receivePacket p).1.cycles = st.cycles) := by
  have hb : sub32 RTPSeqMod MaxMisorder % 65536 = 64036 := by decide
  refine ⟨?_, ?_, ?_⟩
  · intro hd
    have hd1 : sub16 p.SequenceNumber st.maxSeq < MaxDropout := hd
    simp only [internalStream.receivePacket, internalStream.updateSeq, hs, Bool.not_true,
      Bool.false_eq_true, if_false, hd1, if_true]
    by_cases hlt : p.SequenceNumber < st.maxSeq
    · simp only [hlt, if_true, add32, RTPSeqMod]; split <;> simp
    · simp only [hlt, if_false]; split <;> simp
  · intro h1 h2
    have hd1 : ¬ sub16 p.SequenceNumber st.maxSeq < MaxDropout := by
      simp only [MaxDropout]; omega
    simp only [internalStream.receivePacket, internalStream.updateSeq, hs, Bool.not_true,
      Bool.false_eq_true, if_false, hd1, hb, h2, if_true, add16]
  · intro h1
    have hd1 : ¬ sub16 p.SequenceNumber st.maxSeq < MaxDropout := by
      simp only [MaxDropout]; omega
    have hd2 : ¬ sub16 p.SequenceNumber st.maxSeq < 64036 := by omega
    simp only [internalStream.receivePacket, internalStream.updateSeq, hs, Bool.not_true,
      Bool.false_eq_true, if_false, hd1, hb, hd2]
    split <;> simp

/-- C5 (failing input): a started stream with `max_seq = 1500` that receives sequence number `0`
has `D = 64036 = 2^16 - 1500`; the packet is accepted (no error) and the stream is left exactly
as it was, where the claim asks for a rejection with `ErrBadSeq`. -/
theorem receivePacket_misorder_bound :
    (((newStream "video" emptyStreamOption emptyCodec).receivePacket (seqPacket 1500)).1.started
      = true) ∧
    sub16 (seqPacket 0).SequenceNumber
      ((newStream "video" emptyStreamOption emptyCodec).receivePacket (seqPacket 1500)).1.maxSeq
      = 65536 - 1500 ∧
    ((newStream "video" emptyStreamOption emptyCodec).receivePacket (seqPacket 1500)).1.receivePacket
        (seqPacket 0)
      = (((newStream "video" emptyStreamOption emptyCodec).receivePacket (seqPacket 1500)).1,
          none) := by
  decide

/-- C7 (failing input, the sequence of the repository test "Test drop seq"): after `3000, 3001`
the packet `7001` is discarded and sets `bad_seq = 7002`. The following packet `7002`, which
has the sequence number `bad_seq`, is discarded as well with `ErrBadSeq`, and the stream keeps
`base_seq = 3000` and `max_seq = 3001`: `updateSeq` writes `bad_seq` and never reads it. An RTX
stream at `3000` that is given `7001` and then `7002` does accept `7002` and restarts with
`base_seq = max_seq = 7002`. -/
theorem badSeq_no_recovery :
    ((newStream "video" emptyStreamOption emptyCodec).receivePackets
        ([3000, 3001, 7001].map seqPacket)).1.badSeq = 7002 ∧
    ((newStream "video" emptyStreamOption emptyCodec).receivePackets
        ([3000, 3001, 7001, 7002].map seqPacket)).2
      = [none, none, some PeerError.ErrBadSeq, some PeerError.ErrBadSeq] ∧
    ((newStream "video" emptyStreamOption emptyCodec).receivePackets
        ([3000, 3001, 7001, 7002].map seqPacket)).1.baseSeq = 3000 ∧
    ((newStream "video" emptyStreamOption emptyCodec).receivePackets
        ([3000, 3001, 7001, 7002].map seqPacket)).1.maxSeq = 3001 ∧
    ((newStream "video" emptyStreamOption emptyCodec).receivePackets
        ([3000, 3001, 7001, 7002].map seqPacket)).1.packetDiscarded = 2 ∧
    (dropSeqRtxStream.UpdateSeq (seqPacket 7001) 0).2 = false ∧
    ((dropSeqRtxStream.UpdateSeq (seqPacket 7001) 0).1.UpdateSeq (seqPacket 7002) 0).2 = true ∧
    (((dropSeqRtxStream.UpdateSeq (seqPacket 7001) 0).1.UpdateSeq (seqPacket 7002) 0).1.baseSeq,
      ((dropSeqRtxStream.UpdateSeq (seqPacket 7001) 0).1.UpdateSeq (seqPacket 7002) 0).1.maxSeq)
      = (7002, 7002) := by
  refine ⟨by decide, by decide, by decide, by decide, by decide, by decide, by decide,
    by decide⟩

/-- The packet after a discarded one, in general: the base stream records `bad_seq = seq + 1`
when it discards a packet but never consults it. A following packet `q` at `bad_seq` leaves
`base_seq`, `max_seq` and `cycles` as they were, and is discarded again with `ErrBadSeq` unless
the discarded packet sat at `D = 64035` (then `q` is accepted without touching the sequence
state). The RTX stream reinitialises: after `RtxStream.UpdateSeq` has discarded `p2` (at `D`
other than `64036`), a packet `q2` at its `bad_seq` is accepted with
`base_seq = max_seq = q2.seq`. -/
theorem badSeq_followup (st : internalStream) (r : RtxStream) (p q p2 q2 : rtpPacket)
    (now1 now2 : Int) (hs : st.started = true)
    (hrej : (st.receivePacket p).2 = some PeerError.ErrBadSeq)
    (hq : q.SequenceNumber = (st.receivePacket p).1.badSeq)
    (hrej2 : (r.UpdateSeq p2 now1).2 = false)
    (hq2 : q2.SequenceNumber = (r.UpdateSeq p2 now1).1.badSeq)
    (hd2 : sub16 p2.SequenceNumber r.maxSeq ≠ 64036) :
    (st.receivePacket p).1.badSeq = (p.SequenceNumber + 1) % 65536 ∧
    ((st.receivePacket p).1.receivePacket q).1.baseSeq = st.baseSeq ∧
    ((st.receivePacket p).1.receivePacket q).1.maxSeq = st.maxSeq ∧
    ((st.receivePacket p).1.receivePacket q).1.cycles = st.cycles ∧
    (sub16 p.SequenceNumber st.maxSeq ≠ 64035 →
      ((st.receivePacket p).1.receivePacket q).2 = some PeerError.ErrBadSeq) ∧
    (sub16 p.SequenceNumber st.maxSeq = 64035 →
      ((st.receivePacket p).1.receivePacket q).2 = none) ∧
    (r.UpdateSeq p2 now1).1.badSeq = (p2.SequenceNumber + 1) % 65536 ∧
    ((r.UpdateSeq p2 now1).1.UpdateSeq q2 now2).2 = true ∧
    ((r.UpdateSeq p2 now1).1.UpdateSeq q2 now2).1.baseSeq = q2.SequenceNumber ∧
    ((r.UpdateSeq p2 now1).1.UpdateSeq q2 now2).1.maxSeq = q2.SequenceNumber := by
  obtain ⟨w1, w2, w3⟩ := receivePacket_window st p hs
  have hlo : 3000 ≤ sub16 p.SequenceNumber st.maxSeq := by
    by_contra h
    rw [(w1 (by omega)).1] at hrej
    exact absurd hrej (by decide)
  have hhi : sub16 p.SequenceNumber st.maxSeq < 64036 := by
    by_contra h
    rw [(w3 (by omega)).1] at hrej
    exact absurd hrej (by decide)
  have hst := w2 hlo hhi
  rw [hst] at hq ⊢
  simp only at hq ⊢
  have hs1 : ({ st with
      packetDiscarded := st.packetDiscarded + 1
      badSeq := (p.SequenceNumber + 1) % 65536 } : internalStream).started = true := hs
  obtain ⟨v1, v2, v3⟩ := receivePacket_window
    { st with
      packetDiscarded := st.packetDiscarded + 1
      badSeq := (p.SequenceNumber + 1) % 65536 } q hs1
  simp only at v1 v2 v3
  have hdq : sub16 q.SequenceNumber st.maxSeq
      = (sub16 p.SequenceNumber st.maxSeq + 1) % 65536 := by
    rw [hq]; simp only [sub16]; omega
  have hb : sub32 RTPSeqMod MaxMisorder % 65536 = 64036 := by decide
  have hlo2 : ¬ sub16 p2.SequenceNumber r.maxSeq < MaxDropout := by
    intro h
    simp [RtxStream.UpdateSeq, h] at hrej2
  have hhi2 : sub16 p2.SequenceNumber r.maxSeq ≤ 64036 := by
    by_contra h
    simp [RtxStream.UpdateSeq, hlo2, hb, h] at hrej2
  have hne2 : ¬ p2.SequenceNumber % 4294967296 = r.badSeq := by
    intro h
    simp [RtxStream.UpdateSeq, hlo2, hb, hhi2, h] at hrej2
  have hr1 : r.UpdateSeq p2 now1
      = ({ r with
            badSeq := (add16 p2.SequenceNumber 1) % RTPSeqMod
            packetDiscarded := r.packetDiscarded + 1 }, false) := by
    simp only [RtxStream.UpdateSeq, hlo2, hb, hhi2, hne2, if_false, if_true]
  rw [hr1] at hq2 ⊢
  simp only [add16, RTPSeqMod] at hq2 ⊢
  have hdq2 : sub16 q2.SequenceNumber r.maxSeq
      = (sub16 p2.SequenceNumber r.maxSeq + 1) % 65536 := by
    rw [hq2]; simp only [sub16]; omega
  simp only [MaxDropout] at hlo2
  have hq2lt : q2.SequenceNumber % 4294967296 = (p2.SequenceNumber + 1) % 65536 % 65536 := by
    rw [hq2]; omega
  have g1 : ¬ sub16 q2.SequenceNumber r.maxSeq < MaxDropout := by
    simp only [MaxDropout]; omega
  have g2 : sub16 q2.SequenceNumber r.maxSeq ≤ 64036 := by omega
  refine ⟨trivial, ?_, ?_, ?_, ?_, ?_, by first | trivial | omega, ?_, ?_, ?_⟩
  · by_cases h : sub16 p.SequenceNumber st.maxSeq = 64035
    · exact (v3 (by omega)).2.2.1
    · rw [v2 (by omega) (by omega)]
  · by_cases h : sub16 p.SequenceNumber st.maxSeq = 64035
    · exact (v3 (by omega)).2.1
    · rw [v2 (by omega) (by omega)]
  · by_cases h : sub16 p.SequenceNumber st.maxSeq = 64035
    · exact (v3 (by omega)).2.2.2
    · rw [v2 (by omega) (by omega)]
  · intro h
    rw [v2 (by omega) (by omega)]
  · intro h
    exact (v3 (by omega)).1
  · simp [RtxStream.UpdateSeq, g1, hb, g2, hq2lt, RtxStream.InitSeq]
  · simp [RtxStream.UpdateSeq, g1, hb, g2, hq2lt, RtxStream.InitSeq]
  · simp [RtxStream.UpdateSeq, g1, hb, g2, hq2lt, RtxStream.InitSeq]

/-- An instance of `badSeq_followup`: the base stream at `3000, 3001` and an RTX stream at
`3000`, each given `7001` and then `7002`. -/
theorem badSeq_followup_witness :
    (dropSeqStream.receivePacket (seqPacket 7001)).2 = some PeerError.ErrBadSeq ∧
    (dropSeqRtxStream.UpdateSeq (seqPacket 7001) 0).2 = false ∧
    ((dropSeqStream.receivePacket (seqPacket 7001)).1.receivePacket (seqPacket 7002)).1.maxSeq
      = dropSeqStream.maxSeq ∧
    ((dropSeqStream.receivePacket (seqPacket 7001)).1.receivePacket (seqPacket 7002)).2
      = some PeerError.ErrBadSeq ∧
    ((dropSeqRtxStream.UpdateSeq (seqPacket 7001) 0).1.UpdateSeq (seqPacket 7002) 0).1.baseSeq
      = 7002 :=
  have h := badSeq_followup dropSeqStream dropSeqRtxStream (seqPacket 7001) (seqPacket 7002)
    (seqPacket 7001) (seqPacket 7002) 0 0 (by decide) (by decide) (by decide) (by decide)
    (by decide) (by decide)
  ⟨by decide, by decide, h.2.2.1, h.2.2.2.2.1 (by decide), h.2.2.2.2.2.2.2.2.1⟩

/-! ## Packet view: RTX decapsulation -/

/-- C9: `RtxDecode(media_pt, media_ssrc)` fails with `ErrInvalidRtx` exactly when the payload
has fewer than two bytes, and then leaves the packet unchanged; on a payload `b0, b1, rest` it
succeeds and sets the sequence number to the big-endian value `256 * b0 + b1`, the payload type
to `media_pt`, the SSRC to `media_ssrc`, the payload to `rest` and the RTX mark, every other
field being kept. -/
theorem rtxDecode_spec (p : rtpPacket) (payloadType ssrc : Nat) (hpt : payloadType < 256)
    (hb : ∀ b ∈ p.Payload, b < 256) :
    ((p.RtxDecode payloadType ssrc).2 = some PeerError.ErrInvalidRtx ↔ p.Payload.length < 2) ∧
    ((p.RtxDecode payloadType ssrc).2 = none ↔ 2 ≤ p.Payload.length) ∧
    (p.Payload.length < 2 → (p.RtxDecode payloadType ssrc).1 = p) ∧
    (∀ b0 b1 rest, p.Payload = b0 :: b1 :: rest →
      (p.RtxDecode payloadType ssrc).1 =
        { p with
          PayloadType := payloadType
          SequenceNumber := 256 * b0 + b1
          SSRC := ssrc
          Payload := rest
          rtx := true }) := by
  refine ⟨?_, ?_, ?_, ?_⟩
  · by_cases h : p.Payload.length < 2 <;> simp [rtpPacket.RtxDecode, h]
  · by_cases h : p.Payload.length < 2
    · simp [rtpPacket.RtxDecode, h]
    · simp only [rtpPacket.RtxDecode, h, if_false, true_iff]; omega
  · intro h
    simp [rtpPacket.RtxDecode, h]
  · intro b0 b1 rest hp
    have h0 : b0 < 256 := hb b0 (by simp [hp])
    have h1 : b1 < 256 := hb b1 (by simp [hp])
    have hseq : rtpPacket.bigEndianUint16 (b0 :: b1 :: rest) = 256 * b0 + b1 := by
      simp only [rtpPacket.bigEndianUint16, List.getD_cons_zero, List.getD_cons_succ]
      omega
    have hlen : ¬ rest.length + 1 + 1 < 2 := by omega
    simp [rtpPacket.RtxDecode, hp, hseq, Nat.mod_eq_of_lt hpt, hlen]

/-- Witness for C9: the sample RTX packet with payload `0x04 0xD2 0x09`, decoded for media
payload type `96` and media SSRC `1000`, gets sequence number `1234` and payload `0x09`. -/
theorem rtxDecode_spec_witness :
    (96 < 256 ∧ ∀ b ∈ rtxSamplePacket.Payload, b < 256) ∧
    ((rtxSamplePacket.RtxDecode 96 1000).2 = none ↔ 2 ≤ rtxSamplePacket.Payload.length) ∧
    (rtxSamplePacket.RtxDecode 96 1000).1 =
      { rtxSamplePacket with
        PayloadType := 96
        SequenceNumber := 256 * 4 + 210
        SSRC := 1000
        Payload := [9]
        rtx := true } :=
  ⟨⟨by decide, by decide⟩,
   (rtxDecode_spec rtxSamplePacket 96 1000 (by decide) (by decide)).2.1,
   (rtxDecode_spec rtxSamplePacket 96 1000 (by decide) (by decide)).2.2.2 4 210 [9] rfl⟩

/-- C8: on a sender stream with RTX configured, encapsulating a media packet `p` for
retransmission (`onRTP`) and then decapsulating with `RtxDecode(p.payload_type, p.ssrc)`
succeeds and gives back the SSRC, payload type, sequence number and payload bytes of `p`; the
encapsulated packet carries the RTX payload type and SSRC, the next RTX sequence number and the
payload of `p` behind its two-byte big-endian sequence number. -/
theorem rtx_encapsulate_decode (r : senderStream) (p : rtpPacket)
    (hr : r.rtxStream.isSome = true) (hseq : p.SequenceNumber < 65536)
    (hpt : p.PayloadType < 256) :
    ((r.onRTP p).2.RtxDecode p.PayloadType p.SSRC).2 = none ∧
    ((r.onRTP p).2.RtxDecode p.PayloadType p.SSRC).1.SSRC = p.SSRC ∧
    ((r.onRTP p).2.RtxDecode p.PayloadType p.SSRC).1.PayloadType = p.PayloadType ∧
    ((r.onRTP p).2.RtxDecode p.PayloadType p.SSRC).1.SequenceNumber = p.SequenceNumber ∧
    ((r.onRTP p).2.RtxDecode p.PayloadType p.SSRC).1.Payload = p.Payload ∧
    (r.onRTP p).2.PayloadType = r.rtxPayloadType % 256 ∧
    (r.onRTP p).2.SSRC = r.rtxSSRC ∧
    (r.onRTP p).2.SequenceNumber = (r.rtxSeq + 1) % 65536 ∧
    (r.onRTP p).2.Payload
      = p.SequenceNumber / 256 :: p.SequenceNumber % 256 :: p.Payload := by
  obtain ⟨x, hx⟩ := Option.isSome_iff_exists.mp hr
  have hlen : ¬ (p.Payload.length + 1 + 1 < 2) := by omega
  have hdiv : p.SequenceNumber / 256 % 256 = p.SequenceNumber / 256 :=
    Nat.mod_eq_of_lt (by omega)
  simp [senderStream.onRTP, hx, rtpPacket.RtxDecode, rtpPacket.SetPayloadType,
    rtpPacket.SetSsrc, rtpPacket.SetRTX, rtpPacket.SetSequenceNumber, rtpPacket.putUint16,
    rtpPacket.bigEndianUint16, add16, hlen, hdiv, Nat.mod_eq_of_lt hpt]
  omega

/-- Witness for C8: the sender stream of `TestSenderStream_ReceiveNack` (RTX payload type `100`,
RTX SSRC `1234`) and a media packet with sequence number `1234`. -/
theorem rtx_encapsulate_decode_witness :
    nackTestSenderStream.rtxStream.isSome = true ∧
    (nackTestSenderStream.onRTP mediaSamplePacket).2.Payload = [4, 210, 9, 8, 7] ∧
    (nackTestSenderStream.onRTP mediaSamplePacket).2.SSRC = 1234 ∧
    ((nackTestSenderStream.onRTP mediaSamplePacket).2.RtxDecode 96 1000).1.SequenceNumber
      = 1234 ∧
    ((nackTestSenderStream.onRTP mediaSamplePacket).2.RtxDecode 96 1000).1.Payload
      = [9, 8, 7] :=
  have h := rtx_encapsulate_decode nackTestSenderStream mediaSamplePacket (by decide)
    (by decide) (by decide)
  ⟨by decide, h.2.2.2.2.2.2.2.2, h.2.2.2.2.2.2.1, h.2.2.2.1, h.2.2.2.2.1⟩

/-! ## Receiver stream: expected and received packets -/

theorem calculateJitter_base (r : receiverStream) (ts : Nat) (t : Int) :
    (r.calculateJitter ts t).tointernalStream = r.tointernalStream ∧
    (r.calculateJitter ts t).mediaTransmissionCounter = r.mediaTransmissionCounter := by
  by_cases h1 : r.codec.ClockRate = 0
  · simp only [receiverStream.calculateJitter, h1, if_true, and_self]
  · by_cases h2 : r.lastReceiveTimeMs = 0
    · simp only [receiverStream.calculateJitter, h1, h2, if_true, if_false, and_self]
    · simp only [receiverStream.calculateJitter, h1, h2, if_false, and_self]

theorem receiverStream_receivePacket_fields (reg : codec.Registry) (r : receiverStream)
    (p : rtpPacket) (t : Int) :
    (r.receivePacket reg p t).1.started = (r.tointernalStream.receivePacket p).1.started ∧
    (r.receivePacket reg p t).1.maxSeq = (r.tointernalStream.receivePacket p).1.maxSeq ∧
    (r.receivePacket reg p t).1.cycles = (r.tointernalStream.receivePacket p).1.cycles ∧
    (r.receivePacket reg p t).1.baseSeq = (r.tointernalStream.receivePacket p).1.baseSeq ∧
    (r.receivePacket reg p t).1.mediaTransmissionCounter.packetsReceived
      = r.mediaTransmissionCounter.packetsReceived
        + (if (r.tointernalStream.receivePacket p).2 = none then 1 else 0) := by
  rcases h : r.tointernalStream.receivePacket p with ⟨s1, e⟩
  cases e with
  | some err => simp [receiverStream.receivePacket, h]
  | none =>
    simp only [receiverStream.receivePacket, h, (calculateJitter_base _ _ _).1,
      (calculateJitter_base _ _ _).2, StreamStats.incomingRTP]
    split_ifs <;> simp

theorem receivePacket_started (st : internalStream) (p : rtpPacket) :
    (st.receivePacket p).1.started = true := by
  cases hs : st.started with
  | false => exact (receivePacket_first st p hs).2.1
  | true =>
    by_cases h1 : sub16 p.SequenceNumber st.maxSeq < MaxDropout
    · simp only [internalStream.receivePacket, internalStream.updateSeq, hs, Bool.not_true,
        Bool.false_eq_true, if_false, h1, if_true]
      by_cases hlt : p.SequenceNumber < st.maxSeq
      · simp only [hlt, if_true]; split <;> simp [hs]
      · simp only [hlt, if_false]; split <;> simp [hs]
    · by_cases h2 : sub16 p.SequenceNumber st.maxSeq < sub32 RTPSeqMod MaxMisorder % 65536
      · simp only [internalStream.receivePacket, internalStream.updateSeq, hs, Bool.not_true,
          Bool.false_eq_true, if_false, h1, h2, if_true]
      · simp only [internalStream.receivePacket, internalStream.updateSeq, hs, Bool.not_true,
          Bool.false_eq_true, if_false, h1, h2]
        split <;> simp [hs]

theorem nodup_length_le (L : List Int) (a b : Int) (hnd : L.Nodup)
    (hin : ∀ e ∈ L, a ≤ e ∧ e ≤ b) (hab : a ≤ b + 1) : (L.length : Int) ≤ b - a + 1 := by
  have hsub : L.toFinset ⊆ Finset.Icc a b := by
    intro e he
    rw [List.mem_toFinset] at he
    rw [Finset.mem_Icc]
    exact hin e he
  have hcard := Finset.card_le_card hsub
  rw [List.toFinset_card_of_nodup hnd, Int.card_Icc] at hcard
  have : ((b + 1 - a).toNat : Int) = b + 1 - a := Int.toNat_of_nonneg (by omega)
  omega

theorem seqTrack_step (reg : codec.Registry) (r : receiverStream) (q : rtpPacket × Int)
    (ps : List (rtpPacket × Int)) (M n : Nat) (L : List Int) (hinv : SeqTrack r M n L)
    (hp : q.1.SequenceNumber < 65536) :
    ∃ (M2 : Nat) (L2 : List Int), SeqTrack (r.receivePacket reg q.1 q.2).1 M2 (n + 1) L2 ∧
      L ++ r.extendedSeqs reg M (q :: ps)
        = L2 ++ (r.receivePacket reg q.1 q.2).1.extendedSeqs reg M2 ps := by
  obtain ⟨hs, hm, hc, hb, hbm, hk, hle, hn⟩ := hinv
  obtain ⟨f1, f2, f3, f4, f5⟩ := receiverStream_receivePacket_fields reg r q.1 q.2
  obtain ⟨w1, w2, w3⟩ := receivePacket_window r.tointernalStream q.1 hs
  have hst := receivePacket_started r.tointernalStream q.1
  by_cases hlt : sub16 q.1.SequenceNumber r.maxSeq < 3000
  · obtain ⟨e1, e2, e3, e4⟩ := w1 hlt
    refine ⟨M + sub16 q.1.SequenceNumber r.maxSeq,
      L ++ [((M + sub16 q.1.SequenceNumber r.maxSeq : Nat) : Int)], ?_, ?_⟩
    · refine ⟨?_, ?_, ?_, ?_, ?_, ?_, ?_, ?_⟩
      · rw [f1]; exact hst
      · rw [f2, e2]; simp only [sub16, hm] at hlt ⊢; omega
      · rw [f3, e4, hc, hm]; simp only [sub16, hm] at hlt ⊢
        split <;> omega
      · rw [f4, e3]; exact hb
      · rw [f4, e3]; omega
      · rw [f5, e1, hk]; simp only [if_true, List.length_append, List.length_singleton]
        push_cast; ring
      · intro e he
        rcases List.mem_append.1 he with h | h
        · have := hle e h
          push_cast
          omega
        · rw [List.mem_singleton.1 h]
      · rw [f4, e3]; omega
    · simp only [receiverStream.extendedSeqs, hlt, if_true, List.append_assoc,
        List.singleton_append]
  · by_cases hmid : sub16 q.1.SequenceNumber r.maxSeq < 64036
    · have h2 := w2 (by omega) hmid
      rw [h2] at f1 f2 f3 f4 f5
      simp only at f1 f2 f3 f4 f5
      refine ⟨M, L, ?_, ?_⟩
      · refine ⟨?_, ?_, ?_, ?_, ?_, ?_, hle, ?_⟩
        · rw [f1]; exact hs
        · rw [f2]; exact hm
        · rw [f3]; exact hc
        · rw [f4]; exact hb
        · rw [f4]; exact hbm
        · rw [f5, hk]; simp only [reduceCtorEq, if_false, add_zero]
        · rw [f4]; omega
      · simp only [receiverStream.extendedSeqs, hlt, hmid, if_true, if_false]
    · obtain ⟨e1, e2, e3, e4⟩ := w3 (by omega)
      have hd16 : sub16 q.1.SequenceNumber r.maxSeq < 65536 := by
        simp only [sub16]; omega
      refine ⟨M, L ++ [(M : Int) + (sub16 q.1.SequenceNumber r.maxSeq : Int) - 65536], ?_, ?_⟩
      · refine ⟨?_, ?_, ?_, ?_, ?_, ?_, ?_, ?_⟩
        · rw [f1]; exact hst
        · rw [f2, e2]; exact hm
        · rw [f3, e4]; exact hc
        · rw [f4, e3]; exact hb
        · rw [f4, e3]; exact hbm
        · rw [f5, e1, hk]; simp only [if_true, List.length_append, List.length_singleton]
          push_cast; ring
        · intro e he
          rcases List.mem_append.1 he with h | h
          · exact hle e h
          · rw [List.mem_singleton.1 h]; omega
        · rw [f4, e3]; omega
      · simp only [receiverStream.extendedSeqs, hlt, hmid, if_false, List.append_assoc,
          List.singleton_append]

theorem seqTrack_run (reg : codec.Registry) (ps : List (rtpPacket × Int)) :
    ∀ (r : receiverStream) (M n : Nat) (L : List Int), SeqTrack r M n L →
      (∀ q ∈ ps, q.1.SequenceNumber < 65536) →
      ∃ M2, SeqTrack (r.receivePackets reg ps) M2 (n + ps.length)
        (L ++ r.extendedSeqs reg M ps) := by
  induction ps with
  | nil =>
    intro r M n L hinv _
    refine ⟨M, ?_⟩
    simpa only [receiverStream.receivePackets, receiverStream.extendedSeqs, List.append_nil,
      List.length_nil, Nat.add_zero] using hinv
  | cons q ps ih =>
    intro r M n L hinv hseq
    obtain ⟨M1, L1, h1, hL⟩ := seqTrack_step reg r q ps M n L hinv (hseq q (by simp))
    obtain ⟨M2, h2⟩ := ih _ M1 (n + 1) L1 h1 (fun x hx => hseq x (by simp [hx]))
    refine ⟨M2, ?_⟩
    have hl : n + (q :: ps).length = n + 1 + ps.length := by simp; omega
    rw [hl, hL]
    exact h2

/-- Counterexample to C6 as stated: a fresh receiver stream that gets the packet `1000` twice
counts two packets as received while its expected-packet count is `1`. -/
theorem expected_below_received_counterexample :
    ((NewReceiverStream "video" emptyStreamOption emptyCodec).receivePackets []
        [(seqPacket 1000, 1), (seqPacket 1000, 2)]).getExpectedPackets = 1 ∧
    ((NewReceiverStream "video" emptyStreamOption emptyCodec).receivePackets []
        [(seqPacket 1000, 1), (seqPacket 1000, 2)]).mediaTransmissionCounter.PacketsReceived
      = 2 ∧
    ¬ (((NewReceiverStream "video" emptyStreamOption emptyCodec).receivePackets []
          [(seqPacket 1000, 1), (seqPacket 1000, 2)]).getExpectedPackets
        ≥ ((NewReceiverStream "video" emptyStreamOption emptyCodec).receivePackets []
          [(seqPacket 1000, 1), (seqPacket 1000, 2)]).mediaTransmissionCounter.PacketsReceived)
    := by
  decide

/-- C6 (as amended): for a new receiver stream and every run of media packets, in any order, in
which the packets counted as received have pairwise different sequence numbers (counted without
wrap-around) and none of them lies before the first packet, the expected-packet count is
`E mod 2^32` for a number `E` that is at least the number of packets counted as received and at
most `3000 * n + 1` after `n` packets; hence expected >= received as long as
`3000 * n + 1 < 2^32`. -/
theorem expected_ge_received_distinct (reg : codec.Registry) (mediaType : String)
    (so : StreamOption) (cd : Codec) (ps : List (rtpPacket × Int))
    (hseq : ∀ q ∈ ps, q.1.SequenceNumber < 65536)
    (hnd : ((NewReceiverStream mediaType so cd).countedSeqs reg ps).Nodup)
    (hbase : ∀ e ∈ (NewReceiverStream mediaType so cd).countedSeqs reg ps,
      (((NewReceiverStream mediaType so cd).receivePackets reg ps).baseSeq : Int) ≤ e) :
    (∃ E : Nat,
      ((NewReceiverStream mediaType so cd).receivePackets reg ps).getExpectedPackets
        = ((E % 4294967296 : Nat) : Int) ∧
      ((NewReceiverStream mediaType so cd).receivePackets reg
          ps).mediaTransmissionCounter.PacketsReceived ≤ (E : Int) ∧
      E ≤ 3000 * ps.length + 1) ∧
    (3000 * ps.length + 1 < 4294967296 →
      ((NewReceiverStream mediaType so cd).receivePackets reg ps).getExpectedPackets
        ≥ ((NewReceiverStream mediaType so cd).receivePackets reg
            ps).mediaTransmissionCounter.PacketsReceived) := by
  have key : ∃ E : Nat,
      ((NewReceiverStream mediaType so cd).receivePackets reg ps).getExpectedPackets
        = ((E % 4294967296 : Nat) : Int) ∧
      ((NewReceiverStream mediaType so cd).receivePackets reg
          ps).mediaTransmissionCounter.PacketsReceived ≤ (E : Int) ∧
      E ≤ 3000 * ps.length + 1 := by
    cases ps with
    | nil =>
      refine ⟨1, ?_, ?_, ?_⟩
      · simp [receiverStream.receivePackets, internalStream.getExpectedPackets,
          NewReceiverStream, newStream, add32, sub32]
      · simp [receiverStream.receivePackets, StreamStats.PacketsReceived,
          NewReceiverStream, newStreamStats]
      · simp
    | cons q ps =>
      obtain ⟨f1, f2, f3, f4, f5⟩ :=
        receiverStream_receivePacket_fields reg (NewReceiverStream mediaType so cd) q.1 q.2
      obtain ⟨e1, e2, e3, e4, e5⟩ :=
        receivePacket_first (NewReceiverStream mediaType so cd).tointernalStream q.1 rfl
      have hq := hseq q (by simp)
      have h0 : ((NewReceiverStream mediaType so cd).mediaTransmissionCounter.packetsReceived
          : Int) = 0 := rfl
      have hc0 : (NewReceiverStream mediaType so cd).cycles = 0 := rfl
      have hinv : SeqTrack ((NewReceiverStream mediaType so cd).receivePacket reg q.1 q.2).1
          q.1.SequenceNumber 1 [(q.1.SequenceNumber : Int)] := by
        refine ⟨?_, ?_, ?_, ?_, ?_, ?_, ?_, ?_⟩
        · rw [f1]; exact e2
        · rw [f2, e3]; omega
        · rw [f3, e4, hc0]; omega
        · rw [f4, e5]; exact hq
        · rw [f4, e5]
        · rw [f5, e1, h0]; simp only [if_true, List.length_singleton]; rfl
        · intro e he
          rw [List.mem_singleton.1 he]
        · rw [f4, e5]; omega
      obtain ⟨M, hs, hm, hc, hb, hbm, hk, hle, hn⟩ :=
        seqTrack_run reg ps _ _ 1 _ hinv (fun x hx => hseq x (by simp [hx]))
      have hL : [(q.1.SequenceNumber : Int)] ++
          ((NewReceiverStream mediaType so cd).receivePacket reg q.1 q.2).1.extendedSeqs reg
            q.1.SequenceNumber ps
          = (NewReceiverStream mediaType so cd).countedSeqs reg (q :: ps) := rfl
      rw [hL] at hk hle
      have hlen := nodup_length_le _
        (((NewReceiverStream mediaType so cd).receivePackets reg (q :: ps)).baseSeq : Int)
        (M : Int) hnd (fun e he => ⟨hbase e he, hle e he⟩) (by
          simp only [receiverStream.receivePackets] at hbm ⊢
          omega)
      refine ⟨M - ((NewReceiverStream mediaType so cd).receivePackets reg (q :: ps)).baseSeq + 1,
        ?_, ?_, ?_⟩
      · simp only [internalStream.getExpectedPackets, add32, sub32]
        simp only [receiverStream.receivePackets] at hm hc hb hbm ⊢
        rw [hm, hc]
        congr 1
        omega
      · simp only [receiverStream.receivePackets, StreamStats.PacketsReceived] at hk hbm hlen ⊢
        rw [hk]
        omega
      · simp only [receiverStream.receivePackets, List.length_cons] at hn hbm ⊢
        omega
  refine ⟨key, ?_⟩
  intro hlen
  obtain ⟨E, h1, h2, h3⟩ := key
  rw [h1, Nat.mod_eq_of_lt (by omega)]
  exact h2

set_option maxRecDepth 1000000 in
/-- Witness for C6: the run of the repository test `Test misorder seq` (`1000, 1001, 1004, 1003,
1002, 1005, 1006, 1009, 1007, 1008`) has ten different sequence numbers, none before `1000`;
expected and received are both `10`. -/
theorem expected_ge_received_distinct_witness :
    (NewReceiverStream "video" emptyStreamOption emptyCodec).countedSeqs [] misorderRun
      = [1000, 1001, 1004, 1003, 1002, 1005, 1006, 1009, 1007, 1008] ∧
    ((NewReceiverStream "video" emptyStreamOption emptyCodec).receivePackets []
      misorderRun).getExpectedPackets = 10 ∧
    ((NewReceiverStream "video" emptyStreamOption emptyCodec).receivePackets []
      misorderRun).mediaTransmissionCounter.PacketsReceived = 10 ∧
    ((NewReceiverStream "video" emptyStreamOption emptyCodec).receivePackets []
        misorderRun).getExpectedPackets
      ≥ ((NewReceiverStream "video" emptyStreamOption emptyCodec).receivePackets []
        misorderRun).mediaTransmissionCounter.PacketsReceived :=
  ⟨by decide, by decide, by decide,
   (expected_ge_received_distinct [] "video" emptyStreamOption emptyCodec misorderRun
      (by decide) (by decide) (by decide)).2 (by decide)⟩

end peer

namespace nack

/-! ## NACK receiver: a gap right after `last_seq` -/

theorem isSeqLowerThan_gap (a g k : Nat) (hg : g ≤ 1000) (hk : k < g) :
    IsSeqLowerThan ((a + 1 + k) % 65536) ((a + g + 1) % 65536) = true := by
  simp only [IsSeqLowerThan, Bool.or_eq_true, Bool.and_eq_true, decide_eq_true_eq, sub16,
    rtc.SeqNumberMaxValue]
  omega

theorem isSeqLowerThan_ahead (a g : Nat) (hg : g ≤ 1000) :
    IsSeqLowerThan ((a + g + 1) % 65536) a = false := by
  simp only [IsSeqLowerThan, Bool.or_eq_false_iff, Bool.and_eq_false_iff,
    decide_eq_false_iff_not, sub16, rtc.SeqNumberMaxValue]
  omega

theorem addPacketsToNackList_empty (r : receiver) (expected : Nat) (pkt : packetInfo)
    (hn : r.nackList = []) (hrl : r.recoverList = [])
    (hg : sub16 pkt.seq expected ≤ 1000) :
    r.addPacketsToNackList expected pkt =
      ({ r with nackList := (List.range (sub16 pkt.seq expected)).map (fun k =>
          ({ seq := add16 expected k, sentAtMs := 0, sentAtSeq := add16 expected k,
             retries := 0, keyframe := false, rtx := false } : packetInfo)) }, []) := by
  have hfit : ¬ (0 + sub16 pkt.seq expected > maxNackPackets) := by
    simp only [maxNackPackets]; omega
  simp only [receiver.addPacketsToNackList, hn, hrl, receiver.firstYoungIndex,
    List.findIdx?_nil, List.drop_nil, List.length_nil, hfit, false_and, if_false,
    List.nil_append, List.contains_nil, Bool.not_false, List.filter_true, List.map_map]
  rfl

theorem getNackBatch_first (r : receiver) (nowMs : Int) (l : List Nat)
    (hl : ∀ i ∈ l, IsSeqLowerThan i r.lastSeq = true)
    (hn : r.nackList = l.map (fun i =>
      ({ seq := i, sentAtMs := 0, sentAtSeq := i, retries := 0, keyframe := false,
         rtx := false } : packetInfo))) :
    r.getNackBatch false nowMs =
      ({ r with nackList := l.map (fun i =>
          ({ seq := i, sentAtMs := nowMs, sentAtSeq := r.lastSeq, retries := 1,
             keyframe := false, rtx := false } : packetInfo)) }, l) := by
  have hsel : r.nackList.filter (r.selected false nowMs) = r.nackList := by
    apply List.filter_eq_self.mpr
    intro e he
    rw [hn] at he
    obtain ⟨i, hi, rfl⟩ := List.mem_map.mp he
    simp [receiver.selected, hl i hi]
  simp only [receiver.getNackBatch, hsel]
  rw [hn]
  simp only [List.map_map]
  congr 1
  · congr 1
    rw [List.filter_eq_self.mpr]
    · rfl
    · intro e he
      obtain ⟨i, _, rfl⟩ := List.mem_map.mp he
      simp [maxNackRetries]
  · exact List.map_id _

/-- C10: a NACK receiver with empty `nack_list` and `recover_list` and `last_seq = a` that gets
a non-RTX packet with sequence number `b = a + g + 1 (mod 2^16)`, `0 <= g <= 1000`, sets
`last_seq = b` and hands to `sendRtcp` exactly one `TransportLayerNack` built from the sequence
numbers `a+1, ..., a+g` in that order when `g >= 1`, and nothing when `g = 0`; the NACK list then
holds these `g` entries, each sent once (at `now`, at `b`). -/
theorem receive_gap (r : receiver) (p : packetInfo) (nowMs : Int) (a g : Nat)
    (hn : r.nackList = []) (hrl : r.recoverList = []) (hl : r.lastSeq = a) (ha : a < 65536)
    (hg : g ≤ 1000) (hp : p.seq = (a + g + 1) % 65536) (hrtx : p.rtx = false) :
    ∃ r2 out, r.receive p nowMs = some (r2, out) ∧
      r2.lastSeq = p.seq ∧
      out = (if 1 ≤ g then
          [RtcpOut.TransportLayerNack r.mediaSSRC
            ((List.range g).map (fun k => (a + 1 + k) % 65536))]
        else []) ∧
      r2.nackList = (List.range g).map (fun k =>
        ({ seq := (a + 1 + k) % 65536, sentAtMs := nowMs, sentAtSeq := p.seq, retries := 1,
           keyframe := false, rtx := false } : packetInfo)) := by
  subst hl
  have hne : ¬ p.seq = r.lastSeq := by rw [hp]; omega
  have hlow : IsSeqLowerThan p.seq r.lastSeq = false := by
    rw [hp]; exact isSeqLowerThan_ahead r.lastSeq g hg
  have hnew : sub16 p.seq (add16 r.lastSeq 1) = g := by
    rw [hp]; simp only [sub16, add16]; omega
  obtain ⟨kf, hkf⟩ : ∃ kf, kf = receiver.pruneKeyframes p.seq
      (if p.keyframe then r.keyframes ++ [p.seq] else r.keyframes) := ⟨_, rfl⟩
  have hadd := addPacketsToNackList_empty { r with keyframes := kf }
    (add16 r.lastSeq 1) p hn hrl (by rw [hnew]; exact hg)
  rw [hnew] at hadd
  have hmiss : (List.range g).map (fun k =>
      ({ seq := add16 (add16 r.lastSeq 1) k, sentAtMs := 0,
         sentAtSeq := add16 (add16 r.lastSeq 1) k, retries := 0, keyframe := false,
         rtx := false } : packetInfo))
      = ((List.range g).map (fun k => (r.lastSeq + 1 + k) % 65536)).map (fun i =>
      ({ seq := i, sentAtMs := 0, sentAtSeq := i, retries := 0, keyframe := false,
         rtx := false } : packetInfo)) := by
    rw [List.map_map]
    apply List.map_congr_left
    intro k _
    have : add16 (add16 r.lastSeq 1) k = (r.lastSeq + 1 + k) % 65536 := by
      simp only [add16]; omega
    simp [this]
  rw [hmiss] at hadd
  have hbatch := getNackBatch_first
    { r with
      keyframes := kf
      nackList := ((List.range g).map (fun k => (r.lastSeq + 1 + k) % 65536)).map (fun i =>
        ({ seq := i, sentAtMs := 0, sentAtSeq := i, retries := 0, keyframe := false,
           rtx := false } : packetInfo))
      lastSeq := p.seq } nowMs
    ((List.range g).map (fun k => (r.lastSeq + 1 + k) % 65536))
    (by
      intro i hi
      obtain ⟨k, hk, rfl⟩ := List.mem_map.mp hi
      rw [hp]
      exact isSeqLowerThan_gap r.lastSeq g k hg (List.mem_range.mp hk))
    rfl
  simp only [receiver.receive, hne, hlow, hrtx, if_false, Bool.false_eq_true, ← hkf, hadd,
    hbatch]
  refine ⟨_, _, rfl, rfl, ?_, ?_⟩
  · by_cases h1 : 1 ≤ g
    · have : g ≠ 0 := by omega
      simp [h1, this]
    · have : g = 0 := by omega
      simp [this]
  · simp only [List.map_map]
    rfl

/-- Witness for C10: after the first packet `65535`, the packet `1` (`g = 1`) makes the
receiver send one `TransportLayerNack` for `[0]`. -/
theorem receive_gap_witness :
    (NewReceiver.first (mediaInfo 65535)).nackList = [] ∧
    (mediaInfo 1).seq = (65535 + 1 + 1) % 65536 ∧
    ∃ r2 out, (NewReceiver.first (mediaInfo 65535)).receive (mediaInfo 1) 40 = some (r2, out) ∧
      r2.lastSeq = (mediaInfo 1).seq ∧
      out = (if 1 ≤ 1 then
          [RtcpOut.TransportLayerNack (NewReceiver.first (mediaInfo 65535)).mediaSSRC
            ((List.range 1).map (fun k => (65535 + 1 + k) % 65536))]
        else []) ∧
      r2.nackList = (List.range 1).map (fun k =>
        ({ seq := (65535 + 1 + k) % 65536, sentAtMs := 40, sentAtSeq := (mediaInfo 1).seq,
           retries := 1, keyframe := false, rtx := false } : packetInfo)) :=
  ⟨rfl, by decide,
   receive_gap (NewReceiver.first (mediaInfo 65535)) (mediaInfo 1) 40 65535 1 rfl rfl rfl
     (by decide) (by decide) (by decide) rfl⟩

end nack

namespace peer

/-! ## Senders: rewriting on egress and restoring the packet view -/

theorem newSenderRtx_SSRC (rand : Nat → Nat) (l : List receiverStream) :
    ∀ (k : Nat) (so : StreamOption),
      (newSenderRtx rand l k so).SSRC = so.SSRC ∧
      (newSenderRtx rand l k so).PayloadType = so.PayloadType := by
  induction l with
  | nil => intro k so; exact ⟨rfl, rfl⟩
  | cons st rest ih =>
    intro k so
    simp only [newSenderRtx]
    split
    · exact ih _ _
    · exact ih _ _

theorem newSender_ok (lis : ConsumerListener) (receiver : Receiver) (options : SenderOption)
    (rand : Nat → Nat) (s0 : sender) (h : newSender lis receiver options rand = Except.ok s0) :
    s0.stream.SSRC = rtc.GenerateSSRC (rand 0) ∧
    s0.stream.PayloadType = s0.codec.PayloadType ∧
    s0.transportConnected = false ∧ s0.producerClosed = false ∧
    s0.rtpStream = NewSenderStream s0.mediaType s0.stream s0.codec := by
  simp only [newSender] at h
  split at h
  · exact absurd h (by simp)
  · split at h
    · exact absurd h (by simp)
    · injection h with h
      subst h
      refine ⟨?_, ?_, rfl, rfl, rfl⟩
      · exact (newSenderRtx_SSRC rand _ _ _).1
      · exact (newSenderRtx_SSRC rand _ _ _).2

/-- C1: an active simple sender with sync not required, given a packet that its sender stream
accepts, hands the connection egress exactly one packet: its SSRC is the outgoing SSRC of the
sender, its payload type the payload type of the sender codec, its extensions are the incoming
ones in the same order with each ID replaced by `headerMap[ID]` and the payload bytes kept, and
sequence number, timestamp and payload are those of the incoming packet. The outgoing SSRC set
by `newSender` is the generated one, in `[800000000, 900000000)`. -/
theorem sendRTPPacket_rewrite (reg : codec.Registry) (lis : ConsumerListener) (s : sender)
    (packet : rtpPacket) (hact : s.IsActive = true) (hsync : s.syncRequired = false)
    (hacc : (s.rtpStream.ReceivePacket packet).2 = none) (hpt : s.codec.PayloadType < 256) :
    (∃ out, (s.SendRTPPacket reg lis packet).2.2 = [out] ∧
      out.SSRC = s.stream.SSRC ∧
      out.PayloadType = s.codec.PayloadType ∧
      out.Extensions = packet.Extensions.map (fun e =>
        ({ ID := headerMapGet s.headerMap e.ID, Payload := e.Payload } : Extension)) ∧
      out.SequenceNumber = packet.SequenceNumber ∧
      out.Timestamp = packet.Timestamp ∧
      out.Payload = packet.Payload) ∧
    (∀ (receiver : Receiver) (options : SenderOption) (rand : Nat → Nat) (s0 : sender),
      newSender lis receiver options rand = Except.ok s0 →
        s0.stream.SSRC = 800000000 + rand 0 % 100000000 ∧
        800000000 ≤ s0.stream.SSRC ∧ s0.stream.SSRC < 900000000) := by
  constructor
  · rcases hrp : s.rtpStream.ReceivePacket packet with ⟨rs, e⟩
    rw [hrp] at hacc
    simp only at hacc
    subst hacc
    simp only [sender.SendRTPPacket, hact, hsync, Bool.not_true, Bool.false_eq_true, if_false,
      Bool.false_and, hrp]
    refine ⟨_, rfl, ?_, ?_, ?_, ?_, ?_, ?_⟩ <;>
      simp [rtpPacket.SetSsrc, rtpPacket.SetPayloadType, rtpPacket.UpdateHeader,
        Nat.mod_eq_of_lt hpt]
  · intro receiver options rand s0 h
    obtain ⟨h1, _⟩ := newSender_ok lis receiver options rand s0 h
    have hb : rand 0 % 100000000 < 100000000 := Nat.mod_lt _ (by decide)
    rw [h1]
    simp only [rtc.GenerateSSRC, add32, rtc.ssrcLowerBound, rtc.ssrcUpperBound]
    omega

/-- C2: on every path through `SendRTPPacket`, when the call returns, the packet view has the
SSRC, payload type and extension list (simple sender), and the SSRC, sequence number, timestamp
and payload type (simulcast sender), that it had before the call, whatever the connection
egress did to the view it was handed. -/
theorem sendRTPPacket_restores (reg : codec.Registry) (lis : ConsumerListener) (s : sender)
    (sc : SimulcastConsumer) (packet : rtpPacket) (hpt : packet.PayloadType < 256) :
    ((s.SendRTPPacket reg lis packet).2.1.SSRC = packet.SSRC ∧
     (s.SendRTPPacket reg lis packet).2.1.PayloadType = packet.PayloadType ∧
     (s.SendRTPPacket reg lis packet).2.1.Extensions = packet.Extensions) ∧
    (∀ res, sc.SendRTPPacket reg lis packet = some res →
      res.2.1.SSRC = packet.SSRC ∧
      res.2.1.SequenceNumber = packet.SequenceNumber ∧
      res.2.1.Timestamp = packet.Timestamp ∧
      res.2.1.PayloadType = packet.PayloadType) := by
  constructor
  · simp only [sender.SendRTPPacket]
    split
    · exact ⟨rfl, rfl, rfl⟩
    · split
      · exact ⟨rfl, rfl, rfl⟩
      · split
        · exact ⟨rfl, rfl, rfl⟩
        · simp [rtpPacket.SetSsrc, rtpPacket.SetPayloadType, rtpPacket.UpdateHeader,
            Nat.mod_eq_of_lt hpt]
  · intro res h
    simp only [SimulcastConsumer.SendRTPPacket] at h
    repeat' split at h
    all_goals first
      | (injection h with h; subst h; exact ⟨rfl, rfl, rfl, rfl⟩)
      | (injection h with h; subst h
         simp [rtpPacket.SetSsrc, rtpPacket.SetPayloadType, rtpPacket.SetSequenceNumber,
           rtpPacket.SetTimestamp, Nat.mod_eq_of_lt hpt])
      | cases h

/-! ## Simple sender: waiting for a key frame after the transport connects -/

theorem sendRTPPackets_inactive (reg : codec.Registry) (lis : ConsumerListener)
    (ps : List rtpPacket) :
    ∀ s : sender, s.IsActive = false → s.SendRTPPackets reg lis ps = (s, []) := by
  induction ps with
  | nil => intro s _; rfl
  | cons p ps ih =>
    intro s h
    have h1 : s.SendRTPPacket reg lis p = (s, p, []) := by
      simp [sender.SendRTPPacket, h]
    simp only [sender.SendRTPPackets, h1, ih s h, List.nil_append]

theorem transportConnected_eq (s s1 : sender) (reqs : List Nat)
    (h : s.TransportConnected = some (s1, reqs)) :
    s1 = { s with transportConnected := true, syncRequired := true } := by
  simp only [sender.TransportConnected, sender.UserOnTransportConnected] at h
  split at h
  · simp only [Option.map_eq_some'] at h
    obtain ⟨_, _, h2⟩ := h
    injection h2 with h3 _
    exact h3.symm
  · injection h with h
    injection h with h3 _
    exact h3.symm

theorem sendRTPPacket_waits (reg : codec.Registry) (lis : ConsumerListener) (s : sender)
    (p : rtpPacket) (hact : s.IsActive = true) (hsync : s.syncRequired = true)
    (hkey : codec.CanBeKeyFrame reg s.codec.EncoderName = true)
    (hp : p.IsKeyFrame = false) :
    s.SendRTPPacket reg lis p = (s, p, []) := by
  simp [sender.SendRTPPacket, hact, hsync, hkey, hp]

theorem senderStream_first (r : senderStream) (p : rtpPacket) (hs : r.started = false) :
    (r.ReceivePacket p).2 = none := by
  have h := receivePacket_first
    ({ r with stats := r.stats.outcomingRTP p } : senderStream).tointernalStream p hs
  rcases hrp : ({ r with stats := r.stats.outcomingRTP p } :
      senderStream).tointernalStream.receivePacket p with ⟨s1, e⟩
  rw [hrp] at h
  obtain ⟨he, _⟩ := h
  simp only at he
  subst he
  simp only [senderStream.ReceivePacket, hrp]

theorem sendRTPPacket_first_key (reg : codec.Registry) (lis : ConsumerListener) (s : sender)
    (p : rtpPacket) (hact : s.IsActive = true) (hst : s.rtpStream.started = false)
    (hp : p.IsKeyFrame = true) :
    ∃ out, (s.SendRTPPacket reg lis p).2.2 = [out] ∧ out.IsKeyFrame = true := by
  have hrs : (if s.syncRequired = true then ({ s with syncRequired := false } : sender)
      else s).rtpStream = s.rtpStream := by split <;> rfl
  simp only [sender.SendRTPPacket, hact, hp, Bool.not_true, Bool.false_eq_true, if_false,
    Bool.and_false]
  split
  · rename_i rs e hrp
    rw [hrs] at hrp
    have := senderStream_first s.rtpStream p hst
    rw [hrp] at this
    exact absurd this (by simp)
  · refine ⟨_, rfl, ?_⟩
    simpa [rtpPacket.IsKeyFrame, rtpPacket.SetSsrc, rtpPacket.SetPayloadType,
      rtpPacket.UpdateHeader] using hp

theorem sendRTPPackets_head_key (reg : codec.Registry) (lis : ConsumerListener) (s : sender)
    (hact : s.IsActive = true) (hsync : s.syncRequired = true)
    (hkey : codec.CanBeKeyFrame reg s.codec.EncoderName = true)
    (hst : s.rtpStream.started = false) (post : List rtpPacket) :
    ∀ out, (s.SendRTPPackets reg lis post).2.head? = some out → out.IsKeyFrame = true := by
  induction post with
  | nil => intro out h; simp [sender.SendRTPPackets] at h
  | cons p ps ih =>
    intro out h
    cases hp : p.IsKeyFrame with
    | false =>
      rw [sender.SendRTPPackets, sendRTPPacket_waits reg lis s p hact hsync hkey hp] at h
      exact ih out (by simpa using h)
    | true =>
      obtain ⟨o, ho, hk⟩ := sendRTPPacket_first_key reg lis s p hact hst hp
      rw [sender.SendRTPPackets] at h
      simp only [ho, List.singleton_append, List.head?_cons, Option.some.injEq] at h
      rw [← h]
      exact hk

theorem newSenderStream_started (mediaType : String) (so : StreamOption) (cd : Codec) :
    (NewSenderStream mediaType so cd).started = false := by
  simp only [NewSenderStream]
  split <;> rfl

/-- The gate on a sender fresh from `newSender`: a simple sender built by `newSender` whose codec
can carry key frames hands nothing to the egress before its transport connects; from
`TransportConnected` on it is active with `sync_required` set, every packet that is not a key
frame is dropped without reaching the egress and leaves the sender unchanged (so
`sync_required` stays set), and the first packet handed to the egress afterwards is a key
frame, since the stream of the sender has not started and accepts it. -/
theorem sync_gate (reg : codec.Registry) (lis : ConsumerListener) (receiver : Receiver)
    (options : SenderOption) (rand : Nat → Nat) (s0 s1 : sender) (reqs : List Nat)
    (pre : List rtpPacket)
    (hnew : newSender lis receiver options rand = Except.ok s0)
    (hkey : codec.CanBeKeyFrame reg s0.codec.EncoderName = true)
    (hconn : (s0.SendRTPPackets reg lis pre).1.TransportConnected = some (s1, reqs)) :
    (s0.SendRTPPackets reg lis pre).2 = [] ∧
    s1.IsActive = true ∧ s1.syncRequired = true ∧
    (∀ p, p.IsKeyFrame = false → s1.SendRTPPacket reg lis p = (s1, p, [])) ∧
    (∀ post, (∀ p ∈ post, p.IsKeyFrame = false) → s1.SendRTPPackets reg lis post = (s1, [])) ∧
    (∀ post out, (s1.SendRTPPackets reg lis post).2.head? = some out →
      out.IsKeyFrame = true) := by
  obtain ⟨_, _, htc, hpc, hrs⟩ := newSender_ok lis receiver options rand s0 hnew
  have hina : s0.IsActive = false := by simp [sender.IsActive, htc]
  have hpre := sendRTPPackets_inactive reg lis pre s0 hina
  rw [hpre] at hconn ⊢
  have hs1 := transportConnected_eq s0 s1 reqs hconn
  have hact : s1.IsActive = true := by rw [hs1]; simp [sender.IsActive, hpc]
  have hsync : s1.syncRequired = true := by rw [hs1]
  have hk1 : codec.CanBeKeyFrame reg s1.codec.EncoderName = true := by rw [hs1]; exact hkey
  have hst : s1.rtpStream.started = false := by
    rw [hs1]
    show s0.rtpStream.started = false
    rw [hrs]
    exact newSenderStream_started _ _ _
  refine ⟨rfl, hact, hsync, ?_, ?_, ?_⟩
  · intro p hp
    exact sendRTPPacket_waits reg lis s1 p hact hsync hk1 hp
  · intro post
    induction post with
    | nil => intro _; rfl
    | cons p ps ih =>
      intro hall
      rw [sender.SendRTPPackets,
        sendRTPPacket_waits reg lis s1 p hact hsync hk1 (hall p (by simp))]
      simp only [List.nil_append]
      rw [ih (fun q hq => hall q (by simp [hq]))]
  · intro post out h
    exact sendRTPPackets_head_key reg lis s1 hact hsync hk1 hst post out h

/-- An instance of `sync_gate`: the sample sender gets a key frame before its transport connects
(dropped), then, once connected, a non-key packet (dropped), a key frame (sent) and a non-key
packet (sent); the first packet on the egress is the key frame `11`. -/
theorem sync_gate_witness :
    newSender sampleListener sampleReceiver sampleSenderOption (fun _ => 5)
      = Except.ok sampleSender ∧
    codec.CanBeKeyFrame sampleRegistry sampleSender.codec.EncoderName = true ∧
    (sampleSender.SendRTPPackets sampleRegistry sampleListener
        [samplePacket 9 true]).1.TransportConnected
      = some ({ sampleSender with transportConnected := true, syncRequired := true }, [1000]) ∧
    (({ sampleSender with transportConnected := true, syncRequired := true } :
        sender).SendRTPPackets sampleRegistry sampleListener
          [samplePacket 10 false, samplePacket 11 true, samplePacket 12 false]).2.map
        (fun q => q.SequenceNumber) = [11, 12] ∧
    (∀ post out,
      (({ sampleSender with transportConnected := true, syncRequired := true } :
        sender).SendRTPPackets sampleRegistry sampleListener post).2.head? = some out →
      out.IsKeyFrame = true) :=
  ⟨rfl, by decide, by decide, by decide,
   (sync_gate sampleRegistry sampleListener sampleReceiver sampleSenderOption (fun _ => 5)
      sampleSender { sampleSender with transportConnected := true, syncRequired := true }
      [1000] [samplePacket 9 true] rfl (by decide) (by decide)).2.2.2.2.2⟩

/-- Witness for C1: the connected sample sender forwards packet `10` with SSRC `800000005`,
payload type `100` and the extension ID `3` rewritten to `4`. -/
theorem sendRTPPacket_rewrite_witness :
    connectedSender.IsActive = true ∧ connectedSender.syncRequired = false ∧
    (connectedSender.SendRTPPacket sampleRegistry sampleListener (samplePacket 10 false)).2.2
      = [{ samplePacket 10 false with
            SSRC := 800000005
            PayloadType := 100
            Extensions := [{ ID := 4, Payload := [48] }] }] ∧
    (∃ out,
      (connectedSender.SendRTPPacket sampleRegistry sampleListener (samplePacket 10 false)).2.2
        = [out] ∧
      out.SSRC = connectedSender.stream.SSRC ∧
      out.PayloadType = connectedSender.codec.PayloadType ∧
      out.Extensions = (samplePacket 10 false).Extensions.map (fun e =>
        ({ ID := headerMapGet connectedSender.headerMap e.ID, Payload := e.Payload }
          : Extension)) ∧
      out.SequenceNumber = (samplePacket 10 false).SequenceNumber ∧
      out.Timestamp = (samplePacket 10 false).Timestamp ∧
      out.Payload = (samplePacket 10 false).Payload) :=
  ⟨by decide, by decide, by decide,
   (sendRTPPacket_rewrite sampleRegistry sampleListener connectedSender (samplePacket 10 false)
      (by decide) (by decide) (by decide) (by decide)).1⟩

/-- Witness for C2: the connected sample sender and the sample simulcast consumer each forward
packet `10` through an egress that clears the SSRC of the view and appends an extension; the
view comes back with its own SSRC `1000`, payload type `96` and extension list. -/
theorem sendRTPPacket_restores_witness :
    (samplePacket 10 true).PayloadType < 256 ∧
    (connectedSender.SendRTPPacket sampleRegistry sampleListener (samplePacket 10 true)).2.2.length
      = 1 ∧
    (sampleSimulcast.SendRTPPacket sampleRegistry sampleListener (samplePacket 10 true)).map
      (fun res => (res.2.2.1.length, res.2.1.SSRC)) = some (1, 1000) ∧
    ((connectedSender.SendRTPPacket sampleRegistry sampleListener (samplePacket 10 true)).2.1.SSRC
        = (samplePacket 10 true).SSRC ∧
     (connectedSender.SendRTPPacket sampleRegistry sampleListener
        (samplePacket 10 true)).2.1.PayloadType = (samplePacket 10 true).PayloadType ∧
     (connectedSender.SendRTPPacket sampleRegistry sampleListener
        (samplePacket 10 true)).2.1.Extensions = (samplePacket 10 true).Extensions) :=
  ⟨by decide, by decide, by decide,
   (sendRTPPacket_restores sampleRegistry sampleListener connectedSender sampleSimulcast
      (samplePacket 10 true) (by decide)).1⟩

/-! ## Sequence manager -/

theorem inputs_base (l : List Nat) (d : defaultRTPManager) : (d.Inputs l).base = d.base := by
  induction l generalizing d with
  | nil => rfl
  | cons x xs ih =>
    have hx : (d.Input x).1.base = d.base := by
      simp only [defaultRTPManager.Input]
      split_ifs <;> rfl
    simp only [defaultRTPManager.Inputs, ih, hx]

/-- C20: in a manager whose highest output is `m`, after `Sync s` and any run of `Input` calls
(none of them a `Sync`), `Input (s + k)` returns `m + k` modulo `2^16`; a fresh manager synced
at `10` returns `1`, `2` and `4` for the inputs `11`, `12` and `14` made in that order. -/
theorem sync_input_offset (d : defaultRTPManager) (s k : Nat) (between : List Nat) :
    (((d.Sync s).Inputs between).Input (add16 s k)).2 = (d.maxOutput + k) % 65536 ∧
    ((NewSeqManager.Sync 10).Input 11).2 = 1 ∧
    (((NewSeqManager.Sync 10).Inputs [11]).Input 12).2 = 2 ∧
    (((NewSeqManager.Sync 10).Inputs [11, 12]).Input 14).2 = 4 := by
  refine ⟨?_, by decide, by decide, by decide⟩
  have hb : ((d.Sync s).Inputs between).base = sub16 d.maxOutput s := inputs_base between _
  simp only [defaultRTPManager.Input, hb, add16, sub16]
  omega

/-! ## Connection codec table -/

/-- C15: `Equal` reads a key that the second codec lacks as the empty string. The codec with the
single parameter `a = ""` is Equal to the codec with the single parameter `b = "x"`, although
the two parameter maps have different keys, and the relation fails the other way round. -/
theorem codec_equal_missing_key :
    flagCodec.Equal valueCodec = true ∧
    valueCodec.Equal flagCodec = false ∧
    flagCodec.EncoderName = valueCodec.EncoderName ∧
    flagCodec.Parameters.map (fun kv => kv.1) ≠ valueCodec.Parameters.map (fun kv => kv.1) := by
  decide

/-- Counterexample for C16: the table holds H264 under payload type `100`; the codec
`{PayloadType: 101, EncoderName: "H264", RTX: 100}` is Equal to it and has a different payload
type, and `updateCodecs` returns `ErrRTXPayloadNotMatch`, not `ErrPayloadNotMatch`. -/
theorem updateCodecs_rtx_counterexample :
    (100, codecOf 100 "H264" 0) ∈ h264Connection.codec ∧
    (codecOf 100 "H264" 0).Equal (codecOf 101 "H264" 100) = true ∧
    (codecOf 101 "H264" 100).PayloadType ≠ 100 ∧
    (h264Connection.updateCodecs (codecOf 101 "H264" 100)).2
      = some PeerError.ErrRTXPayloadNotMatch ∧
    (h264Connection.updateCodecs (codecOf 101 "H264" 100)).2
      ≠ some PeerError.ErrPayloadNotMatch := by
  decide

/-- C16 (amended): `updateCodecs` returns `ErrPayloadNotMatch` when the payload type of the
codec is registered to a codec that is not Equal to it; it also returns `ErrPayloadNotMatch`
when a codec Equal to it is registered under a different payload type, provided the RTX payload
type of the codec is not itself a key of the table; and whenever it returns an error the
connection is what it was before the call. -/
theorem updateCodecs_errors (c : Connection) (codec : Codec) :
    (∀ tc, gmGet c.codec codec.PayloadType = some tc → tc.Equal codec = false →
      c.updateCodecs codec = (c, some PeerError.ErrPayloadNotMatch)) ∧
    (∀ pt tc, (pt, tc) ∈ c.codec → pt ≠ codec.PayloadType → tc.Equal codec = true →
      gmGet c.codec codec.RTX = none →
      c.updateCodecs codec = (c, some PeerError.ErrPayloadNotMatch)) ∧
    (∀ e, (c.updateCodecs codec).2 = some e → (c.updateCodecs codec).1 = c) := by
  refine ⟨?_, ?_, ?_⟩
  · intro tc h1 h2
    simp [Connection.updateCodecs, h1, h2]
  · intro pt tc hmem _ heq hrtx
    have hany : c.codec.any (fun kv => kv.2.Equal codec) = true :=
      List.any_eq_true.mpr ⟨(pt, tc), hmem, heq⟩
    simp only [Connection.updateCodecs, hrtx, hany]
    split_ifs <;> simp_all
  · intro e h
    simp only [Connection.updateCodecs] at h ⊢
    split_ifs at h ⊢ <;> simp_all

/-- Witness for C16: after `{PayloadType: 100, EncoderName: "H264"}`, registering
`{PayloadType: 100, EncoderName: "VP9"}` or `{PayloadType: 101, EncoderName: "H264"}` returns
`ErrPayloadNotMatch` and the table still holds its one entry. -/
theorem updateCodecs_errors_witness :
    h264Connection.updateCodecs (codecOf 100 "VP9" 0)
      = (h264Connection, some PeerError.ErrPayloadNotMatch) ∧
    h264Connection.updateCodecs (codecOf 101 "H264" 0)
      = (h264Connection, some PeerError.ErrPayloadNotMatch) ∧
    (h264Connection.updateCodecs (codecOf 101 "H264" 100)).1 = h264Connection ∧
    h264Connection.codec.length = 1 :=
  ⟨(updateCodecs_errors h264Connection (codecOf 100 "VP9" 0)).1 (codecOf 100 "H264" 0)
      (by decide) (by decide),
   (updateCodecs_errors h264Connection (codecOf 101 "H264" 0)).2.1 100 (codecOf 100 "H264" 0)
      (by decide) (by decide) (by decide) (by decide),
   (updateCodecs_errors h264Connection (codecOf 101 "H264" 100)).2.2
      PeerError.ErrRTXPayloadNotMatch (by decide),
   by decide⟩

/-- C17: the table holds H264 under payload type `100`. Registering the same codec with the same
payload type passes the payload-type check, since the two are Equal, and is then rejected by the
loop over the table, which finds the entry itself: `updateCodecs` returns
`ErrPayloadNotMatch`. -/
theorem updateCodecs_same_codec :
    gmGet h264Connection.codec 100 = some (codecOf 100 "H264" 0) ∧
    (codecOf 100 "H264" 0).Equal (codecOf 100 "H264" 0) = true ∧
    h264Connection.updateCodecs (codecOf 100 "H264" 0)
      = (h264Connection, some PeerError.ErrPayloadNotMatch) := by
  decide

set_option maxRecDepth 100000 in
/-- C18: after `51` calls of `getCodec` with pairwise different codecs every payload type from
`100` to `150` is taken; the next call, with a codec that no entry is Equal to, registers it
under `151`, and the call after that is given `151` again and replaces that entry. -/
theorem getCodec_full_table :
    (List.range 51).all (fun i => (gmGet (filledConnection 51).codec (100 + i)).isSome) = true ∧
    (filledConnection 51).codec.any (fun kv => kv.2.Equal (codecOf 0 "H264" 0)) = false ∧
    ((filledConnection 51).getCodec (codecOf 0 "H264" 0)).2.PayloadType = 151 ∧
    (gmGet (filledConnection 52).codec 151).map (fun tc => tc.EncoderName)
      = some (letterName 51) ∧
    (filledConnection 52).codec.any (fun kv => kv.2.Equal (codecOf 0 "H264" 0)) = false ∧
    ((filledConnection 52).getCodec (codecOf 0 "H264" 0)).2.PayloadType = 151 ∧
    (((filledConnection 52).getCodec (codecOf 0 "H264" 0)).1.codec.any
      (fun kv => decide (kv.2.EncoderName = letterName 51))) = false := by
  decide

/-! ## Connection header table -/

theorem gmGet_mem {κ ν : Type} [DecidableEq κ] (m : List (κ × ν)) (k : κ) (v : ν)
    (h : gmGet m k = some v) : (k, v) ∈ m := by
  unfold gmGet at h
  rcases hf : m.find? (fun kv => decide (kv.1 = k)) with _ | ⟨a, b⟩
  · rw [hf] at h
    cases h
  · rw [hf] at h
    have hp := List.find?_some hf
    have hm := List.mem_of_find?_eq_some hf
    simp only [Option.map_some', Option.some.injEq] at h
    simp only [decide_eq_true_eq] at hp
    subst h
    subst hp
    exact hm

theorem gmGet_gmSet {κ ν : Type} [DecidableEq κ] (m : List (κ × ν)) (k : κ) (v : ν) :
    gmGet (gmSet m k v) k = some v := by
  simp [gmGet, gmSet]

theorem mem_gmSet {κ ν : Type} [DecidableEq κ] (m : List (κ × ν)) (k : κ) (v : ν)
    (a : κ × ν) (h : a ∈ gmSet m k v) : a = (k, v) ∨ (a ∈ m ∧ a.1 ≠ k) := by
  simp only [gmSet, gmDel, List.mem_cons, List.mem_filter, Bool.not_eq_true',
    decide_eq_false_iff_not] at h
  exact h

theorem headersDistinct_iff (m : List (String × Nat)) :
    headersDistinct m = true ↔ ∀ a ∈ m, ∀ b ∈ m, a.2 = b.2 → a.1 = b.1 := by
  simp only [headersDistinct, List.all_eq_true, Bool.or_eq_true, Bool.not_eq_true',
    decide_eq_false_iff_not, decide_eq_true_eq]
  constructor
  · intro h a ha b hb hab
    rcases h a ha b hb with h1 | h1
    · exact absurd hab h1
    · exact h1
  · intro h a ha b hb
    by_cases hab : a.2 = b.2
    · exact Or.inr (h a ha b hb hab)
    · exact Or.inl hab

theorem headersDistinct_gmSet (m : List (String × Nat)) (k : String) (v : Nat)
    (hd : headersDistinct m = true) (hfree : ∀ kv ∈ m, kv.2 = v → kv.1 = k) :
    headersDistinct (gmSet m k v) = true := by
  rw [headersDistinct_iff] at hd ⊢
  intro a ha b hb hab
  rcases mem_gmSet m k v a ha with rfl | ⟨ha1, ha2⟩
  · rcases mem_gmSet m k v b hb with rfl | ⟨hb1, hb2⟩
    · rfl
    · exact (hfree b hb1 hab.symm).symm
  · rcases mem_gmSet m k v b hb with rfl | ⟨hb1, _⟩
    · exact hfree a ha1 hab
    · exact hd a ha1 b hb1 hab

theorem generateHeaderID_free (c : Connection) (h : c.generateHeaderID ≠ 0) :
    ∀ kv ∈ c.rtpHeaders, kv.2 ≠ c.generateHeaderID := by
  unfold Connection.generateHeaderID at h ⊢
  rcases hf : ((List.range (headerTop + 1 - headerBottom)).map (fun i => headerBottom + i)).find?
      (fun i => !c.rtpHeaders.any (fun kv => decide (kv.2 = i))) with _ | i
  · rw [hf] at h
    exact absurd rfl h
  · have hp := List.find?_some hf
    simp only [Bool.not_eq_true', List.any_eq_false, decide_eq_true_eq] at hp
    intro kv hkv
    simpa using hp kv hkv

theorem updateHeaderExtensions_distinct (headers : List rtc.HeaderExtension) (c : Connection)
    (hd : headersDistinct c.rtpHeaders = true) (hf : c.updateFresh headers = true) :
    headersDistinct (c.updateHeaderExtensions headers).1.rtpHeaders = true := by
  induction headers generalizing c with
  | nil => exact hd
  | cons h rest ih =>
    unfold Connection.updateHeaderExtensions
    unfold Connection.updateFresh at hf
    rcases hg : gmGet c.rtpHeaders h.URI with _ | id
    · rw [hg] at hf
      simp only [Bool.and_eq_true, List.all_eq_true, Bool.not_eq_true',
        decide_eq_false_iff_not] at hf
      simp only
      exact ih _ (headersDistinct_gmSet _ _ _ hd (fun kv hkv he => absurd he (hf.1 kv hkv))) hf.2
    · rw [hg] at hf
      simp only at hf ⊢
      by_cases hid : id = h.ID
      · simp only [hid, ne_eq, not_true_eq_false, ↓reduceIte] at hf ⊢
        refine ih _ (headersDistinct_gmSet _ _ _ hd ?_) hf
        intro kv hkv he
        have hmem := gmGet_mem _ _ _ hg
        exact (headersDistinct_iff _).mp hd kv hkv (h.URI, id) hmem (by simp [he, hid])
      · simp only [ne_eq, hid, not_false_eq_true, ↓reduceIte]
        exact hd

theorem assignHeaders_distinct (headers : List rtc.HeaderExtension) (c : Connection)
    (hd : headersDistinct c.rtpHeaders = true) (hf : c.assignFound headers = true) :
    headersDistinct (c.assignHeaders headers).1.rtpHeaders = true := by
  induction headers generalizing c with
  | nil => exact hd
  | cons h rest ih =>
    unfold Connection.assignHeaders
    unfold Connection.assignFound at hf
    rcases hg : gmGet c.rtpHeaders h.URI with _ | id
    · rw [hg] at hf
      simp only [Bool.and_eq_true, Bool.not_eq_true', decide_eq_false_iff_not] at hf
      simp only
      refine ih _ (headersDistinct_gmSet _ _ _ hd ?_) hf.2
      intro kv hkv he
      exact absurd he (generateHeaderID_free c hf.1 kv hkv)
    · rw [hg] at hf
      simp only at hf ⊢
      exact ih c hd hf

theorem headerCall_distinct (c : Connection) (call : HeaderCall)
    (hd : headersDistinct c.rtpHeaders = true) (hf : c.admissible [call] = true) :
    headersDistinct (c.headerCall call).rtpHeaders = true := by
  simp only [Connection.admissible, Bool.and_true] at hf
  cases call with
  | update headers => exact updateHeaderExtensions_distinct headers c hd hf
  | get headers => exact assignHeaders_distinct _ c hd hf

/-- C19 (failing input): on a fresh connection that uses REMB, `getHeaderExtensions` of no
header gives the abs-send-time extension the ID `1`, and `updateHeaderExtensions` of the MID
extension with the ID `1` then writes it without an error: two different URIs hold the ID `1`.
`updateHeaderExtensions` compares the ID only with the one that the same URI holds, while
`generateHeaderID` on the same table passes over the ID `1` and gives `2`. -/
theorem header_id_shared :
    ((newConnection bwe.Remb).headerCalls [HeaderCall.get []]).rtpHeaders
      = [(rtc.HeaderExtensionAbsSendTime, 1)] ∧
    (((newConnection bwe.Remb).headerCalls [HeaderCall.get []]).updateHeaderExtensions
      [midHeader 1]).2 = none ∧
    ((newConnection bwe.Remb).headerCalls
      [HeaderCall.get [], HeaderCall.update [midHeader 1]]).rtpHeaders
      = [(rtc.HeaderExtensionMid, 1), (rtc.HeaderExtensionAbsSendTime, 1)] ∧
    headersDistinct ((newConnection bwe.Remb).headerCalls
      [HeaderCall.get [], HeaderCall.update [midHeader 1]]).rtpHeaders = false ∧
    ((newConnection bwe.Remb).headerCalls [HeaderCall.get []]).generateHeaderID = 2 := by
  refine ⟨by decide, by decide, by decide, by decide, by decide⟩

/-- The runs that keep the IDs apart: when no two URIs of the header table share an ID, the same
holds after any run of `updateHeaderExtensions` and `getHeaderExtensions` calls in which every
ID written by `updateHeaderExtensions` for an unknown URI is held by no URI at that moment and
every ID that `getHeaderExtensions` generates is found (is not `0`). -/
theorem header_ids_distinct (calls : List HeaderCall) (c : Connection)
    (hd : headersDistinct c.rtpHeaders = true) (hadm : c.admissible calls = true) :
    headersDistinct (c.headerCalls calls).rtpHeaders = true := by
  induction calls generalizing c with
  | nil => exact hd
  | cons call rest ih =>
    simp only [Connection.admissible, Bool.and_eq_true] at hadm
    exact ih _ (headerCall_distinct c call hd
      (by simp only [Connection.admissible, Bool.and_true]; exact hadm.1)) hadm.2

/-- An instance of `header_ids_distinct`: the calls of the connection tests and one more, on a
fresh connection that uses REMB: abs-send-time is preset to `10`, then asked for, then MID and
RID are asked for and get `1` and `2`, then RID is confirmed as `2`. -/
theorem header_ids_distinct_witness :
    headersDistinct (newConnection bwe.Remb).rtpHeaders = true ∧
    (newConnection bwe.Remb).admissible
      [HeaderCall.update [{ URI := rtc.HeaderExtensionAbsSendTime, ID := 10, Encrypt := false }],
       HeaderCall.get [{ URI := rtc.HeaderExtensionAbsSendTime, ID := 0, Encrypt := false }],
       HeaderCall.get [midHeader 0, ridHeader 0],
       HeaderCall.update [ridHeader 2]] = true ∧
    ((newConnection bwe.Remb).headerCalls
      [HeaderCall.update [{ URI := rtc.HeaderExtensionAbsSendTime, ID := 10, Encrypt := false }],
       HeaderCall.get [{ URI := rtc.HeaderExtensionAbsSendTime, ID := 0, Encrypt := false }],
       HeaderCall.get [midHeader 0, ridHeader 0],
       HeaderCall.update [ridHeader 2]]).rtpHeaders.length = 3 ∧
    headersDistinct ((newConnection bwe.Remb).headerCalls
      [HeaderCall.update [{ URI := rtc.HeaderExtensionAbsSendTime, ID := 10, Encrypt := false }],
       HeaderCall.get [{ URI := rtc.HeaderExtensionAbsSendTime, ID := 0, Encrypt := false }],
       HeaderCall.get [midHeader 0, ridHeader 0],
       HeaderCall.update [ridHeader 2]]).rtpHeaders = true :=
  ⟨by decide, by decide, by decide,
   header_ids_distinct _ (newConnection bwe.Remb) (by decide) (by decide)⟩

/-! ## RTP table -/

/-- C14: `GetProducer` returns the receiver stored for the SSRC of the packet when there is one
and leaves the table as it is; otherwise the receiver stored for the MID of the packet, read
with the non-zero ID that the header map gives the MID extension; otherwise the same with the
RID; otherwise nil, the table again as it is. A MID or RID hit writes the SSRC of the packet to
the SSRC table, the MID and RID tables are never written, and after any hit a lookup of a
packet with that SSRC returns the same receiver whatever its extensions and the header map. -/
theorem getProducer_order (r : rtpTable) (packet : rtpPacket)
    (rtpHeader : List (String × Nat)) :
    (∀ p, gmGet r.SsrcTable packet.SSRC = some p →
      r.GetProducer packet rtpHeader = (r, some p)) ∧
    (∀ p, gmGet r.SsrcTable packet.SSRC = none → r.midLookup packet rtpHeader = some p →
      r.GetProducer packet rtpHeader
        = ({ r with SsrcTable := gmSet r.SsrcTable packet.SSRC p }, some p)) ∧
    (∀ p, gmGet r.SsrcTable packet.SSRC = none → r.midLookup packet rtpHeader = none →
      r.ridLookup packet rtpHeader = some p →
      r.GetProducer packet rtpHeader
        = ({ r with SsrcTable := gmSet r.SsrcTable packet.SSRC p }, some p)) ∧
    (gmGet r.SsrcTable packet.SSRC = none → r.midLookup packet rtpHeader = none →
      r.ridLookup packet rtpHeader = none → r.GetProducer packet rtpHeader = (r, none)) ∧
    (∀ mid, gmGet rtpHeader rtc.HeaderExtensionMid = some mid → mid ≠ 0 →
      r.midLookup packet rtpHeader = gmGet r.MidTable (packet.Mid mid)) ∧
    (gmGet rtpHeader rtc.HeaderExtensionMid = none ∨
      gmGet rtpHeader rtc.HeaderExtensionMid = some 0 → r.midLookup packet rtpHeader = none) ∧
    (∀ rid, gmGet rtpHeader rtc.HeaderExtensionRid = some rid → rid ≠ 0 →
      r.ridLookup packet rtpHeader = gmGet r.RidTable (packet.Rid rid)) ∧
    (gmGet rtpHeader rtc.HeaderExtensionRid = none ∨
      gmGet rtpHeader rtc.HeaderExtensionRid = some 0 → r.ridLookup packet rtpHeader = none) ∧
    (∀ p, (r.GetProducer packet rtpHeader).2 = some p →
      ∀ (packet2 : rtpPacket) (rtpHeader2 : List (String × Nat)), packet2.SSRC = packet.SSRC →
        (r.GetProducer packet rtpHeader).1.GetProducer packet2 rtpHeader2
          = ((r.GetProducer packet rtpHeader).1, some p)) ∧
    (r.GetProducer packet rtpHeader).1.MidTable = r.MidTable ∧
    (r.GetProducer packet rtpHeader).1.RidTable = r.RidTable := by
  refine ⟨?_, ?_, ?_, ?_, ?_, ?_, ?_, ?_, ?_, ?_, ?_⟩
  · intro p h
    simp only [rtpTable.GetProducer, h]
  · intro p h1 h2
    simp only [rtpTable.GetProducer, h1, h2]
  · intro p h1 h2 h3
    simp only [rtpTable.GetProducer, h1, h2, h3]
  · intro h1 h2 h3
    simp only [rtpTable.GetProducer, h1, h2, h3]
  · intro mid h1 h2
    simp only [rtpTable.midLookup, h1, ne_eq, h2, not_false_eq_true, ↓reduceIte]
  · intro h
    rcases h with h | h <;> simp [rtpTable.midLookup, h]
  · intro rid h1 h2
    simp only [rtpTable.ridLookup, h1, ne_eq, h2, not_false_eq_true, ↓reduceIte]
  · intro h
    rcases h with h | h <;> simp [rtpTable.ridLookup, h]
  · intro p hp packet2 rtpHeader2 hs
    have key : gmGet (r.GetProducer packet rtpHeader).1.SsrcTable packet2.SSRC = some p := by
      rw [hs]
      simp only [rtpTable.GetProducer] at hp ⊢
      rcases h1 : gmGet r.SsrcTable packet.SSRC with _ | q
      · rw [h1] at hp
        rcases h2 : r.midLookup packet rtpHeader with _ | q
        · rw [h2] at hp
          rcases h3 : r.ridLookup packet rtpHeader with _ | q
          · rw [h3] at hp
            cases hp
          · rw [h3] at hp
            simp only [Option.some.injEq] at hp
            subst hp
            exact gmGet_gmSet _ _ _
        · rw [h2] at hp
          simp only [Option.some.injEq] at hp
          subst hp
          exact gmGet_gmSet _ _ _
      · rw [h1] at hp
        simp only [Option.some.injEq] at hp
        subst hp
        exact h1
    generalize (r.GetProducer packet rtpHeader).1 = r1 at key ⊢
    simp only [rtpTable.GetProducer, key]
  · simp only [rtpTable.GetProducer]
    repeat' split
    all_goals rfl
  · simp only [rtpTable.GetProducer]
    repeat' split
    all_goals rfl

/-- Witness for C14 on the sample table: SSRC `1000` is known and gives the receiver `7`; a
packet of the unknown SSRC `2000` with the MID `"0"` gives `8`, one with only the RID `"h"`
gives `9`, one with neither gives nil; after the MID hit, a bare packet of SSRC `2000` gives `8`
with an empty header map. -/
theorem getProducer_order_witness :
    sampleTable.GetProducer (tablePacket 1000 [{ ID := 3, Payload := [48] }]) sampleHeaderMap
      = (sampleTable, some 7) ∧
    (sampleTable.GetProducer (tablePacket 2000 [{ ID := 3, Payload := [48] },
      { ID := 4, Payload := [104] }]) sampleHeaderMap).2 = some 8 ∧
    (sampleTable.GetProducer (tablePacket 2000 [{ ID := 4, Payload := [104] }])
      sampleHeaderMap).2 = some 9 ∧
    sampleTable.GetProducer (tablePacket 2000 []) sampleHeaderMap = (sampleTable, none) ∧
    (sampleTable.GetProducer (tablePacket 2000 [{ ID := 3, Payload := [48] }])
      sampleHeaderMap).1.GetProducer (tablePacket 2000 []) []
      = ((sampleTable.GetProducer (tablePacket 2000 [{ ID := 3, Payload := [48] }])
          sampleHeaderMap).1, some 8) :=
  ⟨(getProducer_order sampleTable (tablePacket 1000 [{ ID := 3, Payload := [48] }])
      sampleHeaderMap).1 7 (by decide),
   congrArg Prod.snd ((getProducer_order sampleTable (tablePacket 2000
      [{ ID := 3, Payload := [48] }, { ID := 4, Payload := [104] }]) sampleHeaderMap).2.1 8
      (by decide) (by decide)),
   congrArg Prod.snd ((getProducer_order sampleTable (tablePacket 2000
      [{ ID := 4, Payload := [104] }]) sampleHeaderMap).2.2.1 9 (by decide) (by decide)
      (by decide)),
   (getProducer_order sampleTable (tablePacket 2000 []) sampleHeaderMap).2.2.2.1
      (by decide) (by decide) (by decide),
   (getProducer_order sampleTable (tablePacket 2000 [{ ID := 3, Payload := [48] }])
      sampleHeaderMap).2.2.2.2.2.2.2.2.1 8 (by decide) (tablePacket 2000 []) [] rfl⟩

end peer

namespace nack

/-! ## Replay buffer -/

/-- C13: a buffer of capacity `2` is given two packets with sequence number `5` and then one
with sequence number `6`. After the second `Put`, `Get 5` returns the second packet; the third
`Put` evicts the slot of the first packet by deleting the key `5`, so `Get 5` returns nil
although the second packet is one of the last two packets put. -/
theorem buffer_duplicate_evicted :
    (((NewBuffer 2).Put (bufferPacket 5 1)).Put (bufferPacket 5 2)).Get 5
      = some (bufferPacket 5 2) ∧
    ((((NewBuffer 2).Put (bufferPacket 5 1)).Put (bufferPacket 5 2)).Put (bufferPacket 6 3)).Get 5
      = none ∧
    ((((NewBuffer 2).Put (bufferPacket 5 1)).Put (bufferPacket 5 2)).Put (bufferPacket 6 3)).Get 6
      = some (bufferPacket 6 3) := by
  decide

/-! ## NACK receiver: late packets and the bound of the list -/

theorem removeLoop_walk (s : Nat) (mid : List packetInfo) :
    ∀ (pre rest : List packetInfo) (cur : Nat), (∀ x ∈ mid, x.seq ≠ s) →
      receiver.removeLoop s (mid.length + rest.length) pre.length (pre ++ (mid ++ rest)) cur
        = receiver.removeLoop s rest.length (pre.length + mid.length) (pre ++ (mid ++ rest))
            cur := by
  induction mid with
  | nil => intro pre rest cur _; simp
  | cons v vs ih =>
    intro pre rest cur h
    have hv : v.seq ≠ s := h v (List.mem_cons_self _ _)
    have hget : (pre ++ (v :: vs ++ rest)).get? pre.length = some v := by
      rw [List.get?_eq_getElem?, List.getElem?_append_right (Nat.le_refl _)]
      simp
    have hlen : (v :: vs).length + rest.length = (vs.length + rest.length) + 1 := by
      simp only [List.length_cons]; omega
    rw [hlen]
    simp only [receiver.removeLoop, hget, hv, ↓reduceIte]
    have h2 := ih (pre ++ [v]) rest cur (fun x hx => h x (List.mem_cons_of_mem _ hx))
    have e1 : (pre ++ [v]).length = pre.length + 1 := by simp
    have e2 : pre ++ [v] ++ (vs ++ rest) = pre ++ (v :: vs ++ rest) := by simp
    have e3 : pre.length + (v :: vs).length = pre.length + 1 + vs.length := by
      simp only [List.length_cons]; omega
    rw [e1, e2] at h2
    rw [e3]
    exact h2

theorem removeLoop_none_match (s : Nat) (pre rest : List packetInfo) (cur : Nat)
    (h : ∀ x ∈ rest, x.seq ≠ s) :
    receiver.removeLoop s rest.length pre.length (pre ++ rest) cur
      = some ((pre ++ rest).take cur) := by
  have hw := removeLoop_walk s rest pre [] cur h
  simp only [List.length_nil, Nat.add_zero, List.append_nil] at hw
  rw [hw]
  simp [receiver.removeLoop]

theorem removeLoop_single (s : Nat) (A B : List packetInfo) (e : packetInfo)
    (he : e.seq = s) (hA : ∀ x ∈ A, x.seq ≠ s) (hB : ∀ x ∈ B, x.seq ≠ s) :
    receiver.removeLoop s (A ++ e :: B).length 0 (A ++ e :: B) (A ++ e :: B).length
      = some (A ++ B) := by
  have hw := removeLoop_walk s A [] (e :: B) (A ++ e :: B).length hA
  simp only [List.length_nil, List.nil_append, Nat.zero_add] at hw
  have hl : (A ++ e :: B).length = A.length + (e :: B).length := by simp
  rw [show receiver.removeLoop s (A ++ e :: B).length 0 (A ++ e :: B) (A ++ e :: B).length
      = receiver.removeLoop s (A.length + (e :: B).length) 0 (A ++ e :: B)
          (A ++ e :: B).length by rw [← hl]]
  rw [hw]
  have hget : (A ++ e :: B).get? A.length = some e := by
    rw [List.get?_eq_getElem?, List.getElem?_append_right (Nat.le_refl _)]
    simp
  have hcur : A.length + 1 ≤ (A ++ e :: B).length := by simp
  have htake : (A ++ e :: B).take A.length = A := by simp
  have hdrop : (A ++ e :: B).drop (A.length + 1) = B := by
    simp [List.drop_append_eq_append_drop]
  have hc1 : (A ++ e :: B).length - 1 - A.length = B.length := by
    simp only [List.length_append, List.length_cons]; omega
  have hc2 : (A ++ e :: B).length - 1 = A.length + B.length := by
    simp only [List.length_append, List.length_cons]; omega
  have hlast : (A ++ e :: B).drop (A.length + B.length) = (e :: B).drop B.length := by
    simp [List.drop_append_eq_append_drop]
  have hstep : receiver.removeLoop s (e :: B).length A.length (A ++ e :: B) (A ++ e :: B).length
      = receiver.removeLoop s B.length (A.length + 1) (A ++ B ++ (e :: B).drop B.length)
          (A.length + B.length) := by
    rw [List.length_cons]
    simp only [receiver.removeLoop, hget, he, ↓reduceIte, hcur, htake, hdrop,
      hc1, hc2, hlast, List.take_length]
    simp only [Nat.add_sub_cancel_left, List.take_length]
  rw [hstep]
  cases B with
  | nil => simp [receiver.removeLoop]
  | cons b B1 =>
    have hL : ∀ x ∈ (e :: b :: B1).drop (b :: B1).length, x.seq ≠ s := by
      intro x hx
      have hx2 : x ∈ (b :: B1).drop B1.length := by simpa using hx
      exact hB x (List.mem_of_mem_drop hx2)
    have hLlen : ((e :: b :: B1).drop (b :: B1).length).length = 1 := by simp
    have hn := removeLoop_none_match s (A ++ [b]) (B1 ++ (e :: b :: B1).drop (b :: B1).length)
      (A.length + (b :: B1).length) (by
        intro x hx
        rcases List.mem_append.mp hx with h1 | h1
        · exact hB x (List.mem_cons_of_mem _ h1)
        · exact hL x h1)
    have e1 : (B1 ++ (e :: b :: B1).drop (b :: B1).length).length = (b :: B1).length := by
      rw [List.length_append, hLlen]; simp
    have e2 : (A ++ [b]).length = A.length + 1 := by simp
    have e3 : A ++ [b] ++ (B1 ++ (e :: b :: B1).drop (b :: B1).length)
        = A ++ (b :: B1) ++ (e :: b :: B1).drop (b :: B1).length := by simp
    rw [e1, e2, e3] at hn
    rw [hn, List.take_append_of_le_length (by simp)]
    simp

theorem removeLoop_filter (s : Nat) (l : List packetInfo)
    (hnd : (l.map (fun e => e.seq)).Nodup) :
    receiver.removeLoop s l.length 0 l l.length
      = some (l.filter (fun e => decide (e.seq ≠ s))) := by
  by_cases hmem : ∃ e ∈ l, e.seq = s
  · obtain ⟨e, hel, hes⟩ := hmem
    obtain ⟨A, B, rfl⟩ := List.append_of_mem hel
    simp only [List.map_append, List.map_cons] at hnd
    have hnd2 := List.nodup_append.mp hnd
    have hA : ∀ x ∈ A, x.seq ≠ s := by
      intro x hx hxs
      exact hnd2.2.2 (List.mem_map.mpr ⟨x, hx, rfl⟩)
        (by rw [hxs, ← hes]; exact List.mem_cons_self _ _)
    have hB : ∀ x ∈ B, x.seq ≠ s := by
      intro x hx hxs
      have := (List.nodup_cons.mp hnd2.2.1).1
      exact this (by rw [hes, ← hxs]; exact List.mem_map.mpr ⟨x, hx, rfl⟩)
    rw [removeLoop_single s A B e hes hA hB]
    congr 1
    have h1 : A.filter (fun e => decide (e.seq ≠ s)) = A :=
      List.filter_eq_self.mpr (fun x hx => by simpa using hA x hx)
    have h2 : B.filter (fun e => decide (e.seq ≠ s)) = B :=
      List.filter_eq_self.mpr (fun x hx => by simpa using hB x hx)
    rw [List.filter_append, List.filter_cons, h1, h2]
    simp [hes]
  · have hall : ∀ x ∈ l, x.seq ≠ s := fun x hx hxs => hmem ⟨x, hx, hxs⟩
    have hn := removeLoop_none_match s [] l l.length hall
    simp only [List.length_nil, List.nil_append, List.take_length] at hn
    rw [hn]
    congr 1
    exact (List.filter_eq_self.mpr (fun x hx => by simpa using hall x hx)).symm

theorem removeLoop_length (s : Nat) :
    ∀ (k i : Nat) (arr : List packetInfo) (cur : Nat) (l : List packetInfo),
      receiver.removeLoop s k i arr cur = some l → l.length ≤ cur := by
  intro k
  induction k with
  | zero =>
    intro i arr cur l h
    simp only [receiver.removeLoop, Option.some.injEq] at h
    subst h
    exact List.length_take_le _ _
  | succ k ih =>
    intro i arr cur l h
    simp only [receiver.removeLoop] at h
    rcases hg : arr.get? i with _ | v
    · rw [hg] at h
      cases h
    · rw [hg] at h
      simp only at h
      by_cases h1 : v.seq = s
      · by_cases h2 : i + 1 ≤ cur
        · simp only [h1, h2, ↓reduceIte] at h
          exact le_trans (ih _ _ _ _ h) (Nat.sub_le _ _)
        · simp only [h1, h2, ↓reduceIte] at h
          cases h
      · simp only [h1, ↓reduceIte] at h
        exact ih _ _ _ _ h

theorem keyFrameIndex_nil (v : Nat) : receiver.keyFrameIndex v [] = 0 := by
  simp [receiver.keyFrameIndex]

theorem removeUntilFrom_frame (r : receiver) :
    ∀ (vs : List Nat) (i : Nat),
      (r.removeUntilFrom i vs).1.lastSeq = r.lastSeq ∧
      (r.removeUntilFrom i vs).1.recoverList = r.recoverList ∧
      (r.removeUntilFrom i vs).1.mediaSSRC = r.mediaSSRC ∧
      (r.removeUntilFrom i vs).1.rtt = r.rtt ∧
      (∃ n, (r.removeUntilFrom i vs).1.nackList = r.nackList.drop n) ∧
      ((r.removeUntilFrom i vs).2 = true →
        (r.removeUntilFrom i vs).1.nackList.length < r.nackList.length) := by
  intro vs
  induction vs with
  | nil =>
    intro i
    exact ⟨rfl, rfl, rfl, rfl, ⟨0, rfl⟩, fun h => by simp [receiver.removeUntilFrom] at h⟩
  | cons v vs ih =>
    intro i
    by_cases hidx : receiver.keyFrameIndex v r.nackList > 0
    · have hres : r.removeUntilFrom i (v :: vs)
          = ({ r with
                keyframes := if i ≠ 0 then r.keyframes.drop i else r.keyframes
                nackList := r.nackList.drop (receiver.keyFrameIndex v r.nackList) }, true) := by
        simp only [receiver.removeUntilFrom, hidx, ↓reduceIte]
      rw [hres]
      refine ⟨rfl, rfl, rfl, rfl, ⟨_, rfl⟩, fun _ => ?_⟩
      have hne : r.nackList.length ≠ 0 := by
        intro h0
        have : r.nackList = [] := List.length_eq_zero.mp h0
        rw [this, keyFrameIndex_nil] at hidx
        exact absurd hidx (by decide)
      simp only [List.length_drop]
      omega
    · have hres : r.removeUntilFrom i (v :: vs) = r.removeUntilFrom (i + 1) vs := by
        simp only [receiver.removeUntilFrom, hidx, ↓reduceIte]
      rw [hres]
      exact ih (i + 1)

theorem shrinkLoop_frame (newSeq : Nat) :
    ∀ (fuel : Nat) (r : receiver),
      (receiver.shrinkLoop newSeq fuel r).lastSeq = r.lastSeq ∧
      (receiver.shrinkLoop newSeq fuel r).recoverList = r.recoverList ∧
      (receiver.shrinkLoop newSeq fuel r).mediaSSRC = r.mediaSSRC ∧
      (receiver.shrinkLoop newSeq fuel r).rtt = r.rtt ∧
      (∃ n, (receiver.shrinkLoop newSeq fuel r).nackList = r.nackList.drop n) := by
  intro fuel
  induction fuel with
  | zero =>
    intro r
    exact ⟨rfl, rfl, rfl, rfl, ⟨0, rfl⟩⟩
  | succ fuel ih =>
    intro r
    have hf := removeUntilFrom_frame r r.keyframes 0
    simp only [receiver.shrinkLoop, receiver.removeNackItemsUntilKeyFrame]
    split_ifs
    · exact ⟨hf.1, hf.2.1, hf.2.2.1, hf.2.2.2.1, hf.2.2.2.2.1⟩
    · have hi := ih (r.removeUntilFrom 0 r.keyframes).1
      obtain ⟨n, hn⟩ := hf.2.2.2.2.1
      obtain ⟨m, hm⟩ := hi.2.2.2.2
      refine ⟨hi.1.trans hf.1, hi.2.1.trans hf.2.1, hi.2.2.1.trans hf.2.2.1,
        hi.2.2.2.1.trans hf.2.2.2.1, ⟨n + m, ?_⟩⟩
      rw [hm, hn, List.drop_drop]

theorem shrinkLoop_fuel (newSeq : Nat) :
    ∀ (f1 f2 : Nat) (r : receiver), r.nackList.length < f1 → r.nackList.length < f2 →
      receiver.shrinkLoop newSeq f1 r = receiver.shrinkLoop newSeq f2 r := by
  intro f1
  induction f1 with
  | zero => intro f2 r h; exact absurd h (Nat.not_lt_zero _)
  | succ f1 ih =>
    intro f2 r h1 h2
    cases f2 with
    | zero => exact absurd h2 (Nat.not_lt_zero _)
    | succ f2 =>
      have hf := (removeUntilFrom_frame r r.keyframes 0).2.2.2.2.2
      simp only [receiver.shrinkLoop, receiver.removeNackItemsUntilKeyFrame] at hf ⊢
      by_cases hstop : (!(r.removeUntilFrom 0 r.keyframes).2 ||
          decide ((r.removeUntilFrom 0 r.keyframes).1.nackList.length + newSeq
            ≤ maxNackPackets)) = true
      · simp only [hstop, ↓reduceIte]
      · simp only [hstop, ↓reduceIte]
        have htrue : (r.removeUntilFrom 0 r.keyframes).2 = true := by
          simp only [Bool.or_eq_true, Bool.not_eq_true', not_or] at hstop
          simpa using hstop.1
        have hlt := hf htrue
        exact ih f2 _ (by omega) (by omega)

theorem addPackets_cases (r : receiver) (expected : Nat) (pkt : packetInfo) :
    ∃ r2 : receiver, (∃ n, r2.nackList = r.nackList.drop n) ∧ r2.lastSeq = r.lastSeq ∧
      r2.recoverList = r.recoverList ∧ r2.mediaSSRC = r.mediaSSRC ∧ r2.rtt = r.rtt ∧
      (r.addPacketsToNackList expected pkt
          = ({ r2 with nackList := [] }, [RtcpOut.PictureLossIndication r2.mediaSSRC]) ∨
       (r2.nackList.length + sub16 pkt.seq expected ≤ maxNackPackets ∧
        r.addPacketsToNackList expected pkt
          = ({ r2 with nackList := r2.nackList ++
                ((((List.range (sub16 pkt.seq expected)).map (fun k => add16 expected k)).filter
                  (fun i => !r2.recoverList.contains i)).map
                  (fun i => ({ seq := i, sentAtMs := 0, sentAtSeq := i, retries := 0,
                               keyframe := false, rtx := false } : packetInfo))) }, []))) := by
  by_cases hA : (r.nackList.drop (receiver.firstYoungIndex pkt.seq r.nackList)).length
      + sub16 pkt.seq expected > maxNackPackets
  · have hfr := shrinkLoop_frame (sub16 pkt.seq expected)
      ((r.nackList.drop (receiver.firstYoungIndex pkt.seq r.nackList)).length + 1)
      { r with nackList := r.nackList.drop (receiver.firstYoungIndex pkt.seq r.nackList) }
    obtain ⟨m, hm⟩ := hfr.2.2.2.2
    refine ⟨receiver.shrinkLoop (sub16 pkt.seq expected)
      ((r.nackList.drop (receiver.firstYoungIndex pkt.seq r.nackList)).length + 1)
      { r with nackList := r.nackList.drop (receiver.firstYoungIndex pkt.seq r.nackList) },
      ⟨receiver.firstYoungIndex pkt.seq r.nackList + m, ?_⟩, hfr.1, hfr.2.1, hfr.2.2.1,
      hfr.2.2.2.1, ?_⟩
    · rw [hm, List.drop_drop]
    · by_cases hB : (receiver.shrinkLoop (sub16 pkt.seq expected)
          ((r.nackList.drop (receiver.firstYoungIndex pkt.seq r.nackList)).length + 1)
          { r with
            nackList := r.nackList.drop (receiver.firstYoungIndex pkt.seq r.nackList) }
          ).nackList.length + sub16 pkt.seq expected > maxNackPackets
      · left
        simp only [receiver.addPacketsToNackList, hA, hB, and_self, ↓reduceIte]
      · right
        refine ⟨by omega, ?_⟩
        simp only [receiver.addPacketsToNackList, hA, hB, and_false, ↓reduceIte]
  · refine ⟨{ r with nackList := r.nackList.drop (receiver.firstYoungIndex pkt.seq r.nackList) },
      ⟨_, rfl⟩, rfl, rfl, rfl, rfl, ?_⟩
    right
    refine ⟨by simp only; omega, ?_⟩
    simp only [receiver.addPacketsToNackList, hA, false_and, ↓reduceIte]

theorem getNackBatch_mem (r : receiver) (onTimer : Bool) (nowMs : Int) (e1 : packetInfo)
    (h : e1 ∈ (r.getNackBatch onTimer nowMs).1.nackList) :
    ∃ e ∈ r.nackList, e1.seq = e.seq ∧ e1.retries = e.retries + 1 ∧ e1.retries < 10 := by
  simp only [receiver.getNackBatch, List.mem_filter, List.mem_map, decide_eq_true_eq,
    maxNackRetries] at h
  obtain ⟨⟨e, ⟨he, _⟩, rfl⟩, hlt⟩ := h
  exact ⟨e, he, rfl, rfl, hlt⟩

theorem bumped_sublist (f : packetInfo → packetInfo) (q : packetInfo → Bool)
    (hf : ∀ e, (f e).seq = e.seq) (l : List packetInfo) :
    List.Sublist (((l.map f).filter q).map (fun e => e.seq)) (l.map (fun e => e.seq)) := by
  have h2 := (List.filter_sublist (l.map f) (p := q)).map (fun e => e.seq)
  have h3 : (l.map f).map (fun e => e.seq) = l.map (fun e => e.seq) := by
    rw [List.map_map]
    exact List.map_congr_left (fun e _ => hf e)
  rw [h3] at h2
  exact h2

theorem getNackBatch_sublist (r : receiver) (onTimer : Bool) (nowMs : Int) :
    List.Sublist ((r.getNackBatch onTimer nowMs).1.nackList.map (fun e => e.seq))
      (r.nackList.map (fun e => e.seq)) := by
  simp only [receiver.getNackBatch]
  refine List.Sublist.trans ?_ ((List.filter_sublist (p := r.selected onTimer nowMs)
    r.nackList).map _)
  apply bumped_sublist
  intro e
  rfl

theorem getNackBatch_len (r : receiver) (onTimer : Bool) (nowMs : Int) :
    (r.getNackBatch onTimer nowMs).1.nackList.length ≤ r.nackList.length := by
  have h := (getNackBatch_sublist r onTimer nowMs).length_le
  simpa using h

theorem nackInv_weaken (r : receiver) (h : receiver.InvAt 0 r) : receiver.InvAt 1 r := by
  obtain ⟨h1, h2, h3⟩ := h
  refine ⟨h1, fun e he => ?_, h3⟩
  obtain ⟨a, b, c, d, f⟩ := h2 e he
  exact ⟨a, by omega, c, d, by omega⟩

theorem nackInv_getNackBatch (r : receiver) (onTimer : Bool) (nowMs : Int)
    (h : receiver.InvAt 1 r) : receiver.InvAt 0 (r.getNackBatch onTimer nowMs).1 := by
  obtain ⟨h1, h2, h3⟩ := h
  refine ⟨h1, fun e1 he1 => ?_, h3.sublist (getNackBatch_sublist r onTimer nowMs)⟩
  obtain ⟨e, he, hs, hr, hlt⟩ := getNackBatch_mem r onTimer nowMs e1 he1
  obtain ⟨a, b, c, d, f⟩ := h2 e he
  have hl : (r.getNackBatch onTimer nowMs).1.lastSeq = r.lastSeq := rfl
  rw [hl, hs]
  exact ⟨a, by omega, by omega, d, by omega⟩

theorem nackInv_add (r : receiver) (p : packetInfo) (hinv : receiver.InvAt 0 r)
    (hp : p.seq < 65536) :
    receiver.InvAt 1
      { (r.addPacketsToNackList (add16 r.lastSeq 1) p).1 with lastSeq := p.seq } := by
  obtain ⟨h1, h2, h3⟩ := hinv
  obtain ⟨r2, ⟨n, hn⟩, _, _, _, _, hcase⟩ := addPackets_cases r (add16 r.lastSeq 1) p
  rcases hcase with hc | ⟨hfit, hc⟩
  · rw [hc]
    exact ⟨hp, fun e he => absurd he (List.not_mem_nil e), List.nodup_nil⟩
  · rw [hc]
    have hsub : ∀ e ∈ r2.nackList, e ∈ r.nackList := by
      rw [hn]
      exact fun e he => List.mem_of_mem_drop he
    have hnew : sub16 p.seq (add16 r.lastSeq 1) ≤ 1000 := by
      simp only [maxNackPackets] at hfit
      omega
    refine ⟨hp, ?_, ?_⟩
    · intro e he
      simp only [List.mem_append, List.mem_map, List.mem_filter, List.mem_range] at he
      rcases he with he | ⟨i, ⟨⟨k, hk, rfl⟩, _⟩, rfl⟩
      · obtain ⟨a, b, c, d, f⟩ := h2 e (hsub e he)
        simp only [sub16, add16] at d f hnew ⊢
        refine ⟨a, by omega, c, by omega, by omega⟩
      · simp only [sub16, add16] at hnew hk ⊢
        refine ⟨by omega, by omega, by omega, by omega, by omega⟩
    · simp only [List.map_append, List.map_map]
      rw [List.nodup_append]
      refine ⟨?_, ?_, ?_⟩
      · rw [hn]
        exact h3.sublist ((List.drop_sublist n _).map _)
      · have hid : ((fun e : packetInfo => e.seq) ∘ fun i =>
            ({ seq := i, sentAtMs := 0, sentAtSeq := i, retries := 0, keyframe := false,
               rtx := false } : packetInfo)) = id := rfl
        rw [hid, List.map_id]
        apply List.Nodup.filter
        apply List.Nodup.map_on _ (List.nodup_range _)
        intro x hx y hy hxy
        have hx1 := List.mem_range.mp hx
        have hy1 := List.mem_range.mp hy
        simp only [add16] at hxy
        omega
      · intro a ha hb
        obtain ⟨e, he, rfl⟩ := List.mem_map.mp ha
        obtain ⟨i, hi, hie⟩ := List.mem_map.mp hb
        simp only [List.mem_filter, List.mem_map, List.mem_range] at hi
        obtain ⟨⟨k, hk, rfl⟩, _⟩ := hi
        obtain ⟨a1, b1, c1, d1, f1⟩ := h2 e (hsub e he)
        simp only [Function.comp_apply] at hie
        simp only [sub16, add16] at d1 f1 hnew hk hie
        omega

theorem receive_forward (r r1 : receiver) (a : receiver × List RtcpOut)
    (b : receiver × List Nat) (p : packetInfo) (nowMs : Int)
    (hr : r1 = { r with
      keyframes := receiver.pruneKeyframes p.seq
        (if p.keyframe then r.keyframes ++ [p.seq] else r.keyframes) })
    (ha : a = r1.addPacketsToNackList (add16 r.lastSeq 1) p)
    (hb : b = ({ a.1 with lastSeq := p.seq } : receiver).getNackBatch false nowMs)
    (h1 : p.seq ≠ r.lastSeq) (h2 : IsSeqLowerThan p.seq r.lastSeq = false)
    (h3 : p.rtx = false) :
    r.receive p nowMs = some (b.1, a.2 ++
      (if b.2.length ≠ 0 then [RtcpOut.TransportLayerNack b.1.mediaSSRC b.2] else [])) := by
  subst hb ha hr
  simp only [receiver.receive, h1, h2, h3, if_false, Bool.false_eq_true]

theorem nackInv_receive (r : receiver) (p : packetInfo) (nowMs : Int)
    (res : receiver × List RtcpOut) (hinv : receiver.InvAt 0 r) (hp : p.seq < 65536)
    (h : r.receive p nowMs = some res) : receiver.InvAt 0 res.1 := by
  by_cases h1 : p.seq = r.lastSeq
  · simp only [receiver.receive, h1, ↓reduceIte, Option.some.injEq] at h
    subst h
    exact hinv
  · by_cases h2 : IsSeqLowerThan p.seq r.lastSeq = true
    · simp only [receiver.receive, h1, h2, ↓reduceIte, removeLoop_filter _ _ hinv.2.2,
        Option.map_some', Option.some.injEq] at h
      subst h
      refine ⟨hinv.1, fun e he => hinv.2.1 e (List.mem_of_mem_filter he), ?_⟩
      exact hinv.2.2.sublist ((List.filter_sublist _).map _)
    · have h2f : IsSeqLowerThan p.seq r.lastSeq = false := by simpa using h2
      by_cases h3 : p.rtx = true
      · simp only [receiver.receive, h1, h2f, h3, ↓reduceIte, Bool.false_eq_true,
          Option.map_eq_some'] at h
        obtain ⟨l, _, rfl⟩ := h
        exact hinv
      · have h3f : p.rtx = false := by simpa using h3
        rw [receive_forward r _ _ _ p nowMs rfl rfl rfl h1 h2f h3f] at h
        simp only [Option.some.injEq] at h
        subst h
        apply nackInv_getNackBatch
        exact nackInv_add { r with
          keyframes := receiver.pruneKeyframes p.seq
            (if p.keyframe then r.keyframes ++ [p.seq] else r.keyframes) } p hinv hp

theorem nackInv_step (r : receiver) (ev : Event) (res : receiver × List RtcpOut)
    (hinv : receiver.InvAt 0 r) (hv : ev.valid = true) (h : r.step ev = some res) :
    receiver.InvAt 0 res.1 := by
  cases ev with
  | packet seq keyFrame rtx nowMs =>
    simp only [Event.valid, decide_eq_true_eq] at hv
    exact nackInv_receive r _ nowMs res hinv hv h
  | tick nowMs =>
    simp only [receiver.step, Option.some.injEq] at h
    subst h
    exact nackInv_getNackBatch r true nowMs (nackInv_weaken r hinv)
  | updateRTT rtt =>
    simp only [receiver.step, Option.some.injEq] at h
    subst h
    exact hinv

theorem nackInv_run (evs : List Event) :
    ∀ (r r1 : receiver), receiver.InvAt 0 r → (∀ ev ∈ evs, ev.valid = true) →
      r.run evs = some r1 → receiver.InvAt 0 r1 := by
  induction evs with
  | nil =>
    intro r r1 hinv _ h
    simp only [receiver.run, Option.some.injEq] at h
    subst h
    exact hinv
  | cons ev rest ih =>
    intro r r1 hinv hv h
    simp only [receiver.run] at h
    rcases hs : r.step ev with _ | res
    · rw [hs] at h
      cases h
    · rw [hs] at h
      exact ih res.1 r1 (nackInv_step r ev res hinv (hv ev (List.mem_cons_self _ _)) hs)
        (fun e he => hv e (List.mem_cons_of_mem _ he)) h

theorem nackInv_start (seq : Nat) (keyFrame rtx : Bool) (h : seq < 65536) :
    receiver.InvAt 0 (receiver.start seq keyFrame rtx) :=
  ⟨h, fun e he => absurd he (List.not_mem_nil e), List.nodup_nil⟩

theorem receive_late_inv (r : receiver) (p : packetInfo) (nowMs : Int)
    (hinv : receiver.InvAt 0 r)
    (hlate : p.seq = r.lastSeq ∨ IsSeqLowerThan p.seq r.lastSeq = true) :
    r.receive p nowMs
      = some ({ r with nackList := r.nackList.filter (fun e => decide (e.seq ≠ p.seq)) },
          []) := by
  by_cases h1 : p.seq = r.lastSeq
  · simp only [receiver.receive, h1, ↓reduceIte]
    have hself : r.nackList.filter (fun e => decide (e.seq ≠ r.lastSeq)) = r.nackList := by
      apply List.filter_eq_self.mpr
      intro e he
      obtain ⟨a, _, _, d, _⟩ := hinv.2.1 e he
      have hl := hinv.1
      simp only [sub16] at d
      simp only [ne_eq, decide_not, Bool.not_eq_true', decide_eq_false_iff_not]
      omega
    rw [hself]
  · have h2 : IsSeqLowerThan p.seq r.lastSeq = true := by
      rcases hlate with h | h
      · exact absurd h h1
      · exact h
    simp only [receiver.receive, h1, h2, ↓reduceIte, removeLoop_filter _ _ hinv.2.2,
      Option.map_some']

theorem addPackets_len (r : receiver) (expected : Nat) (pkt : packetInfo) :
    (r.addPacketsToNackList expected pkt).1.nackList.length ≤ maxNackPackets := by
  obtain ⟨r2, _, _, _, _, _, hcase⟩ := addPackets_cases r expected pkt
  rcases hcase with hc | ⟨hfit, hc⟩
  · rw [hc]
    exact Nat.zero_le _
  · rw [hc]
    simp only [List.length_append, List.length_map]
    have h1 := List.length_filter_le (fun i => !r2.recoverList.contains i)
      ((List.range (sub16 pkt.seq expected)).map (fun k => add16 expected k))
    simp only [List.length_map, List.length_range] at h1
    omega

theorem step_len (r : receiver) (ev : Event) (res : receiver × List RtcpOut)
    (hlen : r.nackList.length ≤ maxNackPackets) (h : r.step ev = some res) :
    res.1.nackList.length ≤ maxNackPackets := by
  cases ev with
  | packet seq keyFrame rtx nowMs =>
    simp only [receiver.step] at h
    by_cases h1 : (incomingPacket seq keyFrame rtx).seq = r.lastSeq
    · simp only [receiver.receive, h1, ↓reduceIte, Option.some.injEq] at h
      subst h
      exact hlen
    · by_cases h2 : IsSeqLowerThan (incomingPacket seq keyFrame rtx).seq r.lastSeq = true
      · simp only [receiver.receive, h1, h2, ↓reduceIte, Option.map_eq_some'] at h
        obtain ⟨l, hl, rfl⟩ := h
        exact le_trans (removeLoop_length _ _ _ _ _ l hl) hlen
      · have h2f : IsSeqLowerThan (incomingPacket seq keyFrame rtx).seq r.lastSeq = false := by
          simpa using h2
        by_cases h3 : (incomingPacket seq keyFrame rtx).rtx = true
        · simp only [receiver.receive, h1, h2f, h3, ↓reduceIte, Bool.false_eq_true,
            Option.map_eq_some'] at h
          obtain ⟨l, _, rfl⟩ := h
          exact hlen
        · have h3f : (incomingPacket seq keyFrame rtx).rtx = false := by simpa using h3
          rw [receive_forward r _ _ _ _ nowMs rfl rfl rfl h1 h2f h3f] at h
          simp only [Option.some.injEq] at h
          subst h
          exact le_trans (getNackBatch_len _ _ _) (addPackets_len _ _ _)
  | tick nowMs =>
    simp only [receiver.step, Option.some.injEq] at h
    subst h
    exact le_trans (getNackBatch_len r true nowMs) hlen
  | updateRTT rtt =>
    simp only [receiver.step, Option.some.injEq] at h
    subst h
    exact hlen

theorem run_len (evs : List Event) :
    ∀ (r r1 : receiver), r.nackList.length ≤ maxNackPackets → r.run evs = some r1 →
      r1.nackList.length ≤ maxNackPackets := by
  induction evs with
  | nil =>
    intro r r1 hlen h
    simp only [receiver.run, Option.some.injEq] at h
    subst h
    exact hlen
  | cons ev rest ih =>
    intro r r1 hlen h
    simp only [receiver.run] at h
    rcases hs : r.step ev with _ | res
    · rw [hs] at h
      cases h
    · rw [hs] at h
      exact ih res.1 r1 (step_len r ev res hlen hs) h

theorem receive_pli (r : receiver) (seq : Nat) (keyFrame : Bool) (nowMs : Int)
    (h1 : seq ≠ r.lastSeq) (h2 : IsSeqLowerThan seq r.lastSeq = false)
    (hA : (r.nackList.drop (receiver.firstYoungIndex seq r.nackList)).length
      + sub16 seq (add16 r.lastSeq 1) > maxNackPackets)
    (hB : (receiver.shrinkLoop (sub16 seq (add16 r.lastSeq 1))
        ((r.nackList.drop (receiver.firstYoungIndex seq r.nackList)).length + 1)
        { r with
          keyframes := receiver.pruneKeyframes seq
            (if keyFrame then r.keyframes ++ [seq] else r.keyframes)
          nackList := r.nackList.drop (receiver.firstYoungIndex seq r.nackList)
        }).nackList.length + sub16 seq (add16 r.lastSeq 1) > maxNackPackets) :
    ∃ r2, r.step (Event.packet seq keyFrame false nowMs)
        = some (r2, [RtcpOut.PictureLossIndication r.mediaSSRC]) ∧
      r2.nackList = [] ∧ r2.lastSeq = seq := by
  have hms := (shrinkLoop_frame (sub16 seq (add16 r.lastSeq 1))
    ((r.nackList.drop (receiver.firstYoungIndex seq r.nackList)).length + 1)
    { r with
      keyframes := receiver.pruneKeyframes seq
        (if keyFrame then r.keyframes ++ [seq] else r.keyframes)
      nackList := r.nackList.drop (receiver.firstYoungIndex seq r.nackList) }).2.2.1
  have ha : ({ r with
      keyframes := receiver.pruneKeyframes seq
        (if keyFrame then r.keyframes ++ [seq] else r.keyframes) }
      : receiver).addPacketsToNackList (add16 r.lastSeq 1) (incomingPacket seq keyFrame false)
      = ({ receiver.shrinkLoop (sub16 seq (add16 r.lastSeq 1))
            ((r.nackList.drop (receiver.firstYoungIndex seq r.nackList)).length + 1)
            { r with
              keyframes := receiver.pruneKeyframes seq
                (if keyFrame then r.keyframes ++ [seq] else r.keyframes)
              nackList := r.nackList.drop (receiver.firstYoungIndex seq r.nackList) } with
          nackList := [] }, [RtcpOut.PictureLossIndication r.mediaSSRC]) := by
    simp only [receiver.addPacketsToNackList, incomingPacket, hA, hB, and_self, ↓reduceIte,
      hms]
  have hf := receive_forward r _ _ _ (incomingPacket seq keyFrame false) nowMs rfl rfl rfl
    h1 h2 rfl
  simp only [receiver.step]
  rw [hf]
  have hk : (incomingPacket seq keyFrame false).keyframe = keyFrame := rfl
  have hq : (incomingPacket seq keyFrame false).seq = seq := rfl
  simp only [hk, hq, ha, receiver.getNackBatch, List.filter_nil, List.map_nil, List.length_nil,
    ne_eq, not_true_eq_false, ↓reduceIte, List.append_nil]
  exact ⟨_, rfl, rfl, rfl⟩

/-- C11: in every state that the receiver reaches from its first packet through packet events
with `uint16` sequence numbers, ticks and `UpdateRTT` calls, a packet whose sequence number is
`last_seq` or cyclically behind it makes `receive` return: nothing is handed to `sendRtcp`,
`last_seq` and every other field stay as they are, and the NACK list is the old list without
the entry of that sequence number, the other entries unchanged and in their order. -/
theorem receive_late (seq0 : Nat) (keyFrame0 rtx0 : Bool) (evs : List Event) (r : receiver)
    (seq : Nat) (keyFrame rtx : Bool) (nowMs : Int) (h0 : seq0 < 65536)
    (hev : ∀ ev ∈ evs, ev.valid = true)
    (hrun : (receiver.start seq0 keyFrame0 rtx0).run evs = some r)
    (hlate : seq = r.lastSeq ∨ IsSeqLowerThan seq r.lastSeq = true) :
    r.step (Event.packet seq keyFrame rtx nowMs)
      = some ({ r with nackList := r.nackList.filter (fun e => decide (e.seq ≠ seq)) },
          []) :=
  receive_late_inv r (incomingPacket seq keyFrame rtx) nowMs
    (nackInv_run evs _ r (nackInv_start seq0 keyFrame0 rtx0 h0) hev hrun) hlate

/-- Witness for C11: after the first packet `10` and the packet `13` the packets `11` and `12`
are in the NACK list; the late packet `11` leaves the entry of `12` alone in the list. -/
theorem receive_late_witness :
    (receiver.start 10 false false).run [Event.packet 13 false false 40] = some lateSample ∧
    IsSeqLowerThan 11 lateSample.lastSeq = true ∧
    lateSample.step (Event.packet 11 false false 50)
      = some ({ lateSample with
          nackList := lateSample.nackList.filter (fun e => decide (e.seq ≠ 11)) }, []) ∧
    (lateSample.nackList.filter (fun e => decide (e.seq ≠ 11))).map (fun e => e.seq) = [12] :=
  ⟨by decide, by decide,
   receive_late 10 false false [Event.packet 13 false false 40] lateSample 11 false false 50
     (by decide) (by decide) (by decide) (Or.inr (by decide)),
   by decide⟩

/-- C12: when the NACK list holds at most `maxNackPackets = 1000` entries it still does after
every run of events, and a packet ahead of `last_seq` that is not RTX always returns with such
a list. A packet ahead of `last_seq` that is not RTX and whose gap does not fit,
neither after the entries older than `maxPacketAge` are dropped nor after the loop that drops
entries up to recorded key frames, empties the list, moves `last_seq` to the packet and hands
`sendRtcp` one `PictureLossIndication` and no NACK. The loop stops within the rounds that the
length of the list allows. -/
theorem nackList_bounded (r : receiver) (hlen : r.nackList.length ≤ maxNackPackets) :
    (∀ (evs : List Event) (r1 : receiver), r.run evs = some r1 →
      r1.nackList.length ≤ maxNackPackets) ∧
    (∀ (seq : Nat) (keyFrame : Bool) (nowMs : Int), seq ≠ r.lastSeq →
      IsSeqLowerThan seq r.lastSeq = false →
      ∃ res, r.step (Event.packet seq keyFrame false nowMs) = some res ∧
        res.1.nackList.length ≤ maxNackPackets) ∧
    (∀ (seq : Nat) (keyFrame : Bool) (nowMs : Int), seq ≠ r.lastSeq →
      IsSeqLowerThan seq r.lastSeq = false →
      (r.nackList.drop (receiver.firstYoungIndex seq r.nackList)).length
        + sub16 seq (add16 r.lastSeq 1) > maxNackPackets →
      (receiver.shrinkLoop (sub16 seq (add16 r.lastSeq 1))
        ((r.nackList.drop (receiver.firstYoungIndex seq r.nackList)).length + 1)
        { r with
          keyframes := receiver.pruneKeyframes seq
            (if keyFrame then r.keyframes ++ [seq] else r.keyframes)
          nackList := r.nackList.drop (receiver.firstYoungIndex seq r.nackList)
        }).nackList.length + sub16 seq (add16 r.lastSeq 1) > maxNackPackets →
      ∃ r2, r.step (Event.packet seq keyFrame false nowMs)
          = some (r2, [RtcpOut.PictureLossIndication r.mediaSSRC]) ∧
        r2.nackList = [] ∧ r2.lastSeq = seq) ∧
    (∀ (newSeq fuel : Nat) (r0 : receiver), r0.nackList.length < fuel →
      receiver.shrinkLoop newSeq fuel r0
        = receiver.shrinkLoop newSeq (r0.nackList.length + 1) r0) :=
  ⟨fun evs r1 h => run_len evs r r1 hlen h,
   fun seq keyFrame nowMs h1 h2 =>
     ⟨_, receive_forward r _ _ _ (incomingPacket seq keyFrame false) nowMs rfl rfl rfl h1 h2 rfl,
      step_len r (Event.packet seq keyFrame false nowMs) _ hlen
        (receive_forward r _ _ _ (incomingPacket seq keyFrame false) nowMs rfl rfl rfl h1 h2
          rfl)⟩,
   fun seq keyFrame nowMs h1 h2 hA hB => receive_pli r seq keyFrame nowMs h1 h2 hA hB,
   fun newSeq fuel r0 h => shrinkLoop_fuel newSeq fuel _ r0 h (Nat.lt_succ_self _)⟩

/-- Witness for C12: the receiver that has taken the packet `10` has an empty list; after the
packet `13` the list holds two entries; the packet `2000` opens a gap of `1989` packets and
makes the receiver send a `PictureLossIndication`. -/
theorem nackList_bounded_witness :
    (receiver.start 10 false false).nackList.length ≤ maxNackPackets ∧
    lateSample.nackList.length ≤ maxNackPackets ∧
    ∃ r2, (receiver.start 10 false false).step (Event.packet 2000 false false 40)
        = some (r2, [RtcpOut.PictureLossIndication (receiver.start 10 false false).mediaSSRC]) ∧
      r2.nackList = [] ∧ r2.lastSeq = 2000 :=
  ⟨by decide,
   (nackList_bounded (receiver.start 10 false false) (by decide)).1
     [Event.packet 13 false false 40] lateSample (by decide),
   (nackList_bounded (receiver.start 10 false false) (by decide)).2.2.1 2000 false 40
     (by decide) (by decide) (by decide) (by decide)⟩

end nack

namespace peer

/-! ## Simulcast consumer: choosing and switching layers -/

theorem canSwitch_total (s : SimulcastConsumer)
    (hv : s.tsReferenceSpatialLayer = -1 ∨ (0 ≤ s.tsReferenceSpatialLayer ∧
      s.tsReferenceSpatialLayer < s.sender.producerRTPStreams.length))
    (i : Nat) (hi : i < s.sender.producerRTPStreams.length) :
    ∃ b, s.canSwitchToSpatialLayer i = some b := by
  unfold SimulcastConsumer.canSwitchToSpatialLayer
  by_cases h1 : s.tsReferenceSpatialLayer = -1
  · exact ⟨true, by simp [h1]⟩
  · by_cases h2 : (i : Int) = s.tsReferenceSpatialLayer
    · exact ⟨true, by simp [h1, h2]⟩
    · rcases hv with hv | ⟨hv1, hv2⟩
      · exact absurd hv h1
      · have hlt : s.tsReferenceSpatialLayer.toNat < s.sender.producerRTPStreams.length := by
          omega
        have hget : streamAt s.sender.producerRTPStreams s.tsReferenceSpatialLayer
            = some (s.sender.producerRTPStreams.get ⟨_, hlt⟩) := by
          simp [streamAt, hv1, List.getElem?_eq_getElem hlt]
        have hgi : streamAt s.sender.producerRTPStreams (i : Int)
            = some (s.sender.producerRTPStreams.get ⟨i, hi⟩) := by
          simp [streamAt, List.getElem?_eq_getElem hi]
        simp only [h1, h2, ↓reduceIte, SimulcastConsumer.getProducerTSReferenceRTPStream, hget,
          Option.map_some', hgi]
        split_ifs
        · exact ⟨_, rfl⟩
        · exact ⟨_, rfl⟩

theorem recalculateLoop_spec (s : SimulcastConsumer) (l : List Nat) :
    l.Pairwise (fun a b => a < b) →
    (∀ i ∈ l, ∃ b, s.canSwitchToSpatialLayer i = some b) →
    ∀ acc : Int, ∃ r, s.recalculateLoop l acc = some r ∧
      ((r = acc ∧ ∀ i ∈ l, s.canSwitchToSpatialLayer (i : Nat) = some false) ∨
        (∃ i ∈ l, r = (i : Int) ∧ s.canSwitchToSpatialLayer (i : Nat) = some true)) ∧
      (∀ i ∈ l, s.canSwitchToSpatialLayer (i : Nat) = some true →
        s.preferredSpatialLayer ≤ (i : Int) → s.preferredSpatialLayer ≤ r ∧ r ≤ (i : Int)) ∧
      ((∀ i ∈ l, s.canSwitchToSpatialLayer (i : Nat) = some true →
          (i : Int) < s.preferredSpatialLayer) →
        ∀ i ∈ l, s.canSwitchToSpatialLayer (i : Nat) = some true → (i : Int) ≤ r) := by
  induction l with
  | nil =>
    intro _ _ acc
    exact ⟨acc, rfl, Or.inl ⟨rfl, fun i hi => absurd hi (List.not_mem_nil i)⟩,
      fun i hi => absurd hi (List.not_mem_nil i),
      fun _ i hi => absurd hi (List.not_mem_nil i)⟩
  | cons j rest ih =>
    intro hp htot acc
    have hp2 := List.pairwise_cons.mp hp
    have ih2 := ih hp2.2 (fun i hi => htot i (List.mem_cons_of_mem _ hi))
    obtain ⟨b, hb⟩ := htot j (List.mem_cons_self _ _)
    cases b with
    | false =>
      obtain ⟨r, hr, hA, hB, hC⟩ := ih2 acc
      refine ⟨r, by simp only [SimulcastConsumer.recalculateLoop, hb, hr], ?_, ?_, ?_⟩
      · rcases hA with ⟨h1, h2⟩ | ⟨i, hi, h1, h2⟩
        · left
          refine ⟨h1, fun i hi => ?_⟩
          rcases List.mem_cons.mp hi with rfl | hi
          · exact hb
          · exact h2 i hi
        · exact Or.inr ⟨i, List.mem_cons_of_mem _ hi, h1, h2⟩
      · intro i hi hc hpi
        rcases List.mem_cons.mp hi with rfl | hi
        · rw [hb] at hc
          cases hc
        · exact hB i hi hc hpi
      · intro hall i hi hc
        rcases List.mem_cons.mp hi with rfl | hi
        · rw [hb] at hc
          cases hc
        · exact hC (fun k hk => hall k (List.mem_cons_of_mem _ hk)) i hi hc
    | true =>
      by_cases hge : (j : Int) ≥ s.preferredSpatialLayer
      · refine ⟨j, by simp only [SimulcastConsumer.recalculateLoop, hb, hge, ↓reduceIte],
          Or.inr ⟨j, List.mem_cons_self _ _, rfl, hb⟩, ?_, ?_⟩
        · intro i hi _ _
          rcases List.mem_cons.mp hi with rfl | hi
          · exact ⟨hge, le_refl _⟩
          · have := hp2.1 i hi
            exact ⟨hge, by omega⟩
        · intro hall
          have := hall j (List.mem_cons_self _ _) hb
          omega
      · obtain ⟨r, hr, hA, hB, hC⟩ := ih2 j
        have hAj : (j : Int) ≤ r := by
          rcases hA with ⟨h1, _⟩ | ⟨i, hi, h1, _⟩
          · omega
          · have := hp2.1 i hi
            omega
        refine ⟨r, by simp only [SimulcastConsumer.recalculateLoop, hb, hge, ↓reduceIte, hr],
          ?_, ?_, ?_⟩
        · rcases hA with ⟨h1, _⟩ | ⟨i, hi, h1, h2⟩
          · exact Or.inr ⟨j, List.mem_cons_self _ _, h1, hb⟩
          · exact Or.inr ⟨i, List.mem_cons_of_mem _ hi, h1, h2⟩
        · intro i hi hc hpi
          rcases List.mem_cons.mp hi with rfl | hi
          · exact absurd hpi hge
          · exact hB i hi hc hpi
        · intro hall i hi hc
          rcases List.mem_cons.mp hi with rfl | hi
          · exact hAj
          · exact hC (fun k hk => hall k (List.mem_cons_of_mem _ hk)) i hi hc

/-- Counterexample for C21: three layers, the reference layer `0` and layer `2` have a sender
report and layer `1` has none, the user prefers layer `1`. Layer `0` can be switched to and is
the highest such layer at or below the preferred one, yet `recalculateTargetLayers` returns
layer `2`, above the preferred layer. -/
theorem recalculate_above_preferred_counterexample :
    threeLayerConsumer.preferredSpatialLayer = 1 ∧
    threeLayerConsumer.canSwitchToSpatialLayer 0 = some true ∧
    threeLayerConsumer.canSwitchToSpatialLayer 1 = some false ∧
    threeLayerConsumer.canSwitchToSpatialLayer 2 = some true ∧
    threeLayerConsumer.recalculateTargetLayers = some (2, true) := by
  decide

/-- C21 (amended): when the reference layer is unset or names a producer stream,
`recalculateTargetLayers` returns a layer `l` and the flag `l != targetSpatialLayer`; `l` is
`-1` exactly when no layer can be switched to, and otherwise a layer that can be switched to:
the lowest one at or above the preferred layer when there is one (so the preferred layer itself
when it can be switched to), and the highest one of all when every such layer lies below the
preferred layer. -/
theorem recalculateTargetLayers_spec (s : SimulcastConsumer)
    (hv : s.tsReferenceSpatialLayer = -1 ∨ (0 ≤ s.tsReferenceSpatialLayer ∧
      s.tsReferenceSpatialLayer < s.sender.producerRTPStreams.length)) :
    ∃ l : Int, s.recalculateTargetLayers = some (l, decide (l ≠ s.targetSpatialLayer)) ∧
      ((l = -1 ∧ ∀ i : Nat, i < s.sender.producerRTPStreams.length →
          s.canSwitchToSpatialLayer i = some false) ∨
        (0 ≤ l ∧ l < s.sender.producerRTPStreams.length ∧
          s.canSwitchToSpatialLayer l = some true)) ∧
      (∀ i : Nat, i < s.sender.producerRTPStreams.length →
        s.canSwitchToSpatialLayer i = some true → s.preferredSpatialLayer ≤ (i : Int) →
        s.preferredSpatialLayer ≤ l ∧ l ≤ (i : Int)) ∧
      ((∀ i : Nat, i < s.sender.producerRTPStreams.length →
          s.canSwitchToSpatialLayer i = some true → (i : Int) < s.preferredSpatialLayer) →
        ∀ i : Nat, i < s.sender.producerRTPStreams.length →
          s.canSwitchToSpatialLayer i = some true → (i : Int) ≤ l) := by
  obtain ⟨r, hr, hA, hB, hC⟩ := recalculateLoop_spec s
    (List.range s.sender.producerRTPStreams.length) (List.pairwise_lt_range _)
    (fun i hi => canSwitch_total s hv i (List.mem_range.mp hi)) (-1)
  refine ⟨r, by simp only [SimulcastConsumer.recalculateTargetLayers, hr, Option.map_some'],
    ?_, ?_, ?_⟩
  · rcases hA with ⟨h1, h2⟩ | ⟨i, hi, h1, h2⟩
    · exact Or.inl ⟨h1, fun i hi => h2 i (List.mem_range.mpr hi)⟩
    · right
      have := List.mem_range.mp hi
      subst h1
      exact ⟨by omega, by omega, h2⟩
  · intro i hi hc hp
    exact hB i (List.mem_range.mpr hi) hc hp
  · intro hall i hi hc
    exact hC (fun k hk => hall k (List.mem_range.mp hk)) i (List.mem_range.mpr hi) hc

/-- Witness for C21: on the three-layer consumer the call returns layer `2`; with layer `0`
preferred it returns layer `0`. -/
theorem recalculateTargetLayers_spec_witness :
    (∃ l : Int, threeLayerConsumer.recalculateTargetLayers
        = some (l, decide (l ≠ threeLayerConsumer.targetSpatialLayer)) ∧ (1 : Int) ≤ l ∧
        l ≤ 2) ∧
    sampleSimulcast.recalculateTargetLayers = some (0, false) := by
  refine ⟨?_, by decide⟩
  obtain ⟨l, h1, _, h3, _⟩ := recalculateTargetLayers_spec threeLayerConsumer
    (Or.inr ⟨by decide, by decide⟩)
  exact ⟨l, h1, h3 2 (by decide) (by decide) (by decide)⟩

end peer

namespace peer

theorem getLayer_frame (s : SimulcastConsumer) (ssrc : Nat) :
    (s.getLayer ssrc).1.currentSpatialLayer = s.currentSpatialLayer ∧
    (s.getLayer ssrc).1.targetSpatialLayer = s.targetSpatialLayer ∧
    (s.getLayer ssrc).1.sender = s.sender ∧
    (s.getLayer ssrc).1.syncRequired = s.syncRequired := by
  unfold SimulcastConsumer.getLayer
  repeat' split
  all_goals exact ⟨rfl, rfl, rfl, rfl⟩

theorem calTimestampOffset_frame (s : SimulcastConsumer) (packet : rtpPacket) (layer : Int)
    (sw : Bool) (res : SimulcastConsumer × List Nat × Nat × Bool)
    (h : s.calTimestampOffset packet layer sw = some res) :
    res.1.currentSpatialLayer = s.currentSpatialLayer ∧
    res.1.targetSpatialLayer = s.targetSpatialLayer ∧
    res.1.sender = s.sender := by
  simp only [SimulcastConsumer.calTimestampOffset] at h
  repeat' split at h
  all_goals first
    | (injection h with h; subst h; exact ⟨rfl, rfl, rfl⟩)
    | (simp only [Option.map_eq_some'] at h
       obtain ⟨_, _, rfl⟩ := h
       exact ⟨rfl, rfl, rfl⟩)
    | cases h

/-- Counterexample for C22: the consumer forwards layer `0` and waits to switch to layer `2`.
A packet of layer `0` that is no key frame is handed to the egress, and the current layer
stays `0`. -/
theorem simulcast_current_layer_counterexample :
    switchingConsumer.currentSpatialLayer ≠ switchingConsumer.targetSpatialLayer ∧
    (samplePacket 10 false).IsKeyFrame = false ∧
    (switchingConsumer.SendRTPPacket sampleRegistry sampleListener (samplePacket 10 false)).map
      (fun res => (res.2.2.1.length, res.1.currentSpatialLayer, res.1.targetSpatialLayer))
      = some (1, 0, 2) := by
  decide

/-- C22 (amended): when `current_layer != target_layer` and `SendRTPPacket` returns, either
nothing was handed to the egress; or the packet belongs to the current layer and the current
and target layers are what they were; or the packet belongs to the target layer, is a key frame
unless the codec has no key frames, and the current layer is now the target layer. -/
theorem simulcast_switch_or_keep (reg : codec.Registry) (lis : ConsumerListener)
    (s : SimulcastConsumer) (packet : rtpPacket)
    (res : SimulcastConsumer × rtpPacket × List rtpPacket × List Nat)
    (hne : s.currentSpatialLayer ≠ s.targetSpatialLayer)
    (h : s.SendRTPPacket reg lis packet = some res) :
    res.2.2.1 = [] ∨
    ((s.getLayer packet.SSRC).2 = s.currentSpatialLayer ∧
      res.1.currentSpatialLayer = s.currentSpatialLayer ∧
      res.1.targetSpatialLayer = s.targetSpatialLayer) ∨
    ((s.getLayer packet.SSRC).2 = s.targetSpatialLayer ∧
      (packet.IsKeyFrame = true ∨ codec.CanBeKeyFrame reg s.sender.codec.EncoderName = false) ∧
      res.1.currentSpatialLayer = s.targetSpatialLayer ∧
      res.1.targetSpatialLayer = s.targetSpatialLayer) := by
  obtain ⟨g1, g2, g3, _⟩ := getLayer_frame s packet.SSRC
  obtain ⟨s0, layer, hgl⟩ : ∃ s0 layer, s.getLayer packet.SSRC = (s0, layer) := ⟨_, _, rfl⟩
  rw [hgl] at g1 g2 g3 ⊢
  simp only at g1 g2 g3 ⊢
  simp only [SimulcastConsumer.SendRTPPacket, hgl] at h
  by_cases hact : (!s.sender.IsActive) = true
  · simp only [hact, ↓reduceIte, Option.some.injEq] at h
    subst h
    exact Or.inl rfl
  · by_cases ht : s.targetSpatialLayer = -1
    · simp only [hact, ht, ↓reduceIte, Bool.false_eq_true, Option.some.injEq] at h
      subst h
      exact Or.inl rfl
    · simp only [hact, ht, ↓reduceIte, Bool.false_eq_true] at h
      by_cases hl : layer = s.targetSpatialLayer
      · have hsw : decide (s0.currentSpatialLayer ≠ s0.targetSpatialLayer ∧
            layer = s0.targetSpatialLayer) = true := by
          rw [g1, g2]
          simp [hne, hl]
        simp only [hsw, Bool.not_true, Bool.false_and, Bool.false_eq_true, ↓reduceIte,
          Bool.true_and] at h
        by_cases hdrop : (codec.CanBeKeyFrame reg s0.sender.codec.EncoderName
            && !packet.IsKeyFrame) = true
        · simp only [hdrop, ↓reduceIte, Option.some.injEq] at h
          subst h
          exact Or.inl rfl
        · simp only [hdrop, ↓reduceIte, Bool.false_eq_true] at h
          have hkey : packet.IsKeyFrame = true ∨
              codec.CanBeKeyFrame reg s.sender.codec.EncoderName = false := by
            rw [← g3]
            cases hk : packet.IsKeyFrame
            · right
              simpa [hk] using hdrop
            · exact Or.inl rfl
          rcases hc : ({ s0 with syncRequired := true }
              : SimulcastConsumer).calTimestampOffset packet layer true with _ | cres
          · rw [hc] at h
            simp at h
          · rw [hc] at h
            obtain ⟨c1, c2, c3⟩ := calTimestampOffset_frame _ _ _ _ _ hc
            simp only at c1 c2 c3
            rw [g2] at c2
            by_cases hok : cres.2.2.2 = true
            · simp only [Option.map_some', hok, ↓reduceIte, Option.some.injEq] at h
              subst h
              exact Or.inr (Or.inr ⟨hl, hkey, c2, c2⟩)
            · simp only [Option.map_some', hok, Bool.false_eq_true, ↓reduceIte,
                Option.some.injEq] at h
              subst h
              exact Or.inl rfl
      · have hsw : decide (s0.currentSpatialLayer ≠ s0.targetSpatialLayer ∧
            layer = s0.targetSpatialLayer) = false := by
          rw [g2]
          simp [hl]
        simp only [hsw, Bool.not_false, Bool.true_and, Bool.false_eq_true, ↓reduceIte] at h
        by_cases hcur : layer = s0.currentSpatialLayer
        · simp only [hcur, ne_eq, not_true_eq_false, decide_False, Bool.false_eq_true,
            ↓reduceIte] at h
          by_cases hdrop : (s0.syncRequired && codec.CanBeKeyFrame reg s0.sender.codec.EncoderName
              && !packet.IsKeyFrame) = true
          · simp only [hdrop, ↓reduceIte, Option.some.injEq] at h
            subst h
            exact Or.inl rfl
          · simp only [hdrop, ↓reduceIte, Bool.false_eq_true] at h
            by_cases hsync : s0.syncRequired = true
            · rcases hc : s0.calTimestampOffset packet s0.currentSpatialLayer false
                with _ | cres
              · rw [hc] at h
                simp [hsync] at h
              · rw [hc] at h
                obtain ⟨c1, c2, c3⟩ := calTimestampOffset_frame _ _ _ _ _ hc
                rw [g1] at c1
                rw [g2] at c2
                by_cases hok : cres.2.2.2 = true
                · simp only [hsync, ↓reduceIte, Option.map_some', hok,
                    Option.some.injEq] at h
                  subst h
                  exact Or.inr (Or.inl ⟨hcur.trans g1, c1, c2⟩)
                · simp only [hsync, ↓reduceIte, Option.map_some', hok, Bool.false_eq_true,
                    Option.some.injEq] at h
                  subst h
                  exact Or.inl rfl
            · simp only [hsync, Bool.false_eq_true, ↓reduceIte, Option.some.injEq] at h
              subst h
              exact Or.inr (Or.inl ⟨hcur.trans g1, g1, g2⟩)
        · simp only [hcur, ne_eq, not_false_eq_true, decide_True, ↓reduceIte,
            Option.some.injEq] at h
          subst h
          exact Or.inl rfl

/-- Witness for C22: the consumer that forwards layer `0` and waits for layer `2` gets a key
frame of layer `2` (SSRC `1002`): the packet is handed to the egress and the current layer is
`2` afterwards. -/
theorem simulcast_switch_or_keep_witness :
    switchingConsumer.currentSpatialLayer ≠ switchingConsumer.targetSpatialLayer ∧
    (switchingConsumer.SendRTPPacket sampleRegistry sampleListener
      { samplePacket 10 true with SSRC := 1002 }).map
      (fun res => (res.2.2.1.length, res.1.currentSpatialLayer)) = some (1, 2) ∧
    ∃ res, switchingConsumer.SendRTPPacket sampleRegistry sampleListener
        { samplePacket 10 true with SSRC := 1002 } = some res ∧
      (res.2.2.1 = [] ∨
        ((switchingConsumer.getLayer 1002).2 = switchingConsumer.currentSpatialLayer ∧
          res.1.currentSpatialLayer = switchingConsumer.currentSpatialLayer ∧
          res.1.targetSpatialLayer = switchingConsumer.targetSpatialLayer) ∨
        ((switchingConsumer.getLayer 1002).2 = switchingConsumer.targetSpatialLayer ∧
          (({ samplePacket 10 true with SSRC := 1002 } : rtpPacket).IsKeyFrame = true ∨
            codec.CanBeKeyFrame sampleRegistry switchingConsumer.sender.codec.EncoderName
              = false) ∧
          res.1.currentSpatialLayer = switchingConsumer.targetSpatialLayer ∧
          res.1.targetSpatialLayer = switchingConsumer.targetSpatialLayer)) := by
  refine ⟨by decide, by decide, ?_⟩
  rcases h : switchingConsumer.SendRTPPacket sampleRegistry sampleListener
      { samplePacket 10 true with SSRC := 1002 } with _ | res
  · exact absurd h (by decide)
  · exact ⟨res, rfl, simulcast_switch_or_keep sampleRegistry sampleListener switchingConsumer
      { samplePacket 10 true with SSRC := 1002 } res (by decide) h⟩

end peer

namespace peer

/-! ## Receiver reports -/

/-- The in-band FEC branch of the report: the stream of the report test has `10` packets
expected and `9` received since the previous report, which gives `25`; its codec uses in-band
FEC and the worst fraction lost that the senders of the receiver report is `200`, and the
report carries `200`. -/
theorem fractionLost_fec_override :
    fecTestStream.getExpectedPackets - fecTestStream.expectedPrior = 10 ∧
    fecTestStream.mediaTransmissionCounter.PacketsReceived - fecTestStream.receivedPrior = 9 ∧
    ((10 - 9) * 256 : Int) / 10 = 25 ∧
    (fecTestStream.GetRtcpReceiverReport 200 0).2.FractionLost = 200 := by
  decide

/-- The fraction lost without duplicates: for a stream that does not use in-band FEC, with `E`
packets expected and `R` received since the previous report and `0 <= R <= E` (`E` below
`2^54`), the fraction-lost field of the report is `0` when `E = 0` and otherwise
`(E - R) * 256 div E` clamped to `255`; it is at most `255` and, times `E`, at most
`(E - R) * 256`. -/
theorem fractionLost_formula (r : receiverStream) (worst : Nat) (nowMs : Int) (E R : Int)
    (hfec : r.useInBandFec = false)
    (hE : r.getExpectedPackets - r.expectedPrior = E)
    (hR : r.mediaTransmissionCounter.PacketsReceived - r.receivedPrior = R)
    (h0 : 0 ≤ R) (hRE : R ≤ E) (hb : E < 18014398509481984) :
    ((r.GetRtcpReceiverReport worst nowMs).2.FractionLost : Int)
      = (if E = 0 then 0 else min 255 ((E - R) * 256 / E)) ∧
    (r.GetRtcpReceiverReport worst nowMs).2.FractionLost ≤ 255 ∧
    ((r.GetRtcpReceiverReport worst nowMs).2.FractionLost : Int) * E ≤ (E - R) * 256 := by
  have e1 : toInt64 E = E := by simp only [toInt64]; omega
  have e2 : toInt64 R = R := by simp only [toInt64]; omega
  have e3 : toInt64 (E - R) = E - R := by simp only [toInt64]; omega
  have e4 : toInt64 ((E - R) * 256) = (E - R) * 256 := by simp only [toInt64]; omega
  have key : ((r.GetRtcpReceiverReport worst nowMs).2.FractionLost : Int)
      = (if E = 0 then 0 else min 255 ((E - R) * 256 / E)) := by
    simp only [receiverStream.GetRtcpReceiverReport, hfec, Bool.false_eq_true, ↓reduceIte,
      Nat.zero_le, hE, hR, e1, e2, e3, e4]
    by_cases hz : E = 0
    · simp [hz]
    · have hpos : 0 < E := by omega
      have hq0 : 0 ≤ (E - R) * 256 / E := Int.ediv_nonneg (by omega) (by omega)
      have htd : Int.tdiv ((E - R) * 256) E = (E - R) * 256 / E :=
        Int.tdiv_eq_ediv (by omega) (by omega)
      have hq1 : (E - R) * 256 / E ≤ 256 := by
        apply Int.ediv_le_of_le_mul hpos
        nlinarith
      have e5 : toInt64 ((E - R) * 256 / E) = (E - R) * 256 / E := by
        simp only [toInt64]; omega
      by_cases hl : E - R = 0
      · simp [hz, hl]
      · simp only [hz, hl, or_self, ↓reduceIte, htd, e5]
        by_cases hbig : (E - R) * 256 / E > 255
        · simp only [hbig, ↓reduceIte, Nat.cast_ofNat]
          omega
        · simp only [hbig, ↓reduceIte]
          rw [Int.toNat_of_nonneg (by omega)]
          omega
  refine ⟨key, ?_, ?_⟩
  · have : ((r.GetRtcpReceiverReport worst nowMs).2.FractionLost : Int) ≤ 255 := by
      rw [key]
      split_ifs <;> omega
    omega
  · rw [key]
    by_cases hz : E = 0
    · simp only [hz, ↓reduceIte]
      omega
    · simp only [hz, ↓reduceIte]
      have hpos : 0 < E := by omega
      have h1 : (E - R) * 256 / E * E ≤ (E - R) * 256 := Int.ediv_mul_le _ (by omega)
      have h2 : min 255 ((E - R) * 256 / E) ≤ (E - R) * 256 / E := min_le_right _ _
      nlinarith

/-- An instance of `fractionLost_formula`: the stream of the report test (`9` of `10` expected
packets received) reports the fraction lost `25`. -/
theorem fractionLost_formula_witness :
    ((reportTestStream.GetRtcpReceiverReport 0 0).2.FractionLost : Int)
      = (if (10 : Int) = 0 then 0 else min 255 ((10 - 9) * 256 / 10)) ∧
    (reportTestStream.GetRtcpReceiverReport 0 0).2.FractionLost ≤ 255 ∧
    ((reportTestStream.GetRtcpReceiverReport 0 0).2.FractionLost : Int) * 10
      ≤ (10 - 9) * 256 :=
  fractionLost_formula reportTestStream 0 0 10 9 (by decide) (by decide) (by decide)
    (by decide) (by decide) (by decide)

/-- C23 (failing input): a stream without in-band FEC is sent `1000` and `1001` and gets `1001`
twice: `2` packets are expected and `3` counted as received since the previous report, no
packet is lost, and the claimed fraction lost is `0`. The report carries `128`: the code tests
the lost interval for `0` only, and the negative quotient `-256 / 2 = -128` is cut to `uint8`.
The total of lost packets in the same report is `0`, since that count is guarded by
`expected > received`. -/
theorem fractionLost_duplicate :
    duplicateTestStream.useInBandFec = false ∧
    duplicateTestStream.getExpectedPackets - duplicateTestStream.expectedPrior = 2 ∧
    duplicateTestStream.mediaTransmissionCounter.PacketsReceived
      - duplicateTestStream.receivedPrior = 3 ∧
    (duplicateTestStream.GetRtcpReceiverReport 0 0).2.FractionLost = 128 ∧
    (duplicateTestStream.GetRtcpReceiverReport 0 0).2.TotalLost = 0 := by
  refine ⟨by decide, by decide, by decide, by decide, by decide⟩

/-- C24: a sender report comes at the clock reading `5000` and the receiver report is built at
`6000`, `d = 1000` ms later. The report of the media stream carries the delay `65000`, since
`65535 / 1000` is the integer `65`, where `d * 65536 / 1000` is `65536`; the report of an RTX
stream with the same times carries `65536`. For every `d` below `2^25` the media stream reports
`65 * d`. -/
theorem delay_since_last_sr_scale :
    ((reportTestStream.ReceiveRtcpSenderReport 0 0 5000).GetRtcpReceiverReport 0 6000).2.Delay
      = 65000 ∧
    (1000 * 65536 / 1000 : Nat) = 65536 ∧
    (({ dropSeqRtxStream with lastSrReceived := 5000 } : RtxStream).GetRtcpReceiverReport
      6000).2.Delay = 65536 ∧
    (∀ (r : receiverStream) (worst : Nat) (nowMs : Int) (d : Nat), r.lastSrReceived ≠ 0 →
      nowMs - r.lastSrReceived = (d : Int) → d < 33554432 →
      (r.GetRtcpReceiverReport worst nowMs).2.Delay = 65 * d) := by
  refine ⟨by decide, by decide, by decide, ?_⟩
  intro r worst nowMs d h0 hd hlt
  have h1 : (r.GetRtcpReceiverReport worst nowMs).2.Delay
      = toUint32 (toInt64 (toInt64 (nowMs - r.lastSrReceived) * (65535 / 1000))) := by
    simp only [receiverStream.GetRtcpReceiverReport, h0, ne_eq, not_false_eq_true, ↓reduceIte]
  have h2 : (65535 / 1000 : Int) = 65 := by decide
  have a1 : toInt64 (d : Int) = d := by simp only [toInt64]; omega
  have a2 : toInt64 ((d : Int) * 65) = (d : Int) * 65 := by simp only [toInt64]; omega
  rw [h1, hd, h2, a1, a2]
  clear h1 hd h2 a1 a2
  simp only [toUint32]
  omega

end peer

namespace remb

/-! ## Rate statistics: when no bitrate is reported -/

/-- C25: `Rate(now)` returns no value when the window holds no sample once the old buckets are
dropped; when at most one sample is left and the active window `now - first_timestamp + 1` is
shorter than the configured window; and when the count has overflowed. In particular after a
single sample at `t0` in a new window of `W` ms no bitrate is reported at any `now` before
`t0 + W - 1`. -/
theorem rate_none (r : RateStatistics) (nowMs : Int) :
    ((r.eraseOld nowMs).numSamples = 0 → (r.Rate nowMs).2 = none) ∧
    ((r.eraseOld nowMs).numSamples ≤ 1 →
      -4611686018427387904 < r.firstTimestamp → r.firstTimestamp < 4611686018427387904 →
      -4611686018427387904 < nowMs → nowMs < 4611686018427387904 →
      -4611686018427387904 < r.currentWindowSizeMs → r.currentWindowSizeMs < 4611686018427387904 →
      nowMs - r.firstTimestamp + 1 < r.currentWindowSizeMs → (r.Rate nowMs).2 = none) ∧
    (r.overflow = true → (r.Rate nowMs).2 = none) ∧
    (∀ (W : Int) (scale : F64) (size t0 : Int),
      -4611686018427387904 < W → W < 4611686018427387904 →
      -4611686018427387904 < t0 → t0 < 4611686018427387904 →
      -4611686018427387904 < nowMs → nowMs < t0 + W - 1 →
      (((NewRateStatistics W scale).Update size t0).Rate nowMs).2 = none) := by
  refine ⟨?_, ?_, ?_, ?_⟩
  · intro h
    simp only [RateStatistics.Rate, h, true_or, ↓reduceIte]
  · intro h f1 f2 n1 n2 w1 w2 hlt
    have e1 : (r.eraseOld nowMs).firstTimestamp = r.firstTimestamp := rfl
    have e2 : (r.eraseOld nowMs).currentWindowSizeMs = r.currentWindowSizeMs := rfl
    have ha : (r.eraseOld nowMs).activeWindowSize nowMs < r.currentWindowSizeMs ∨
        (r.eraseOld nowMs).activeWindowSize nowMs ≤ 1 := by
      simp only [RateStatistics.activeWindowSize, e1, e2]
      have a1 : toInt64 (nowMs - r.currentWindowSizeMs) = nowMs - r.currentWindowSizeMs := by
        simp only [toInt64]; omega
      have a2 : toInt64 (nowMs - r.firstTimestamp) = nowMs - r.firstTimestamp := by
        simp only [toInt64]; omega
      have a3 : toInt64 (nowMs - r.firstTimestamp + 1) = nowMs - r.firstTimestamp + 1 := by
        simp only [toInt64]; omega
      rw [a1, a2, a3]
      clear a1 a2 a3
      split_ifs <;> omega
    rcases ha with ha | ha
    · simp only [RateStatistics.Rate, e2, h, ha, and_self, or_true, true_or, ↓reduceIte]
    · simp only [RateStatistics.Rate, ha, true_or, or_true, ↓reduceIte]
  · intro h
    have e1 : (r.eraseOld nowMs).overflow = true := h
    simp only [RateStatistics.Rate, e1, or_true, ↓reduceIte]
  · intro W scale size t0 w1 w2 t1 t2 n1 hlt
    have h1 : toInt64 (0 + 1) = 1 := by decide
    have hu : ∃ acc ov, (NewRateStatistics W scale).Update size t0 =
        { accumulatedCount := acc, overflow := ov, numSamples := 1, firstTimestamp := t0,
          currentWindowSizeMs := W, buckets := [⟨t0, toInt64 (0 + size), 1⟩],
          scale := scale, maxWindowSizeMs := W } := by
      by_cases hov : toInt64 (9223372036854775807 - 0) > size
      · exact ⟨toInt64 (0 + size), false, by
          simp only [NewRateStatistics, RateStatistics.Reset, RateStatistics.Update,
            RateStatistics.eraseOld, RateStatistics.eraseLoop, true_or, ↓reduceIte,
            List.getLast?_nil, List.nil_append, RateStatistics.bumpLast, newBucket, hov, h1]⟩
      · exact ⟨0, true, by
          simp only [NewRateStatistics, RateStatistics.Reset, RateStatistics.Update,
            RateStatistics.eraseOld, RateStatistics.eraseLoop, true_or, ↓reduceIte,
            List.getLast?_nil, List.nil_append, RateStatistics.bumpLast, newBucket, hov, h1]⟩
    obtain ⟨acc, ov, hu⟩ := hu
    rw [hu]
    have a1 : toInt64 (nowMs - W) = nowMs - W := by simp only [toInt64]; omega
    have a2 : toInt64 (nowMs - W + 1) = nowMs - W + 1 := by simp only [toInt64]; omega
    have a3 : toInt64 (nowMs - t0) = nowMs - t0 := by simp only [toInt64]; omega
    have a4 : toInt64 (nowMs - t0 + 1) = nowMs - t0 + 1 := by simp only [toInt64]; omega
    have hnot : ¬ (t0 < nowMs - W + 1) := by omega
    have hnot2 : ¬ (t0 ≤ nowMs - W) := by omega
    have hlt2 : nowMs - t0 + 1 < W := by omega
    by_cases hm : t0 = -1
    · subst hm
      simp only [RateStatistics.Rate, RateStatistics.eraseOld, RateStatistics.eraseLoop,
        RateStatistics.activeWindowSize, a1, a2, hnot, ↓reduceIte, ne_eq, not_true_eq_false,
        zero_le_one, or_true, true_or]
    · simp only [RateStatistics.Rate, RateStatistics.eraseOld, RateStatistics.eraseLoop,
        RateStatistics.activeWindowSize, a1, a2, a3, a4, hnot, hnot2, ↓reduceIte, hm, ne_eq,
        not_false_eq_true, hlt2, le_refl, and_self, or_true, true_or]

/-- Witness for C25: an empty window at `0`, a window of `500` ms with one sample at `0` asked
at `498`, and the same window with the overflow flag set asked at `499`, report no bitrate. -/
theorem rate_none_witness :
    ((NewRateStatistics 500 (F64.ofInt 8000)).Rate 0).2 = none ∧
    (((NewRateStatistics 500 (F64.ofInt 8000)).Update 500 0).Rate 498).2 = none ∧
    (({ (NewRateStatistics 500 (F64.ofInt 8000)).Update 500 0 with overflow := true } :
      RateStatistics).Rate 499).2 = none ∧
    (((NewRateStatistics 500 (F64.ofInt 8000)).Update 500 0).Rate 497).2 = none :=
  ⟨(rate_none (NewRateStatistics 500 (F64.ofInt 8000)) 0).1 (by decide),
   (rate_none ((NewRateStatistics 500 (F64.ofInt 8000)).Update 500 0) 498).2.1 (by decide)
     (by decide) (by decide) (by decide) (by decide) (by decide) (by decide) (by decide),
   (rate_none ({ (NewRateStatistics 500 (F64.ofInt 8000)).Update 500 0 with overflow := true } :
      RateStatistics) 499).2.2.1 rfl,
   (rate_none (NewRateStatistics 500 (F64.ofInt 8000)) 497).2.2.2 500 (F64.ofInt 8000) 500 0
     (by decide) (by decide) (by decide) (by decide) (by decide) (by decide)⟩

/-! ## Rate statistics: the reported bitrate -/

theorem bucketSum_cons (b : bucket) (bs : List bucket) :
    bucketSum (b :: bs) = b.sum + bucketSum bs := by
  simp only [bucketSum, List.map_cons, List.sum_cons]

theorem bucketSum_append (as bs : List bucket) :
    bucketSum (as ++ bs) = bucketSum as + bucketSum bs := by
  simp only [bucketSum, List.map_append, List.sum_append]

theorem bucketSum_nonneg (bs : List bucket) (h : ∀ b ∈ bs, 0 ≤ b.sum) : 0 ≤ bucketSum bs := by
  induction bs with
  | nil => simp [bucketSum]
  | cons b rest ih =>
    rw [bucketSum_cons]
    have h1 := h b (List.mem_cons_self _ _)
    have h2 := ih (fun c hc => h c (List.mem_cons_of_mem _ hc))
    omega

theorem bucketSumAfter_cons (t : Int) (b : bucket) (bs : List bucket) :
    bucketSumAfter t (b :: bs)
      = (if t < b.timestamp then b.sum else 0) + bucketSumAfter t bs := by
  simp only [bucketSumAfter, List.filter_cons]
  by_cases h : t < b.timestamp
  · simp only [h, decide_True, ↓reduceIte, bucketSum_cons]
  · simp only [h, decide_False, ↓reduceIte, zero_add, Bool.false_eq_true]

theorem bucketSumAfter_append (t : Int) (as bs : List bucket) :
    bucketSumAfter t (as ++ bs) = bucketSumAfter t as + bucketSumAfter t bs := by
  simp only [bucketSumAfter, List.filter_append, bucketSum_append]

theorem bucketSumAfter_le (t : Int) (bs : List bucket) (h : ∀ b ∈ bs, 0 ≤ b.sum) :
    0 ≤ bucketSumAfter t bs ∧ bucketSumAfter t bs ≤ bucketSum bs := by
  induction bs with
  | nil => simp [bucketSumAfter, bucketSum]
  | cons b rest ih =>
    rw [bucketSumAfter_cons, bucketSum_cons]
    have h1 := h b (List.mem_cons_self _ _)
    have h2 := ih (fun c hc => h c (List.mem_cons_of_mem _ hc))
    split_ifs <;> omega

theorem bucketSumAfter_filter (t u : Int) (bs : List bucket) (h : u ≤ t) :
    bucketSumAfter t (bs.filter (fun b => decide (u < b.timestamp))) = bucketSumAfter t bs := by
  induction bs with
  | nil => rfl
  | cons b rest ih =>
    rw [List.filter_cons]
    by_cases hb : u < b.timestamp
    · simp only [hb, decide_True, ↓reduceIte, bucketSumAfter_cons, ih]
    · have hb2 : ¬ t < b.timestamp := by omega
      simp only [hb, decide_False, ↓reduceIte, bucketSumAfter_cons, ih, hb2, zero_add,
        Bool.false_eq_true]

theorem bucketSumAfter_all (t : Int) (bs : List bucket) (h : ∀ b ∈ bs, t < b.timestamp) :
    bs.filter (fun b => decide (t < b.timestamp)) = bs := by
  rw [List.filter_eq_self]
  intro b hb
  simp only [h b hb, decide_True]

theorem sizeAfter_append (t : Int) (as bs : List (Int × Int)) :
    sizeAfter t (as ++ bs) = sizeAfter t as + sizeAfter t bs := by
  simp only [sizeAfter, List.filter_append, List.map_append, List.sum_append]

theorem sizeAfter_single (t : Int) (p : Int × Int) :
    sizeAfter t [p] = if t < p.2 then p.1 else 0 := by
  by_cases h : t < p.2
  · simp [sizeAfter, h]
  · simp [sizeAfter, h]

theorem sizeTotal_append (as bs : List (Int × Int)) :
    sizeTotal (as ++ bs) = sizeTotal as + sizeTotal bs := by
  simp only [sizeTotal, List.map_append, List.sum_append]

/-- The loop of `eraseOld` on buckets in the order of their timestamps keeps exactly the buckets
after `t` and leaves their sum as the count. -/
theorem eraseLoop_spec (t : Int) (bs : List bucket) :
    ∀ (acc n : Int), bs.Pairwise (fun a b => a.timestamp ≤ b.timestamp) →
      (∀ b ∈ bs, 0 ≤ b.sum) → acc = bucketSum bs → acc < 4611686018427387904 →
      (RateStatistics.eraseLoop (t + 1) bs acc n).1
          = bs.filter (fun b => decide (t < b.timestamp)) ∧
      (RateStatistics.eraseLoop (t + 1) bs acc n).2.1 = bucketSumAfter t bs := by
  induction bs with
  | nil =>
    intro acc n _ _ hacc _
    simp [RateStatistics.eraseLoop, bucketSumAfter, hacc]
  | cons b rest ih =>
    intro acc n hp hs hacc hlt
    rw [List.pairwise_cons] at hp
    have hb := hs b (List.mem_cons_self _ _)
    have hrest : ∀ c ∈ rest, 0 ≤ c.sum := fun c hc => hs c (List.mem_cons_of_mem _ hc)
    have hnn := bucketSum_nonneg rest hrest
    rw [bucketSum_cons] at hacc
    by_cases hold : b.timestamp < t + 1
    · have e1 : toInt64 (acc - b.sum) = bucketSum rest := by
        simp only [toInt64]; omega
      have hf : ¬ t < b.timestamp := by omega
      have := ih (bucketSum rest) (toInt64 (n - b.numSamples)) hp.2 hrest rfl (by omega)
      simp only [RateStatistics.eraseLoop, hold, ↓reduceIte, e1, this, List.filter_cons, hf,
        decide_False, bucketSumAfter_cons, zero_add, Bool.false_eq_true, and_self]
    · have hf : t < b.timestamp := by omega
      have hall : ∀ c ∈ b :: rest, t < c.timestamp := by
        intro c hc
        rcases List.mem_cons.1 hc with h | h
        · rw [h]; exact hf
        · have := hp.1 c h
          omega
      have e := bucketSumAfter_all t (b :: rest) hall
      simp only [RateStatistics.eraseLoop, hold, ↓reduceIte, e, bucketSumAfter, bucketSum_cons,
        hacc, and_self]

/-- The buckets and the count after `eraseOld` in a window whose buckets are in the order of
their timestamps. -/
theorem eraseOld_spec (r : RateStatistics) (nowMs : Int)
    (hp : r.buckets.Pairwise (fun a b => a.timestamp ≤ b.timestamp))
    (hs : ∀ b ∈ r.buckets, 0 ≤ b.sum) (hacc : r.accumulatedCount = bucketSum r.buckets)
    (hlt : r.accumulatedCount < 4611686018427387904)
    (hn1 : -4611686018427387904 < nowMs) (hn2 : nowMs < 4611686018427387904)
    (hw1 : 0 < r.currentWindowSizeMs) (hw2 : r.currentWindowSizeMs < 4611686018427387904) :
    (r.eraseOld nowMs).buckets
        = r.buckets.filter (fun b => decide (nowMs - r.currentWindowSizeMs < b.timestamp)) ∧
    (r.eraseOld nowMs).accumulatedCount
        = bucketSumAfter (nowMs - r.currentWindowSizeMs) r.buckets := by
  have a1 : toInt64 (nowMs - r.currentWindowSizeMs) = nowMs - r.currentWindowSizeMs := by
    simp only [toInt64]; omega
  have a2 : toInt64 (nowMs - r.currentWindowSizeMs + 1) = nowMs - r.currentWindowSizeMs + 1 := by
    simp only [toInt64]; omega
  have := eraseLoop_spec (nowMs - r.currentWindowSizeMs) r.buckets r.accumulatedCount
    r.numSamples hp hs hacc hlt
  simp only [RateStatistics.eraseOld, a1, a2, this, and_self]

theorem bumpLast_concat (payloadSize : Int) (bs : List bucket) (b : bucket) :
    RateStatistics.bumpLast payloadSize (bs ++ [b])
      = bs ++ [{ b with sum := toInt64 (b.sum + payloadSize)
                        numSamples := toInt64 (b.numSamples + 1) }] := by
  induction bs with
  | nil => rfl
  | cons c rest ih =>
    cases rest with
    | nil => rfl
    | cons d rest2 =>
      show c :: RateStatistics.bumpLast payloadSize ((d :: rest2) ++ [b]) = _
      rw [ih]
      rfl

theorem update_fields (r : RateStatistics) (payloadSize nowMs : Int)
    (h : toInt64 (9223372036854775807 - (r.eraseOld nowMs).accumulatedCount) > payloadSize) :
    (r.Update payloadSize nowMs).currentWindowSizeMs = r.currentWindowSizeMs ∧
    (r.Update payloadSize nowMs).overflow = r.overflow ∧
    (r.Update payloadSize nowMs).scale = r.scale ∧
    (r.Update payloadSize nowMs).firstTimestamp
      = (if r.firstTimestamp = -1 ∨ (r.eraseOld nowMs).numSamples = 0 then nowMs
         else r.firstTimestamp) ∧
    (r.Update payloadSize nowMs).accumulatedCount
      = toInt64 ((r.eraseOld nowMs).accumulatedCount + payloadSize) ∧
    (r.Update payloadSize nowMs).buckets
      = RateStatistics.bumpLast payloadSize
          (match (r.eraseOld nowMs).buckets.getLast? with
           | none => (r.eraseOld nowMs).buckets ++ [newBucket nowMs]
           | some lb =>
             if nowMs ≠ lb.timestamp then
               (r.eraseOld nowMs).buckets
                 ++ [newBucket (if nowMs < lb.timestamp then lb.timestamp else nowMs)]
             else (r.eraseOld nowMs).buckets) := by
  have e1 : (r.eraseOld nowMs).firstTimestamp = r.firstTimestamp := rfl
  by_cases hf : r.firstTimestamp = -1 ∨ (r.eraseOld nowMs).numSamples = 0
  · simp only [RateStatistics.Update, e1, hf, ↓reduceIte, h]
    refine ⟨rfl, rfl, rfl, ?_, ?_, ?_⟩ <;> trivial
  · simp only [RateStatistics.Update, e1, hf, ↓reduceIte, h]
    refine ⟨rfl, rfl, rfl, ?_, ?_, ?_⟩ <;> trivial

/-- The buckets after the sample `(size, t)` is put into buckets that are not after `t`: a new
last bucket, or the last bucket grown by the sample. -/
theorem update_buckets (size t : Int) (kept : List bucket)
    (hk : ∀ b ∈ kept, b.timestamp ≤ t ∧ 0 ≤ b.sum)
    (hp : kept.Pairwise (fun a b => a.timestamp ≤ b.timestamp))
    (hs0 : 0 ≤ size) (hlt : bucketSum kept + size < 4611686018427387904) :
    ∃ nb, RateStatistics.bumpLast size
          (match kept.getLast? with
           | none => kept ++ [newBucket t]
           | some lb =>
             if t ≠ lb.timestamp then
               kept ++ [newBucket (if t < lb.timestamp then lb.timestamp else t)]
             else kept) = nb ∧
      (∀ b ∈ nb, b.timestamp ≤ t ∧ 0 ≤ b.sum) ∧
      nb.Pairwise (fun a b => a.timestamp ≤ b.timestamp) ∧
      bucketSum nb = bucketSum kept + size ∧
      ∀ u, bucketSumAfter u nb = bucketSumAfter u kept + (if u < t then size else 0) := by
  have hk0 := bucketSum_nonneg kept (fun b h => (hk b h).2)
  have z1 : toInt64 (0 + size) = size := by simp only [toInt64]; omega
  have fresh : ∀ l : List bucket, (∀ b ∈ l, b.timestamp ≤ t ∧ 0 ≤ b.sum) →
      l.Pairwise (fun a b => a.timestamp ≤ b.timestamp) →
      (∀ b ∈ l ++ [(⟨t, size, toInt64 (0 + 1)⟩ : bucket)], b.timestamp ≤ t ∧ 0 ≤ b.sum) ∧
      (l ++ [(⟨t, size, toInt64 (0 + 1)⟩ : bucket)]).Pairwise
        (fun a b => a.timestamp ≤ b.timestamp) ∧
      bucketSum (l ++ [(⟨t, size, toInt64 (0 + 1)⟩ : bucket)]) = bucketSum l + size ∧
      ∀ u, bucketSumAfter u (l ++ [(⟨t, size, toInt64 (0 + 1)⟩ : bucket)])
        = bucketSumAfter u l + (if u < t then size else 0) := by
    intro l hl hpl
    refine ⟨?_, ?_, ?_, ?_⟩
    · intro b hb
      rcases List.mem_append.1 hb with h | h
      · exact hl b h
      · rw [List.mem_singleton.1 h]
        exact ⟨le_refl _, hs0⟩
    · rw [List.pairwise_append]
      refine ⟨hpl, List.pairwise_singleton _ _, ?_⟩
      intro a ha b hb
      rw [List.mem_singleton.1 hb]
      exact (hl a ha).1
    · rw [bucketSum_append, bucketSum_cons]
      simp [bucketSum]
    · intro u
      rw [bucketSumAfter_append, bucketSumAfter_cons]
      simp [bucketSumAfter, bucketSum]
  rcases List.eq_nil_or_concat kept with hnil | ⟨l, lb, hl⟩
  · subst hnil
    refine ⟨_, rfl, ?_⟩
    have := fresh [] hk hp
    simpa only [List.getLast?_nil, List.nil_append, RateStatistics.bumpLast, newBucket, z1]
      using this
  · rw [List.concat_eq_append] at hl
    subst hl
    have hlb := hk lb (by simp)
    have hl1 : ∀ b ∈ l, b.timestamp ≤ t ∧ 0 ≤ b.sum := fun b h => hk b (by simp [h])
    have hl0 := bucketSum_nonneg l (fun b h => (hl1 b h).2)
    rw [bucketSum_append, bucketSum_cons] at hlt
    have hz : bucketSum [] = 0 := rfl
    rw [hz] at hlt
    rw [List.getLast?_concat]
    by_cases hne : t = lb.timestamp
    · refine ⟨_, rfl, ?_⟩
      have z2 : toInt64 (lb.sum + size) = lb.sum + size := by simp only [toInt64]; omega
      simp only [hne, ne_eq, not_true_eq_false, ↓reduceIte, bumpLast_concat, z2]
      rw [List.pairwise_append] at hp
      refine ⟨?_, ?_, ?_, ?_⟩
      · intro b hb
        rcases List.mem_append.1 hb with h | h
        · rw [← hne]; exact hl1 b h
        · rw [List.mem_singleton.1 h]
          exact ⟨le_refl _, by show 0 ≤ lb.sum + size; omega⟩
      · rw [List.pairwise_append]
        refine ⟨hp.1, List.pairwise_singleton _ _, ?_⟩
        intro a ha b hb
        rw [List.mem_singleton.1 hb]
        exact hp.2.2 a ha lb (by simp)
      · simp only [bucketSum_append, bucketSum_cons, hz]
        omega
      · intro u
        simp only [bucketSumAfter_append, bucketSumAfter_cons]
        have hz2 : bucketSumAfter u [] = 0 := rfl
        rw [hz2]
        split_ifs <;> omega
    · have hlt2 : ¬ t < lb.timestamp := by omega
      refine ⟨_, rfl, ?_⟩
      have := fresh (l ++ [lb]) hk hp
      simpa only [hne, ne_eq, not_false_eq_true, ↓reduceIte, hlt2, bumpLast_concat, newBucket, z1,
        bucketSum_append, bucketSum_cons, hz] using this

/-- One sample at `t`, not before the last one, keeps the state of the window. -/
theorem update_inv (W : Int) (scale : F64) (r : RateStatistics) (done : List (Int × Int))
    (T size t : Int) (hW1 : 0 < W) (hW2 : W < 4611686018427387904)
    (hT0 : 0 ≤ T) (hTt : T ≤ t) (ht : t < 4611686018427387904) (hs0 : 0 ≤ size)
    (hsum : sizeTotal done + size < 4611686018427387904)
    (hinv : r.InvAt W scale done T) :
    (r.Update size t).InvAt W scale (done ++ [(size, t)]) t := by
  obtain ⟨hw, hov, hsc, hf1, hf2, hb, hp, hacc, hle, hafter⟩ := hinv
  have hbs : ∀ b ∈ r.buckets, 0 ≤ b.sum := fun b h => (hb b h).2
  obtain ⟨eb, ea⟩ := eraseOld_spec r t hp hbs hacc (by omega) (by omega) ht (by omega)
    (by omega)
  rw [hw] at eb ea
  have hal := bucketSumAfter_le (t - W) r.buckets hbs
  have h1 : toInt64 (9223372036854775807 - (r.eraseOld t).accumulatedCount) > size := by
    rw [ea]; simp only [toInt64]; omega
  obtain ⟨u1, u2, u3, u4, u5, u6⟩ := update_fields r size t h1
  have hk1 : ∀ b ∈ r.buckets.filter (fun b => decide (t - W < b.timestamp)),
      b.timestamp ≤ t ∧ 0 ≤ b.sum := by
    intro b hb1
    have := hb b (List.mem_filter.1 hb1).1
    exact ⟨by omega, this.2⟩
  have hk2 := hp.filter (fun b => decide (t - W < b.timestamp))
  have hk3 : bucketSum (r.buckets.filter (fun b => decide (t - W < b.timestamp)))
      = bucketSumAfter (t - W) r.buckets := rfl
  obtain ⟨nb, hnb, n1, n2, n3, n4⟩ := update_buckets size t _ hk1 hk2 hs0 (by omega)
  rw [eb] at u6
  rw [hnb] at u6
  have e5 : toInt64 (bucketSumAfter (t - W) r.buckets + size)
      = bucketSumAfter (t - W) r.buckets + size := by
    simp only [toInt64]; omega
  rw [ea, e5] at u5
  refine ⟨by rw [u1, hw], by rw [u2, hov], by rw [u3, hsc], ?_, ?_, ?_, ?_, ?_, ?_, ?_⟩
  · rw [u4]; split_ifs <;> omega
  · rw [u4]; split_ifs <;> omega
  · rw [u6]; exact n1
  · rw [u6]; exact n2
  · rw [u5, u6, n3, hk3]
  · rw [u5, sizeTotal_append]
    have : sizeTotal [(size, t)] = size := by simp [sizeTotal]
    omega
  · intro u hu
    rw [u6, n4 u, bucketSumAfter_filter u (t - W) r.buckets hu, hafter u (by omega),
      sizeAfter_append, sizeAfter_single]

/-- The samples of a list, in the order of their times, keep the state of the window. -/
theorem updates_inv (W : Int) (scale : F64) (now : Int) (hW1 : 0 < W)
    (hW2 : W < 4611686018427387904) (hnow : now < 4611686018427387904)
    (samples : List (Int × Int)) :
    ∀ (r : RateStatistics) (done : List (Int × Int)) (T : Int), 0 ≤ T →
      timesBetween T samples now → (∀ p ∈ samples, 0 ≤ p.1) →
      sizeTotal done + sizeTotal samples < 4611686018427387904 →
      r.InvAt W scale done T →
      ∃ T1, 0 ≤ T1 ∧ T1 ≤ now ∧ (r.updates samples).InvAt W scale (done ++ samples) T1 := by
  induction samples with
  | nil =>
    intro r done T hT ht _ _ hinv
    refine ⟨T, hT, ht, ?_⟩
    simpa only [RateStatistics.updates, List.append_nil] using hinv
  | cons p rest ih =>
    intro r done T hT ht hs hsum hinv
    obtain ⟨ht1, ht2⟩ := ht
    have hp0 := hs p (List.mem_cons_self _ _)
    have hrest : ∀ q ∈ rest, 0 ≤ q.1 := fun q hq => hs q (List.mem_cons_of_mem _ hq)
    have hr0 : 0 ≤ sizeTotal rest := by
      simp only [sizeTotal]
      apply List.sum_nonneg
      intro x hx
      obtain ⟨q, hq, rfl⟩ := List.mem_map.1 hx
      exact hrest q hq
    have hcons : sizeTotal (p :: rest) = p.1 + sizeTotal rest := by
      simp only [sizeTotal, List.map_cons, List.sum_cons]
    have hle : ∀ (lo : Int) (l : List (Int × Int)), timesBetween lo l now → lo ≤ now := by
      intro lo l
      induction l generalizing lo with
      | nil => intro h; exact h
      | cons q l2 ih2 =>
        intro h
        have := ih2 q.2 h.2
        have := h.1
        omega
    have hpn := hle p.2 rest ht2
    have step := update_inv W scale r done T p.1 p.2 hW1 hW2 hT ht1 (by omega) hp0 (by omega)
      hinv
    have hdone : sizeTotal (done ++ [(p.1, p.2)]) = sizeTotal done + p.1 := by
      rw [sizeTotal_append]
      simp [sizeTotal]
    obtain ⟨T1, a1, a2, a3⟩ := ih (r.Update p.1 p.2) (done ++ [(p.1, p.2)]) p.2 (by omega) ht2
      hrest (by omega) step
    refine ⟨T1, a1, a2, ?_⟩
    simpa only [RateStatistics.updates, List.append_assoc, List.singleton_append, Prod.mk.eta]
      using a3

/-- A new window is in the state after no sample. -/
theorem new_inv (W : Int) (scale : F64) :
    (NewRateStatistics W scale).InvAt W scale [] 0 := by
  refine ⟨rfl, rfl, rfl, ?_, ?_, ?_, List.Pairwise.nil, rfl, ?_, ?_⟩
  · show (-1 : Int) ≤ -1
    decide
  · show (-1 : Int) ≤ 0
    decide
  · intro b hb
    cases hb
  · show (0 : Int) ≤ 0
    decide
  · intro t _
    rfl

/-- Counterexample for C26: a window of `1000` ms with scale `8000` sees `100` bytes at `0` and
`95` bytes at `10`. At `383` the sum is `S = 195` and the active window is `A = 384`, so that
`floor(S * scale / A + 1/2) = floor((2 * S * scale + A) / (2 * A)) = 4063`; `Rate(383)` is
`4062`, since `8000 / 384` is rounded down to a `float64` and the product with `195` again. -/
theorem rate_float_counterexample :
    sizeAfter (383 - 1000) [(100, 0), (95, 10)] = 195 ∧
    min (1000 : Int) (383 - ((NewRateStatistics 1000 (F64.ofInt 8000)).updates
      [(100, 0), (95, 10)]).firstTimestamp + 1) = 384 ∧
    (2 * 195 * 8000 + 384 : Int) / (2 * 384) = 4063 ∧
    (((NewRateStatistics 1000 (F64.ofInt 8000)).updates [(100, 0), (95, 10)]).Rate 383).2
      = some 4062 := by
  refine ⟨by decide, by decide, by decide, ?_⟩
  set_option maxRecDepth 1000000 in decide

/-- C26 (amended): for samples with non-negative sizes (their sum below `2^62`) and
non-negative, non-decreasing times, in a window of `W` ms, whenever `Rate(now)` at a `now` not
before the last sample returns a value, it is the integer part of the `float64` number
`float64(S) * (scale / float64(A)) + 0.5`, each operation rounded to `float64`, where `S` is the
sum of the sizes of the samples with a time after `now - W` and
`A = min(W, now - first_timestamp + 1)`. -/
theorem rate_value (W : Int) (scale : F64) (samples : List (Int × Int)) (now v : Int)
    (hW1 : 0 < W) (hW2 : W < 4611686018427387904) (hnow : now < 4611686018427387904)
    (ht : timesBetween 0 samples now) (hs : ∀ p ∈ samples, 0 ≤ p.1)
    (hsum : sizeTotal samples < 4611686018427387904)
    (hv : (((NewRateStatistics W scale).updates samples).Rate now).2 = some v) :
    v = toUint64 (F64.trunc (RateStatistics.rateValue scale (sizeAfter (now - W) samples)
      (min W (now - ((NewRateStatistics W scale).updates samples).firstTimestamp + 1)))) := by
  obtain ⟨T, hT0, hTn, hinv⟩ := updates_inv W scale now hW1 hW2 hnow samples
    (NewRateStatistics W scale) [] 0 (le_refl _) ht hs
    (by simpa [sizeTotal] using hsum) (new_inv W scale)
  rw [List.nil_append] at hinv
  generalize (NewRateStatistics W scale).updates samples = r at hv hinv ⊢
  obtain ⟨hw, hov, hsc, hf1, hf2, hb, hp, hacc, hle, hafter⟩ := hinv
  have hbs : ∀ b ∈ r.buckets, 0 ≤ b.sum := fun b h => (hb b h).2
  obtain ⟨-, ea⟩ := eraseOld_spec r now hp hbs hacc (by omega) (by omega) hnow (by omega)
    (by omega)
  rw [hw, hafter (now - W) (by omega)] at ea
  have e1 : (r.eraseOld now).firstTimestamp = r.firstTimestamp := rfl
  have e2 : (r.eraseOld now).currentWindowSizeMs = W := hw
  have e3 : (r.eraseOld now).scale = scale := hsc
  have hact : (r.eraseOld now).activeWindowSize now = min W (now - r.firstTimestamp + 1) ∨
      (r.eraseOld now).activeWindowSize now ≤ 1 := by
    simp only [RateStatistics.activeWindowSize, e1, e2]
    have a1 : toInt64 (now - W) = now - W := by simp only [toInt64]; omega
    have a2 : toInt64 (now - r.firstTimestamp) = now - r.firstTimestamp := by
      simp only [toInt64]; omega
    have a3 : toInt64 (now - r.firstTimestamp + 1) = now - r.firstTimestamp + 1 := by
      simp only [toInt64]; omega
    rw [a1, a2, a3]
    clear a1 a2 a3
    split_ifs <;> omega
  rcases hact with hact | hact
  · simp only [RateStatistics.Rate, ea, e3, hact] at hv
    split_ifs at hv
    simp only [Option.some.injEq] at hv
    exact hv.symm
  · simp only [RateStatistics.Rate, hact, true_or, or_true, ↓reduceIte] at hv
    cases hv

/-- Witness for C26: in a window of `1000` ms with scale `8000`, two samples of `1200` bytes at
`102000` and `102020` give `468293` at `102040`; in a window of `500` ms one sample of `500`
bytes at `0` gives `8000` at `499`. -/
theorem rate_value_witness :
    (((NewRateStatistics 1000 (F64.ofInt 8000)).updates
      [(1200, 102000), (1200, 102020)]).Rate 102040).2 = some 468293 ∧
    (468293 : Int) = toUint64 (F64.trunc (RateStatistics.rateValue (F64.ofInt 8000)
      (sizeAfter (102040 - 1000) [(1200, 102000), (1200, 102020)])
      (min 1000 (102040 - ((NewRateStatistics 1000 (F64.ofInt 8000)).updates
        [(1200, 102000), (1200, 102020)]).firstTimestamp + 1)))) ∧
    (((NewRateStatistics 500 (F64.ofInt 8000)).updates [(500, 0)]).Rate 499).2 = some 8000 ∧
    (8000 : Int) = toUint64 (F64.trunc (RateStatistics.rateValue (F64.ofInt 8000)
      (sizeAfter (499 - 500) [(500, 0)])
      (min 500 (499 - ((NewRateStatistics 500 (F64.ofInt 8000)).updates
        [(500, 0)]).firstTimestamp + 1)))) :=
  ⟨by set_option maxRecDepth 1000000 in decide,
   rate_value 1000 (F64.ofInt 8000) [(1200, 102000), (1200, 102020)] 102040 468293
     (by decide) (by decide) (by decide) ⟨by decide, by decide, (by show (102020 : Int) ≤ 102040; decide)⟩ (by decide)
     (by decide) (by set_option maxRecDepth 1000000 in decide),
   by set_option maxRecDepth 1000000 in decide,
   rate_value 500 (F64.ofInt 8000) [(500, 0)] 499 8000
     (by decide) (by decide) (by decide) ⟨by decide, (by show (0 : Int) ≤ 499; decide)⟩ (by decide)
     (by decide) (by set_option maxRecDepth 1000000 in decide)⟩

end remb

namespace remb

/-! ## Inter-arrival grouping -/

/-- C27: `computeDeltas` returns a delta only for a packet that opens a new timestamp group
while the current group has a completion time and the previous group is complete; the delta is
then the `uint32` difference of the timestamps and the `int64` differences of the completion
times and of the sizes of the two groups. It returns nothing for the first packet of a group and
for a packet that does not open a new group, and a packet that is out of order against the first
timestamp of the current group leaves the state as it is. A packet that opens a new group after
two complete groups, without a clock jump and with a non-negative arrival delta, does return
the delta. -/
theorem computeDeltas_delta (i : interArrival) (timestamp : Nat)
    (arrivalTimeMs nowMs payloadSize : Int) :
    (∀ d, (i.computeDeltas timestamp arrivalTimeMs nowMs payloadSize).2 = some d →
      i.currentTimeGroup.firstPacket = false ∧
      i.newTimestampGroup arrivalTimeMs timestamp = true ∧
      0 ≤ i.prevTimeGroup.completeTimeMs ∧
      d = { tsDelta := sub32 i.currentTimeGroup.timestamp i.prevTimeGroup.timestamp
            tDelta := toInt64
              (i.currentTimeGroup.completeTimeMs - i.prevTimeGroup.completeTimeMs)
            sizeDelta := toInt64 (i.currentTimeGroup.size - i.prevTimeGroup.size) }) ∧
    (i.currentTimeGroup.firstPacket = true →
      (i.computeDeltas timestamp arrivalTimeMs nowMs payloadSize).2 = none) ∧
    (i.newTimestampGroup arrivalTimeMs timestamp = false →
      (i.computeDeltas timestamp arrivalTimeMs nowMs payloadSize).2 = none) ∧
    (i.currentTimeGroup.firstPacket = false →
      2147483648 ≤ sub32 timestamp i.currentTimeGroup.firstTimestamp →
      i.computeDeltas timestamp arrivalTimeMs nowMs payloadSize = (i, none)) ∧
    (i.currentTimeGroup.firstPacket = false → i.packetInOrder timestamp = true →
      i.newTimestampGroup arrivalTimeMs timestamp = true →
      0 ≤ i.prevTimeGroup.completeTimeMs →
      toInt64 (toInt64 (i.currentTimeGroup.completeTimeMs - i.prevTimeGroup.completeTimeMs)
        - toInt64 (i.currentTimeGroup.lastSystemTimeMs - i.prevTimeGroup.lastSystemTimeMs))
        < 3000 →
      0 ≤ toInt64 (i.currentTimeGroup.completeTimeMs - i.prevTimeGroup.completeTimeMs) →
      (i.computeDeltas timestamp arrivalTimeMs nowMs payloadSize).2
        = some { tsDelta := sub32 i.currentTimeGroup.timestamp i.prevTimeGroup.timestamp
                 tDelta := toInt64
                   (i.currentTimeGroup.completeTimeMs - i.prevTimeGroup.completeTimeMs)
                 sizeDelta := toInt64 (i.currentTimeGroup.size - i.prevTimeGroup.size) }) := by
  refine ⟨?_, ?_, ?_, ?_, ?_⟩
  · intro d h
    simp only [interArrival.computeDeltas, arrivalTimeOffsetThresholdMs,
      reorderedResetThreshold] at h
    split_ifs at h with h1 h2 h3 h4 h5 h6 h7
    all_goals first
      | (simp only [reduceCtorEq] at h; done)
      | (simp only [Option.some.injEq] at h
         exact ⟨by simpa using h1, h3, h4, h.symm⟩)
  · intro h
    simp only [interArrival.computeDeltas, h, ↓reduceIte]
  · intro h
    simp only [interArrival.computeDeltas, h, Bool.false_eq_true, ↓reduceIte]
    split_ifs <;> rfl
  · intro h1 h2
    have : i.packetInOrder timestamp = false := by
      simp only [interArrival.packetInOrder, h1, Bool.false_eq_true, ↓reduceIte,
        decide_eq_false_iff_not]
      omega
    simp only [interArrival.computeDeltas, h1, Bool.false_eq_true, ↓reduceIte, this,
      Bool.not_false]
  · intro h1 h2 h3 h4 h5 h6
    have h5n : ¬ (toInt64 (toInt64
        (i.currentTimeGroup.completeTimeMs - i.prevTimeGroup.completeTimeMs)
        - toInt64 (i.currentTimeGroup.lastSystemTimeMs - i.prevTimeGroup.lastSystemTimeMs))
        ≥ 3000) := by omega
    have h6n : ¬ (toInt64 (i.currentTimeGroup.completeTimeMs
        - i.prevTimeGroup.completeTimeMs) < 0) := by omega
    simp only [interArrival.computeDeltas, h1, Bool.false_eq_true, ↓reduceIte, h2,
      Bool.not_true, h3, ge_iff_le, h4, arrivalTimeOffsetThresholdMs, h5n, h6n]

/-- Witness for C27: after a group at `17` ms and a group at `23` ms the packet that opens the
third group returns the delta `(400000, 6, 1)`; the first packet, a packet that joins the second
group and a packet with the timestamp of the first group return nothing, the last one without
a change of the state. -/
theorem computeDeltas_delta_witness :
    (twoGroups.computeDeltas 800000 29 29 1).2
      = some { tsDelta := 400000, tDelta := 6, sizeDelta := 1 } ∧
    (twoGroups.computeDeltas 800000 29 29 1).2
      = some { tsDelta := sub32 twoGroups.currentTimeGroup.timestamp
                 twoGroups.prevTimeGroup.timestamp
               tDelta := toInt64 (twoGroups.currentTimeGroup.completeTimeMs
                 - twoGroups.prevTimeGroup.completeTimeMs)
               sizeDelta := toInt64 (twoGroups.currentTimeGroup.size
                 - twoGroups.prevTimeGroup.size) } ∧
    (twoGroups.currentTimeGroup.firstPacket = false ∧
      twoGroups.newTimestampGroup 29 800000 = true ∧
      0 ≤ twoGroups.prevTimeGroup.completeTimeMs ∧
      ({ tsDelta := 400000, tDelta := 6, sizeDelta := 1 } : groupDelta)
        = { tsDelta := sub32 twoGroups.currentTimeGroup.timestamp
              twoGroups.prevTimeGroup.timestamp
            tDelta := toInt64 (twoGroups.currentTimeGroup.completeTimeMs
              - twoGroups.prevTimeGroup.completeTimeMs)
            sizeDelta := toInt64 (twoGroups.currentTimeGroup.size
              - twoGroups.prevTimeGroup.size) }) ∧
    (sampleArrival.computeDeltas 0 17 17 1).2 = none ∧
    (twoGroups.computeDeltas 400001 24 24 1).2 = none ∧
    twoGroups.computeDeltas 0 281 281 100 = (twoGroups, none) :=
  ⟨by set_option maxRecDepth 1000000 in decide,
   (computeDeltas_delta twoGroups 800000 29 29 1).2.2.2.2
      (by set_option maxRecDepth 1000000 in decide)
      (by set_option maxRecDepth 1000000 in decide)
      (by set_option maxRecDepth 1000000 in decide)
      (by set_option maxRecDepth 1000000 in decide)
      (by set_option maxRecDepth 1000000 in decide)
      (by set_option maxRecDepth 1000000 in decide),
   (computeDeltas_delta twoGroups 800000 29 29 1).1
      { tsDelta := 400000, tDelta := 6, sizeDelta := 1 }
      (by set_option maxRecDepth 1000000 in decide),
   (computeDeltas_delta sampleArrival 0 17 17 1).2.1 (by decide),
   (computeDeltas_delta twoGroups 400001 24 24 1).2.2.1
      (by set_option maxRecDepth 1000000 in decide),
   (computeDeltas_delta twoGroups 0 281 281 100).2.2.2.1
      (by set_option maxRecDepth 1000000 in decide)
      (by set_option maxRecDepth 1000000 in decide)⟩

theorem computeDeltas_none_of_prev (i : interArrival) (timestamp : Nat)
    (arrivalTimeMs nowMs payloadSize : Int) (h : i.prevTimeGroup.completeTimeMs < 0) :
    (i.computeDeltas timestamp arrivalTimeMs nowMs payloadSize).2 = none := by
  have hn : ¬ (i.prevTimeGroup.completeTimeMs ≥ 0) := by omega
  simp only [interArrival.computeDeltas, hn, ↓reduceIte]
  split_ifs <;> rfl

/-- A packet that opens a new group after two complete groups with a negative arrival delta
and no clock jump: nothing is returned, the counter of reordered groups goes up by one and at
`3` the grouping is reset. -/
theorem computeDeltas_reordered (i : interArrival) (timestamp : Nat)
    (arrivalTimeMs nowMs payloadSize : Int)
    (hf : i.currentTimeGroup.firstPacket = false) (ho : i.packetInOrder timestamp = true)
    (hn : i.newTimestampGroup arrivalTimeMs timestamp = true)
    (hp : 0 ≤ i.prevTimeGroup.completeTimeMs)
    (hj : toInt64 (toInt64 (i.currentTimeGroup.completeTimeMs - i.prevTimeGroup.completeTimeMs)
      - toInt64 (i.currentTimeGroup.lastSystemTimeMs - i.prevTimeGroup.lastSystemTimeMs))
      < 3000)
    (hneg : toInt64 (i.currentTimeGroup.completeTimeMs - i.prevTimeGroup.completeTimeMs) < 0) :
    i.computeDeltas timestamp arrivalTimeMs nowMs payloadSize
      = (if toInt64 (i.numConsecutiveReorderedPacket + 1) ≥ 3 then i.reset
         else { i with numConsecutiveReorderedPacket :=
                  toInt64 (i.numConsecutiveReorderedPacket + 1) }, none) := by
  have hjn : ¬ (toInt64 (toInt64
      (i.currentTimeGroup.completeTimeMs - i.prevTimeGroup.completeTimeMs)
      - toInt64 (i.currentTimeGroup.lastSystemTimeMs - i.prevTimeGroup.lastSystemTimeMs))
      ≥ 3000) := by omega
  simp only [interArrival.computeDeltas, hf, Bool.false_eq_true, ↓reduceIte, ho,
    Bool.not_true, hn, ge_iff_le, hp, arrivalTimeOffsetThresholdMs, hjn, hneg,
    reorderedResetThreshold]
  split_ifs <;> rfl

/-- C28: a packet opens a new group after two complete groups. When the arrival delta of the
two groups exceeds their system-time delta by `3000` ms or more, `computeDeltas` returns nothing
and resets the grouping: both groups are new and the counter of reordered groups is `0`, and
the next two packets return nothing, whatever they are. When the arrival delta is negative
(and there is no such jump), nothing is returned and the groups stay; from a counter of `0`,
three packets in a row that open a new group return nothing and the third resets the
grouping. -/
theorem computeDeltas_reset (i : interArrival) (timestamp : Nat)
    (arrivalTimeMs nowMs payloadSize : Int)
    (hf : i.currentTimeGroup.firstPacket = false) (ho : i.packetInOrder timestamp = true)
    (hn : i.newTimestampGroup arrivalTimeMs timestamp = true)
    (hp : 0 ≤ i.prevTimeGroup.completeTimeMs) :
    (3000 ≤ toInt64 (toInt64
        (i.currentTimeGroup.completeTimeMs - i.prevTimeGroup.completeTimeMs)
        - toInt64 (i.currentTimeGroup.lastSystemTimeMs - i.prevTimeGroup.lastSystemTimeMs)) →
      i.computeDeltas timestamp arrivalTimeMs nowMs payloadSize = (i.reset, none) ∧
      i.reset.currentTimeGroup = newTimeGroup ∧ i.reset.prevTimeGroup = newTimeGroup ∧
      i.reset.numConsecutiveReorderedPacket = 0 ∧
      i.reset = newInterArrival i.timestampGroupLengthTicks i.timestampToMsCoeff
        i.burstGrouping ∧
      ∀ (ts1 : Nat) (a1 n1 s1 : Int) (ts2 : Nat) (a2 n2 s2 : Int),
        (i.reset.computeDeltas ts1 a1 n1 s1).2 = none ∧
        ((i.reset.computeDeltas ts1 a1 n1 s1).1.computeDeltas ts2 a2 n2 s2).2 = none) ∧
    (toInt64 (toInt64 (i.currentTimeGroup.completeTimeMs - i.prevTimeGroup.completeTimeMs)
        - toInt64 (i.currentTimeGroup.lastSystemTimeMs - i.prevTimeGroup.lastSystemTimeMs))
        < 3000 →
      toInt64 (i.currentTimeGroup.completeTimeMs - i.prevTimeGroup.completeTimeMs) < 0 →
      i.numConsecutiveReorderedPacket = 0 →
      ∀ (ts2 : Nat) (a2 n2 s2 : Int) (ts3 : Nat) (a3 n3 s3 : Int),
        i.packetInOrder ts2 = true → i.newTimestampGroup a2 ts2 = true →
        i.packetInOrder ts3 = true → i.newTimestampGroup a3 ts3 = true →
        i.computeDeltas timestamp arrivalTimeMs nowMs payloadSize
          = ({ i with numConsecutiveReorderedPacket := 1 }, none) ∧
        ({ i with numConsecutiveReorderedPacket := 1 } : interArrival).computeDeltas
            ts2 a2 n2 s2
          = ({ i with numConsecutiveReorderedPacket := 2 }, none) ∧
        ({ i with numConsecutiveReorderedPacket := 2 } : interArrival).computeDeltas
            ts3 a3 n3 s3
          = (i.reset, none)) := by
  refine ⟨?_, ?_⟩
  · intro hj
    refine ⟨?_, rfl, rfl, rfl, rfl, ?_⟩
    · simp only [interArrival.computeDeltas, hf, Bool.false_eq_true, ↓reduceIte, ho,
        Bool.not_true, hn, ge_iff_le, hp, arrivalTimeOffsetThresholdMs, hj]
    · intro ts1 a1 n1 s1 ts2 a2 n2 s2
      have h1 : i.reset.computeDeltas ts1 a1 n1 s1
          = (({ i.reset with currentTimeGroup :=
                { i.reset.currentTimeGroup with
                  timestamp := ts1
                  firstTimestamp := ts1
                  firstArrivalMs := a1 } } : interArrival).addToGroup a1 n1 s1, none) := rfl
      refine ⟨by rw [h1], ?_⟩
      rw [h1]
      apply computeDeltas_none_of_prev
      show (-1 : Int) < 0
      decide
  · intro hj hneg hc ts2 a2 n2 s2 ts3 a3 n3 s3 ho2 hn2 ho3 hn3
    have e1 : toInt64 (0 + 1) = 1 := by decide
    have e2 : toInt64 (1 + 1) = 2 := by decide
    have e3 : toInt64 (2 + 1) = 3 := by decide
    refine ⟨?_, ?_, ?_⟩
    · rw [computeDeltas_reordered i timestamp arrivalTimeMs nowMs payloadSize hf ho hn hp hj
        hneg, hc, e1]
      rfl
    · rw [computeDeltas_reordered ({ i with numConsecutiveReorderedPacket := 1 }) ts2 a2 n2 s2 hf
        ho2 hn2 hp hj hneg]
      show (if toInt64 (1 + 1) ≥ 3 then _ else _, none) = _
      rw [e2]
      rfl
    · rw [computeDeltas_reordered ({ i with numConsecutiveReorderedPacket := 2 }) ts3 a3 n3 s3 hf
        ho3 hn3 hp hj hneg]
      show (if toInt64 (2 + 1) ≥ 3 then _ else _, none) = _
      rw [e3]
      rfl

/-- Witness for C28: with arrival times `5000` ms apart and system times `6` ms apart the
packet that opens the third group resets the grouping; with a second group completed before
the first one, three packets that open a new group return nothing and the third resets the
grouping. -/
theorem computeDeltas_reset_witness :
    jumpGroups.computeDeltas 800000 5023 29 1 = (jumpGroups.reset, none) ∧
    (reorderedGroups.computeDeltas 800000 40 40 1
        = ({ reorderedGroups with numConsecutiveReorderedPacket := 1 }, none) ∧
      ({ reorderedGroups with numConsecutiveReorderedPacket := 1 } : interArrival).computeDeltas
          800001 41 41 1
        = ({ reorderedGroups with numConsecutiveReorderedPacket := 2 }, none) ∧
      ({ reorderedGroups with numConsecutiveReorderedPacket := 2 } : interArrival).computeDeltas
          800002 42 42 1
        = (reorderedGroups.reset, none)) :=
  ⟨((computeDeltas_reset jumpGroups 800000 5023 29 1
      (by set_option maxRecDepth 1000000 in decide)
      (by set_option maxRecDepth 1000000 in decide)
      (by set_option maxRecDepth 1000000 in decide)
      (by set_option maxRecDepth 1000000 in decide)).1
      (by set_option maxRecDepth 1000000 in decide)).1,
   (computeDeltas_reset reorderedGroups 800000 40 40 1
      (by set_option maxRecDepth 1000000 in decide)
      (by set_option maxRecDepth 1000000 in decide)
      (by set_option maxRecDepth 1000000 in decide)
      (by set_option maxRecDepth 1000000 in decide)).2
      (by set_option maxRecDepth 1000000 in decide)
      (by set_option maxRecDepth 1000000 in decide)
      (by set_option maxRecDepth 1000000 in decide)
      800001 41 41 1 800002 42 42 1
      (by set_option maxRecDepth 1000000 in decide)
      (by set_option maxRecDepth 1000000 in decide)
      (by set_option maxRecDepth 1000000 in decide)
      (by set_option maxRecDepth 1000000 in decide)⟩

end remb

namespace remb

/-! ## Probe clusters: the best probe -/

theorem probeCandidates_cons (c : Cluster) (rest : List Cluster) :
    probeCandidates (c :: rest)
      = if c.sendMean = 0 ∨ c.recvMean = 0 then probeCandidates rest
        else if c.valid then c :: probeCandidates rest else [] := by
  by_cases h0 : c.sendMean = 0 ∨ c.recvMean = 0
  · have hd : decide (c.sendMean = 0 ∨ c.recvMean = 0) = true := decide_eq_true h0
    rw [if_pos h0]
    simp only [probeCandidates, probePrefix, List.takeWhile_cons, List.filter_cons, hd,
      Bool.true_or, ↓reduceIte, Bool.not_true, Bool.false_eq_true]
  · have hd : decide (c.sendMean = 0 ∨ c.recvMean = 0) = false := decide_eq_false h0
    rw [if_neg h0]
    by_cases hv : c.valid = true
    · rw [if_pos hv]
      simp only [probeCandidates, probePrefix, List.takeWhile_cons, List.filter_cons, hd,
        Bool.false_or, hv, ↓reduceIte, Bool.not_false]
    · rw [if_neg hv]
      simp only [probeCandidates, probePrefix, List.takeWhile_cons, List.filter_cons, hd,
        Bool.false_or, hv, ↓reduceIte, Bool.not_false, List.filter_nil, Bool.false_eq_true]

/-- The loop of `findBestProbe` keeps the best cluster so far, or moves to a candidate with a
higher probe bitrate that no candidate exceeds. -/
theorem findBestLoop_spec (cs : List Cluster) :
    ∀ (highest : Int) (best : Option Cluster),
      (findBestLoop cs highest best = best ∧
        ∀ c ∈ probeCandidates cs, c.probeBitrate ≤ highest) ∨
      (∃ b, findBestLoop cs highest best = some b ∧ b ∈ probeCandidates cs ∧
        highest < b.probeBitrate ∧ ∀ c ∈ probeCandidates cs, c.probeBitrate ≤ b.probeBitrate) := by
  induction cs with
  | nil =>
    intro highest best
    left
    exact ⟨rfl, fun c hc => by cases hc⟩
  | cons c rest ih =>
    intro highest best
    rw [probeCandidates_cons]
    by_cases h0 : c.sendMean = 0 ∨ c.recvMean = 0
    · simp only [findBestLoop, h0, ↓reduceIte]
      exact ih highest best
    · by_cases hv : c.valid = true
      · by_cases hp : c.probeBitrate > highest
        · simp only [findBestLoop, h0, hv, hp, ↓reduceIte]
          right
          rcases ih c.probeBitrate (some c) with ⟨e, hle⟩ | ⟨b, e, hb, hlt, hle⟩
          · refine ⟨c, e, List.mem_cons_self _ _, hp, ?_⟩
            intro x hx
            rcases List.mem_cons.1 hx with h | h
            · rw [h]
            · exact hle x h
          · refine ⟨b, e, List.mem_cons_of_mem _ hb, by omega, ?_⟩
            intro x hx
            rcases List.mem_cons.1 hx with h | h
            · rw [h]; omega
            · exact hle x h
        · simp only [findBestLoop, h0, hv, hp, ↓reduceIte]
          rcases ih highest best with ⟨e, hle⟩ | ⟨b, e, hb, hlt, hle⟩
          · left
            refine ⟨e, ?_⟩
            intro x hx
            rcases List.mem_cons.1 hx with h | h
            · rw [h]; omega
            · exact hle x h
          · right
            refine ⟨b, e, List.mem_cons_of_mem _ hb, hlt, ?_⟩
            intro x hx
            rcases List.mem_cons.1 hx with h | h
            · rw [h]; omega
            · exact hle x h
      · simp only [findBestLoop, h0, hv, ↓reduceIte, Bool.false_eq_true]
        left
        exact ⟨trivial, fun x hx => by cases hx⟩

theorem probeBitrate_nonneg (c : Cluster) : 0 ≤ c.probeBitrate := by
  have h : ∀ x : Int, 0 ≤ toUint64 x := fun x => by simp only [toUint64]; omega
  simp only [Cluster.probeBitrate, Cluster.SendBitrate, Cluster.RecvBitrate, NewBitrate]
  split_ifs
  · exact h _
  · exact h _

/-- Counterexample for C29: the second cluster of the list is valid and has the probe bitrate
`800000`, the first one has non-zero means and fails the validity test; `findBestProbe` stops at
the first cluster and returns nothing. With the clusters in the other order it returns the
valid one. -/
theorem findBestProbe_stops_counterexample :
    goodCluster ∈ validClusters [slowCluster, goodCluster] ∧
    goodCluster.probeBitrate = 800000 ∧
    findBestProbe [slowCluster, goodCluster] = none ∧
    findBestProbe [goodCluster, slowCluster] = some goodCluster := by
  refine ⟨by decide, ?_, ?_, ?_⟩
  · set_option maxRecDepth 1000000 in decide
  · set_option maxRecDepth 1000000 in decide
  · set_option maxRecDepth 1000000 in decide

/-- C29 (amended): `findBestProbe` looks at the clusters before the first one that has non-zero
means and fails the validity test. The candidates are the clusters of this prefix with non-zero
means; all of them are valid. A returned cluster is a candidate with a positive probe bitrate
`min(send_bitrate, recv_bitrate)` that no candidate exceeds, and nothing is returned exactly
when every candidate has the probe bitrate `0`. -/
theorem findBestProbe_spec (clusters : List Cluster) :
    (∀ c ∈ probeCandidates clusters,
      c ∈ clusters ∧ c.sendMean ≠ 0 ∧ c.recvMean ≠ 0 ∧ c.valid = true) ∧
    (∀ b, findBestProbe clusters = some b →
      b ∈ probeCandidates clusters ∧ 0 < b.probeBitrate ∧
      ∀ c ∈ probeCandidates clusters, c.probeBitrate ≤ b.probeBitrate) ∧
    (findBestProbe clusters = none ↔ ∀ c ∈ probeCandidates clusters, c.probeBitrate = 0) := by
  refine ⟨?_, ?_, ?_⟩
  · intro c hc
    simp only [probeCandidates, probePrefix, List.mem_filter] at hc
    obtain ⟨hm, hz⟩ := hc
    have hmem := List.mem_takeWhile_imp hm
    have hin := (List.takeWhile_sublist _).subset hm
    simp only [Bool.not_eq_true', decide_eq_false_iff_not] at hz
    simp only [hz, decide_False, Bool.false_or] at hmem
    exact ⟨hin, fun h => hz (Or.inl h), fun h => hz (Or.inr h), hmem⟩
  · intro b hb
    rcases findBestLoop_spec clusters 0 none with ⟨e, _⟩ | ⟨b1, e, hmem, hlt, hle⟩
    · rw [findBestProbe] at hb
      rw [hb] at e
      cases e
    · rw [findBestProbe] at hb
      rw [hb] at e
      cases e
      exact ⟨hmem, hlt, hle⟩
  · constructor
    · intro hn c hc
      rcases findBestLoop_spec clusters 0 none with ⟨_, hle⟩ | ⟨b1, e, _, _, _⟩
      · have := hle c hc
        have := probeBitrate_nonneg c
        omega
      · rw [findBestProbe] at hn
        rw [hn] at e
        cases e
    · intro hall
      rcases findBestLoop_spec clusters 0 none with ⟨e, _⟩ | ⟨b1, _, hmem, hlt, _⟩
      · exact e
      · have := hall b1 hmem
        omega

/-- Witness for C29: a valid cluster ahead of an invalid one is returned. -/
theorem findBestProbe_spec_witness :
    findBestProbe [goodCluster, slowCluster] = some goodCluster ∧
    goodCluster ∈ probeCandidates [goodCluster, slowCluster] ∧ 0 < goodCluster.probeBitrate ∧
    ∀ c ∈ probeCandidates [goodCluster, slowCluster],
      c.probeBitrate ≤ goodCluster.probeBitrate :=
  ⟨by set_option maxRecDepth 1000000 in decide,
   (findBestProbe_spec [goodCluster, slowCluster]).2.1 goodCluster
     (by set_option maxRecDepth 1000000 in decide)⟩

end remb

namespace sdp

/-! ## Session descriptions: references to undeclared payload types and SSRCs -/

/-- C30: the four malformed texts of the test return an error, and a text whose `rtx` codec
names the declared payload type `96` is parsed, with `97` as the RTX payload type of `96`. A text whose `a=fmtp` line of an `rtx` codec names the
payload type `96`, which no `m=` line declares, passes the parser and then panics in
`updateCodec`, which writes through the nil pointer `d.Codecs[96]`; a text whose `FID` group
names an SSRC that no `a=ssrc` line declares panics in `updateSendStreams` in the same way. -/
theorem unmarshal_panics :
    Unmarshal aptUndeclared = Outcome.panic ∧
    Unmarshal fidUndeclared = Outcome.panic ∧
    (Unmarshal aptDeclared).bind (fun sd => Outcome.ok
      (sd.MediaDescription.map (fun m => m.Codecs.map (fun p => (p.1, p.2.RTX)))))
      = Outcome.ok [[(96, 97), (97, 0)]] ∧
    Unmarshal "".toList = Outcome.error SdpError.ErrEmptySDP ∧
    Unmarshal "a".toList = Outcome.error SdpError.ErrSDPParseFail ∧
    Unmarshal "b0".toList = Outcome.error SdpError.ErrSDPParseFail ∧
    Unmarshal "o=-\nm=".toList = Outcome.error SdpError.ErrSDPParseFail := by
  refine ⟨?_, ?_, ?_, ?_, ?_, ?_, ?_⟩
  · set_option maxRecDepth 1000000 in decide
  · set_option maxRecDepth 1000000 in decide
  · set_option maxRecDepth 1000000 in decide
  · set_option maxRecDepth 1000000 in decide
  · set_option maxRecDepth 1000000 in decide
  · set_option maxRecDepth 1000000 in decide
  · set_option maxRecDepth 1000000 in decide

end sdp

namespace nack

/-! ## NACK receiver: the timer tick and RTX packets -/

/-- C31: the packet `10` was requested `40` ms before the tick, less than the round-trip time
of `100` ms, so the tick does not select it; it has `1` retry of `10`. The tick sends nothing
and leaves the NACK list empty: the entry is dropped, where the list should keep it unchanged.
For every receiver the list after a tick is no longer than the number of selected entries. -/
theorem tick_drops_unselected :
    waitingReceiver.rtt = 100 ∧
    waitingReceiver.nackList.map (fun e => (e.seq, e.sentAtMs, e.retries)) = [(10, 1000, 1)] ∧
    waitingReceiver.nackList.map (waitingReceiver.selected true 1040) = [false] ∧
    waitingReceiver.getNackBatch true 1040 = ({ waitingReceiver with nackList := [] }, []) ∧
    (waitingReceiver.step (Event.tick 1040)).map (fun res => (res.1.nackList, res.2))
      = some ([], []) ∧
    (∀ (r : receiver) (nowMs : Int),
      (r.getNackBatch true nowMs).1.nackList.length
        ≤ (r.nackList.filter (r.selected true nowMs)).length) := by
  refine ⟨by decide, by decide, by decide, by decide, by decide, ?_⟩
  intro r nowMs
  simp only [receiver.getNackBatch]
  exact (List.length_filter_le _ _).trans (by rw [List.length_map])

/-- C32: the receiver is at the packet `19000` and holds the recovered numbers `20000`, `20001`
and `20002`. The RTX packet `20003` is ahead of `19000`, and none of the held numbers is older
than `20003 - 10000`; the loop over the recover list reslices the list at every index without
a stop, and at index `3` the list has one entry left: the step fails with a slice-bounds
panic. With the one number `20000` held, the RTX packet `20001` completes and drops `20000`
from the list; with no number held the step is as claimed. -/
theorem rtx_prune_fails :
    IsSeqLowerThan 20003 (recoveringReceiver [20000, 20001, 20002]).lastSeq = false ∧
    (∀ v ∈ [20000, 20001, 20002], v ≥ sub16 20003 maxPacketAge) ∧
    (recoveringReceiver [20000, 20001, 20002]).receive (incomingPacket 20003 false true) 0
      = none ∧
    (recoveringReceiver [20000, 20001, 20002]).step (Event.packet 20003 false true 0)
      = none ∧
    ((recoveringReceiver [20000]).receive (incomingPacket 20001 false true) 0).map
      (fun res => res.1.recoverList) = some [20001] ∧
    ((recoveringReceiver []).receive (incomingPacket 20001 false true) 0).map
      (fun res => (res.1.recoverList, res.1.lastSeq, res.1.nackList, res.2))
      = some ([20001], 19000, [], []) := by
  refine ⟨by decide, by decide, by decide, by decide, by decide, ?_⟩
  decide

end nack

namespace peer

/-! ## RTX stream: expected packets -/

/-- C39: an RTX stream and a media stream receive the two consecutive packets `65535` and `0`.
Both reach `cycles = 65536`, `base_seq = 65535`, `max_seq = 0`; the media stream expects
`cycles + max_seq - base_seq + 1 = 2` packets and the RTX stream `65538`, since it takes
`max_seq - base_seq` on `uint16` before it adds the cycles. For every state the two counts
agree when `base_seq <= max_seq` and differ by `65536` (on `uint32`) otherwise. -/
theorem rtx_expected_after_wrap :
    (wrappedRtxStream.cycles, wrappedRtxStream.baseSeq, wrappedRtxStream.maxSeq)
      = (65536, 65535, 0) ∧
    (wrappedStream.cycles, wrappedStream.baseSeq, wrappedStream.maxSeq) = (65536, 65535, 0) ∧
    wrappedStream.getExpectedPackets = 2 ∧
    wrappedRtxStream.GetExpectedPackets = 65538 ∧
    (∀ (r : RtxStream) (s : internalStream), r.maxSeq < 65536 → r.baseSeq < 65536 →
      s.cycles = r.cycles → s.baseSeq = r.baseSeq → s.maxSeq = r.maxSeq →
      (r.baseSeq ≤ r.maxSeq → r.GetExpectedPackets = s.getExpectedPackets) ∧
      (r.maxSeq < r.baseSeq →
        r.GetExpectedPackets = (add32 (s.getExpectedPackets).toNat 65536 : Nat))) := by
  refine ⟨by decide, by decide, by decide, by decide, ?_⟩
  intro r s h1 h2 hc hb hm
  simp only [RtxStream.GetExpectedPackets, internalStream.getExpectedPackets, hc, hb, hm,
    Int.toNat_ofNat, add32, sub32, sub16]
  generalize r.cycles = c at *
  generalize r.maxSeq = m at *
  generalize r.baseSeq = b at *
  have hb32 : b % 4294967296 = b := by omega
  have hb16 : b % 65536 = b := by omega
  rw [hb32, hb16]
  constructor
  · intro h
    have h16 : (m + (65536 - b)) % 65536 = m - b := by omega
    have hk : ((c + m) % 4294967296 + (4294967296 - b)) % 4294967296
        = (c + (m - b)) % 4294967296 := by omega
    rw [h16, hk]
  · intro h
    have h16 : (m + (65536 - b)) % 65536 = m + 65536 - b := by omega
    have hk : ((c + m) % 4294967296 + (4294967296 - b)) % 4294967296
        = (c + m + 4294967296 - b) % 4294967296 := by omega
    rw [h16, hk]
    have hx : (c + (m + 65536 - b)) % 4294967296
        = ((c + m + 4294967296 - b) % 4294967296 + 65536) % 4294967296 := by omega
    rw [hx]
    generalize (c + m + 4294967296 - b) % 4294967296 = y
    have hy : ((y + 65536) % 4294967296 + 1) % 4294967296
        = ((y + 1) % 4294967296 + 65536) % 4294967296 := by omega
    rw [hy]

end peer

namespace remb

/-! ## The send delta of the overuse detector -/

/-- C36: after a group at `17` ms and a group at `23` ms the packet that opens the third group
gives the delta `ts_delta = 400000` ticks of `2^-26` s, which is `floor(1000 * 400000 / 2^26)
= 5` ms; the detector gets `0`. For every `ts_delta` the value handed over is
`1000 * ts_delta * 2^26` cut to `uint32`, a multiple of `2^26`. -/
theorem detector_send_delta_shift :
    (twoGroups.computeDeltas 800000 29 29 1).2.map (fun d => d.tsDelta) = some 400000 ∧
    1000 * 400000 / 2 ^ 26 = 5 ∧
    twoGroups.detectorDelta 800000 29 29 1 = some 0 ∧
    (∀ tsDelta : Nat, tsDeltaMs tsDelta = (1000 * tsDelta * 2 ^ 26) % 4294967296 ∧
      tsDeltaMs tsDelta % 67108864 = 0) := by
  refine ⟨?_, by decide, ?_, ?_⟩
  · set_option maxRecDepth 1000000 in decide
  · set_option maxRecDepth 1000000 in decide
  · intro t
    have h : tsDeltaMs t = (1000 * t * 67108864) % 4294967296 := by
      simp only [tsDeltaMs, InterArrivalShift, Nat.div_one]
      omega
    exact ⟨h, by rw [h]; omega⟩

end remb

namespace peer

/-! ## Simulcast: the timestamp offset of a layer switch -/

theorem toInt64_modEq (x : Int) : toInt64 x ≡ x [ZMOD 18446744073709551616] := by
  have h : (x + 9223372036854775808) % 18446744073709551616 ≡ x + 9223372036854775808
      [ZMOD 18446744073709551616] := Int.mod_modEq _ _
  have := h.sub_right 9223372036854775808
  simpa only [toInt64, add_sub_cancel_right] using this

theorem toUint64_modEq (x : Int) : toUint64 x ≡ x [ZMOD 18446744073709551616] :=
  Int.mod_modEq _ _

theorem toUint32_congr (a b : Int) (h : a ≡ b [ZMOD 18446744073709551616]) :
    toUint32 a = toUint32 b := by
  have h2 : a ≡ b [ZMOD 4294967296] := by
    have h3 : a ≡ b [ZMOD 4294967296 * 4294967296] := by
      have e : (4294967296 * 4294967296 : Int) = 18446744073709551616 := by norm_num
      rw [e]
      exact h
    exact Int.ModEq.of_mul_left _ h3
  simp only [toUint32]
  rw [show a % 4294967296 = b % 4294967296 from h2]

/-- The offset that `calTimestampOffset` computes from the two sender reports, when there is
no extra-offset correction: the clock rate is divided by `1000` before it is multiplied with
the NTP difference. -/
theorem calTimestampOffset_first (s : SimulcastConsumer) (packet : rtpPacket) (layer : Int)
    (ts target : receiverStream)
    (hl : layer ≠ s.tsReferenceSpatialLayer) (hr : s.tsReferenceSpatialLayer ≠ -1)
    (ht : s.targetSpatialLayer ≠ -1)
    (h1 : streamAt s.sender.producerRTPStreams s.tsReferenceSpatialLayer = some ts)
    (h2 : streamAt s.sender.producerRTPStreams s.targetSpatialLayer = some target)
    (hn1 : ts.lastSenderReportNtpMs ≠ 0) (hn2 : target.lastSenderReportNtpMs ≠ 0) :
    s.calTimestampOffset packet layer false
      = some (s, [], toUint32 (target.lastSenderReportTS
          - ((target.lastSenderReportNtpMs : Int) - ts.lastSenderReportNtpMs)
            * Int.tdiv s.sender.rtpStream.codec.ClockRate 1000
          - ts.lastSenderReportTS), true) := by
  have key : toUint32 (toInt64 (toInt64 (target.lastSenderReportTS
        - toInt64 (toUint64 (toUint64
            ((target.lastSenderReportNtpMs : Int) - ts.lastSenderReportNtpMs)
          * toUint64 (Int.tdiv s.sender.rtpStream.codec.ClockRate 1000))))
        - ts.lastSenderReportTS))
      = toUint32 (target.lastSenderReportTS
          - ((target.lastSenderReportNtpMs : Int) - ts.lastSenderReportNtpMs)
            * Int.tdiv s.sender.rtpStream.codec.ClockRate 1000
          - ts.lastSenderReportTS) := by
    apply toUint32_congr
    refine (toInt64_modEq _).trans ?_
    refine Int.ModEq.sub ((toInt64_modEq _).trans ?_) (Int.ModEq.refl _)
    refine Int.ModEq.sub (Int.ModEq.refl _) ?_
    refine (toInt64_modEq _).trans ((toUint64_modEq _).trans ?_)
    exact Int.ModEq.mul (toUint64_modEq _) (toUint64_modEq _)
  simp only [SimulcastConsumer.calTimestampOffset, hl, hr, ht, h1, h2, hn1, hn2, ne_eq,
    not_false_eq_true, ↓reduceIte, Option.map_some', key, Bool.false_eq_true, false_and]

/-- C33: with the clock rate `44100`, sender reports `(1000, 0)` for the reference layer and
`(2000, 50000)` for the target layer, the claimed offset is
`(50000 - 1000 * 44100 / 1000) - 0 = 5900`; the consumer computes `6000`, since it divides the
clock rate by `1000` first (`44100 / 1000 = 44`). With the clock rate `90000` and the numbers of
the claim the offset is `0` and a packet with the timestamp `99010` leaves with `99010`; on the
reference layer the offset is `0`. -/
theorem simulcast_offset_clock :
    ((50000 - (2000 - 1000) * 44100 / 1000) - 0 : Int) % 4294967296 = 5900 ∧
    ((offsetConsumer 44100 1000 0 2000 50000).calTimestampOffset targetLayerPacket 1 true).map
      (fun res => (res.2.2.1, res.2.2.2)) = some (6000, true) ∧
    ((offsetConsumer 90000 1000 90000 1100 99000).calTimestampOffset targetLayerPacket 1
      true).map (fun res => (res.2.2.1, res.2.2.2)) = some (0, true) ∧
    ((offsetConsumer 90000 1000 90000 1100 99000).SendRTPPacket sampleRegistry sampleListener
      targetLayerPacket).map (fun res => (res.2.2.1.map (fun p => p.Timestamp), res.1.tsOffset))
      = some ([99010], 0) ∧
    ((offsetConsumer 44100 1000 0 2000 50000).calTimestampOffset targetLayerPacket 0 false).map
      (fun res => (res.2.2.1, res.2.2.2)) = some (0, true) := by
  refine ⟨by decide, by decide, by decide, by decide, by decide⟩

end peer

namespace codec

/-! ## Payload descriptors: reads within the payload -/

theorem stapLoop_total (data : List Nat) :
    ∀ (fuel offset : Nat), data.length ≤ offset + 2 + fuel →
      h264.stapLoop data fuel offset ≠ none := by
  intro fuel
  induction fuel with
  | zero =>
    intro offset h
    have hn : ¬ (offset + 3 ≤ data.length) := by omega
    simp only [h264.stapLoop, hn, ↓reduceIte, ne_eq, reduceCtorEq, not_false_eq_true]
  | succ fuel ih =>
    intro offset h
    by_cases hc : offset + 3 ≤ data.length
    · obtain ⟨a, ha⟩ : ∃ a, data.get? (offset + 2) = some a :=
        ⟨_, List.get?_eq_get (by omega)⟩
      obtain ⟨b, hb⟩ : ∃ b, data.get? offset = some b := ⟨_, List.get?_eq_get (by omega)⟩
      obtain ⟨c, hcc⟩ : ∃ c, data.get? (offset + 1) = some c :=
        ⟨_, List.get?_eq_get (by omega)⟩
      simp only [h264.stapLoop, hc, ↓reduceIte, ha, hb, hcc]
      split_ifs
      · simp only [ne_eq, reduceCtorEq, not_false_eq_true]
      · exact ih _ (by omega)
    · simp only [h264.stapLoop, hc, ↓reduceIte, ne_eq, reduceCtorEq, not_false_eq_true]

/-- C35: the VP8 payload `[0x80, 0x80]` sets the extension bit and the picture-ID bit, and the
parser reads the byte at index `2` of a payload of two bytes; the VP9 payload `[0x80]` sets the
picture-ID bit and the parser reads the byte at index `1` of a payload of one byte: both calls
panic. The H264 parser (its STAP-A scan ends within the fuel of one unit per byte) and the AV1
parser return a descriptor or nil for every payload. -/
theorem parsePayload_reads :
    vp8.parsePayload [128, 128] = none ∧
    vp9.parsePayload [128] = none ∧
    vp8.parsePayload [16, 0] = some (some true) ∧
    vp9.parsePayload [8] = some (some true) ∧
    (∀ data : List Nat, h264.parsePayload data ≠ none) ∧
    (∀ data : List Nat, av1.parsePayload data ≠ none) := by
  refine ⟨by decide, by decide, by decide, by decide, ?_, ?_⟩
  · intro data
    by_cases hlen : data.length < 2
    · simp only [h264.parsePayload, hlen, ↓reduceIte, ne_eq, reduceCtorEq, not_false_eq_true]
    · obtain ⟨b0, h0⟩ : ∃ b, data.get? 0 = some b := ⟨_, List.get?_eq_get (by omega)⟩
      obtain ⟨b1, h1⟩ : ∃ b, data.get? 1 = some b := ⟨_, List.get?_eq_get (by omega)⟩
      simp only [h264.parsePayload, hlen, ↓reduceIte, h0, h1]
      split_ifs
      · simp only [ne_eq, reduceCtorEq, not_false_eq_true]
      · have := stapLoop_total data data.length 1 (by omega)
        cases hs : h264.stapLoop data data.length 1 with
        | none => exact absurd hs this
        | some v => simp only [Option.map_some', ne_eq, reduceCtorEq, not_false_eq_true]
      · simp only [ne_eq, reduceCtorEq, not_false_eq_true]
      · simp only [ne_eq, reduceCtorEq, not_false_eq_true]
  · intro data
    by_cases hlen : data.length < 2
    · simp only [av1.parsePayload, hlen, ↓reduceIte, ne_eq, reduceCtorEq, not_false_eq_true]
    · obtain ⟨b0, h0⟩ : ∃ b, data.get? 0 = some b := ⟨_, List.get?_eq_get (by omega)⟩
      simp only [av1.parsePayload, hlen, ↓reduceIte, h0, ne_eq, reduceCtorEq,
        not_false_eq_true]

end codec

namespace peer

/-! ## Simple sender: retransmission on NACK -/

theorem updateSeq_keeps (s : internalStream) (packet : rtpPacket) :
    (s.updateSeq packet).1.useNack = s.useNack ∧
    (s.updateSeq packet).1.rtxStream = s.rtxStream := by
  by_cases h1 : sub16 packet.SequenceNumber s.maxSeq < MaxDropout
  · by_cases hlt : packet.SequenceNumber < s.maxSeq
    · simp only [internalStream.updateSeq, h1, hlt, if_true, and_self]
    · simp only [internalStream.updateSeq, h1, hlt, if_true, if_false, and_self]
  · by_cases h2 : sub16 packet.SequenceNumber s.maxSeq < sub32 RTPSeqMod MaxMisorder % 65536
    · simp only [internalStream.updateSeq, h1, h2, if_true, if_false, and_self]
    · simp only [internalStream.updateSeq, h1, h2, if_false, and_self]

theorem receivePacket_keeps (s : internalStream) (packet : rtpPacket) :
    (s.receivePacket packet).1.useNack = s.useNack ∧
    (s.receivePacket packet).1.rtxStream = s.rtxStream := by
  have h0 : ∀ s1 : internalStream, s1.useNack = s.useNack → s1.rtxStream = s.rtxStream →
      (match s1.updateSeq packet with
        | (s2, some err) => (s2, some err)
        | (s2, none) =>
          if packet.Timestamp > s2.maxPacketRTPTimestamp then
            ({ s2 with maxPacketRTPTimestamp := packet.Timestamp, maxPacketMs := packet.ms },
              none)
          else (s2, none)).1.useNack = s.useNack ∧
      (match s1.updateSeq packet with
        | (s2, some err) => (s2, some err)
        | (s2, none) =>
          if packet.Timestamp > s2.maxPacketRTPTimestamp then
            ({ s2 with maxPacketRTPTimestamp := packet.Timestamp, maxPacketMs := packet.ms },
              none)
          else (s2, none)).1.rtxStream = s.rtxStream := by
    intro s1 e1 e2
    have hk := updateSeq_keeps s1 packet
    rcases hu : s1.updateSeq packet with ⟨s2, e⟩
    rw [hu] at hk
    simp only at hk
    cases e with
    | some err => exact ⟨hk.1.trans e1, hk.2.trans e2⟩
    | none =>
      simp only
      split_ifs
      · exact ⟨hk.1.trans e1, hk.2.trans e2⟩
      · exact ⟨hk.1.trans e1, hk.2.trans e2⟩
  cases hs : s.started with
  | true =>
    simp only [internalStream.receivePacket, hs, Bool.not_true, Bool.false_eq_true, if_false]
    exact h0 s rfl rfl
  | false =>
    simp only [internalStream.receivePacket, hs, Bool.not_false, if_true]
    exact h0 _ rfl rfl

theorem buffer_get_put (b : nack.Buffer) (packet : rtpPacket) :
    (b.Put packet).Get packet.SequenceNumber = some packet := by
  simp [nack.Buffer.Put, nack.Buffer.Get]

theorem nackPair_single (seq : Nat) :
    nack.NackPair.seqs { PacketID := seq, LostPackets := 0 } = [seq] := by
  simp [nack.NackPair.seqs]

/-- The retransmission of a simple sender without RTX: the packet that the sender hands to the
egress on a NACK for a packet it has just forwarded is the packet as it came from the producer,
while the forwarded copy carried the outgoing SSRC and the payload type of the sender codec. -/
theorem retransmit_origin (reg : codec.Registry) (lis : ConsumerListener) (s : sender)
    (packet : rtpPacket) (hact : s.IsActive = true) (hsync : s.syncRequired = false)
    (hacc : (s.rtpStream.ReceivePacket packet).2 = none)
    (hnack : s.rtpStream.useNack = true) (hrtx : s.rtpStream.rtxStream = none) :
    ((s.SendRTPPacket reg lis packet).1.ReceiveNack
      [{ PacketID := packet.SequenceNumber, LostPackets := 0 }]).2 = [packet] := by
  have hk := receivePacket_keeps
    ({ s.rtpStream with stats := s.rtpStream.stats.outcomingRTP packet } :
      senderStream).tointernalStream packet
  rcases hrp : s.rtpStream.ReceivePacket packet with ⟨rs, e⟩
  rw [hrp] at hacc
  simp only at hacc
  subst hacc
  have hrs : rs.useNack = true ∧ rs.rtxStream = none ∧
      rs.nackSender.buffer.Get packet.SequenceNumber = some packet := by
    simp only [senderStream.ReceivePacket] at hrp
    rcases hip : internalStream.receivePacket
      ({ s.rtpStream with stats := s.rtpStream.stats.outcomingRTP packet } :
        senderStream).tointernalStream packet with ⟨s1, e1⟩
    rw [hip] at hrp hk
    simp only at hk
    cases e1 with
    | some err => simp only [Prod.mk.injEq, reduceCtorEq, and_false] at hrp
    | none =>
      have hu : s1.useNack = true := by rw [hk.1]; exact hnack
      have hx : s1.rtxStream = none := by rw [hk.2]; exact hrtx
      simp only [hu, ↓reduceIte, Prod.mk.injEq, and_true] at hrp
      subst hrp
      exact ⟨hu, hx, buffer_get_put _ _⟩
  obtain ⟨h1, h2, h3⟩ := hrs
  have hact2 : ({ s with rtpStream := rs, syncRequired := false } : sender).IsActive = true :=
    hact
  simp only [sender.SendRTPPacket, hact, hsync, Bool.not_true, Bool.false_eq_true, if_false,
    Bool.false_and, hrp, sender.ReceiveNack, hact2, senderStream.ReceiveNack, h1,
    nack.sender.OnNack, List.flatMap_cons, List.flatMap_nil, nackPair_single, List.append_nil,
    List.filterMap_cons, h3, List.filterMap_nil, senderStream.onRTPs, senderStream.onRTP, h2]

/-- C37: the sender has the outgoing SSRC `800000005` and the payload type `100`, NACK in use
and no RTX; the producer's packet `10` has the SSRC `1000` and the payload type `96`. The
forwarded copy carries `800000005` and `100`. On a NACK for `10` the sender hands the egress a
packet with the SSRC `1000` and the payload type `96`: the buffered packet of the producer,
not rewritten. -/
theorem retransmit_keeps_producer_ssrc :
    (nackSampleSender.stream.SSRC, nackSampleSender.codec.PayloadType) = (800000005, 100) ∧
    nackSampleSender.rtpStream.useNack = true ∧
    nackSampleSender.rtpStream.rtxStream = none ∧
    (nackSampleSender.SendRTPPacket sampleRegistry sampleListener (samplePacket 10 true)).2.2.map
      (fun p => (p.SSRC, p.PayloadType, p.SequenceNumber)) = [(800000005, 100, 10)] ∧
    ((nackSampleSender.SendRTPPacket sampleRegistry sampleListener
      (samplePacket 10 true)).1.ReceiveNack [{ PacketID := 10, LostPackets := 0 }]).2.map
      (fun p => (p.SSRC, p.PayloadType, p.SequenceNumber)) = [(1000, 96, 10)] := by
  refine ⟨by decide, by decide, by decide, by decide, by decide⟩

end peer

namespace peer

/-! ## RTP table: rejected producers -/

theorem addStream_error (r : rtpTable) (producer : tableProducer) (v : tableStream)
    (err : TableError) (h : (r.addStream producer v).2 = some err) :
    ∃ r1 : rtpTable, (r.addStream producer v).1 = r1.RemoveProducer producer.ptr := by
  simp only [rtpTable.addStream] at h ⊢
  split_ifs at h ⊢ <;> exact ⟨_, rfl⟩

theorem addStreams_error (producer : tableProducer) (l : List tableStream) :
    ∀ (r : rtpTable) (err : TableError), (rtpTable.addStreams producer r l).2 = some err →
      ∃ r1 : rtpTable, (rtpTable.addStreams producer r l).1 = r1.RemoveProducer producer.ptr := by
  induction l with
  | nil =>
    intro r err h
    simp only [rtpTable.addStreams, reduceCtorEq] at h
  | cons v rest ih =>
    intro r err h
    have hs := addStream_error r producer v
    simp only [rtpTable.addStreams] at h ⊢
    rcases hr : r.addStream producer v with ⟨r1, e⟩
    rw [hr] at h hs
    cases e with
    | some e1 => exact hs e1 rfl
    | none => exact ih r1 err h

/-- Whenever `AddProducer` returns an error, none of the three tables holds the rejected
receiver afterwards. -/
theorem addProducer_error_removes (r : rtpTable) (producer : tableProducer) (err : TableError)
    (h : (r.AddProducer producer).2 = some err) :
    (∀ kv ∈ (r.AddProducer producer).1.SsrcTable, kv.2 ≠ producer.ptr) ∧
    (∀ kv ∈ (r.AddProducer producer).1.MidTable, kv.2 ≠ producer.ptr) ∧
    (∀ kv ∈ (r.AddProducer producer).1.RidTable, kv.2 ≠ producer.ptr) := by
  have hex : ∃ r1 : rtpTable, (r.AddProducer producer).1 = r1.RemoveProducer producer.ptr := by
    have hs := addStreams_error producer producer.rtpStreamByEncodingIdx r
    unfold rtpTable.AddProducer at h ⊢
    rcases hr : rtpTable.addStreams producer r producer.rtpStreamByEncodingIdx with ⟨r1, e⟩
    rw [hr] at h hs
    cases e with
    | some e1 => exact hs e1 rfl
    | none =>
      simp only at h ⊢
      split_ifs at h ⊢
      exact ⟨_, rfl⟩
  obtain ⟨r1, h1⟩ := hex
  rw [h1]
  simp [rtpTable.RemoveProducer, List.mem_filter]

/-- C38: the receiver `8` with the MID `"0"` and one stream of the RID `"h"` is added to an
empty table without error; the table then answers `8` for the MID `"0"` and for the RID `"h"`.
Adding the receiver `5` with the same MID and the same RID returns `ErrMidExist`, and afterwards
the table has no entry for the RID `"h"`: the RID pass redirected the entry of the receiver `8`
to `5` (the MID is not empty, so no `ErrRidExist`), and the removal of `5` on the MID error
deleted it. The MID entry of `8` is still there. When the second stream of a receiver meets a
taken SSRC (`1000` in the sample table), the entry of the first stream is taken out again and
the three tables are what they were. -/
theorem addProducer_error_loses_rid :
    (rtpTable.newRTPTable.AddProducer (ridProducer 8)).2 = none ∧
    gmGet ridTable.MidTable [48] = some 8 ∧
    gmGet ridTable.RidTable [104] = some 8 ∧
    (ridTable.AddProducer (ridProducer 5)).2 = some TableError.ErrMidExist ∧
    gmGet (ridTable.AddProducer (ridProducer 5)).1.RidTable [104] = none ∧
    gmGet (ridTable.AddProducer (ridProducer 5)).1.MidTable [48] = some 8 ∧
    (ridTable.AddProducer (ridProducer 5)).1 ≠ ridTable ∧
    sampleTable.AddProducer (ssrcProducer 5) = (sampleTable, some TableError.ErrSsrcExist) := by
  decide

end peer

namespace remb

/-! ## Rate statistics: the window under any calls -/

theorem bucketSamples_cons (b : bucket) (bs : List bucket) :
    bucketSamples (b :: bs) = b.numSamples + bucketSamples bs := by
  simp only [bucketSamples, List.map_cons, List.sum_cons]

theorem bucketSamples_append (as bs : List bucket) :
    bucketSamples (as ++ bs) = bucketSamples as + bucketSamples bs := by
  simp only [bucketSamples, List.map_append, List.sum_append]

theorem bucketSamples_nonneg (bs : List bucket) (h : ∀ b ∈ bs, 0 ≤ b.numSamples) :
    0 ≤ bucketSamples bs := by
  induction bs with
  | nil => simp [bucketSamples]
  | cons b rest ih =>
    rw [bucketSamples_cons]
    have h1 := h b (List.mem_cons_self _ _)
    have h2 := ih (fun c hc => h c (List.mem_cons_of_mem _ hc))
    omega

/-- The loop of `eraseOld` on buckets whose sums are the count and the number of samples: it
keeps a suffix of the buckets, and the count and the number of samples it leaves are the sums
over that suffix. -/
theorem eraseLoop_suffix (t : Int) (bs : List bucket) :
    ∀ (acc n : Int), (∀ b ∈ bs, 0 ≤ b.sum ∧ 0 ≤ b.numSamples) →
      acc = bucketSum bs → n = bucketSamples bs →
      acc < 9223372036854775808 → n < 9223372036854775808 →
      (RateStatistics.eraseLoop t bs acc n).1 <:+ bs ∧
      (RateStatistics.eraseLoop t bs acc n).2.1
        = bucketSum (RateStatistics.eraseLoop t bs acc n).1 ∧
      (RateStatistics.eraseLoop t bs acc n).2.2
        = bucketSamples (RateStatistics.eraseLoop t bs acc n).1 ∧
      (RateStatistics.eraseLoop t bs acc n).2.1 ≤ acc ∧
      (RateStatistics.eraseLoop t bs acc n).2.2 ≤ n := by
  induction bs with
  | nil =>
    intro acc n _ hacc hn _ _
    simp [RateStatistics.eraseLoop, hacc, hn]
  | cons b rest ih =>
    intro acc n hs hacc hn hlt hnlt
    have hb := hs b (List.mem_cons_self _ _)
    have hrest : ∀ c ∈ rest, 0 ≤ c.sum ∧ 0 ≤ c.numSamples :=
      fun c hc => hs c (List.mem_cons_of_mem _ hc)
    have hnn := bucketSum_nonneg rest (fun c hc => (hrest c hc).1)
    have hmm := bucketSamples_nonneg rest (fun c hc => (hrest c hc).2)
    rw [bucketSum_cons] at hacc
    rw [bucketSamples_cons] at hn
    by_cases hold : b.timestamp < t
    · have e1 : toInt64 (acc - b.sum) = bucketSum rest := by
        simp only [toInt64]; omega
      have e2 : toInt64 (n - b.numSamples) = bucketSamples rest := by
        simp only [toInt64]; omega
      have h := ih (bucketSum rest) (bucketSamples rest) hrest rfl rfl (by omega) (by omega)
      simp only [RateStatistics.eraseLoop, hold, ↓reduceIte, e1, e2]
      refine ⟨h.1.trans (List.suffix_cons _ _), h.2.1, h.2.2.1, ?_, ?_⟩
      · have := h.2.2.2.1
        omega
      · have := h.2.2.2.2
        omega
    · simp only [RateStatistics.eraseLoop, hold, ↓reduceIte, bucketSum_cons, bucketSamples_cons]
      exact ⟨List.suffix_refl _, hacc, hn, le_refl _, le_refl _⟩

theorem sound_mono (r : RateStatistics) (k j : Int) (h : r.Sound k) (hkj : k ≤ j) :
    r.Sound j := by
  obtain ⟨h1, h2, h3, h4, h5, h6, h7⟩ := h
  exact ⟨h1, h2, h3, h4, h5, h6, le_trans h7 hkj⟩

theorem eraseOld_sound (r : RateStatistics) (k nowMs : Int) (h : r.Sound k)
    (hk : k < 9223372036854775808) : (r.eraseOld nowMs).Sound k := by
  obtain ⟨h1, h2, h3, h4, h5, h6, h7⟩ := h
  have hl := eraseLoop_suffix
    (toInt64 (toInt64 (nowMs - r.currentWindowSizeMs) + 1)) r.buckets r.accumulatedCount
    r.numSamples h2 h4 h5 (by omega) (by omega)
  simp only [RateStatistics.Sound, RateStatistics.eraseOld]
  refine ⟨h1, ?_, ?_, hl.2.1, hl.2.2.1, ?_, ?_⟩
  · intro b hb
    exact h2 b (hl.1.subset hb)
  · exact h3.sublist hl.1.sublist
  · have := hl.2.2.2.1
    omega
  · have := hl.2.2.2.2
    omega

theorem rate_state (r : RateStatistics) (nowMs : Int) : (r.Rate nowMs).1 = r.eraseOld nowMs := by
  simp only [RateStatistics.Rate]
  split_ifs <;> rfl

theorem reset_sound (r : RateStatistics) : r.Reset.Sound 0 := by
  simp [RateStatistics.Sound, RateStatistics.Reset, bucketSum, bucketSamples]

theorem update_test (r : RateStatistics) (payloadSize nowMs : Int)
    (h : (r.Update payloadSize nowMs).overflow = false) :
    toInt64 (9223372036854775807 - (r.eraseOld nowMs).accumulatedCount) > payloadSize := by
  by_contra hc
  have e1 : (r.eraseOld nowMs).firstTimestamp = r.firstTimestamp := rfl
  have : (r.Update payloadSize nowMs).overflow = true := by
    by_cases hf : r.firstTimestamp = -1 ∨ (r.eraseOld nowMs).numSamples = 0
    · simp only [RateStatistics.Update, e1, hf, ↓reduceIte, hc]
    · simp only [RateStatistics.Update, e1, hf, ↓reduceIte, hc]
  rw [this] at h
  exact Bool.noConfusion h

theorem update_numSamples (r : RateStatistics) (payloadSize nowMs : Int) :
    (r.Update payloadSize nowMs).numSamples = toInt64 ((r.eraseOld nowMs).numSamples + 1) := by
  have e1 : (r.eraseOld nowMs).firstTimestamp = r.firstTimestamp := rfl
  by_cases hf : r.firstTimestamp = -1 ∨ (r.eraseOld nowMs).numSamples = 0 <;>
    by_cases ht :
      toInt64 (9223372036854775807 - (r.eraseOld nowMs).accumulatedCount) > payloadSize <;>
    simp only [RateStatistics.Update, e1, hf, ht, ↓reduceIte]

theorem pairwise_concat_same (l : List bucket) (b c : bucket)
    (h : (l ++ [b]).Pairwise (fun x y => x.timestamp ≤ y.timestamp))
    (hc : c.timestamp = b.timestamp) :
    (l ++ [c]).Pairwise (fun x y => x.timestamp ≤ y.timestamp) := by
  rw [List.pairwise_append] at h ⊢
  refine ⟨h.1, List.pairwise_singleton _ _, ?_⟩
  intro x hx y hy
  rw [List.mem_singleton.1 hy, hc]
  exact h.2.2 x hx b (List.mem_singleton.2 rfl)

/-- The buckets after a sample of `size` is put into buckets in the order of their timestamps,
whatever the time `t` of the sample: the order is kept, and the sums grow by the size and by
one sample. -/
theorem update_buckets_any (size t : Int) (kept : List bucket)
    (hk : ∀ b ∈ kept, 0 ≤ b.sum ∧ 0 ≤ b.numSamples)
    (hp : kept.Pairwise (fun a b => a.timestamp ≤ b.timestamp))
    (hs0 : 0 ≤ size) (hlt : bucketSum kept + size < 9223372036854775808)
    (hnlt : bucketSamples kept + 1 < 9223372036854775808) :
    ∃ nb, RateStatistics.bumpLast size
          (match kept.getLast? with
           | none => kept ++ [newBucket t]
           | some lb =>
             if t ≠ lb.timestamp then
               kept ++ [newBucket (if t < lb.timestamp then lb.timestamp else t)]
             else kept) = nb ∧
      (∀ b ∈ nb, 0 ≤ b.sum ∧ 0 ≤ b.numSamples) ∧
      nb.Pairwise (fun a b => a.timestamp ≤ b.timestamp) ∧
      bucketSum nb = bucketSum kept + size ∧
      bucketSamples nb = bucketSamples kept + 1 := by
  have hk0 := bucketSum_nonneg kept (fun b h => (hk b h).1)
  have hm0 := bucketSamples_nonneg kept (fun b h => (hk b h).2)
  have grow : ∀ (l : List bucket) (lb : bucket),
      (∀ b ∈ l ++ [lb], 0 ≤ b.sum ∧ 0 ≤ b.numSamples) →
      (l ++ [lb]).Pairwise (fun a b => a.timestamp ≤ b.timestamp) →
      bucketSum (l ++ [lb]) = bucketSum kept → bucketSamples (l ++ [lb]) = bucketSamples kept →
      (∀ b ∈ l ++ [({ lb with sum := toInt64 (lb.sum + size)
                              numSamples := toInt64 (lb.numSamples + 1) } : bucket)],
          0 ≤ b.sum ∧ 0 ≤ b.numSamples) ∧
      (l ++ [({ lb with sum := toInt64 (lb.sum + size)
                        numSamples := toInt64 (lb.numSamples + 1) } : bucket)]).Pairwise
        (fun a b => a.timestamp ≤ b.timestamp) ∧
      bucketSum (l ++ [({ lb with sum := toInt64 (lb.sum + size)
                                  numSamples := toInt64 (lb.numSamples + 1) } : bucket)])
        = bucketSum kept + size ∧
      bucketSamples (l ++ [({ lb with sum := toInt64 (lb.sum + size)
                                      numSamples := toInt64 (lb.numSamples + 1) } : bucket)])
        = bucketSamples kept + 1 := by
    intro l lb hl hpl hsum hcnt
    have hlb := hl lb (by simp)
    have hl1 : ∀ b ∈ l, 0 ≤ b.sum ∧ 0 ≤ b.numSamples := fun b h => hl b (by simp [h])
    have hl0 := bucketSum_nonneg l (fun b h => (hl1 b h).1)
    have hl2 := bucketSamples_nonneg l (fun b h => (hl1 b h).2)
    have hz : bucketSum [] = 0 := rfl
    have hz2 : bucketSamples [] = 0 := rfl
    rw [bucketSum_append, bucketSum_cons, hz] at hsum
    rw [bucketSamples_append, bucketSamples_cons, hz2] at hcnt
    have z1 : toInt64 (lb.sum + size) = lb.sum + size := by simp only [toInt64]; omega
    have z2 : toInt64 (lb.numSamples + 1) = lb.numSamples + 1 := by simp only [toInt64]; omega
    rw [z1, z2]
    refine ⟨?_, pairwise_concat_same l lb _ hpl rfl, ?_, ?_⟩
    · intro b hb
      rcases List.mem_append.1 hb with h | h
      · exact hl1 b h
      · rw [List.mem_singleton.1 h]
        constructor
        · show 0 ≤ lb.sum + size
          omega
        · show 0 ≤ lb.numSamples + 1
          omega
    · rw [bucketSum_append, bucketSum_cons, hz]
      show bucketSum l + (lb.sum + size + 0) = bucketSum kept + size
      omega
    · rw [bucketSamples_append, bucketSamples_cons, hz2]
      show bucketSamples l + (lb.numSamples + 1 + 0) = bucketSamples kept + 1
      omega
  have fresh : ∀ ts : Int, (∀ b ∈ kept, b.timestamp ≤ ts) →
      (∀ b ∈ kept ++ [newBucket ts], 0 ≤ b.sum ∧ 0 ≤ b.numSamples) ∧
      (kept ++ [newBucket ts]).Pairwise (fun a b => a.timestamp ≤ b.timestamp) ∧
      bucketSum (kept ++ [newBucket ts]) = bucketSum kept ∧
      bucketSamples (kept ++ [newBucket ts]) = bucketSamples kept := by
    intro ts hts
    refine ⟨?_, ?_, ?_, ?_⟩
    · intro b hb
      rcases List.mem_append.1 hb with h | h
      · exact hk b h
      · rw [List.mem_singleton.1 h]
        exact ⟨le_refl _, le_refl _⟩
    · rw [List.pairwise_append]
      refine ⟨hp, List.pairwise_singleton _ _, ?_⟩
      intro a ha b hb
      rw [List.mem_singleton.1 hb]
      exact hts a ha
    · rw [bucketSum_append, bucketSum_cons]
      simp [bucketSum, newBucket]
    · rw [bucketSamples_append, bucketSamples_cons]
      simp [bucketSamples, newBucket]
  rcases List.eq_nil_or_concat kept with hnil | ⟨l, lb, hl⟩
  · refine ⟨_, rfl, ?_⟩
    have hf := fresh t (by rw [hnil]; intro b hb; exact absurd hb (List.not_mem_nil _))
    have := grow kept (newBucket t) hf.1 hf.2.1 hf.2.2.1 hf.2.2.2
    rw [hnil] at this ⊢
    simpa only [List.getLast?_nil, bumpLast_concat] using this
  · rw [List.concat_eq_append] at hl
    have hlast : kept.getLast? = some lb := by rw [hl, List.getLast?_concat]
    have hle : ∀ b ∈ kept, b.timestamp ≤ lb.timestamp := by
      intro b hb
      rw [hl] at hb hp
      rw [List.pairwise_append] at hp
      rcases List.mem_append.1 hb with h | h
      · exact hp.2.2 b h lb (List.mem_singleton.2 rfl)
      · rw [List.mem_singleton.1 h]
    rw [hlast]
    by_cases hne : t = lb.timestamp
    · refine ⟨_, rfl, ?_⟩
      simp only [hne, ne_eq, not_true_eq_false, ↓reduceIte]
      have := grow l lb (by rw [← hl]; exact hk) (by rw [← hl]; exact hp) (by rw [← hl])
        (by rw [← hl])
      rw [hl, bumpLast_concat]
      rw [hl] at this
      exact this
    · refine ⟨_, rfl, ?_⟩
      have hf := fresh (if t < lb.timestamp then lb.timestamp else t) (by
        intro b hb
        have := hle b hb
        split_ifs <;> omega)
      have := grow kept (newBucket (if t < lb.timestamp then lb.timestamp else t))
        hf.1 hf.2.1 hf.2.2.1 hf.2.2.2
      simpa only [hne, ne_eq, not_false_eq_true, ↓reduceIte, bumpLast_concat] using this

theorem update_sound (r : RateStatistics) (k payloadSize nowMs : Int) (h : r.Sound k)
    (hk : k + 1 < 9223372036854775808) (hs0 : 0 ≤ payloadSize)
    (hov : (r.Update payloadSize nowMs).overflow = false) :
    (r.Update payloadSize nowMs).Sound (k + 1) := by
  have ht := update_test r payloadSize nowMs hov
  have he := eraseOld_sound r k nowMs h (by omega)
  obtain ⟨h1, h2, h3, h4, h5, h6, h7⟩ := he
  have hf := update_fields r payloadSize nowMs ht
  have hn := update_numSamples r payloadSize nowMs
  have hk0 := bucketSum_nonneg _ (fun b hb => (h2 b hb).1)
  have hm0 := bucketSamples_nonneg _ (fun b hb => (h2 b hb).2)
  have hfit : (r.eraseOld nowMs).accumulatedCount + payloadSize < 9223372036854775807 := by
    have e : toInt64 (9223372036854775807 - (r.eraseOld nowMs).accumulatedCount)
        = 9223372036854775807 - (r.eraseOld nowMs).accumulatedCount := by
      simp only [toInt64]; omega
    rw [e] at ht
    omega
  obtain ⟨nb, hnb, b1, b2, b3, b4⟩ := update_buckets_any payloadSize nowMs
    (r.eraseOld nowMs).buckets h2 h3 hs0 (by omega) (by omega)
  have e1 : toInt64 ((r.eraseOld nowMs).accumulatedCount + payloadSize)
      = (r.eraseOld nowMs).accumulatedCount + payloadSize := by
    simp only [toInt64]; omega
  have e2 : toInt64 ((r.eraseOld nowMs).numSamples + 1) = (r.eraseOld nowMs).numSamples + 1 := by
    simp only [toInt64]; omega
  have hb : (r.Update payloadSize nowMs).buckets = nb := hf.2.2.2.2.2.trans hnb
  have ha : (r.Update payloadSize nowMs).accumulatedCount
      = (r.eraseOld nowMs).accumulatedCount + payloadSize := hf.2.2.2.2.1.trans e1
  have hc : (r.Update payloadSize nowMs).numSamples = (r.eraseOld nowMs).numSamples + 1 :=
    hn.trans e2
  refine ⟨hov, ?_, ?_, ?_, ?_, ?_, ?_⟩
  · rw [hb]; exact b1
  · rw [hb]; exact b2
  · rw [hb, ha, b3, h4]
  · rw [hb, hc, b4, h5]
  · rw [ha]; exact hfit
  · rw [hc]; omega

theorem calls_sound (calls : List rateCall) :
    ∀ (r : RateStatistics) (k : Int), r.Sound k → 0 ≤ k →
      k + calls.length < 9223372036854775808 → r.sizesFit calls = true →
      (r.calls calls).Sound (k + calls.length) := by
  induction calls with
  | nil =>
    intro r k h _ _ _
    simpa [RateStatistics.calls] using h
  | cons c rest ih =>
    intro r k h hk0 hlen hfit
    simp only [List.length_cons, Nat.cast_add, Nat.cast_one] at hlen ⊢
    simp only [RateStatistics.sizesFit, Bool.and_eq_true] at hfit
    have hstep : (r.call c).Sound (k + 1) := by
      cases c with
      | update payloadSize nowMs =>
        have hc := hfit.1
        simp only [Bool.and_eq_true, decide_eq_true_eq, Bool.not_eq_true_eq_eq_false,
          Bool.not_eq_eq_eq_not, Bool.not_true] at hc
        exact update_sound r k payloadSize nowMs h (by omega) hc.1 hc.2
      | rate nowMs =>
        show ((r.Rate nowMs).1).Sound (k + 1)
        rw [rate_state]
        exact sound_mono _ k _ (eraseOld_sound r k nowMs h (by omega)) (by omega)
      | reset =>
        exact sound_mono _ 0 _ (reset_sound r) (by omega)
    have := ih (r.call c) (k + 1) hstep (by omega) (by omega) hfit.2
    have e : k + 1 + (rest.length : Int) = k + ((rest.length : Int) + 1) := by omega
    rw [e] at this
    exact this

/-- C40: after any calls of `Update`, `Rate` and `Reset` on a new `RateStatistics` in which no
size addition overflows (the sizes are not negative, no `Update` sets the flag `overflow`, and
the calls are fewer than `2^63`, so that the sample count does not wrap), whatever the times of
the calls, the accumulated count is the sum of the sums of the buckets held, the sample count
is the sum of their sample counts, and the timestamps of the buckets do not decrease along the
list. -/
theorem rate_window_sums (windowSizeMs : Int) (scale : F64) (calls : List rateCall)
    (hfit : (NewRateStatistics windowSizeMs scale).sizesFit calls = true)
    (hlen : calls.length < 9223372036854775808) :
    ((NewRateStatistics windowSizeMs scale).calls calls).accumulatedCount
      = bucketSum ((NewRateStatistics windowSizeMs scale).calls calls).buckets ∧
    ((NewRateStatistics windowSizeMs scale).calls calls).numSamples
      = bucketSamples ((NewRateStatistics windowSizeMs scale).calls calls).buckets ∧
    ((NewRateStatistics windowSizeMs scale).calls calls).buckets.Pairwise
      (fun a b => a.timestamp ≤ b.timestamp) := by
  have h0 : (NewRateStatistics windowSizeMs scale).Sound 0 := reset_sound _
  have h := calls_sound calls (NewRateStatistics windowSizeMs scale) 0 h0 (le_refl _)
    (by omega) hfit
  exact ⟨h.2.2.2.1, h.2.2.2.2.1, h.2.2.1⟩

set_option maxRecDepth 1000000 in
theorem rate_window_sums_witness :
    (NewRateStatistics 1000 (F64.ofInt 8000)).sizesFit sampleCalls = true ∧
    (((NewRateStatistics 1000 (F64.ofInt 8000)).calls (sampleCalls.take 5)).buckets.map
      (fun b => (b.timestamp, b.sum, b.numSamples)) = [(0, 150, 2), (700, 20, 1), (700, 7, 1)]) ∧
    ((NewRateStatistics 1000 (F64.ofInt 8000)).calls sampleCalls).accumulatedCount
      = bucketSum ((NewRateStatistics 1000 (F64.ofInt 8000)).calls sampleCalls).buckets ∧
    ((NewRateStatistics 1000 (F64.ofInt 8000)).calls sampleCalls).numSamples
      = bucketSamples ((NewRateStatistics 1000 (F64.ofInt 8000)).calls sampleCalls).buckets ∧
    ((NewRateStatistics 1000 (F64.ofInt 8000)).calls sampleCalls).buckets.Pairwise
      (fun a b => a.timestamp ≤ b.timestamp) :=
  ⟨by decide, by decide,
    rate_window_sums 1000 (F64.ofInt 8000) sampleCalls (by decide) (by decide)⟩

end remb

namespace remb

/-! ## AIMD rate control: the state after `Update` -/

theorem increase_fields (c : AimdRateControl) (ml : MathLib) (estimatedThroughput now : Int) :
    (c.increase ml estimatedThroughput now).1.rateControlState = c.rateControlState ∧
    (c.increase ml estimatedThroughput now).1.bitrateIsInitialized = c.bitrateIsInitialized := by
  by_cases h : estimatedThroughput > c.linkCapacity.UpperBound ml
  · simp only [AimdRateControl.increase, h, ↓reduceIte, and_self]
  · simp only [AimdRateControl.increase, h, ↓reduceIte, and_self]

theorem decrease_fields (c : AimdRateControl) (ml : MathLib) (estimatedThroughput now : Int) :
    (c.decrease ml estimatedThroughput now).1.rateControlState = RcHold ∧
    (c.decrease ml estimatedThroughput now).1.bitrateIsInitialized = true :=
  ⟨rfl, rfl⟩

theorem setBitrate_fields (c : AimdRateControl) (newBitrate : Int) :
    (c.setBitrate newBitrate).rateControlState = c.rateControlState ∧
    (c.setBitrate newBitrate).bitrateIsInitialized = c.bitrateIsInitialized := by
  simp only [AimdRateControl.setBitrate]
  split_ifs <;> exact ⟨rfl, rfl⟩

theorem changeState_fields (c : AimdRateControl) (input : RateControllerInput) (now : Int) :
    (c.changeState input now).bitrateIsInitialized = c.bitrateIsInitialized ∧
    (c.changeState input now).rateControlState
      = (if input.State = Normal then
          (if c.rateControlState = RcHold then RcIncrease else c.rateControlState)
        else if input.State = Overusing then RcDecrease
        else if input.State = Underusing then RcHold
        else c.rateControlState) := by
  simp only [AimdRateControl.changeState]
  split_ifs <;> first
    | exact ⟨rfl, rfl⟩
    | (refine ⟨rfl, ?_⟩; simp only [ne_eq, not_not] at *; assumption)

/-- The state and the flag after the part of `changeBitrate` that follows `changeState`: a state
of `RcDecrease` ends in `RcHold` with the bitrate initialised, any other state is kept. -/
theorem changeBitrate_switch (c2 : AimdRateControl) (ml : MathLib)
    (estimatedThroughput now : Int) :
    ((if c2.rateControlState = RcHold then c2
      else
        AimdRateControl.setBitrate
          (if c2.rateControlState = RcIncrease then c2.increase ml estimatedThroughput now
            else if c2.rateControlState = RcDecrease then
              c2.decrease ml estimatedThroughput now
            else (c2, 0)).1
          (if c2.rateControlState = RcIncrease then c2.increase ml estimatedThroughput now
            else if c2.rateControlState = RcDecrease then
              c2.decrease ml estimatedThroughput now
            else (c2, 0)).2).rateControlState
        = (if c2.rateControlState = RcDecrease then RcHold else c2.rateControlState)) ∧
    ((if c2.rateControlState = RcHold then c2
      else
        AimdRateControl.setBitrate
          (if c2.rateControlState = RcIncrease then c2.increase ml estimatedThroughput now
            else if c2.rateControlState = RcDecrease then
              c2.decrease ml estimatedThroughput now
            else (c2, 0)).1
          (if c2.rateControlState = RcIncrease then c2.increase ml estimatedThroughput now
            else if c2.rateControlState = RcDecrease then
              c2.decrease ml estimatedThroughput now
            else (c2, 0)).2).bitrateIsInitialized
        = (if c2.rateControlState = RcDecrease then true else c2.bitrateIsInitialized)) := by
  have d01 : RcHold ≠ RcDecrease := by decide
  have d12 : RcIncrease ≠ RcDecrease := by decide
  by_cases h0 : c2.rateControlState = RcHold
  · have h2 : c2.rateControlState ≠ RcDecrease := by rw [h0]; exact d01
    simp only [if_pos h0, if_neg h2, and_self]
  · simp only [if_neg h0]
    by_cases h1 : c2.rateControlState = RcIncrease
    · have h2 : c2.rateControlState ≠ RcDecrease := by rw [h1]; exact d12
      have hi := increase_fields c2 ml estimatedThroughput now
      simp only [if_pos h1, if_neg h2, (setBitrate_fields _ _).1, (setBitrate_fields _ _).2]
      exact hi
    · simp only [if_neg h1]
      by_cases h2 : c2.rateControlState = RcDecrease
      · have hd := decrease_fields c2 ml estimatedThroughput now
        simp only [if_pos h2, (setBitrate_fields _ _).1, (setBitrate_fields _ _).2]
        exact hd
      · simp only [if_neg h2, (setBitrate_fields _ _).1, (setBitrate_fields _ _).2, and_self]

/-- The state and the flag after `changeBitrate`, from those before it and the input. -/
theorem changeBitrate_fields (c : AimdRateControl) (ml : MathLib) (input : RateControllerInput)
    (now : Int) :
    (c.changeBitrate ml input now).rateControlState
      = (if c.bitrateIsInitialized = false ∧ input.State ≠ Overusing then c.rateControlState
        else if (c.changeState input now).rateControlState = RcDecrease then RcHold
        else (c.changeState input now).rateControlState) ∧
    (c.changeBitrate ml input now).bitrateIsInitialized
      = (if c.bitrateIsInitialized = false ∧ input.State ≠ Overusing then c.bitrateIsInitialized
        else if (c.changeState input now).rateControlState = RcDecrease then true
        else c.bitrateIsInitialized) := by
  have key : ∀ (c1 : AimdRateControl) (est : Int),
      c1.rateControlState = c.rateControlState →
      c1.bitrateIsInitialized = c.bitrateIsInitialized →
      (if c1.bitrateIsInitialized = false ∧ input.State ≠ Overusing then c1
        else
          if (c1.changeState input now).rateControlState = RcHold then c1.changeState input now
          else
            AimdRateControl.setBitrate
              (if (c1.changeState input now).rateControlState = RcIncrease then
                  (c1.changeState input now).increase ml est now
                else if (c1.changeState input now).rateControlState = RcDecrease then
                  (c1.changeState input now).decrease ml est now
                else (c1.changeState input now, 0)).1
              (if (c1.changeState input now).rateControlState = RcIncrease then
                  (c1.changeState input now).increase ml est now
                else if (c1.changeState input now).rateControlState = RcDecrease then
                  (c1.changeState input now).decrease ml est now
                else (c1.changeState input now, 0)).2).rateControlState
        = (if c.bitrateIsInitialized = false ∧ input.State ≠ Overusing then c.rateControlState
          else if (c.changeState input now).rateControlState = RcDecrease then RcHold
          else (c.changeState input now).rateControlState) ∧
      (if c1.bitrateIsInitialized = false ∧ input.State ≠ Overusing then c1
        else
          if (c1.changeState input now).rateControlState = RcHold then c1.changeState input now
          else
            AimdRateControl.setBitrate
              (if (c1.changeState input now).rateControlState = RcIncrease then
                  (c1.changeState input now).increase ml est now
                else if (c1.changeState input now).rateControlState = RcDecrease then
                  (c1.changeState input now).decrease ml est now
                else (c1.changeState input now, 0)).1
              (if (c1.changeState input now).rateControlState = RcIncrease then
                  (c1.changeState input now).increase ml est now
                else if (c1.changeState input now).rateControlState = RcDecrease then
                  (c1.changeState input now).decrease ml est now
                else (c1.changeState input now, 0)).2).bitrateIsInitialized
        = (if c.bitrateIsInitialized = false ∧ input.State ≠ Overusing then
            c.bitrateIsInitialized
          else if (c.changeState input now).rateControlState = RcDecrease then true
          else c.bitrateIsInitialized) := by
    intro c1 est e1 e2
    have hs1 := (changeState_fields c1 input now).2
    have hs := (changeState_fields c input now).2
    have hi1 := (changeState_fields c1 input now).1
    rw [e1] at hs1
    have e3 : (c1.changeState input now).rateControlState
        = (c.changeState input now).rateControlState := hs1.trans hs.symm
    rw [e2]
    by_cases hg : c.bitrateIsInitialized = false ∧ input.State ≠ Overusing
    · simp only [if_pos hg]
      exact ⟨e1, e2⟩
    · simp only [if_neg hg]
      have hsw := changeBitrate_switch (c1.changeState input now) ml est now
      rw [e3, hi1, e2] at hsw
      rw [e3]
      exact hsw
  cases het : input.EstimatedThroughput with
  | none =>
    simp only [AimdRateControl.changeBitrate, het]
    exact key c c.latestEstimatedThroughput rfl rfl
  | some t =>
    simp only [AimdRateControl.changeBitrate, het]
    exact key { c with latestEstimatedThroughput := t } t rfl rfl

/-- The first part of `Update` keeps the state and can only set the flag; `changeBitrate` runs
on what it leaves. -/
theorem update_split (c : AimdRateControl) (ml : MathLib) (input : RateControllerInput)
    (now : Int) :
    ∃ c1 : AimdRateControl, c1.rateControlState = c.rateControlState ∧
      (c.bitrateIsInitialized = true → c1.bitrateIsInitialized = true) ∧
      (c.Update ml input now).1 = c1.changeBitrate ml input now := by
  refine ⟨_, ?_, ?_, rfl⟩
  · split_ifs <;> first
      | rfl
      | (split <;> rfl)
  · intro h
    simp only [h, Bool.true_eq_false, ↓reduceIte]

theorem settled_update (c : AimdRateControl) (ml : MathLib) (input : RateControllerInput)
    (now : Int) (hc : c.Settled) :
    ((c.Update ml input now).1).Settled ∧
    (input.State = Overusing → (c.Update ml input now).1.rateControlState = RcHold) ∧
    (input.State = Underusing → (c.Update ml input now).1.rateControlState = RcHold) ∧
    (input.State = Normal →
      ((c.Update ml input now).1.bitrateIsInitialized = true →
        (c.Update ml input now).1.rateControlState = RcIncrease) ∧
      ((c.Update ml input now).1.bitrateIsInitialized = false →
        (c.Update ml input now).1.rateControlState = RcHold)) := by
  obtain ⟨c1, e1, e2, e3⟩ := update_split c ml input now
  rw [e3]
  obtain ⟨hs, hinit⟩ := hc
  have hf := changeBitrate_fields c1 ml input now
  have hcs := (changeState_fields c1 input now).2
  rw [e1] at hcs
  have hinit1 : c1.bitrateIsInitialized = false → c.rateControlState = RcHold := by
    intro h
    cases hb : c.bitrateIsInitialized with
    | false => exact hinit hb
    | true =>
      rw [e2 hb] at h
      exact Bool.noConfusion h
  rw [hcs, e1] at hf
  obtain ⟨f1, f2⟩ := hf
  have d01 : RcHold ≠ RcDecrease := by decide
  have d12 : RcIncrease ≠ RcDecrease := by decide
  have d10 : RcIncrease ≠ RcHold := by decide
  have n1 : Normal ≠ Overusing := by decide
  have n2 : Normal ≠ Underusing := by decide
  have o0 : Overusing ≠ Normal := by decide
  have u0 : Underusing ≠ Normal := by decide
  have u1 : Underusing ≠ Overusing := by decide
  simp only [AimdRateControl.Settled]
  rw [f1, f2]
  have o2 : Overusing ≠ Underusing := by decide
  have d21 : RcDecrease ≠ RcIncrease := by decide
  cases hb : c1.bitrateIsInitialized with
  | false =>
    have h0 := hinit1 hb
    by_cases ho : input.State = Overusing
    · simp [ho, h0, d01, d12, d10, n1, n2, o0, u0, u1, o2, d21]
    · simp [ho, h0, d01, d12, d10, n1, n2, o0, u0, u1, o2, d21]
  | true =>
    by_cases hn : input.State = Normal
    · rcases hs with h | h
      · simp [hn, h, d01, d12, d10, n1, n2, o0, u0, u1, o2, d21]
      · simp [hn, h, d01, d12, d10, n1, n2, o0, u0, u1, o2, d21]
    · by_cases ho : input.State = Overusing
      · simp [ho, d01, d12, d10, n1, n2, o0, u0, u1, o2, d21]
      · by_cases hu : input.State = Underusing
        · simp [hu, d01, d12, d10, n1, n2, o0, u0, u1, o2, d21]
        · rcases hs with h | h
          · simp [hn, ho, hu, h, d01, d12, d10, n1, n2, o0, u0, u1, o2, d21]
          · simp [hn, ho, hu, h, d01, d12, d10, n1, n2, o0, u0, u1, o2, d21]

theorem settled_call (c : AimdRateControl) (ml : MathLib) (a : aimdCall) (hc : c.Settled) :
    (c.call ml a).Settled := by
  cases a with
  | update input now => exact (settled_update c ml input now hc).1
  | setEstimate bitrate now =>
    obtain ⟨hs, _⟩ := hc
    have e : (c.SetEstimate bitrate now).rateControlState = c.rateControlState := by
      simp only [AimdRateControl.SetEstimate]
      split_ifs <;> rfl
    have e2 : (c.SetEstimate bitrate now).bitrateIsInitialized = true := by
      simp only [AimdRateControl.SetEstimate]
      split_ifs <;> rfl
    refine ⟨?_, ?_⟩
    · show (c.SetEstimate bitrate now).rateControlState = RcHold ∨
        (c.SetEstimate bitrate now).rateControlState = RcIncrease
      rw [e]
      exact hs
    · intro h
      have h2 : (c.SetEstimate bitrate now).bitrateIsInitialized = false := h
      rw [e2] at h2
      exact Bool.noConfusion h2
  | setStartBitrate startBitrate =>
    obtain ⟨hs, _⟩ := hc
    exact ⟨hs, fun h => Bool.noConfusion h⟩

theorem settled_calls (ml : MathLib) (calls : List aimdCall) :
    ∀ c : AimdRateControl, c.Settled → (c.calls ml calls).Settled := by
  induction calls with
  | nil => intro c hc; exact hc
  | cons a rest ih => intro c hc; exact ih _ (settled_call c ml a hc)

theorem settled_new : NewAimdRateControl.Settled := ⟨Or.inl rfl, fun _ => rfl⟩

/-- C34, counterexample: a new rate control is in `RcHold` with the bitrate not initialised. An
`Update` with the input `Normal` and a throughput of `300000` at the time `0` leaves the state
`RcHold`, whatever `math.Pow` and `math.Sqrt` compute, and so does a second one at the time
`1000`: `changeBitrate` returns before `changeState` while the bitrate is not initialised and
the input is not `Overusing`. -/
theorem normal_input_keeps_hold_counterexample :
    NewAimdRateControl.rateControlState = RcHold ∧
    NewAimdRateControl.bitrateIsInitialized = false ∧
    (∀ ml : MathLib,
      (NewAimdRateControl.Update ml { State := Normal, EstimatedThroughput := some 300000 }
        0).1.rateControlState = RcHold) ∧
    (∀ ml : MathLib,
      ((NewAimdRateControl.Update ml { State := Normal, EstimatedThroughput := some 300000 }
        0).1.Update ml { State := Normal, EstimatedThroughput := some 300000 }
        1000).1.rateControlState = RcHold) :=
  ⟨rfl, rfl, fun _ => rfl, fun _ => rfl⟩

/-- C34, amended: after every call of `Update` on a rate control made by `NewAimdRateControl`,
whatever calls of `Update`, `SetEstimate` and `SetStartBitrate` came before and whatever the
input, the state is `RcHold` or `RcIncrease` and never `RcDecrease`. An `Overusing` input moves
the state to `RcDecrease` in `changeState` and the decrease step leaves it in `RcHold`; an
`Underusing` input leaves it in `RcHold`; a `Normal` input leaves it in `RcIncrease` when the
bitrate is initialised at the end of the call and in `RcHold` when it is not. -/
theorem update_state_hold_or_increase (ml : MathLib) (calls : List aimdCall)
    (input : RateControllerInput) (now : Int) :
    (((NewAimdRateControl.calls ml calls).Update ml input now).1.rateControlState = RcHold ∨
      ((NewAimdRateControl.calls ml calls).Update ml input now).1.rateControlState
        = RcIncrease) ∧
    ((NewAimdRateControl.calls ml calls).Update ml input now).1.rateControlState ≠ RcDecrease ∧
    (input.State = Overusing →
      ((NewAimdRateControl.calls ml calls).changeState input now).rateControlState
        = RcDecrease ∧
      ((NewAimdRateControl.calls ml calls).Update ml input now).1.rateControlState = RcHold) ∧
    (input.State = Underusing →
      ((NewAimdRateControl.calls ml calls).Update ml input now).1.rateControlState = RcHold) ∧
    (input.State = Normal →
      (((NewAimdRateControl.calls ml calls).Update ml input now).1.bitrateIsInitialized = true →
        ((NewAimdRateControl.calls ml calls).Update ml input now).1.rateControlState
          = RcIncrease) ∧
      (((NewAimdRateControl.calls ml calls).Update ml input now).1.bitrateIsInitialized = false →
        ((NewAimdRateControl.calls ml calls).Update ml input now).1.rateControlState
          = RcHold)) := by
  have hc := settled_calls ml calls NewAimdRateControl settled_new
  have h := settled_update (NewAimdRateControl.calls ml calls) ml input now hc
  have o0 : Overusing ≠ Normal := by decide
  refine ⟨h.1.1, ?_, ?_, h.2.2.1, h.2.2.2⟩
  · rcases h.1.1 with e | e <;> rw [e] <;> decide
  · intro ho
    refine ⟨?_, h.2.1 ho⟩
    rw [(changeState_fields _ input now).2]
    simp only [ho, o0, ↓reduceIte]

end remb

namespace peer

/-- C3 (failing input): the sample sender is connected, forwards the key frame `100` and the
packet `101`, and is connected again, which sets `sync_required` on an active sender whose
codec can carry key frames. The packet `102`, not a key frame, is dropped and leaves the sender
as it is. The key frame `5000` clears `sync_required`, and the sender stream then rejects it
for its sequence number (`ErrBadSeq`), so it does not reach the egress. The packet `103`, not a
key frame, is forwarded: the first packet on the egress after `sync_required` was set is not a
key frame. -/
theorem sync_cleared_by_rejected_key_frame :
    reconnectedSender.IsActive = true ∧ reconnectedSender.syncRequired = true ∧
    codec.CanBeKeyFrame sampleRegistry reconnectedSender.codec.EncoderName = true ∧
    (reconnectedSender.rtpStream.started, reconnectedSender.rtpStream.maxSeq) = (true, 101) ∧
    reconnectedSender.SendRTPPacket sampleRegistry sampleListener (samplePacket 102 false)
      = (reconnectedSender, samplePacket 102 false, []) ∧
    (reconnectedSender.rtpStream.ReceivePacket (samplePacket 5000 true)).2
      = some PeerError.ErrBadSeq ∧
    (reconnectedSender.SendRTPPacket sampleRegistry sampleListener
      (samplePacket 5000 true)).2.2 = [] ∧
    (reconnectedSender.SendRTPPacket sampleRegistry sampleListener
      (samplePacket 5000 true)).1.syncRequired = false ∧
    (reconnectedSender.SendRTPPackets sampleRegistry sampleListener
      [samplePacket 102 false, samplePacket 5000 true, samplePacket 103 false]).2.map
      (fun p => (p.SequenceNumber, p.IsKeyFrame)) = [(103, false)] := by
  refine ⟨by decide, by decide, by decide, by decide, by decide, by decide, by decide,
    by decide, by decide⟩

end peer

namespace peer

end peer

end Sfu
